import Mathlib

/-! # uKernel: a shallow embedding of the scheduler, wait/timeout core and buffers

The development follows the C sources file by file.  Machine state that the C code keeps in
global variables and in caller supplied control blocks is gathered in one record that every
operation takes and returns.

Intrusive queues (`CDLL_QUEUE`) are represented by the sequence of the entries linked into
them, head first.  The queue primitives themselves (`queue.c`) are not part of the sources;
they are modelled from the description of the intrusive queue in the specification.
-/

namespace UKernel

/-! ## Data model -/

/-- Result codes returned by the kernel services (`osError_t` of `ukernel.h`). -/
inductive osError_t
  | TERR_NO_ERR
  | TERR_OVERFLOW
  | TERR_WCONTEXT
  | TERR_WSTATE
  | TERR_TIMEOUT
  | TERR_WRONG_PARAM
  | TERR_UNDERFLOW
  | TERR_OUT_OF_MEM
  | TERR_ILUSE
  | TERR_NOEXS
  | TERR_DLT
  | TERR_ISR
  | TERR_TRUE
  deriving DecidableEq, Repr

/-- Reasons for which a task waits (`wait_reason_t`). -/
inductive wait_reason_t
  | WAIT_REASON_NO
  | WAIT_REASON_SLEEP
  | WAIT_REASON_SEM
  | WAIT_REASON_EVENT
  | WAIT_REASON_DQUE_WSEND
  | WAIT_REASON_DQUE_WRECEIVE
  | WAIT_REASON_MUTEX_C
  | WAIT_REASON_MUTEX_I
  | WAIT_REASON_MBF_WSEND
  | WAIT_REASON_MBF_WRECEIVE
  | WAIT_REASON_WFIXMEM
  deriving DecidableEq, Repr

/-- Address of a queue head (the sentinel of a `CDLL_QUEUE`): either
`&knlInfo.ready_list[priority]` or the wait queue embedded in a kernel object. -/
inductive QueueRef
  | ready (priority : Nat)
  | wait (obj : Nat)
  deriving DecidableEq, Repr

/-- Pointer to a task control block.  Besides pointers to real control blocks the code can
form `NULL` and, by `get_task_by_tsk_queue(que->next)` on an empty queue, the record that would
contain the queue head itself. -/
inductive TcbRef
  | null
  | task (id : Nat)
  | container (que : QueueRef)
  deriving DecidableEq, Repr

/-- Task state flags.  Modelled from the spec: the constants are declared in `ukernel.h`,
which is not part of the sources; the code uses them as distinct single-bit flags. -/
def TSK_STATE_RUNNABLE : Nat := 0x01
/-- Task state flag: the task waits. -/
def TSK_STATE_WAIT : Nat := 0x04
/-- Task state flag: the task is suspended. -/
def TSK_STATE_SUSPEND : Nat := 0x08
/-- Task state: the task is dormant. -/
def TSK_STATE_DORMANT : Nat := 0x10

/-- Timer callbacks that the kernel installs (`CBACK`), or a user supplied one. -/
inductive CBACK
  | null
  | task_wait_release_handler
  | alarm_handler
  | cyclic_handler
  | user (fn : Nat)
  | ThreadWaitExit_Handler
  deriving DecidableEq, Repr

/-- Address of a timer event (`TMEB`): the wait timer embedded in a control block, or the
event embedded in an alarm or cyclic handler object. -/
inductive TmebRef
  | wait_timer (task : TcbRef)
  | object (obj : Nat)
  deriving DecidableEq, Repr

/-- Argument handed to a timer callback: a task or another kernel object. -/
inductive CbArg
  | task (t : TcbRef)
  | object (obj : Nat)
  deriving DecidableEq, Repr

/-- Timer event block: expiry time, callback and callback argument. -/
structure TMEB where
  time : Nat := 0
  callback : CBACK := CBACK.null
  arg : CbArg := CbArg.object 0
  deriving DecidableEq, Repr

/-- Task control block (the fields the kernel routines read or write). -/
structure TN_TCB where
  priority : Nat := 0
  base_priority : Nat := 0
  state : Nat := 0
  wait_reason : wait_reason_t := wait_reason_t.WAIT_REASON_NO
  pwait_queue : Option QueueRef := none
  wait_rc : Option Nat := none
  tslice_count : Nat := 0
  id : Nat := 0
  rmbf_msg : Nat := 0
  smbf_msg : Nat := 0
  smbf_send_to_first : Bool := false
  fmem_data_elem : Nat := 0
  mutex_queue : List Nat := []
  time : Nat := 0
  deriving DecidableEq, Repr

/-- The kernel singleton `knlInfo` together with the memory the kernel reaches through
pointers: control blocks, queue contents, timer events, mutex holders, the result cells that
`wait_rc` points to and the message memory of the callers.

Memory is total: a read through `NULL` or through a pointer that is no control block yields
whatever the state holds at that reference.  A mutex is named by the address of its wait
queue (`get_mutex_by_wait_queque` recovers the mutex from that address), `none` being the
`NULL` mutex; `holder` gives the `holder` field of each. -/
structure KState where
  curr : TcbRef := TcbRef.null
  next : TcbRef := TcbRef.null
  switch_req : Bool := false
  jiffies : Nat := 0
  ready_to_run_bmp : Nat := 0
  queues : QueueRef → List TcbRef := fun _ => []
  tcb : TcbRef → TN_TCB := fun _ => {}
  timer_queue : List TmebRef := []
  tmeb : TmebRef → TMEB := fun _ => {}
  holder : Option QueueRef → TcbRef := fun _ => TcbRef.null
  rc_mem : Nat → osError_t := fun _ => osError_t.TERR_NO_ERR
  ram : Nat → Nat := fun _ => 0

/-! ## Intrusive queue -/

/-- Modelled from the spec: `isQueueEmpty` of `queue.c` (absent): is-empty of the intrusive
queue. -/
def isQueueEmpty (que : QueueRef) (qs : QueueRef → List TcbRef) : Bool :=
  (qs que).isEmpty

/-- Modelled from the spec: `QueueAddTail` of `queue.c` (absent): add-tail of the intrusive
queue. -/
def QueueAddTail (que : QueueRef) (entry : TcbRef) (qs : QueueRef → List TcbRef) :
    QueueRef → List TcbRef :=
  Function.update qs que (qs que ++ [entry])

/-- Modelled from the spec: `QueueAddHead` of `queue.c` (absent): add-head of the intrusive
queue. -/
def QueueAddHead (que : QueueRef) (entry : TcbRef) (qs : QueueRef → List TcbRef) :
    QueueRef → List TcbRef :=
  Function.update qs que (entry :: qs que)

/-- Modelled from the spec: `QueueRemoveEntry` of `queue.c` (absent): remove-arbitrary-entry,
which needs no reference to the head: the entry leaves the queue it is linked into, and an
entry that is linked nowhere stays so. -/
def QueueRemoveEntry (entry : TcbRef) (qs : QueueRef → List TcbRef) :
    QueueRef → List TcbRef :=
  fun q => (qs q).erase entry

/-- Modelled from the spec: `QueueRemoveHead` of `queue.c` (absent): remove-head of the
intrusive queue; the removed entry is returned (`NULL` for an empty queue). -/
def QueueRemoveHead (que : QueueRef) (qs : QueueRef → List TcbRef) :
    Option TcbRef × (QueueRef → List TcbRef) :=
  ((qs que).head?, Function.update qs que (qs que).tail)

/-- The macro `get_task_by_tsk_queue(que->next)` of `knl_lib.h` applied to the first link of
queue `que`: the first task, or the record around the queue head when the queue is empty. -/
def get_task_by_tsk_queue (que : QueueRef) (qs : QueueRef → List TcbRef) : TcbRef :=
  match qs que with
  | t :: _ => t
  | [] => TcbRef.container que

/-- Modelled from the spec: `QueueReset` of `queue.c` (absent): the queue head is linked to
itself, so the queue is empty. -/
def QueueReset (que : QueueRef) (qs : QueueRef → List TcbRef) : QueueRef → List TcbRef :=
  Function.update qs que []

/-! ## 32-bit helpers -/

/-- The value `1 << priority` as a 32-bit word. -/
def bit32 (priority : Nat) : Nat := (1 <<< priority) % 2 ^ 32

/-- Bitwise complement of a 32-bit word. -/
def not32 (x : Nat) : Nat := (2 ^ 32 - 1) ^^^ (x % 2 ^ 32)

/-! ## task.c: scheduler core -/

/-- `TaskGetCurrent` of `task.c`. -/
def TaskGetCurrent (s : KState) : TcbRef := s.curr

/-- `TaskGetNext` of `task.c`. -/
def TaskGetNext (s : KState) : TcbRef := s.next

/-- `TaskSetNext` of `task.c`: nothing happens when the task already is the next or the
current one; otherwise it becomes the next one and a context switch is requested. -/
def TaskSetNext (task : TcbRef) (s : KState) : KState :=
  if task = TaskGetNext s ∨ task = TaskGetCurrent s then s
  else { s with next := task, switch_req := true }

/-- The search loop of `ThreadDispatch` (`task.c`, the branch without `USE_ASM_FFS`): the
lowest `i < 32` whose bit is set in the bitmap, and `0` when there is none. -/
def ffs_priority (run_bmp : Nat) : Nat :=
  ((List.range 32).find? (fun i => run_bmp &&& (1 <<< i) != 0)).getD 0

/-- `ThreadDispatch` of `task.c`. -/
def ThreadDispatch (s : KState) : KState :=
  let priority := ffs_priority s.ready_to_run_bmp
  TaskSetNext (get_task_by_tsk_queue (QueueRef.ready priority) s.queues) s

/-- `ThreadSetReady` of `task.c`: adds the task to the end of the ready queue of its
priority and sets the bit of that priority. -/
def ThreadSetReady (thread : TcbRef) (s : KState) : KState :=
  let priority := (s.tcb thread).priority
  { s with
    queues := QueueAddTail (QueueRef.ready priority) thread s.queues
    ready_to_run_bmp := (s.ready_to_run_bmp ||| bit32 priority) % 2 ^ 32 }

/-- `TaskToRunnable` of `task.c`. -/
def TaskToRunnable (task : TcbRef) (s : KState) : KState :=
  let t := s.tcb task
  let t1 : TN_TCB := { t with state := TSK_STATE_RUNNABLE, pwait_queue := none }
  let s1 : KState := { s with tcb := Function.update s.tcb task t1 }
  let s2 := ThreadSetReady task s1
  if (s2.tcb task).priority < (s2.tcb (TaskGetNext s2)).priority then TaskSetNext task s2
  else s2

/-- `TaskToNonRunnable` of `task.c`. -/
def TaskToNonRunnable (task : TcbRef) (s : KState) : KState :=
  let priority := (s.tcb task).priority
  let que := QueueRef.ready priority
  let s1 : KState := { s with queues := QueueRemoveEntry task s.queues }
  if isQueueEmpty que s1.queues then
    ThreadDispatch { s1 with ready_to_run_bmp := s1.ready_to_run_bmp &&& not32 (bit32 priority) }
  else if task = TaskGetNext s1 then
    TaskSetNext (get_task_by_tsk_queue que s1.queues) s1
  else s1

/-- `ThreadChangePriority` of `task.c`. -/
def ThreadChangePriority (task : TcbRef) (new_priority : Nat) (s : KState) : KState :=
  let old_priority := (s.tcb task).priority
  let s1 : KState := { s with queues := QueueRemoveEntry task s.queues }
  let s2 : KState :=
    if isQueueEmpty (QueueRef.ready old_priority) s1.queues then
      { s1 with ready_to_run_bmp := s1.ready_to_run_bmp &&& not32 (bit32 old_priority) }
    else s1
  let t := s2.tcb task
  let t1 : TN_TCB := { t with priority := new_priority }
  let s3 : KState := { s2 with tcb := Function.update s2.tcb task t1 }
  ThreadDispatch (ThreadSetReady task s3)

/-! ## Timer queue -/

/-- The value `TN_POLLING` of a timeout: do not wait.  Modelled from the spec: the constant
is declared in `ukernel.h` (absent); the spec calls it the zero timeout. -/
def TN_POLLING : Nat := 0

/-- The value `TN_WAIT_INFINITE` of a timeout: wait without deadline.  Modelled from the
spec: the constant is declared in `ukernel.h` (absent); the largest 32-bit value. -/
def TN_WAIT_INFINITE : Nat := 0xFFFFFFFF

/-- Modelled from the spec: the macro `tn_time_before(a, b)` (header absent): `a` is before
`b` in the wrap-around order of the 32-bit tick counter, i.e. the signed 32-bit difference
`a - b` is negative. -/
def tn_time_before (a b : Nat) : Bool :=
  decide (2 ^ 31 ≤ (a % 2 ^ 32 + 2 ^ 32 - b % 2 ^ 32) % 2 ^ 32)

/-- Modelled from the spec: the macro `tn_time_after(a, b)` (header absent): `b` is before
`a`. -/
def tn_time_after (a b : Nat) : Bool := tn_time_before b a

/-- The walk of `do_timer_insert` (`tn_timer.c`): the event is linked in front of the first
queued event whose time is after its own, or at the end of the queue. -/
def do_timer_insert_walk (tmeb : TmebRef → TMEB) (event : TmebRef) :
    List TmebRef → List TmebRef
  | [] => [event]
  | tm :: rest =>
    if tn_time_before (tmeb event).time (tmeb tm).time then event :: tm :: rest
    else tm :: do_timer_insert_walk tmeb event rest

/-- `do_timer_insert` of `tn_timer.c`. -/
def do_timer_insert (event : TmebRef) (s : KState) : KState :=
  { s with timer_queue := do_timer_insert_walk s.tmeb event s.timer_queue }

/-- Modelled from the spec: `TimerInsert` of the timer module used by `task.c` (declared in
`knl_lib.h`, definition absent): the event gets the callback, the argument and the expiry
`time`, and is inserted into the timer queue, which is ordered by ascending expiry. -/
def TimerInsert (event : TmebRef) (time : Nat) (callback : CBACK) (arg : CbArg)
    (s : KState) : KState :=
  let e : TMEB := { time := time % 2 ^ 32, callback := callback, arg := arg }
  do_timer_insert event { s with tmeb := Function.update s.tmeb event e }

/-- Modelled from the spec: `TimerDelete` of the timer module used by `task.c` (declared in
`knl_lib.h`, definition absent): the event leaves the timer queue; as in `timer_delete` of
`tn_timer.c` this is `queue_remove_entry` on the link of the event. -/
def TimerDelete (event : TmebRef) (s : KState) : KState :=
  { s with timer_queue := s.timer_queue.erase event }

/-! ## task.c: wait and release -/

/-- The macro `get_mutex_by_wait_queque` of `knl_lib.h`: the mutex around a wait queue head,
`NULL` for `NULL`. -/
def get_mutex_by_wait_queque (que : Option QueueRef) : Option QueueRef := que

/-- Modelled from the spec: `find_max_blocked_priority` (mutex module, absent): the most
urgent (numerically lowest) of `ref_priority` and the priorities of the tasks in the wait
queue of the mutex. -/
def find_max_blocked_priority (mutex : Option QueueRef) (ref_priority : Nat) (s : KState) :
    Nat :=
  match mutex with
  | none => ref_priority
  | some q => (s.queues q).foldl (fun p t => min p (s.tcb t).priority) ref_priority

/-- Store `priority` in the control block of `task`. -/
def set_priority_field (task : TcbRef) (priority : Nat) (s : KState) : KState :=
  let t := s.tcb task
  let t1 : TN_TCB := { t with priority := priority }
  { s with tcb := Function.update s.tcb task t1 }

/-- `ThreadSetPriority` of `task.c`: the transitive priority change.  The `for (;;)` loop is
unrolled at most `fuel` times; `none` means that the loop did not end within `fuel`
rounds. -/
def ThreadSetPriority : Nat → TcbRef → Nat → KState → Option KState
  | 0, _, _, _ => none
  | fuel + 1, task, priority, s =>
    if (s.tcb task).priority ≤ priority then some s
    else if (s.tcb task).state = TSK_STATE_RUNNABLE then
      some (ThreadChangePriority task priority s)
    else if (s.tcb task).state &&& TSK_STATE_WAIT ≠ 0 ∧
        (s.tcb task).wait_reason = wait_reason_t.WAIT_REASON_MUTEX_I then
      let s1 := set_priority_field task priority s
      let mutex := get_mutex_by_wait_queque (s1.tcb task).pwait_queue
      ThreadSetPriority fuel (s1.holder mutex) priority s1
    else some (set_priority_field task priority s)

/-- The loop of `ThreadSetPriority` (`task.c`) together with the list of the tasks that the
rounds of the loop visit, in order: the value of `task` at the head of each round. -/
def ThreadSetPriority_trace : Nat → TcbRef → Nat → KState → Option (List TcbRef × KState)
  | 0, _, _, _ => none
  | fuel + 1, task, priority, s =>
    if (s.tcb task).priority ≤ priority then some ([task], s)
    else if (s.tcb task).state = TSK_STATE_RUNNABLE then
      some ([task], ThreadChangePriority task priority s)
    else if (s.tcb task).state &&& TSK_STATE_WAIT ≠ 0 ∧
        (s.tcb task).wait_reason = wait_reason_t.WAIT_REASON_MUTEX_I then
      let s1 := set_priority_field task priority s
      let mutex := get_mutex_by_wait_queque (s1.tcb task).pwait_queue
      (ThreadSetPriority_trace fuel (s1.holder mutex) priority s1).map
        (fun r => (task :: r.1, r.2))
    else some ([task], set_priority_field task priority s)

/-- The first part of `task_wait_release` (`task.c`, lines 207-215): the wait queue pointer is
cleared; the task becomes RUNNABLE unless it is suspended, in which case only the WAIT flag
is removed. -/
def task_wait_release_state (task : TcbRef) (s : KState) : KState :=
  let t := s.tcb task
  let t1 : TN_TCB := { t with pwait_queue := none }
  let s1 : KState := { s with tcb := Function.update s.tcb task t1 }
  if (s1.tcb task).state &&& TSK_STATE_SUSPEND = 0 then TaskToRunnable task s1
  else
    let t2 : TN_TCB := { t1 with state := TSK_STATE_SUSPEND }
    { s1 with tcb := Function.update s1.tcb task t2 }

/-- The mutex part of `task_wait_release` (`task.c`, lines 219-235, with `USE_MUTEXES`): when
the task waited for a mutex whose holder runs at the priority of the task and not at its
base priority, the priority of the holder is recomputed.  `fuel` bounds the loop of
`ThreadSetPriority`. -/
def task_wait_release_mutex (fuel : Nat) (task : TcbRef) (fmutex : Bool)
    (t_que : Option QueueRef) (s2 : KState) : Option KState :=
  if fmutex then
    let mutex := get_mutex_by_wait_queque t_que
    let mt_holder_task := s2.holder mutex
    if mt_holder_task ≠ TcbRef.null then
      if (s2.tcb mt_holder_task).priority ≠ (s2.tcb mt_holder_task).base_priority ∧
          (s2.tcb mt_holder_task).priority = (s2.tcb task).priority then
        let curr_priority :=
          find_max_blocked_priority mutex (s2.tcb mt_holder_task).base_priority s2
        ThreadSetPriority fuel mt_holder_task curr_priority s2
      else some s2
    else some s2
  else some s2

/-- The last statement of `task_wait_release`: `task->wait_reason = WAIT_REASON_NO`. -/
def clear_wait_reason (task : TcbRef) (s : KState) : KState :=
  let t := s.tcb task
  let t1 : TN_TCB := { t with wait_reason := wait_reason_t.WAIT_REASON_NO }
  { s with tcb := Function.update s.tcb task t1 }

/-- `task_wait_release` of `task.c` (with `USE_MUTEXES`).  `fuel` bounds the loop of
`ThreadSetPriority`. -/
def task_wait_release (fuel : Nat) (task : TcbRef) (s : KState) : Option KState :=
  let t := s.tcb task
  let fmutex : Bool := t.wait_reason = wait_reason_t.WAIT_REASON_MUTEX_I ∨
    t.wait_reason = wait_reason_t.WAIT_REASON_MUTEX_C
  let t_que : Option QueueRef := if fmutex then t.pwait_queue else none
  let s2 := task_wait_release_state task s
  (task_wait_release_mutex fuel task fmutex t_que s2).map (clear_wait_reason task)

/-- The assignment `*task->wait_rc = rc` guarded by `task->wait_rc != NULL`. -/
def write_wait_rc (task : TcbRef) (rc : osError_t) (s : KState) : KState :=
  match (s.tcb task).wait_rc with
  | none => s
  | some a => { s with rc_mem := Function.update s.rc_mem a rc }

/-- `task_wait_release_handler` of `task.c`: the timeout callback of a waiting task. -/
def task_wait_release_handler (fuel : Nat) (task : TcbRef) (s : KState) : Option KState :=
  let s1 : KState := { s with queues := QueueRemoveEntry task s.queues }
  (task_wait_release fuel task s1).map (write_wait_rc task osError_t.TERR_TIMEOUT)

/-- `ThreadWaitComplete` of `task.c`. -/
def ThreadWaitComplete (fuel : Nat) (task : TcbRef) (s : KState) : Option KState :=
  if task = TcbRef.null then some s
  else
    (task_wait_release fuel task (TimerDelete (TmebRef.wait_timer task) s)).map
      (write_wait_rc task osError_t.TERR_NO_ERR)

/-- `ThreadWaitDelete` of `task.c`.  The `while` loop runs at most `fuel` rounds (`fuel` also
bounds the loop of `ThreadSetPriority`); the result carries the number of rounds in which
a task was released. -/
def ThreadWaitDelete (fuel : Nat) (wait_que : QueueRef) : Nat → KState → Option (Nat × KState)
  | 0, _ => none
  | n + 1, s =>
    if isQueueEmpty wait_que s.queues then some (0, s)
    else
      let r := QueueRemoveHead wait_que s.queues
      let task := r.1.getD TcbRef.null
      match ThreadWaitComplete fuel task { s with queues := r.2 } with
      | none => none
      | some s1 =>
        (ThreadWaitDelete fuel wait_que n (write_wait_rc task osError_t.TERR_DLT s1)).map
          (fun x => (x.1 + 1, x.2))

/-- `ThreadToWaitAction` of `task.c`. -/
def ThreadToWaitAction (task : TcbRef) (wait_que : Option QueueRef)
    (wait_reason : wait_reason_t) (timeout : Nat) (s : KState) : KState :=
  let s1 := TaskToNonRunnable task s
  let t := s1.tcb task
  let t1 : TN_TCB := { t with state := TSK_STATE_WAIT, wait_reason := wait_reason }
  let s2 : KState := { s1 with tcb := Function.update s1.tcb task t1 }
  let s3 : KState :=
    match wait_que with
    | some q =>
      let t2 : TN_TCB := { t1 with pwait_queue := some q }
      { s2 with queues := QueueAddTail q task s2.queues
                tcb := Function.update s2.tcb task t2 }
    | none => s2
  if timeout ≠ TN_WAIT_INFINITE then
    TimerInsert (TmebRef.wait_timer task) (s3.jiffies + timeout)
      CBACK.task_wait_release_handler (CbArg.task task) s3
  else s3

/-- What a priority change leaves alone: compared with `s0`, state `s` differs at most in the
`priority` fields, which did not grow, in the ready queues and their bitmap, and in `next`
and the switch request. -/
def PrioFrame (s0 s : KState) : Prop :=
  (∀ t, ∃ pr, pr ≤ (s0.tcb t).priority ∧ s.tcb t = { s0.tcb t with priority := pr }) ∧
  (∀ q, s.queues (QueueRef.wait q) = s0.queues (QueueRef.wait q)) ∧
  s.timer_queue = s0.timer_queue ∧ s.tmeb = s0.tmeb ∧ s.holder = s0.holder ∧
  s.rc_mem = s0.rc_mem ∧ s.ram = s0.ram ∧ s.curr = s0.curr ∧ s.jiffies = s0.jiffies

/-- Only the control blocks listed in `L` have a priority different from `0`: the state holds
finitely many tasks. -/
def FiniteAbove (L : List TcbRef) (s : KState) : Prop :=
  ∀ t, t ∉ L → (s.tcb t).priority = 0

/-- What the release of task `w` from a wait (`task_wait_release`) changes between `s` and
`s'`: `w` becomes RUNNABLE, or SUSPEND when it was suspended while waiting, and loses its
wait queue pointer and wait reason; priorities may have been lowered numerically by
`ThreadSetPriority`; wait queues, timers, result cells and caller memory are untouched. -/
def WaitExit (w : TcbRef) (s s' : KState) : Prop :=
  (∃ pr, pr ≤ (s.tcb w).priority ∧
    s'.tcb w = { s.tcb w with
      priority := pr
      state := if (s.tcb w).state &&& TSK_STATE_SUSPEND = 0 then TSK_STATE_RUNNABLE
        else TSK_STATE_SUSPEND
      pwait_queue := none
      wait_reason := wait_reason_t.WAIT_REASON_NO }) ∧
  (∀ t, t ≠ w → ∃ pr, pr ≤ (s.tcb t).priority ∧ s'.tcb t = { s.tcb t with priority := pr }) ∧
  (∀ q, s'.queues (QueueRef.wait q) = s.queues (QueueRef.wait q)) ∧
  s'.timer_queue = s.timer_queue ∧ s'.tmeb = s.tmeb ∧ s'.holder = s.holder ∧
  s'.rc_mem = s.rc_mem ∧ s'.ram = s.ram ∧ s'.curr = s.curr ∧ s'.jiffies = s.jiffies

/-- What `ThreadWaitComplete`-like services do to task `w`, with result code `rc`: the release
of `WaitExit`, the wait timer of `w` leaves the timer queue, and `rc` is stored in the result
cell that `w->wait_rc` points to (if it is not `NULL`). -/
def WaitDone (w : TcbRef) (rc : osError_t) (s s' : KState) : Prop :=
  (∃ pr, pr ≤ (s.tcb w).priority ∧
    s'.tcb w = { s.tcb w with
      priority := pr
      state := if (s.tcb w).state &&& TSK_STATE_SUSPEND = 0 then TSK_STATE_RUNNABLE
        else TSK_STATE_SUSPEND
      pwait_queue := none
      wait_reason := wait_reason_t.WAIT_REASON_NO }) ∧
  (∀ t, t ≠ w → ∃ pr, pr ≤ (s.tcb t).priority ∧ s'.tcb t = { s.tcb t with priority := pr }) ∧
  (∀ q, s'.queues (QueueRef.wait q) = s.queues (QueueRef.wait q)) ∧
  s'.timer_queue = s.timer_queue.erase (TmebRef.wait_timer w) ∧
  s'.rc_mem = (match (s.tcb w).wait_rc with
    | none => s.rc_mem
    | some a => Function.update s.rc_mem a rc) ∧
  s'.tmeb = s.tmeb ∧ s'.holder = s.holder ∧ s'.ram = s.ram ∧ s'.curr = s.curr ∧
  s'.jiffies = s.jiffies

/-- The control block of a task after it entered a wait on queue `que`: state WAIT, the
wait reason and the wait queue pointer are recorded. -/
def tcb_waiting (t : TN_TCB) (reason : wait_reason_t) (que : QueueRef) : TN_TCB :=
  { t with state := TSK_STATE_WAIT, wait_reason := reason, pwait_queue := some que }

/-- The tasks of the list enter a wait on the same wait queue, one after the other, each
with its own timeout: successive calls of `ThreadToWaitAction`. -/
def enter_wait_all (wait_que : QueueRef) (reason : wait_reason_t) :
    List (TcbRef × Nat) → KState → KState
  | [], s => s
  | e :: rest, s =>
    enter_wait_all wait_que reason rest (ThreadToWaitAction e.1 (some wait_que) reason e.2 s)

/-! ## task.c: task services -/

/-- Identity tag of a task.  Modelled from the spec: the constant `ID_TASK` is declared in a
header that is absent. -/
def ID_TASK : Nat := 0x47ABCF69

/-- Identity tag of a deleted object.  Modelled from the spec: the constant `ID_INVALID` is
declared in a header that is absent. -/
def ID_INVALID : Nat := 0

/-- Creation option "start on creation".  Modelled from the spec: the constant
`TN_TASK_START_ON_CREATION` is declared in a header that is absent. -/
def TN_TASK_START_ON_CREATION : Nat := 1

/-- The attributes `task_create_attr_t` that `TaskCreate` stores in fields of this model
(entry function and stack are not part of it). -/
structure task_create_attr_t where
  priority : Nat := 0
  option : Nat := 0
  deriving DecidableEq, Repr

/-- `task_set_dormant_state` of `task.c`.  The three `QueueReset` calls re-initialise links
of the control block itself: the list of held mutexes becomes empty, and the task link and
the timer link, which are in no queue when this runs, stay so. -/
def task_set_dormant_state (task : TcbRef) (s : KState) : KState :=
  let t := s.tcb task
  let t1 : TN_TCB :=
    { t with mutex_queue := [], pwait_queue := none, priority := t.base_priority,
             state := TSK_STATE_DORMANT, wait_reason := wait_reason_t.WAIT_REASON_NO,
             wait_rc := none, tslice_count := 0 }
  { s with tcb := Function.update s.tcb task t1 }

/-- `TaskCreate` of `task.c` (the stores to the stack and to the entry fields are not part of
the model). -/
def TaskCreate (task : TcbRef) (attr : task_create_attr_t) (s : KState) : KState :=
  let t := s.tcb task
  let t1 : TN_TCB :=
    { t with base_priority := attr.priority, id := ID_TASK, time := 0, wait_rc := none }
  let s1 : KState := { s with tcb := Function.update s.tcb task t1 }
  let s2 := task_set_dormant_state task s1
  if attr.option &&& TN_TASK_START_ON_CREATION ≠ 0 then TaskToRunnable task s2 else s2

/-- The loop "unlock all mutexes, locked by the task" of `TaskTerminate` and `TaskExit`:
the first held mutex is unlinked from `task->mutex_queue` and unlocked, until the list is
empty.  `do_unlock_mutex` belongs to the mutex module, which is absent, and is a parameter;
`fuel` bounds the number of rounds. -/
def unlock_held_mutexes (do_unlock_mutex : Nat → KState → KState) (task : TcbRef) :
    Nat → KState → Option KState
  | 0, _ => none
  | fuel + 1, s =>
    match (s.tcb task).mutex_queue with
    | [] => some s
    | m :: rest =>
      let t := s.tcb task
      let t1 : TN_TCB := { t with mutex_queue := rest }
      let s1 : KState := { s with tcb := Function.update s.tcb task t1 }
      unlock_held_mutexes do_unlock_mutex task fuel (do_unlock_mutex m s1)

/-- `TaskTerminate` of `task.c`. -/
def TaskTerminate (do_unlock_mutex : Nat → KState → KState) (fuel : Nat) (task : TcbRef)
    (s : KState) : Option (osError_t × KState) :=
  if (s.tcb task).state = TSK_STATE_DORMANT ∨ task = TaskGetCurrent s then
    some (osError_t.TERR_WCONTEXT, s)
  else
    let s1 : KState :=
      if (s.tcb task).state = TSK_STATE_RUNNABLE then TaskToNonRunnable task s
      else if (s.tcb task).state &&& TSK_STATE_WAIT ≠ 0 then
        TimerDelete (TmebRef.wait_timer task) { s with queues := QueueRemoveEntry task s.queues }
      else s
    (unlock_held_mutexes do_unlock_mutex task fuel s1).map
      (fun s2 => (osError_t.TERR_NO_ERR, task_set_dormant_state task s2))

/-- Store `id` in the `id` field of `task`. -/
def set_id (task : TcbRef) (id : Nat) (s : KState) : KState :=
  let t := s.tcb task
  let t1 : TN_TCB := { t with id := id }
  { s with tcb := Function.update s.tcb task t1 }

/-- `TaskExit` of `task.c`; `delete` stands for the attribute `TASK_EXIT_AND_DELETE`. -/
def TaskExit (do_unlock_mutex : Nat → KState → KState) (fuel : Nat) (delete : Bool)
    (s : KState) : Option KState :=
  let task := TaskGetCurrent s
  (unlock_held_mutexes do_unlock_mutex task fuel s).map (fun s1 =>
    let s2 := task_set_dormant_state task (TaskToNonRunnable task s1)
    if delete then set_id task ID_INVALID s2 else s2)

/-- `TaskSetPriority` of `task.c`. -/
def TaskSetPriority (task : TcbRef) (new_priority : Nat) (s : KState) : osError_t × KState :=
  let new_priority := if new_priority = 0 then (s.tcb task).base_priority else new_priority
  if (s.tcb task).state = TSK_STATE_DORMANT then (osError_t.TERR_WCONTEXT, s)
  else if (s.tcb task).state = TSK_STATE_RUNNABLE then
    (osError_t.TERR_NO_ERR, ThreadChangePriority task new_priority s)
  else (osError_t.TERR_NO_ERR, set_priority_field task new_priority s)

/-- The range check of `osTaskSetPriority`: `new_priority > NUM_PRIORITY - 2` is rejected. -/
def priority_in_range (new_priority : Nat) : Prop := new_priority ≤ 30

/-- The priority of every task is numerically at most its base priority. -/
def PrioInv (s : KState) : Prop :=
  ∀ t, (s.tcb t).priority ≤ (s.tcb t).base_priority

/-- One step of the services that write the `priority` field, `TaskSetPriority` and
`ThreadChangePriority` being restricted to a new priority that is numerically at most the
base priority of the task (`0` included, which `TaskSetPriority` replaces by the base
priority). -/
inductive PrioStep (do_unlock_mutex : Nat → KState → KState) : KState → KState → Prop
  | create (s : KState) (task : TcbRef) (attr : task_create_attr_t) :
    PrioStep do_unlock_mutex s (TaskCreate task attr s)
  | set_priority (s : KState) (task : TcbRef) (p : Nat) :
    p ≤ (s.tcb task).base_priority →
    PrioStep do_unlock_mutex s (TaskSetPriority task p s).2
  | set_transitive (s : KState) (fuel : Nat) (task : TcbRef) (p : Nat) (s' : KState) :
    ThreadSetPriority fuel task p s = some s' → PrioStep do_unlock_mutex s s'
  | change (s : KState) (task : TcbRef) (p : Nat) :
    p ≤ (s.tcb task).base_priority →
    PrioStep do_unlock_mutex s (ThreadChangePriority task p s)
  | terminate (s : KState) (fuel : Nat) (task : TcbRef) (r : osError_t × KState) :
    TaskTerminate do_unlock_mutex fuel task s = some r → PrioStep do_unlock_mutex s r.2
  | exit (s : KState) (fuel : Nat) (delete : Bool) (s' : KState) :
    TaskExit do_unlock_mutex fuel delete s = some s' → PrioStep do_unlock_mutex s s'

/-- Creation option that marks the timer task.  Modelled from the spec: the constant
`TN_TASK_TIMER` is declared in a header that is absent; a single-bit flag. -/
def TN_TASK_TIMER : Nat := 0x80

/-- Creation option that marks the idle task.  Modelled from the spec: the constant
`TN_TASK_IDLE` is declared in a header that is absent; a single-bit flag. -/
def TN_TASK_IDLE : Nat := 0x40

/-- Smallest stack size.  Modelled from the spec: the constant `TN_MIN_STACK_SIZE` is
declared in a header that is absent. -/
def TN_MIN_STACK_SIZE : Int := 40

/-- The number of priorities `NUM_PRIORITY` of `knl_lib.h` (`BITS_IN_INT`, "0..31"). -/
def NUM_PRIORITY : Nat := 32

/-- `osTaskCreate` of `task.c`.  `irq` is the value of `IS_IRQ_MODE() || IS_IRQ_MASKED()`;
pointers are addresses with `0` for `NULL`; `priority` and `stack_size` are signed, `option`
is the bit pattern of the option word.  The call `svcTaskCreate(TaskCreate, ...)` runs
`TaskCreate`. -/
def osTaskCreate (irq : Bool) (task : TcbRef) (func : Nat) (priority : Int)
    (stack_start : Nat) (stack_size : Int) (_param : Nat) (option : Nat) (s : KState) :
    osError_t × KState :=
  if (priority = 0 ∧ option &&& TN_TASK_TIMER = 0) ∨
      (priority = (NUM_PRIORITY : Int) - 1 ∧ option &&& TN_TASK_IDLE = 0) then
    (osError_t.TERR_WRONG_PARAM, s)
  else if (priority < 0 ∨ priority > (NUM_PRIORITY : Int) - 1) ∨ stack_size < TN_MIN_STACK_SIZE ∨
      func = 0 ∨ task = TcbRef.null ∨ stack_start = 0 ∨ (s.tcb task).id ≠ 0 then
    (osError_t.TERR_WRONG_PARAM, s)
  else if irq then (osError_t.TERR_ISR, s)
  else
    let task_create_attr : task_create_attr_t :=
      { priority := priority.toNat, option := option }
    (osError_t.TERR_NO_ERR, TaskCreate task task_create_attr s)

/-- `osTaskSetPriority` of `task.c`.  `irq` is the value of
`IS_IRQ_MODE() || IS_IRQ_MASKED()`; the call `svcTaskSetPriority(TaskSetPriority, ...)` runs
`TaskSetPriority`. -/
def osTaskSetPriority (irq : Bool) (task : TcbRef) (new_priority : Nat) (s : KState) :
    osError_t × KState :=
  if task = TcbRef.null then (osError_t.TERR_WRONG_PARAM, s)
  else if (s.tcb task).id ≠ ID_TASK then (osError_t.TERR_NOEXS, s)
  else if new_priority > NUM_PRIORITY - 2 then (osError_t.TERR_WRONG_PARAM, s)
  else if irq then (osError_t.TERR_ISR, s)
  else TaskSetPriority task new_priority s

/-- Store `st` in the `state` field of `task`. -/
def set_task_state (task : TcbRef) (st : Nat) (s : KState) : KState :=
  let t := s.tcb task
  let t1 : TN_TCB := { t with state := st }
  { s with tcb := Function.update s.tcb task t1 }

/-- `TaskDelete` of `task.c`. -/
def TaskDelete (task : TcbRef) (s : KState) : osError_t × KState :=
  if (s.tcb task).state ≠ TSK_STATE_DORMANT then (osError_t.TERR_WCONTEXT, s)
  else (osError_t.TERR_NO_ERR, set_id task ID_INVALID s)

/-- `TaskActivate` of `task.c` (the stores of `StackInit` to the stack are not part of the
model). -/
def TaskActivate (task : TcbRef) (s : KState) : osError_t × KState :=
  if (s.tcb task).state ≠ TSK_STATE_DORMANT then (osError_t.TERR_OVERFLOW, s)
  else (osError_t.TERR_NO_ERR, TaskToRunnable task s)

/-- `TaskSuspend` of `task.c`. -/
def TaskSuspend (task : TcbRef) (s : KState) : osError_t × KState :=
  if (s.tcb task).state &&& TSK_STATE_SUSPEND ≠ 0 then (osError_t.TERR_OVERFLOW, s)
  else if (s.tcb task).state = TSK_STATE_DORMANT then (osError_t.TERR_WSTATE, s)
  else if (s.tcb task).state = TSK_STATE_RUNNABLE then
    (osError_t.TERR_NO_ERR, TaskToNonRunnable task (set_task_state task TSK_STATE_SUSPEND s))
  else
    (osError_t.TERR_NO_ERR,
      set_task_state task ((s.tcb task).state ||| TSK_STATE_SUSPEND) s)

/-- `TaskResume` of `task.c`. -/
def TaskResume (task : TcbRef) (s : KState) : osError_t × KState :=
  if (s.tcb task).state &&& TSK_STATE_SUSPEND = 0 then (osError_t.TERR_WSTATE, s)
  else if (s.tcb task).state &&& TSK_STATE_WAIT = 0 then
    (osError_t.TERR_NO_ERR, TaskToRunnable task s)
  else
    (osError_t.TERR_NO_ERR,
      set_task_state task ((s.tcb task).state &&& not32 TSK_STATE_SUSPEND) s)

/-- `TaskWakeup` of `task.c`.  `fuel` bounds the loop of `ThreadSetPriority`. -/
def TaskWakeup (fuel : Nat) (task : TcbRef) (s : KState) : Option (osError_t × KState) :=
  if (s.tcb task).state &&& TSK_STATE_WAIT ≠ 0 ∧
      (s.tcb task).wait_reason = wait_reason_t.WAIT_REASON_SLEEP then
    (ThreadWaitComplete fuel task s).map (fun s1 => (osError_t.TERR_NO_ERR, s1))
  else some (osError_t.TERR_WSTATE, s)

/-- `TaskReleaseWait` of `task.c`.  `fuel` bounds the loop of `ThreadSetPriority`. -/
def TaskReleaseWait (fuel : Nat) (task : TcbRef) (s : KState) : Option (osError_t × KState) :=
  if (s.tcb task).state &&& TSK_STATE_WAIT = 0 then some (osError_t.TERR_WCONTEXT, s)
  else
    (ThreadWaitComplete fuel task { s with queues := QueueRemoveEntry task s.queues }).map
      (fun s1 => (osError_t.TERR_NO_ERR, s1))

/-! ## message_buf.c: the circular buffer -/

/-- Message buffer control block `TN_MBF`.  `buf` is the byte memory the buffer was created
with, addressed by byte offset; the two wait queues are named by the addresses of their
heads. -/
structure TN_MBF where
  id : Nat := 0
  send_queue : QueueRef := QueueRef.wait 0
  recv_queue : QueueRef := QueueRef.wait 1
  buf : Int → Nat := fun _ => 0
  msz : Int := 1
  num_entries : Int := 0
  cnt : Int := 0
  tail : Int := 0
  head : Int := 0

/-- The call `memcpy(&buf[dst], msg, n)`: the `n` bytes of the message are stored at byte
offsets `dst .. dst + n - 1`. -/
def memcpy_to (buf : Int → Nat) (dst : Int) (msg : List Nat) (n : Int) : Int → Nat :=
  fun a => if dst ≤ a ∧ a < dst + n then msg.getD (a - dst).toNat 0 else buf a

/-- The bytes that `memcpy(msg, &buf[src], n)` delivers. -/
def memcpy_from (buf : Int → Nat) (src : Int) (n : Int) : List Nat :=
  (List.range n.toNat).map (fun (i : Nat) => buf (src + (i : Int)))

/-- `mbf_fifo_write` of `message_buf.c`.  The message is given by its bytes. -/
def mbf_fifo_write (mbf : TN_MBF) (msg : List Nat) (send_to_first : Bool) :
    osError_t × TN_MBF :=
  if mbf.num_entries = 0 then (osError_t.TERR_OUT_OF_MEM, mbf)
  else if mbf.cnt = mbf.num_entries then (osError_t.TERR_OVERFLOW, mbf)
  else
    let msz := mbf.msz
    let bufsz := mbf.num_entries * msz
    if send_to_first then
      let tail := if mbf.tail = 0 then bufsz - msz else mbf.tail - msz
      (osError_t.TERR_NO_ERR,
        { mbf with tail := tail, buf := memcpy_to mbf.buf tail msg msz, cnt := mbf.cnt + 1 })
    else
      let buf := memcpy_to mbf.buf mbf.head msg msz
      let head := mbf.head + msz
      let head := if head ≥ bufsz then 0 else head
      (osError_t.TERR_NO_ERR, { mbf with buf := buf, head := head, cnt := mbf.cnt + 1 })

/-- `mbf_fifo_read` of `message_buf.c`.  The third component is the message copied to the
caller, `none` when nothing was copied. -/
def mbf_fifo_read (mbf : TN_MBF) : osError_t × TN_MBF × Option (List Nat) :=
  if mbf.num_entries = 0 then (osError_t.TERR_OUT_OF_MEM, mbf, none)
  else if mbf.cnt = 0 then (osError_t.TERR_UNDERFLOW, mbf, none)
  else
    let msz := mbf.msz
    let bufsz := mbf.num_entries * msz
    let msg := memcpy_from mbf.buf mbf.tail msz
    let tail := mbf.tail + msz
    let tail := if tail ≥ bufsz then 0 else tail
    (osError_t.TERR_NO_ERR, { mbf with cnt := mbf.cnt - 1, tail := tail }, some msg)

/-- Identity tag of a message buffer.  Modelled from the spec: the constant `ID_MESSAGEBUF`
is declared in `ukernel.h` (absent); only its being different from `0` matters here. -/
def ID_MESSAGEBUF : Nat := 0x4D4246

/-- The `n` bytes of caller memory at address `p`. -/
def load (ram : Nat → Nat) (p n : Nat) : List Nat :=
  (List.range n).map (fun i => ram (p + i))

/-- The call `memcpy(dst, msg, n)` into caller memory. -/
def store (ram : Nat → Nat) (dst : Nat) (msg : List Nat) (n : Nat) : Nat → Nat :=
  fun a => if dst ≤ a ∧ a < dst + n then msg.getD (a - dst) 0 else ram a

/-- Outcome of a service that may block: the result code, or `none` when the calling task was
put into a wait; the code is then delivered through `wait_rc` when the task is released. -/
abbrev Outcome := Option osError_t

/-- `do_mbf_send` of `message_buf.c`.  `mbf` is `none` for a `NULL` pointer, `msg` is the
address of the message of the caller and `rc_ptr` the address of the local variable `rc`.
`fuel` bounds the loop of `ThreadSetPriority`. -/
def do_mbf_send (fuel : Nat) (mbf : Option TN_MBF) (msg : Nat) (timeout : Nat)
    (send_to_first : Bool) (rc_ptr : Nat) (s : KState) :
    Option (Outcome × Option TN_MBF × KState) :=
  match mbf with
  | none => some (some osError_t.TERR_WRONG_PARAM, none, s)
  | some m =>
    if m.id ≠ ID_MESSAGEBUF then some (some osError_t.TERR_NOEXS, some m, s)
    else if ¬ isQueueEmpty m.recv_queue s.queues then
      let r := QueueRemoveHead m.recv_queue s.queues
      let task := r.1.getD TcbRef.null
      let s1 : KState :=
        { s with queues := r.2
                 ram := store s.ram (s.tcb task).rmbf_msg (load s.ram msg m.msz.toNat)
                   m.msz.toNat }
      (ThreadWaitComplete fuel task s1).map
        (fun s2 => (some osError_t.TERR_NO_ERR, some m, s2))
    else
      let w := mbf_fifo_write m (load s.ram msg m.msz.toNat) send_to_first
      if w.1 ≠ osError_t.TERR_NO_ERR then
        if timeout = TN_POLLING then some (some osError_t.TERR_TIMEOUT, some w.2, s)
        else
          let task := TaskGetCurrent s
          let t := s.tcb task
          let t1 : TN_TCB :=
            { t with wait_rc := some rc_ptr, smbf_msg := msg,
                     smbf_send_to_first := send_to_first }
          let s1 : KState := { s with tcb := Function.update s.tcb task t1 }
          some (none, some w.2,
            ThreadToWaitAction task (some m.send_queue)
              wait_reason_t.WAIT_REASON_MBF_WSEND timeout s1)
      else some (some w.1, some w.2, s)

/-- `tn_mbf_send` of `message_buf.c`. -/
def tn_mbf_send (fuel : Nat) (mbf : Option TN_MBF) (msg : Nat) (timeout : Nat)
    (rc_ptr : Nat) (s : KState) : Option (Outcome × Option TN_MBF × KState) :=
  do_mbf_send fuel mbf msg timeout false rc_ptr s

/-- `tn_mbf_send_first` of `message_buf.c`. -/
def tn_mbf_send_first (fuel : Nat) (mbf : Option TN_MBF) (msg : Nat) (timeout : Nat)
    (rc_ptr : Nat) (s : KState) : Option (Outcome × Option TN_MBF × KState) :=
  do_mbf_send fuel mbf msg timeout true rc_ptr s

/-- `tn_mbf_receive` of `message_buf.c`.  `msg` is the address of the destination of the
caller (`0` for `NULL`). -/
def tn_mbf_receive (fuel : Nat) (mbf : Option TN_MBF) (msg : Nat) (timeout : Nat)
    (rc_ptr : Nat) (s : KState) : Option (Outcome × Option TN_MBF × KState) :=
  match mbf with
  | none => some (some osError_t.TERR_WRONG_PARAM, none, s)
  | some m =>
    if msg = 0 then some (some osError_t.TERR_WRONG_PARAM, some m, s)
    else if m.id ≠ ID_MESSAGEBUF then some (some osError_t.TERR_NOEXS, some m, s)
    else
      let r := mbf_fifo_read m
      if r.1 = osError_t.TERR_NO_ERR then
        let s0 : KState :=
          match r.2.2 with
          | some bytes => { s with ram := store s.ram msg bytes m.msz.toNat }
          | none => s
        if ¬ isQueueEmpty m.send_queue s0.queues then
          let h := QueueRemoveHead m.send_queue s0.queues
          let task := h.1.getD TcbRef.null
          let w := mbf_fifo_write r.2.1 (load s0.ram (s0.tcb task).smbf_msg m.msz.toNat)
            (s0.tcb task).smbf_send_to_first
          (ThreadWaitComplete fuel task { s0 with queues := h.2 }).map
            (fun s2 => (some osError_t.TERR_NO_ERR, some w.2, s2))
        else some (some osError_t.TERR_NO_ERR, some r.2.1, s0)
      else
        if ¬ isQueueEmpty m.send_queue s.queues then
          let h := QueueRemoveHead m.send_queue s.queues
          let task := h.1.getD TcbRef.null
          let s1 : KState :=
            { s with queues := h.2
                     ram := store s.ram msg (load s.ram (s.tcb task).smbf_msg m.msz.toNat)
                       m.msz.toNat }
          (ThreadWaitComplete fuel task s1).map
            (fun s2 => (some osError_t.TERR_NO_ERR, some r.2.1, s2))
        else if timeout = TN_POLLING then some (some osError_t.TERR_TIMEOUT, some r.2.1, s)
        else
          let task := TaskGetCurrent s
          let t := s.tcb task
          let t1 : TN_TCB := { t with wait_rc := some rc_ptr, rmbf_msg := msg }
          let s1 : KState := { s with tcb := Function.update s.tcb task t1 }
          some (none, some r.2.1,
            ThreadToWaitAction task (some m.recv_queue)
              wait_reason_t.WAIT_REASON_MBF_WRECEIVE timeout s1)

/-- `tn_mbf_create` of `message_buf.c`.  `mbf` is `none` for a `NULL` pointer and `buf` is
the memory handed over for the buffer; `bufsz` and `msz` are of type `int`, and the division
is taken when neither is negative. -/
def tn_mbf_create (mbf : Option TN_MBF) (buf : Int → Nat) (bufsz msz : Int) (s : KState) :
    osError_t × Option TN_MBF × KState :=
  match mbf with
  | none => (osError_t.TERR_WRONG_PARAM, none, s)
  | some m =>
    if bufsz < 0 ∨ msz ≤ 0 ∨ m.id = ID_MESSAGEBUF then
      (osError_t.TERR_WRONG_PARAM, some m, s)
    else
      let s1 : KState :=
        { s with queues := QueueReset m.recv_queue (QueueReset m.send_queue s.queues) }
      (osError_t.TERR_NO_ERR,
        some { m with buf := buf, msz := msz, num_entries := bufsz / msz, cnt := 0, head := 0,
                      tail := 0, id := ID_MESSAGEBUF },
        s1)

/-- `tn_mbf_delete` of `message_buf.c`.  `n` bounds the rounds of each `ThreadWaitDelete`
loop and `fuel` the loop of `ThreadSetPriority`. -/
def tn_mbf_delete (fuel n : Nat) (mbf : Option TN_MBF) (s : KState) :
    Option (osError_t × Option TN_MBF × KState) :=
  match mbf with
  | none => some (osError_t.TERR_WRONG_PARAM, none, s)
  | some m =>
    if m.id = 0 then some (osError_t.TERR_NOEXS, some m, s)
    else
      (ThreadWaitDelete fuel m.send_queue n s).bind (fun r1 =>
        (ThreadWaitDelete fuel m.recv_queue n r1.2).map (fun r2 =>
          (osError_t.TERR_NO_ERR, some { m with id := ID_INVALID }, r2.2)))

/-- `tn_mbf_flush` of `message_buf.c`. -/
def tn_mbf_flush (mbf : Option TN_MBF) : osError_t × Option TN_MBF :=
  match mbf with
  | none => (osError_t.TERR_WRONG_PARAM, none)
  | some m =>
    if m.id ≠ ID_MESSAGEBUF then (osError_t.TERR_NOEXS, some m)
    else (osError_t.TERR_NO_ERR, some { m with cnt := 0, tail := 0, head := 0 })

/-- `tn_mbf_empty` of `message_buf.c`. -/
def tn_mbf_empty (mbf : Option TN_MBF) : osError_t :=
  match mbf with
  | none => osError_t.TERR_WRONG_PARAM
  | some m =>
    if m.id ≠ ID_MESSAGEBUF then osError_t.TERR_NOEXS
    else if m.cnt = 0 then osError_t.TERR_TRUE else osError_t.TERR_NO_ERR

/-- `tn_mbf_full` of `message_buf.c`. -/
def tn_mbf_full (mbf : Option TN_MBF) : osError_t :=
  match mbf with
  | none => osError_t.TERR_WRONG_PARAM
  | some m =>
    if m.id ≠ ID_MESSAGEBUF then osError_t.TERR_NOEXS
    else if m.cnt = m.num_entries then osError_t.TERR_TRUE else osError_t.TERR_NO_ERR

/-- `tn_mbf_cnt` of `message_buf.c`.  `cnt` is the address of the result of the caller (`0`
for `NULL`); the second component is the value stored to `*cnt`, if any. -/
def tn_mbf_cnt (mbf : Option TN_MBF) (cnt : Nat) : osError_t × Option Int :=
  match mbf with
  | none => (osError_t.TERR_WRONG_PARAM, none)
  | some m =>
    if cnt = 0 then (osError_t.TERR_WRONG_PARAM, none)
    else if m.id ≠ ID_MESSAGEBUF then (osError_t.TERR_NOEXS, none)
    else (osError_t.TERR_NO_ERR, some m.cnt)

/-- Successive `do_mbf_send` calls on the same buffer, one per message address, all with the
same `timeout` and `send_to_first`; the control block and the kernel state are carried from
call to call. -/
def mbf_send_all (fuel timeout : Nat) (send_to_first : Bool) (rc_ptr : Nat) :
    Option TN_MBF → List Nat → KState → Option (Option TN_MBF × KState)
  | m, [], s => some (m, s)
  | m, msg :: rest, s =>
    match do_mbf_send fuel m msg timeout send_to_first rc_ptr s with
    | none => none
    | some r => mbf_send_all fuel timeout send_to_first rc_ptr r.2.1 rest r.2.2

/-- A sequence of `mbf_fifo_write(mbf, msg, false)` calls, one per message; the result codes
are collected in call order. -/
def mbf_write_all : TN_MBF → List (List Nat) → List osError_t × TN_MBF
  | mbf, [] => ([], mbf)
  | mbf, msg :: rest =>
    let r := mbf_fifo_write mbf msg false
    let rs := mbf_write_all r.2 rest
    (r.1 :: rs.1, rs.2)

/-- The results (code and message) of `k` successive `mbf_fifo_read` calls. -/
def mbf_read_n : Nat → TN_MBF → List (osError_t × Option (List Nat))
  | 0, _ => []
  | k + 1, mbf =>
    let r := mbf_fifo_read mbf
    (r.1, r.2.2) :: mbf_read_n k r.2.1

/-- Representation invariant of the ring buffer, with `B = num_entries * msz`: the message
size is positive, `0 ≤ cnt ≤ num_entries`, `head` and `tail` are multiples of `msz` inside
`0 .. B - 1` (both `0` when there are no entries) and `head ≡ tail + cnt * msz (mod B)`. -/
def MbfInv (m : TN_MBF) : Prop :=
  0 < m.msz ∧ 0 ≤ m.cnt ∧ m.cnt ≤ m.num_entries ∧
  m.msz ∣ m.head ∧ m.msz ∣ m.tail ∧
  ((0 ≤ m.head ∧ m.head < m.num_entries * m.msz) ∨ (m.num_entries = 0 ∧ m.head = 0)) ∧
  ((0 ≤ m.tail ∧ m.tail < m.num_entries * m.msz) ∨ (m.num_entries = 0 ∧ m.tail = 0)) ∧
  m.head % (m.num_entries * m.msz) = (m.tail + m.cnt * m.msz) % (m.num_entries * m.msz)

/-- The buffer is represented by slot index `ti` of the oldest message and the number `c` of
stored messages, for `n` slots of `z` bytes. -/
def MbfRep (m : TN_MBF) (n z ti c : Nat) : Prop :=
  0 < z ∧ ti < n ∧ c ≤ n ∧ m.msz = z ∧ m.num_entries = n ∧ m.cnt = c ∧
  m.tail = ((ti * z : Nat) : Int) ∧ m.head = ((((ti + c) % n) * z : Nat) : Int)

/-- The message stored in slot `i` of a buffer with slots of `z` bytes. -/
def mbf_slot (buf : Int → Nat) (z i : Nat) : List Nat :=
  memcpy_from buf ((i * z : Nat) : Int) z

/-- The stored messages, oldest first. -/
def mbf_contents (buf : Int → Nat) (n z ti c : Nat) : List (List Nat) :=
  (List.range c).map (fun j => mbf_slot buf z ((ti + j) % n))

/-- A buffer of three two-byte slots that holds one message, `[7, 8]`, in its last slot, so
that the next writes wrap around. -/
def exMbf : TN_MBF :=
  { id := 1, msz := 2, num_entries := 3, cnt := 1, tail := 4, head := 0
    buf := fun a => if a = 4 then 7 else if a = 5 then 8 else 0 }

/-! ## tn_mem.c: fixed-size memory pool -/

/-- Fixed-size memory pool control block `TN_FMP`.  Addresses are numbers, `0` is `NULL`;
`cell p` is the content of the first cell of the block at address `p`, where the free list
keeps its links. -/
structure TN_FMP where
  id_fmp : Nat := 0
  wait_queue : QueueRef := QueueRef.wait 2
  start_addr : Nat := 0
  block_size : Nat := 0
  num_blocks : Int := 0
  fblkcnt : Int := 0
  free_list : Nat := 0
  cell : Nat → Nat := fun _ => 0

/-- Identity tag of a memory pool.  Modelled from the spec: the constant
`TN_ID_FSMEMORYPOOL` is declared in a header that is absent. -/
def TN_ID_FSMEMORYPOOL : Nat := 0x464D50

/-- `fm_get` of `tn_mem.c`: the first free block (`0` when the pool has none). -/
def fm_get (fmp : TN_FMP) : Nat × TN_FMP :=
  if fmp.fblkcnt > 0 then
    (fmp.free_list,
      { fmp with free_list := fmp.cell fmp.free_list, fblkcnt := fmp.fblkcnt - 1 })
  else (0, fmp)

/-- `fm_put` of `tn_mem.c`. -/
def fm_put (fmp : TN_FMP) (mem : Nat) : osError_t × TN_FMP :=
  if fmp.fblkcnt < fmp.num_blocks then
    (osError_t.TERR_NO_ERR,
      { fmp with cell := Function.update fmp.cell mem fmp.free_list, free_list := mem,
                 fblkcnt := fmp.fblkcnt + 1 })
  else (osError_t.TERR_OVERFLOW, fmp)

/-- Modelled from the spec: `task_to_wait_action` (declared in `tn_tasks.h`, definition
absent), the Enter-wait of the wait/timeout core; `task.c` implements it as
`ThreadToWaitAction`. -/
def task_to_wait_action (task : TcbRef) (wait_que : Option QueueRef)
    (wait_reason : wait_reason_t) (timeout : Nat) (s : KState) : KState :=
  ThreadToWaitAction task wait_que wait_reason timeout s

/-- Modelled from the spec: `task_wait_complete` (declared in `tn_tasks.h`, definition
absent), the Exit-wait of the wait/timeout core with result OK; `task.c` implements it as
`ThreadWaitComplete`. -/
def task_wait_complete (fuel : Nat) (task : TcbRef) (s : KState) : Option KState :=
  ThreadWaitComplete fuel task s

/-- `tn_fmem_get` of `tn_mem.c` (with `TN_CHECK_PARAM`).  `p_data` is the address of the
result pointer of the caller (`0` for `NULL`); the fourth component is the value stored to
`*p_data`, if any. -/
def tn_fmem_get (fmp : Option TN_FMP) (p_data : Nat) (timeout : Nat) (rc_ptr : Nat)
    (s : KState) : Outcome × Option TN_FMP × KState × Option Nat :=
  match fmp with
  | none => (some osError_t.TERR_WRONG_PARAM, none, s, none)
  | some f =>
    if p_data = 0 then (some osError_t.TERR_WRONG_PARAM, some f, s, none)
    else if f.id_fmp ≠ TN_ID_FSMEMORYPOOL then (some osError_t.TERR_NOEXS, some f, s, none)
    else
      let g := fm_get f
      if g.1 ≠ 0 then (some osError_t.TERR_NO_ERR, some g.2, s, some g.1)
      else if timeout = TN_POLLING then (some osError_t.TERR_TIMEOUT, some g.2, s, none)
      else
        let task := s.curr
        let t := s.tcb task
        let t1 : TN_TCB := { t with wait_rc := some rc_ptr }
        let s1 : KState := { s with tcb := Function.update s.tcb task t1 }
        (none, some g.2,
          task_to_wait_action task (some f.wait_queue) wait_reason_t.WAIT_REASON_WFIXMEM
            timeout s1, none)

/-- `tn_fmem_release` of `tn_mem.c` (with `TN_CHECK_PARAM`). -/
def tn_fmem_release (fuel : Nat) (fmp : Option TN_FMP) (p_data : Nat) (s : KState) :
    Option (osError_t × Option TN_FMP × KState) :=
  match fmp with
  | none => some (osError_t.TERR_WRONG_PARAM, none, s)
  | some f =>
    if p_data = 0 then some (osError_t.TERR_WRONG_PARAM, some f, s)
    else if f.id_fmp ≠ TN_ID_FSMEMORYPOOL then some (osError_t.TERR_NOEXS, some f, s)
    else if ¬ isQueueEmpty f.wait_queue s.queues then
      let r := QueueRemoveHead f.wait_queue s.queues
      let task := r.1.getD TcbRef.null
      let t := s.tcb task
      let t1 : TN_TCB := { t with fmem_data_elem := p_data }
      let s1 : KState := { s with queues := r.2, tcb := Function.update s.tcb task t1 }
      (task_wait_complete fuel task s1).map (fun s2 => (osError_t.TERR_NO_ERR, some f, s2))
    else some (osError_t.TERR_NO_ERR, some (fm_put f p_data).2, s)

/-- Modelled from the spec: `queue_reset` of the queue module (absent): the queue head is
linked to itself, so the queue is empty. -/
def queue_reset (que : QueueRef) (qs : QueueRef → List TcbRef) : QueueRef → List TcbRef :=
  Function.update qs que []

/-- The expression `(x + (TN_ALIG - 1)) & (~(TN_ALIG - 1))` of `tn_fmem_create` in 32-bit
unsigned arithmetic.  The macro `TN_ALIG` is declared in a header that is absent; its value
is the parameter `TN_ALIG`. -/
def align_up (TN_ALIG x : Nat) : Nat :=
  ((x + (TN_ALIG - 1)) % 2 ^ 32) &&& not32 (TN_ALIG - 1)

/-- The loop `while (j > i) { j -= fmp->block_size; fmp->num_blocks--; }` of
`tn_fmem_create`, with 32-bit unsigned `j`; the result is the final `j` and `num_blocks`,
`none` when the loop did not end within `fuel` rounds. -/
def fmem_adjust : Nat → Nat → Nat → Nat → Int → Option (Nat × Int)
  | 0, _, _, _, _ => none
  | fuel + 1, i, block_size, j, num_blocks =>
    if j > i then
      fmem_adjust fuel i block_size ((j + 2 ^ 32 - block_size % 2 ^ 32) % 2 ^ 32)
        (num_blocks - 1)
    else some (j, num_blocks)

/-- The loop of `tn_fmem_create` that links the blocks, for `count` rounds, and the store
`*p_tmp = NULL` after it: the state of the loop is `p_tmp`, `p_block` and the memory cells. -/
def fmem_link (start_addr block_size count : Nat) (cell : Nat → Nat) : Nat → Nat :=
  let r := (List.range count).foldl
    (fun (st : Nat × Nat × (Nat → Nat)) _ =>
      (st.2.1, (st.2.1 + block_size) % 2 ^ 32, Function.update st.2.2 st.1 st.2.1))
    (start_addr, (start_addr + block_size) % 2 ^ 32, cell)
  Function.update r.2.2 r.1 0

/-- `tn_fmem_create` of `tn_mem.c` (with `TN_CHECK_PARAM`).  `fmp` is `none` for a `NULL`
pointer, `start_addr` is an address (`0` for `NULL`), `block_size` is an `unsigned int` and
`num_blocks` an `int`; `unsigned long` has 32 bits and `sizeof(int)` is 4.  `fuel` bounds the
rounds of the `while` loop. -/
def tn_fmem_create (TN_ALIG fuel : Nat) (fmp : Option TN_FMP) (start_addr block_size : Nat)
    (num_blocks : Int) (s : KState) : Option (osError_t × Option TN_FMP × KState) :=
  match fmp with
  | none => some (osError_t.TERR_WRONG_PARAM, none, s)
  | some f =>
    if f.id_fmp = TN_ID_FSMEMORYPOOL then some (osError_t.TERR_WRONG_PARAM, some f, s)
    else if start_addr = 0 ∨ num_blocks < 2 ∨ block_size < 4 then
      some (osError_t.TERR_WRONG_PARAM,
        some { f with fblkcnt := 0, num_blocks := 0, id_fmp := 0, free_list := 0 }, s)
    else
      let s1 : KState := { s with queues := queue_reset f.wait_queue s.queues }
      let start := align_up TN_ALIG start_addr
      let bsz := align_up TN_ALIG block_size
      let n := Int.toNat (num_blocks % 2 ^ 32)
      let i := (start_addr + (block_size * n) % 2 ^ 32) % 2 ^ 32
      let j := (start + (bsz * n) % 2 ^ 32) % 2 ^ 32
      match fmem_adjust fuel i bsz j num_blocks with
      | none => none
      | some r =>
        if r.2 < 2 then
          some (osError_t.TERR_WRONG_PARAM,
            some { f with start_addr := start, block_size := bsz, fblkcnt := 0,
                          num_blocks := 0, free_list := 0 }, s1)
        else
          some (osError_t.TERR_NO_ERR,
            some { f with start_addr := start, block_size := bsz, num_blocks := r.2,
                          cell := fmem_link start bsz (Int.toNat ((r.2 - 1) % 2 ^ 32)) f.cell,
                          free_list := start, fblkcnt := r.2,
                          id_fmp := TN_ID_FSMEMORYPOOL }, s1)

/-- The number `x` rounded up to a multiple of `A`. -/
def round_up (A x : Nat) : Nat := (x + (A - 1)) / A * A

/-- The blocks of a free list: the addresses reached from `p` through the first cells of the
blocks, up to the `NULL` link or for at most the given number of blocks. -/
def free_list_walk (cell : Nat → Nat) : Nat → Nat → List Nat
  | 0, _ => []
  | k + 1, p => if p = 0 then [] else p :: free_list_walk cell k (cell p)

/-- A full buffer (one slot, one message) that exists and has no waiting task in `exReady`. -/
def exMbfFull : TN_MBF :=
  { id := ID_MESSAGEBUF, msz := 2, num_entries := 1, cnt := 1, tail := 0, head := 0 }

/-- An empty buffer that exists. -/
def exMbfEmpty : TN_MBF :=
  { id := ID_MESSAGEBUF, msz := 2, num_entries := 1, cnt := 0, tail := 0, head := 0 }

/-- A pool that exists and has no free block. -/
def exFmpEmpty : TN_FMP :=
  { id_fmp := TN_ID_FSMEMORYPOOL, start_addr := 0x100, block_size := 8, num_blocks := 2 }

/-- The store `task->fmem_data_elem = p_data` of `tn_fmem_release`. -/
def set_fmem_data_elem (task : TcbRef) (p_data : Nat) (s : KState) : KState :=
  let t := s.tcb task
  let t1 : TN_TCB := { t with fmem_data_elem := p_data }
  { s with tcb := Function.update s.tcb task t1 }

/-- Successive `tn_fmem_release` calls on the same pool, one per block address. -/
def fmem_release_all (fuel : Nat) :
    Option TN_FMP → List Nat → KState → Option (Option TN_FMP × KState)
  | f, [], s => some (f, s)
  | f, p :: rest, s =>
    match tn_fmem_release fuel f p s with
    | none => none
    | some r => fmem_release_all fuel r.2.1 rest r.2.2

/-! ## tn_timer.c: the timer task -/

/-- `timer_delete` of `tn_timer.c`: `queue_remove_entry` on the link of the event. -/
def timer_delete (event : TmebRef) (s : KState) : KState :=
  { s with timer_queue := s.timer_queue.erase event }

/-- One round of the `while` loop of `timer_task_func` (`tn_timer.c`) up to
`END_CRITICAL_SECTION`: when the first event of the timer queue is due at `cur_time` it is
detached with `timer_delete` and handed back, together with the new state; `none` when the
loop ends (queue empty, or the first event is still in the future). -/
def timer_task_detach (cur_time : Nat) (s : KState) : Option (TmebRef × KState) :=
  match s.timer_queue with
  | [] => none
  | tm :: _ =>
    if tn_time_after (s.tmeb tm).time cur_time then none
    else some (tm, timer_delete tm s)

/-- The rest of the round, `if (tm->callback != NULL) (*tm->callback)(tm->arg)`, which runs
outside the critical section.  Only the callback of wait timers is part of this model; for
the other callbacks the result is `none`. -/
def timer_task_callback (fuel : Nat) (tm : TmebRef) (s : KState) : Option KState :=
  match (s.tmeb tm).callback, (s.tmeb tm).arg with
  | CBACK.null, _ => some s
  | CBACK.task_wait_release_handler, CbArg.task t => task_wait_release_handler fuel t s
  | _, _ => none

/-- `timer_insert` of `tn_timer.c`: the event gets the callback, the argument and the expiry
`jiffies + time` (a 32-bit sum) and is inserted by `do_timer_insert`. -/
def timer_insert (event : TmebRef) (time : Nat) (callback : CBACK) (arg : CbArg)
    (s : KState) : KState :=
  let e : TMEB := { time := (s.jiffies + time) % 2 ^ 32, callback := callback, arg := arg }
  do_timer_insert event { s with tmeb := Function.update s.tmeb event e }

/-- The timer queue `l` is sorted by ascending expiry in the wrap-around order: no event is
before an event that precedes it in the queue. -/
def TimerSorted (tmeb : TmebRef → TMEB) (l : List TmebRef) : Prop :=
  l.Pairwise (fun a b => tn_time_before (tmeb b).time (tmeb a).time = false)

/-- Distance of the time `x` from the time `t0` on the 32-bit tick circle. -/
def tick_offset (t0 x : Nat) : Nat := (x % 2 ^ 32 + 2 ^ 32 - t0 % 2 ^ 32) % 2 ^ 32

/-- The time `x` lies in the window of `2 ^ 31` ticks that starts at `t0`.  Times that all
lie in one such window are within `2 ^ 31` ticks of each other. -/
def InWindow (t0 x : Nat) : Prop := tick_offset t0 x < 2 ^ 31

/-- One pass of the `while` loop of `timer_task_func` (`tn_timer.c`) for the tick count
`cur_time` read before the loop: as long as the first event of the timer queue is due it is
detached (`timer_task_detach`) and then, outside the critical section, its callback is
called unless it is `NULL`.  The call `(*tm->callback)(tm->arg)` is `run_callback`; `fuel`
bounds the number of rounds.  The result lists the detached events in the order of their
rounds. -/
def timer_task_pass (run_callback : CBACK → CbArg → KState → KState) (cur_time : Nat) :
    Nat → KState → Option (List TmebRef × KState)
  | 0, _ => none
  | fuel + 1, s =>
    match timer_task_detach cur_time s with
    | none => some ([], s)
    | some (tm, s1) =>
      let s2 :=
        if (s1.tmeb tm).callback ≠ CBACK.null then
          run_callback (s1.tmeb tm).callback (s1.tmeb tm).arg s1
        else s1
      (timer_task_pass run_callback cur_time fuel s2).map (fun r => (tm :: r.1, r.2))

/-- The value `NO_TIME_SLICE` of an entry of `tslice_ticks`: no round-robin at that priority.
Modelled from the spec: the constant is declared in a header that is absent. -/
def NO_TIME_SLICE : Nat := 0

/-- Modelled from the spec: `queue_remove_tail` of the queue module (absent): the last entry
leaves the queue and is returned (`NULL` for an empty queue). -/
def queue_remove_tail (que : QueueRef) (qs : QueueRef → List TcbRef) :
    Option TcbRef × (QueueRef → List TcbRef) :=
  ((qs que).getLast?, Function.update qs que (qs que).dropLast)

/-- Store `n` in the `tslice_count` field of `task`. -/
def set_tslice_count (task : TcbRef) (n : Nat) (s : KState) : KState :=
  let t := s.tcb task
  let t1 : TN_TCB := { t with tslice_count := n }
  { s with tcb := Function.update s.tcb task t1 }

/-- The round-robin part of `tick_int_processing` (`tn_timer.c`, with `ROUND_ROBIN_ENABLE`).
The array `tslice_ticks` is a parameter.  The test `pri_queue->next->next != pri_queue` on a
non-empty queue says that the queue holds a second entry. -/
def tick_round_robin (tslice_ticks : Nat → Nat) (s : KState) : KState :=
  let priority := (s.tcb s.curr).priority
  if tslice_ticks priority ≠ NO_TIME_SLICE then
    let s1 := set_tslice_count s.curr ((s.tcb s.curr).tslice_count + 1) s
    if (s1.tcb s1.curr).tslice_count > tslice_ticks priority then
      let s2 := set_tslice_count s1.curr 0 s1
      let pri_queue := QueueRef.ready priority
      if ¬ isQueueEmpty pri_queue s2.queues ∧ (s2.queues pri_queue).tail ≠ [] then
        let r := queue_remove_tail pri_queue s2.queues
        { s2 with queues := QueueAddHead pri_queue (r.1.getD TcbRef.null) r.2 }
      else s2
    else s1
  else s

/-- `tick_int_processing` of `tn_timer.c`: the round-robin part, then the timer task
`timer_task` is made ready at priority 0 and becomes the next task. -/
def tick_int_processing (timer_task : TcbRef) (tslice_ticks : Nat → Nat) (s : KState) :
    KState :=
  let s1 := tick_round_robin tslice_ticks s
  let t := s1.tcb timer_task
  let t1 : TN_TCB := { t with state := TSK_STATE_RUNNABLE, pwait_queue := none }
  { s1 with
    queues := QueueAddTail (QueueRef.ready 0) timer_task (QueueRemoveEntry timer_task s1.queues)
    tcb := Function.update s1.tcb timer_task t1
    ready_to_run_bmp := (s1.ready_to_run_bmp ||| 1) % 2 ^ 32
    next := timer_task
    switch_req := true }

/-- Store `n` in the `time` field of `task`. -/
def set_time (task : TcbRef) (n : Nat) (s : KState) : KState :=
  let t := s.tcb task
  let t1 : TN_TCB := { t with time := n }
  { s with tcb := Function.update s.tcb task t1 }

/-- `tn_timer` of `tn_timer.c`, the handler of the tick interrupt.  `os_period` is the global
of that name and `running` says that `tn_system_state` is `TN_ST_STATE_RUNNING`; the sums
are 32-bit. -/
def tn_timer (timer_task : TcbRef) (tslice_ticks : Nat → Nat) (os_period : Nat)
    (running : Bool) (s : KState) : KState :=
  let s1 : KState := { s with jiffies := (s.jiffies + os_period) % 2 ^ 32 }
  if running then
    tick_int_processing timer_task tslice_ticks
      (set_time s1.curr (((s1.tcb s1.curr).time + os_period) % 2 ^ 32) s1)
  else s1

/-- Modelled from the spec: the context switch that the port performs after a switch
request (absent): the next task becomes the current one. -/
def context_switch (s : KState) : KState :=
  { s with curr := s.next, switch_req := false }

/-- The end of a pass of `timer_task_func` in which nothing more is due: the timer task,
which is the current task, goes to sleep by
`task_curr_to_wait_action(NULL, TSK_WAIT_REASON_SLEEP, TN_WAIT_INFINITE)`.  Modelled from the
spec: `task_curr_to_wait_action` is absent; it is the enter-wait of the current task. -/
def timer_task_sleep (s : KState) : KState :=
  task_to_wait_action s.curr none wait_reason_t.WAIT_REASON_SLEEP TN_WAIT_INFINITE s

/-- A whole tick on which no timer is due: the tick interrupt (`tn_timer` with period 1), the
switch to the timer task, the timer task finds nothing due and goes to sleep, and the switch
to the next task. -/
def system_tick (timer_task : TcbRef) (tslice_ticks : Nat → Nat) (s : KState) : KState :=
  context_switch (timer_task_sleep (context_switch (tn_timer timer_task tslice_ticks 1 true s)))

/-- One round of the `while` loop of `timer_task_func` for the due event `tm`: the event is
detached by `timer_delete`, and then, outside the critical section, its callback is called
unless it is `NULL` (`run_callback` is the call `(*tm->callback)(tm->arg)`). -/
def timer_task_round (run_callback : CBACK → CbArg → KState → KState) (tm : TmebRef)
    (s : KState) : KState :=
  let s1 := timer_delete tm s
  if (s1.tmeb tm).callback ≠ CBACK.null then
    run_callback (s1.tmeb tm).callback (s1.tmeb tm).arg s1
  else s1

/-- Modelled from the spec: the macro `tn_time_before_eq(a, b)` (header absent): `a` is not
after `b` in the wrap-around order of the 32-bit tick counter, i.e. the signed 32-bit
difference `a - b` is not positive. -/
def tn_time_before_eq (a b : Nat) : Bool :=
  decide ((a % 2 ^ 32 + 2 ^ 32 - b % 2 ^ 32) % 2 ^ 32 = 0 ∨
    2 ^ 31 ≤ (a % 2 ^ 32 + 2 ^ 32 - b % 2 ^ 32) % 2 ^ 32)

/-- Modelled from the spec: the control block `TN_CYCLIC` of a cyclic handler (header
absent), with the fields that `cyc_next_time` reads: the timer event `tmeb`, whose `time` is
the last expiry, and the period `time`. -/
structure TN_CYCLIC where
  tmeb : TMEB := {}
  time : Nat := 0
  deriving DecidableEq, Repr

/-- `cyc_next_time` of `tn_timer.c`: the next expiry of a cyclic handler.  `TIME` and
`unsigned int` are 32 bits wide; the division is that of C for a period that is not zero. -/
def cyc_next_time (cyc : TN_CYCLIC) (s : KState) : Nat :=
  let tm := (cyc.tmeb.time + cyc.time) % 2 ^ 32
  if tn_time_before_eq tm s.jiffies then
    let tm := (s.jiffies % 2 ^ 32 + 2 ^ 32 - cyc.tmeb.time % 2 ^ 32) % 2 ^ 32
    let n := tm / cyc.time
    let n := (n + 1) % 2 ^ 32
    let tm := (n * cyc.time) % 2 ^ 32
    (cyc.tmeb.time + tm) % 2 ^ 32
  else tm

/-! ## kernel.c: the kernel state machine -/

/-- Kernel states.  Modelled from the spec: the enumeration `osKernelState_t` is declared in
a header that is absent; `osKernelInactive` is the value `0` that `memset` leaves behind. -/
inductive osKernelState_t
  | osKernelInactive
  | osKernelReady
  | osKernelRunning
  | osKernelLocked
  deriving DecidableEq, Repr

/-- Status code `osOK`.  Modelled from the spec: `osStatus_t` is declared in a header that
is absent. -/
def osOK : Int := 0

/-- Status code `osError`.  Modelled from the spec: `osStatus_t` is declared in a header
that is absent; an error code is negative ("error code if negative" in the documentation of
`osKernelLock`). -/
def osError : Int := -1

/-- The kernel data `osInfo` of `kernel.c` (the fields its functions read or write), and the
`CONTROL` register that `KernelStart` sets.  Modelled from the spec: `osInfo_t` is declared
in a header that is absent. -/
structure osInfo_t where
  kernel_state : osKernelState_t := osKernelState_t.osKernelInactive
  kernel_tick : Nat := 0
  base_priority : Nat := 0
  run_curr : TcbRef := TcbRef.null
  run_next : TcbRef := TcbRef.null
  ready_list : Nat → List TcbRef := fun _ => []
  timer_queue : List TmebRef := []
  delay_queue : List TcbRef := []
  timer_semaphore : Nat := 0
  CONTROL : Nat := 0

/-- What `KernelStart` calls outside `kernel.c` (thread library, system adapter and
configuration, all absent): they are parameters of the model. -/
structure KernelEnv where
  libThreadStartup : osInfo_t → Bool × osInfo_t
  SystemIsrInit : Nat
  libThreadHighestPrioGet : osInfo_t → TcbRef
  libThreadSwitch : TcbRef → osInfo_t → osInfo_t
  max_api_interrupt_priority : Nat
  privileged : Bool

/-- `KernelInitialize` of `kernel.c`.  `memset` and the `QueueReset` calls leave every
field zero and every queue empty. -/
def KernelInitialize (o : osInfo_t) : Int × osInfo_t :=
  if o.kernel_state = osKernelState_t.osKernelReady then (osOK, o)
  else if o.kernel_state ≠ osKernelState_t.osKernelInactive then (osError, o)
  else
    let o1 : osInfo_t := {}
    (osOK, { o1 with kernel_state := osKernelState_t.osKernelReady })

/-- `KernelGetState` of `kernel.c`. -/
def KernelGetState (o : osInfo_t) : osKernelState_t := o.kernel_state

/-- `KernelStart` of `kernel.c`. -/
def KernelStart (env : KernelEnv) (o : osInfo_t) : Int × osInfo_t :=
  if o.kernel_state ≠ osKernelState_t.osKernelReady then (osError, o)
  else
    let r := env.libThreadStartup o
    if ¬ r.1 then (osError, r.2)
    else
      let o1 : osInfo_t :=
        { r.2 with base_priority :=
            ((env.max_api_interrupt_priority <<< env.SystemIsrInit) % 2 ^ 32) &&& 0xFF }
      let thread := env.libThreadHighestPrioGet o1
      if thread = TcbRef.null then (osError, o1)
      else
        let o2 := env.libThreadSwitch thread o1
        let o3 : osInfo_t := { o2 with CONTROL := if env.privileged then 0x02 else 0x03 }
        (osOK, { o3 with kernel_state := osKernelState_t.osKernelRunning })

/-- `KernelLock` of `kernel.c`: the return value is the previous lock state. -/
def KernelLock (o : osInfo_t) : Int × osInfo_t :=
  match o.kernel_state with
  | osKernelState_t.osKernelRunning =>
    (0, { o with kernel_state := osKernelState_t.osKernelLocked })
  | osKernelState_t.osKernelLocked => (1, o)
  | _ => (osError, o)

/-- `KernelUnlock` of `kernel.c`: the return value is the previous lock state. -/
def KernelUnlock (o : osInfo_t) : Int × osInfo_t :=
  match o.kernel_state with
  | osKernelState_t.osKernelRunning => (0, o)
  | osKernelState_t.osKernelLocked =>
    (1, { o with kernel_state := osKernelState_t.osKernelRunning })
  | _ => (osError, o)

/-- `KernelRestoreLock` of `kernel.c`. -/
def KernelRestoreLock (lock : Int) (o : osInfo_t) : Int × osInfo_t :=
  match o.kernel_state with
  | osKernelState_t.osKernelRunning | osKernelState_t.osKernelLocked =>
    if lock = 0 then (0, { o with kernel_state := osKernelState_t.osKernelRunning })
    else if lock = 1 then (1, { o with kernel_state := osKernelState_t.osKernelLocked })
    else (osError, o)
  | _ => (osError, o)

/-- One call of a service of the kernel state machine. -/
inductive KernelStep (env : KernelEnv) : osInfo_t → osInfo_t → Prop
  | init (o : osInfo_t) : KernelStep env o (KernelInitialize o).2
  | start (o : osInfo_t) : KernelStep env o (KernelStart env o).2
  | lock (o : osInfo_t) : KernelStep env o (KernelLock o).2
  | unlock (o : osInfo_t) : KernelStep env o (KernelUnlock o).2
  | restore_lock (o : osInfo_t) (lock : Int) : KernelStep env o (KernelRestoreLock lock o).2

/-! ## thread.c: the scheduler core of the thread interface

In `thread.c` a numerically higher priority is the more urgent one, the ready queue of
priority `p` is `ready_list[p - 1]`, and the running thread stays linked in its ready
queue. -/

namespace thread_c

/-- Thread states.  Modelled from the spec: the enumeration `osThreadState_t` is declared in
a header that is absent; the states are those the code names. -/
inductive osThreadState_t
  | ThreadStateInactive
  | ThreadStateReady
  | ThreadStateRunning
  | ThreadStateBlocked
  | ThreadStateTerminated
  deriving DecidableEq, Repr

/-- Thread control block `osThread_t` (the fields the scheduler core reads or writes).
Modelled from the spec: the structure is declared in a header that is absent. -/
structure osThread_t where
  id : Nat := 0
  state : osThreadState_t := osThreadState_t.ThreadStateInactive
  priority : Nat := 0
  base_priority : Nat := 0
  ret_val : Nat := 0
  name : Nat := 0
  stk_mem : Nat := 0
  stk_size : Nat := 0
  stk : Nat := 0
  tslice_count : Nat := 0
  mutex_que : List Nat := []
  deriving DecidableEq, Repr

/-- The kernel data `knlInfo` as `thread.c` uses it, thread memory, the owner field of
each mutex (named by the address of its wait queue), and the word memory `ram` that holds the
thread stacks, addressed by byte address.  Modelled from the spec: `knlInfo_t`
of this interface and the mutex object are declared in headers that are absent. -/
structure knlInfo_t where
  run_curr : TcbRef := TcbRef.null
  run_next : TcbRef := TcbRef.null
  switch_req : Bool := false
  jiffies : Nat := 0
  ready_to_run_bmp : Nat := 0
  queues : QueueRef → List TcbRef := fun _ => []
  thread : TcbRef → osThread_t := fun _ => {}
  timer_queue : List TmebRef := []
  owner : QueueRef → TcbRef := fun _ => TcbRef.null
  tmeb : TmebRef → TMEB := fun _ => {}
  ram : Nat → Nat := fun _ => 0

/-- The instruction `__CLZ`: the number of leading zero bits of a 32-bit word. -/
def CLZ (x : Nat) : Nat :=
  ((List.range 32).find? (fun i => x &&& (1 <<< (31 - i)) != 0)).getD 32

/-- The index `thread->priority - 1U` stored in an `int8_t`, used as an index into
`ready_list`; for priority `0` the 8-bit pattern is `255`. -/
def ready_index (priority : Nat) : Nat := (priority + 255) % 256

/-- Modelled from the spec: `ThreadGetRunning` (absent): the current thread of the running
pair, `knlInfo.run.curr`. -/
def ThreadGetRunning (k : knlInfo_t) : TcbRef := k.run_curr

/-- `ThreadHighestPrioGet` of `thread.c`: the first thread of the ready queue of the highest
set bit of the bitmap (`NUM_PRIORITY` is 32). -/
def ThreadHighestPrioGet (k : knlInfo_t) : TcbRef :=
  let priority := (31 + 256 - CLZ k.ready_to_run_bmp) % 256
  get_task_by_tsk_queue (QueueRef.ready priority) k.queues

/-- Store `st` in the `state` field of `thread`. -/
def set_state (thread : TcbRef) (st : osThreadState_t) (k : knlInfo_t) : knlInfo_t :=
  let t := k.thread thread
  let t1 : osThread_t := { t with state := st }
  { k with thread := Function.update k.thread thread t1 }

/-- `ThreadSwitch` of `thread.c`. -/
def ThreadSwitch (thread : TcbRef) (k : knlInfo_t) : knlInfo_t :=
  let k1 := set_state thread osThreadState_t.ThreadStateRunning k
  { k1 with run_next := thread, switch_req := true }

/-- `ThreadDispatch` of `thread.c`; `TcbRef.null` is the `NULL` argument. -/
def ThreadDispatch (thread : TcbRef) (k : knlInfo_t) : knlInfo_t :=
  let thread := if thread = TcbRef.null then ThreadHighestPrioGet k else thread
  let thread_running := ThreadGetRunning k
  if (k.thread thread).priority > (k.thread thread_running).priority then
    ThreadSwitch thread (set_state thread_running osThreadState_t.ThreadStateReady k)
  else k

/-- `ThreadReadyAdd` of `thread.c`. -/
def ThreadReadyAdd (thread : TcbRef) (k : knlInfo_t) : knlInfo_t :=
  let priority := ready_index (k.thread thread).priority
  let k1 : knlInfo_t := { k with queues := QueueRemoveEntry thread k.queues }
  let k2 := set_state thread osThreadState_t.ThreadStateReady k1
  { k2 with
    queues := QueueAddTail (QueueRef.ready priority) thread k2.queues
    ready_to_run_bmp := (k2.ready_to_run_bmp ||| bit32 priority) % 2 ^ 32 }

/-- `ThreadReadyDel` of `thread.c`. -/
def ThreadReadyDel (thread : TcbRef) (k : knlInfo_t) : knlInfo_t :=
  let priority := ready_index (k.thread thread).priority
  let k1 : knlInfo_t := { k with queues := QueueRemoveEntry thread k.queues }
  if isQueueEmpty (QueueRef.ready priority) k1.queues then
    { k1 with ready_to_run_bmp := k1.ready_to_run_bmp &&& not32 (bit32 priority) }
  else k1

/-- Store `priority` in the `priority` field of `thread`. -/
def set_priority (thread : TcbRef) (priority : Nat) (k : knlInfo_t) : knlInfo_t :=
  let t := k.thread thread
  let t1 : osThread_t := { t with priority := priority }
  { k with thread := Function.update k.thread thread t1 }

/-- Store `priority` in the `base_priority` field of `thread`. -/
def set_base_priority (thread : TcbRef) (priority : Nat) (k : knlInfo_t) : knlInfo_t :=
  let t := k.thread thread
  let t1 : osThread_t := { t with base_priority := priority }
  { k with thread := Function.update k.thread thread t1 }

/-- `_ThreadSetPriority` of `thread.c`. -/
def _ThreadSetPriority (thread : TcbRef) (priority : Nat) (k : knlInfo_t) : knlInfo_t :=
  if (k.thread thread).priority ≠ priority then
    let k1 := set_base_priority thread priority k
    if (k1.thread thread).state = osThreadState_t.ThreadStateBlocked then
      set_priority thread priority k1
    else
      ThreadDispatch TcbRef.null
        (ThreadReadyAdd thread (set_priority thread priority (ThreadReadyDel thread k1)))
  else k

/-- The threads of the list whose state is `ThreadStateRunning`. -/
def running_threads (L : List TcbRef) (k : knlInfo_t) : List TcbRef :=
  L.filter (fun t => decide ((k.thread t).state = osThreadState_t.ThreadStateRunning))

/-- The held-mutex invariant on the thread interface: for every mutex with an owner, the
priority of the owner is in relation `r` to the priority of every thread in the wait queue of
the mutex.  `r` is "at least as urgent as": numerically `≤` in the reading of the invariant
for `task.c`, numerically `≥` in the priority order of `thread.c`. -/
def MutexInv (r : Nat → Nat → Prop) (k : knlInfo_t) : Prop :=
  ∀ m w, k.owner (QueueRef.wait m) ≠ TcbRef.null → w ∈ k.queues (QueueRef.wait m) →
    r (k.thread (k.owner (QueueRef.wait m))).priority (k.thread w).priority

/-- Priority `p` for `thread` is compatible with the mutexes of state `k`: it is in relation
`r` to the priority of every other thread that waits for a mutex `thread` owns, and the
priority of the owner of every mutex that `thread` waits for is in relation `r` to it. -/
def Admissible (r : Nat → Nat → Prop) (thread : TcbRef) (p : Nat) (k : knlInfo_t) : Prop :=
  (∀ m w, k.owner (QueueRef.wait m) = thread → w ∈ k.queues (QueueRef.wait m) → w ≠ thread →
    r p (k.thread w).priority) ∧
  (∀ m, k.owner (QueueRef.wait m) ≠ TcbRef.null → thread ∈ k.queues (QueueRef.wait m) →
    k.owner (QueueRef.wait m) ≠ thread → r (k.thread (k.owner (QueueRef.wait m))).priority p)

/-- The thread that `ThreadDispatch(thread)` considers: its argument, or for `NULL` the ready
thread of highest priority. -/
def dispatch_target (thread : TcbRef) (k : knlInfo_t) : TcbRef :=
  if thread = TcbRef.null then ThreadHighestPrioGet k else thread

/-- Modelled from the spec: the timeout value `osWaitForever` (declared in a header that is
absent): the all-ones 32-bit word. -/
def osWaitForever : Nat := 0xFFFFFFFF

/-- Modelled from the spec: `TimerInsert` of the timer module used by `thread.c` (definition
absent): the event gets the callback, the argument and the expiry `time`, and is inserted
into the timer queue, which is ordered by ascending expiry. -/
def TimerInsert (event : TmebRef) (time : Nat) (callback : CBACK) (arg : CbArg)
    (k : knlInfo_t) : knlInfo_t :=
  let e : TMEB := { time := time % 2 ^ 32, callback := callback, arg := arg }
  let tmeb := Function.update k.tmeb event e
  { k with tmeb := tmeb, timer_queue := do_timer_insert_walk tmeb event k.timer_queue }

/-- `_ThreadWaitEnter` of `thread.c`; `none` is the `NULL` wait queue. -/
def _ThreadWaitEnter (thread : TcbRef) (wait_que : Option QueueRef) (timeout : Nat)
    (k : knlInfo_t) : knlInfo_t :=
  let k1 := ThreadReadyDel thread k
  let k2 := set_state thread osThreadState_t.ThreadStateBlocked k1
  let k3 : knlInfo_t :=
    match wait_que with
    | some q => { k2 with queues := QueueAddTail q thread k2.queues }
    | none => k2
  let k4 :=
    if timeout ≠ osWaitForever then
      TimerInsert (TmebRef.wait_timer thread) (k3.jiffies + timeout)
        CBACK.ThreadWaitExit_Handler (CbArg.task thread) k3
    else k3
  ThreadSwitch (ThreadHighestPrioGet k4) k4

/-- `ThreadYield` of `thread.c`. -/
def ThreadYield (k : knlInfo_t) : Int × knlInfo_t :=
  let thread_running := ThreadGetRunning k
  let priority := ready_index (k.thread thread_running).priority
  let que := QueueRef.ready priority
  let k1 : knlInfo_t := { k with queues := QueueRemoveEntry thread_running k.queues }
  let k2 :=
    if ¬ isQueueEmpty que k1.queues then
      let k3 := set_state thread_running osThreadState_t.ThreadStateReady k1
      let thread_ready := get_task_by_tsk_queue que k3.queues
      ThreadSwitch thread_ready k3
    else k1
  (osOK, { k2 with queues := QueueAddTail que thread_running k2.queues })

/-- Thread attributes `osThreadAttr_t`, with the fields that `ThreadNew` reads.  Modelled from
the spec: the structure is declared in a header that is absent.  `cb_mem` is the memory for
the control block (`TcbRef.null` for `NULL`), `stack_mem` the address of the stack (`0` for
`NULL`); the values of `osPriority_t` are taken as natural numbers. -/
structure osThreadAttr_t where
  name : Nat := 0
  cb_mem : TcbRef := TcbRef.null
  cb_size : Nat := 0
  stack_mem : Nat := 0
  stack_size : Nat := 0
  priority : Nat := 0
  deriving DecidableEq, Repr

/-- The constants that `ThreadNew` and `ThreadStackInit` use.  Modelled from the spec: they
are declared in headers that are absent, so their values are parameters: the priorities
`osPriorityNone`, `osPriorityIdle`, `osPriorityNormal` and `osPriorityISR`, the identity tag
`ID_THREAD`, the fill word `FILL_STACK_VALUE`, `sizeof(osThread_t)` and the address of
`osThreadExit`. -/
structure ThreadConst where
  osPriorityNone : Nat
  osPriorityIdle : Nat
  osPriorityNormal : Nat
  osPriorityISR : Nat
  ID_THREAD : Nat
  FILL_STACK_VALUE : Nat
  sizeof_osThread_t : Nat
  osThreadExit : Nat
  deriving DecidableEq, Repr

/-- The store `*(--stk) = v` on a 32-bit machine: the stack pointer goes down by one word and
the word is stored there. -/
def stack_push (st : Nat × (Nat → Nat)) (v : Nat) : Nat × (Nat → Nat) :=
  let sp := (st.1 + 2 ^ 32 - 4) % 2 ^ 32
  (sp, Function.update st.2 sp v)

/-- The sixteen words that `ThreadStackInit` stores, in the order of the stores: xPSR, the
entry point, R14 (the address of `osThreadExit`), R12, R3, R2, R1, R0 (the argument of the
thread function), R11 down to R4. -/
def frame_words (c : ThreadConst) (func_addr func_param : Nat) : List Nat :=
  [0x01000000, func_addr, c.osThreadExit, 0x12121212, 0x03030303, 0x02020202,
    0x01010101, func_param, 0x11111111, 0x10101010, 0x09090909, 0x08080808, 0x07070707,
    0x06060606, 0x05050505, 0x04040404]

/-- `ThreadStackInit` of `thread.c`: the sixteen words of the initial frame are stored below
`stk_mem + stk_size`, and the final stack pointer is saved in `thread->stk`. -/
def ThreadStackInit (c : ThreadConst) (func_addr func_param : Nat) (thread : TcbRef)
    (k : knlInfo_t) : knlInfo_t :=
  let stk := ((k.thread thread).stk_mem + (k.thread thread).stk_size) % 2 ^ 32
  let r := (frame_words c func_addr func_param).foldl stack_push (stk, k.ram)
  let t := k.thread thread
  let t1 : osThread_t := { t with stk := r.1 }
  { k with ram := r.2, thread := Function.update k.thread thread t1 }

/-- The loop `for (i = stack_size/sizeof(uint32_t); i != 0U; --i) *ptr++ = FILL_STACK_VALUE`
of `ThreadNew`, for `n` words from `stack_mem` upwards. -/
def fill_stack (fill stack_mem n : Nat) (ram : Nat → Nat) : Nat → Nat :=
  (List.range n).foldl (fun r j => Function.update r ((stack_mem + 4 * j) % 2 ^ 32) fill) ram

/-- `ThreadNew` of `thread.c`.  `attr` is `none` for a `NULL` pointer; the result is the
returned pointer (`TcbRef.null` for `NULL`) and the new state.  The cast `(int8_t)priority`
keeps the low eight bits.  The `QueueReset` calls re-initialise links of the control block
itself: the list of held mutexes becomes empty, and the thread link and the timer link stay
in no queue. -/
def ThreadNew (c : ThreadConst) (func_addr argument : Nat)
    (attr : Option osThreadAttr_t) (k : knlInfo_t) : TcbRef × knlInfo_t :=
  match attr with
  | none => (TcbRef.null, k)
  | some a =>
    if func_addr = 0 then (TcbRef.null, k)
    else if a.cb_mem = TcbRef.null ∨ a.cb_size < c.sizeof_osThread_t then (TcbRef.null, k)
    else if a.stack_mem = 0 ∨ a.stack_mem &&& 7 ≠ 0 ∨ a.stack_size < 64 ∨
        a.stack_size &&& 7 ≠ 0 then (TcbRef.null, k)
    else if a.priority ≠ c.osPriorityNone ∧
        (a.priority < c.osPriorityIdle ∨ a.priority > c.osPriorityISR) then (TcbRef.null, k)
    else
      let priority := if a.priority = c.osPriorityNone then c.osPriorityNormal else a.priority
      let thread := a.cb_mem
      let t := k.thread thread
      let t1 : osThread_t :=
        { t with stk_mem := a.stack_mem, stk_size := a.stack_size,
                 base_priority := priority % 256, priority := priority % 256,
                 name := a.name, id := c.ID_THREAD, tslice_count := 0, mutex_que := [] }
      let k1 : knlInfo_t :=
        { k with thread := Function.update k.thread thread t1
                 ram := fill_stack c.FILL_STACK_VALUE a.stack_mem (a.stack_size / 4) k.ram }
      let k2 := ThreadStackInit c func_addr argument thread k1
      (thread, ThreadDispatch thread (ThreadReadyAdd thread k2))

end thread_c

/-- The kernel data of a system that uses the kernel services of `kernel.c` and the
scheduler core of `thread.c`: `osInfo`, which holds the kernel state, and `knlInfo`. -/
structure System where
  osInfo : osInfo_t := {}
  knlInfo : thread_c.knlInfo_t := {}

/-- `ThreadDispatch` of `thread.c` as a step of the whole system: the function reads and
writes `knlInfo` and thread control blocks only. -/
def sys_ThreadDispatch (thread : TcbRef) (σ : System) : System :=
  { σ with knlInfo := thread_c.ThreadDispatch thread σ.knlInfo }

/-- What the end of the wait of a suspended task `w` with result code `rc` leaves, from `s`
to `s'`: `w` is in state SUSPEND and in no ready queue, the ready queues, the ready bitmap
and the next task are as before, `rc` is in the result cell of `w`, and `TaskResume` then
makes `w` RUNNABLE at the tail of the ready queue of its priority. -/
def SuspendedExit (w : TcbRef) (rc : osError_t) (s s' : KState) : Prop :=
  (s'.tcb w).state = TSK_STATE_SUSPEND ∧
  (∀ p, w ∉ s'.queues (QueueRef.ready p)) ∧
  (∀ p, s'.queues (QueueRef.ready p) = s.queues (QueueRef.ready p)) ∧
  s'.ready_to_run_bmp = s.ready_to_run_bmp ∧ s'.next = s.next ∧
  (∀ a, (s.tcb w).wait_rc = some a → s'.rc_mem a = rc) ∧
  (TaskResume w s').1 = osError_t.TERR_NO_ERR ∧
  ((TaskResume w s').2.tcb w).state = TSK_STATE_RUNNABLE ∧
  (TaskResume w s').2.queues (QueueRef.ready (s.tcb w).priority)
    = s.queues (QueueRef.ready (s.tcb w).priority) ++ [w]

/-! ## The held-mutex invariant -/

/-- The held-mutex invariant of `task.c`: for every mutex with a holder, the priority of
the holder is numerically at most the priority of every task in the wait queue of the
mutex. -/
def MutexInv (s : KState) : Prop :=
  ∀ m w, s.holder (some (QueueRef.wait m)) ≠ TcbRef.null → w ∈ s.queues (QueueRef.wait m) →
    (s.tcb (s.holder (some (QueueRef.wait m)))).priority ≤ (s.tcb w).priority

/-- Priority `p` for `task` is compatible with the mutexes of state `s`: it is numerically
at most the priority of every other task that waits for a mutex `task` holds, and at least
the priority of the holder of every mutex that `task` waits for. -/
def Admissible (task : TcbRef) (p : Nat) (s : KState) : Prop :=
  (∀ m w, s.holder (some (QueueRef.wait m)) = task → w ∈ s.queues (QueueRef.wait m) →
    w ≠ task → p ≤ (s.tcb w).priority) ∧
  (∀ m, s.holder (some (QueueRef.wait m)) ≠ TcbRef.null →
    task ∈ s.queues (QueueRef.wait m) → s.holder (some (QueueRef.wait m)) ≠ task →
    (s.tcb (s.holder (some (QueueRef.wait m)))).priority ≤ p)

/-! ## Invariants of the ready set -/

/-- Bit `p` of the ready bitmap is set iff `ready_list[p]` is not empty, for `p` in `0..31`. -/
def ReadyBitmapInv (s : KState) : Prop :=
  ∀ p, p < 32 → (s.ready_to_run_bmp.testBit p = true ↔ s.queues (QueueRef.ready p) ≠ [])

/-- Every RUNNABLE task is linked into the ready queue of its priority. -/
def RunnableLinked (s : KState) : Prop :=
  ∀ t, (s.tcb t).state = TSK_STATE_RUNNABLE → t ∈ s.queues (QueueRef.ready (s.tcb t).priority)

/-- A control block has a single `task_queue` link: it is linked into at most one queue, and
at most once. -/
def LinkedOnce (s : KState) : Prop :=
  (∀ q, (s.queues q).Nodup) ∧ ∀ t q q', t ∈ s.queues q → t ∈ s.queues q' → q = q'

/-- Well-formed queues: every control block is linked at most once, every RUNNABLE task is
linked into the ready queue of its priority, `NULL` is linked nowhere, and every timer event
is linked into the timer queue at most once. -/
def KWF (s : KState) : Prop :=
  LinkedOnce s ∧ RunnableLinked s ∧ (∀ q, TcbRef.null ∉ s.queues q) ∧ s.timer_queue.Nodup

/-! ## Priority inheritance chains -/

/-- The task is in a WAIT state with reason `WAIT_REASON_MUTEX_I`. -/
def WaitsOnInheritanceMutex (s : KState) (t : TcbRef) : Prop :=
  (s.tcb t).state &&& TSK_STATE_WAIT ≠ 0 ∧
  (s.tcb t).wait_reason = wait_reason_t.WAIT_REASON_MUTEX_I

/-- The wait-for chain `h0, h1, ..., hk`: every task but the last waits on an inheritance
mutex whose holder is the next task of the chain; the chain ends at `hk`, which does not
itself wait on an inheritance mutex. -/
def MutexChain (s : KState) : List TcbRef → Prop
  | [] => False
  | [hk] => ¬ WaitsOnInheritanceMutex s hk
  | h :: h' :: rest =>
    WaitsOnInheritanceMutex s h ∧
    s.holder (get_mutex_by_wait_queque (s.tcb h).pwait_queue) = h' ∧
    MutexChain s (h' :: rest)

/-- The tasks of the chain that come before the first one whose priority is already
numerically `≤ p`. -/
def boosted (s : KState) (p : Nat) (chain : List TcbRef) : List TcbRef :=
  chain.takeWhile (fun t => decide (p < (s.tcb t).priority))

/-! ## Example states -/

/-- The transitive-boost scenario of the spec.  Task 1 is L (priority 10, RUNNABLE, holds
m1), task 2 is M (priority 7, holds m2, waits on m1), task 3 is H (priority 3, blocks on
m2), task 0 is the idle task.  The wait queue of m1 is `wait 11`, that of m2 is `wait 12`. -/
def exBoost : KState :=
  { curr := TcbRef.task 3
    next := TcbRef.task 1
    ready_to_run_bmp := 2 ^ 10 + 2 ^ 31
    queues := fun q =>
      if q = QueueRef.ready 10 then [TcbRef.task 1]
      else if q = QueueRef.ready 31 then [TcbRef.task 0]
      else if q = QueueRef.wait 11 then [TcbRef.task 2]
      else if q = QueueRef.wait 12 then [TcbRef.task 3] else []
    tcb := fun t =>
      if t = TcbRef.task 1 then
        { priority := 10, base_priority := 10, state := TSK_STATE_RUNNABLE }
      else if t = TcbRef.task 2 then
        { priority := 7, base_priority := 7, state := TSK_STATE_WAIT,
          wait_reason := wait_reason_t.WAIT_REASON_MUTEX_I,
          pwait_queue := some (QueueRef.wait 11) }
      else if t = TcbRef.task 3 then
        { priority := 3, base_priority := 3, state := TSK_STATE_WAIT,
          wait_reason := wait_reason_t.WAIT_REASON_MUTEX_I,
          pwait_queue := some (QueueRef.wait 12) }
      else if t = TcbRef.task 0 then
        { priority := 31, base_priority := 31, state := TSK_STATE_RUNNABLE }
      else {}
    holder := fun m =>
      if m = some (QueueRef.wait 11) then TcbRef.task 1
      else if m = some (QueueRef.wait 12) then TcbRef.task 2 else TcbRef.null }


/-- A running system with three tasks: task 0 is the idle task (priority 31), task 1 is
RUNNABLE at priority 5 and is the current task, task 2 is DORMANT (priority 7) and linked
nowhere. -/
def exReady : KState :=
  { curr := TcbRef.task 1
    next := TcbRef.task 1
    ready_to_run_bmp := 2 ^ 5 + 2 ^ 31
    queues := fun q =>
      if q = QueueRef.ready 5 then [TcbRef.task 1]
      else if q = QueueRef.ready 31 then [TcbRef.task 0] else []
    tcb := fun t =>
      if t = TcbRef.task 1 then { priority := 5, base_priority := 5, state := TSK_STATE_RUNNABLE }
      else if t = TcbRef.task 0 then
        { priority := 31, base_priority := 31, state := TSK_STATE_RUNNABLE }
      else { priority := 7, base_priority := 7, state := TSK_STATE_DORMANT } }

/-- A message buffer is being deleted while two tasks wait in its receive queue `wait 1`:
task 2 (priority 5) waits with a timeout and the result cell `0x30`, task 3 (priority 6) was
suspended while waiting and has no result cell.  Task 1 runs, task 0 is the idle task. -/
def exDelete : KState :=
  { curr := TcbRef.task 1
    next := TcbRef.task 1
    jiffies := 100
    ready_to_run_bmp := 2 ^ 4 + 2 ^ 31
    queues := fun q =>
      if q = QueueRef.ready 4 then [TcbRef.task 1]
      else if q = QueueRef.ready 31 then [TcbRef.task 0]
      else if q = QueueRef.wait 1 then [TcbRef.task 2, TcbRef.task 3] else []
    tcb := fun t =>
      if t = TcbRef.task 1 then { priority := 4, base_priority := 4, state := TSK_STATE_RUNNABLE }
      else if t = TcbRef.task 2 then
        { priority := 5, base_priority := 5, state := TSK_STATE_WAIT,
          wait_reason := wait_reason_t.WAIT_REASON_MBF_WRECEIVE,
          pwait_queue := some (QueueRef.wait 1), wait_rc := some 0x30, rmbf_msg := 0x50 }
      else if t = TcbRef.task 3 then
        { priority := 6, base_priority := 6, state := TSK_STATE_WAIT ||| TSK_STATE_SUSPEND,
          wait_reason := wait_reason_t.WAIT_REASON_MBF_WRECEIVE,
          pwait_queue := some (QueueRef.wait 1), rmbf_msg := 0x60 }
      else if t = TcbRef.task 0 then
        { priority := 31, base_priority := 31, state := TSK_STATE_RUNNABLE }
      else {}
    timer_queue := [TmebRef.wait_timer (TcbRef.task 2)]
    tmeb := fun e =>
      if e = TmebRef.wait_timer (TcbRef.task 2) then
        { time := 150, callback := CBACK.task_wait_release_handler,
          arg := CbArg.task (TcbRef.task 2) }
      else {}
    rc_mem := fun _ => osError_t.TERR_ILUSE }

/-- The control blocks that are in use in the example states. -/
def exTasks : List TcbRef :=
  [TcbRef.task 0, TcbRef.task 1, TcbRef.task 2, TcbRef.task 3]

/-- Three runnable tasks (task 1 at priority 4, tasks 2 and 3 at priority 5) and the idle
task 0; nobody waits on `wait 1`.  The receive areas of the tasks are `0x50`, `0x60`,
`0x70`. -/
def exFifo : KState :=
  { curr := TcbRef.task 1
    next := TcbRef.task 1
    jiffies := 100
    ready_to_run_bmp := 2 ^ 4 + 2 ^ 5 + 2 ^ 31
    queues := fun q =>
      if q = QueueRef.ready 4 then [TcbRef.task 1]
      else if q = QueueRef.ready 5 then [TcbRef.task 2, TcbRef.task 3]
      else if q = QueueRef.ready 31 then [TcbRef.task 0] else []
    tcb := fun t =>
      if t = TcbRef.task 1 then
        { priority := 4, base_priority := 4, state := TSK_STATE_RUNNABLE, rmbf_msg := 0x50 }
      else if t = TcbRef.task 2 then
        { priority := 5, base_priority := 5, state := TSK_STATE_RUNNABLE, rmbf_msg := 0x60 }
      else if t = TcbRef.task 3 then
        { priority := 5, base_priority := 5, state := TSK_STATE_RUNNABLE, rmbf_msg := 0x70 }
      else if t = TcbRef.task 0 then
        { priority := 31, base_priority := 31, state := TSK_STATE_RUNNABLE }
      else {}
    ram := fun a => if a = 0x90 then 7 else if a = 0x91 then 9 else 0 }

/-- Tasks 1, 2, 3 enter a wait in this order; task 2 with a timeout of 10 ticks. -/
def exFifoEntries : List (TcbRef × Nat) :=
  [(TcbRef.task 1, TN_WAIT_INFINITE), (TcbRef.task 2, 10), (TcbRef.task 3, TN_WAIT_INFINITE)]

/-- An empty buffer whose receive queue is `wait 1`. -/
def exFifoMbf : TN_MBF :=
  { id := ID_MESSAGEBUF, recv_queue := QueueRef.wait 1, msz := 2, num_entries := 1 }

/-- Task 1 of `exFifo` (the running task) called `tn_mbf_receive` on the empty buffer
`exFifoMbf` with a timeout of 50 ticks, destination `0x50` and result cell `0x30` (the local
`rc`, which holds `TERR_UNDERFLOW` from `mbf_fifo_read`), and blocked; 50 ticks later the
wait timer is due. -/
def exRaceBlocked : Option KState :=
  (tn_mbf_receive 5 (some exFifoMbf) 0x50 50 0x30
      { exFifo with rc_mem := fun _ => osError_t.TERR_UNDERFLOW }).map
    (fun r => { r.2.2 with jiffies := 150 })

/-- The timer task detached the due wait timer and left the critical section. -/
def exRaceDetached : Option (TmebRef × KState) :=
  exRaceBlocked.bind (fun s => timer_task_detach s.jiffies s)

/-- Before the callback runs, a message (at `0x90`) is sent to the buffer with `TN_POLLING`,
for instance from an interrupt handler. -/
def exRaceCompleted : Option (TmebRef × KState) :=
  exRaceDetached.bind (fun d =>
    (tn_mbf_send 5 (some exFifoMbf) 0x90 TN_POLLING 0x34 d.2).map (fun r => (d.1, r.2.2)))

/-- The timer task goes on and runs the callback of the detached timer. -/
def exRaceTimedOut : Option KState :=
  exRaceCompleted.bind (fun d => timer_task_callback 5 d.1 d.2)

/-- A started kernel of the thread interface: the thread `task 1` (priority 5) runs, the
idle thread `task 0` (priority 1) is ready; both are linked in their ready queues
`ready_list[4]` and `ready_list[0]`, and no context switch is pending. -/
def exThreads : thread_c.knlInfo_t :=
  { run_curr := TcbRef.task 1
    run_next := TcbRef.task 1
    ready_to_run_bmp := 2 ^ 4 + 2 ^ 0
    queues := fun q =>
      if q = QueueRef.ready 4 then [TcbRef.task 1]
      else if q = QueueRef.ready 0 then [TcbRef.task 0] else []
    thread := fun t =>
      if t = TcbRef.task 1 then
        { id := 1, state := thread_c.osThreadState_t.ThreadStateRunning, priority := 5,
          base_priority := 5 }
      else if t = TcbRef.task 0 then
        { id := 1, state := thread_c.osThreadState_t.ThreadStateReady, priority := 1,
          base_priority := 1 }
      else {} }

/-- Creation attributes: base priority 5, started on creation. -/
def exAttr : task_create_attr_t :=
  { priority := 5, option := TN_TASK_START_ON_CREATION }

/-- The state `exReady` after `TaskCreate(task 2, exAttr)`. -/
def exCreated : KState := TaskCreate (TcbRef.task 2) exAttr exReady

/-- Task 1 (priority 3, base priority 10, RUNNABLE, current) holds the mutex with wait queue
`wait 7` and is boosted by task 2 (priority 3), which waits for that mutex; task 0 is the
idle task. -/
def exHeld : KState :=
  { curr := TcbRef.task 1
    next := TcbRef.task 1
    ready_to_run_bmp := 2 ^ 3 + 2 ^ 31
    queues := fun q =>
      if q = QueueRef.ready 3 then [TcbRef.task 1]
      else if q = QueueRef.ready 31 then [TcbRef.task 0]
      else if q = QueueRef.wait 7 then [TcbRef.task 2] else []
    tcb := fun t =>
      if t = TcbRef.task 1 then
        { priority := 3, base_priority := 10, state := TSK_STATE_RUNNABLE, mutex_queue := [7] }
      else if t = TcbRef.task 2 then
        { priority := 3, base_priority := 3, state := TSK_STATE_WAIT,
          wait_reason := wait_reason_t.WAIT_REASON_MUTEX_I,
          pwait_queue := some (QueueRef.wait 7) }
      else if t = TcbRef.task 0 then
        { priority := 31, base_priority := 31, state := TSK_STATE_RUNNABLE }
      else {}
    holder := fun m => if m = some (QueueRef.wait 7) then TcbRef.task 1 else TcbRef.null }

/-- On the thread interface: thread 1 (priority 5, running) owns the mutex with wait queue
`wait 7`, thread 2 (priority 5, blocked) waits for it; thread 0 is the idle thread. -/
def exHeldThreads : thread_c.knlInfo_t :=
  { run_curr := TcbRef.task 1
    run_next := TcbRef.task 1
    ready_to_run_bmp := 2 ^ 4 + 2 ^ 0
    queues := fun q =>
      if q = QueueRef.ready 4 then [TcbRef.task 1]
      else if q = QueueRef.ready 0 then [TcbRef.task 0]
      else if q = QueueRef.wait 7 then [TcbRef.task 2] else []
    thread := fun t =>
      if t = TcbRef.task 1 then
        { id := 1, state := thread_c.osThreadState_t.ThreadStateRunning, priority := 5,
          base_priority := 5 }
      else if t = TcbRef.task 2 then
        { id := 1, state := thread_c.osThreadState_t.ThreadStateBlocked, priority := 5,
          base_priority := 5 }
      else if t = TcbRef.task 0 then
        { id := 1, state := thread_c.osThreadState_t.ThreadStateReady, priority := 1,
          base_priority := 1 }
      else {}
    owner := fun q => if q = QueueRef.wait 7 then TcbRef.task 1 else TcbRef.null }

/-- A timer queue around the wrap of the tick counter: jiffies is `0xFFFFFFF0`, the wait
timer of task 2 expires at `0xFFFFFFF8`, the one of task 3 at `0x10`, after the wrap. -/
def exTimers : KState :=
  { jiffies := 0xFFFFFFF0
    timer_queue := [TmebRef.wait_timer (TcbRef.task 2), TmebRef.wait_timer (TcbRef.task 3)]
    tmeb := fun e =>
      if e = TmebRef.wait_timer (TcbRef.task 2) then
        { time := 0xFFFFFFF8, callback := CBACK.task_wait_release_handler,
          arg := CbArg.task (TcbRef.task 2) }
      else if e = TmebRef.wait_timer (TcbRef.task 3) then
        { time := 0x10, callback := CBACK.task_wait_release_handler,
          arg := CbArg.task (TcbRef.task 3) }
      else {} }

/-- A started kernel: state Running, tick 7. -/
def exKernelRunning : osInfo_t :=
  { kernel_state := osKernelState_t.osKernelRunning, kernel_tick := 7,
    run_curr := TcbRef.task 1, run_next := TcbRef.task 1 }

/-- The same kernel with the scheduler locked. -/
def exKernelLocked : osInfo_t :=
  { exKernelRunning with kernel_state := osKernelState_t.osKernelLocked }

/-- An environment in which the thread start-up succeeds and thread `task 1` is the ready
thread of highest priority. -/
def exEnv : KernelEnv :=
  { libThreadStartup := fun o => (true, o)
    SystemIsrInit := 4
    libThreadHighestPrioGet := fun _ => TcbRef.task 1
    libThreadSwitch := fun t o => { o with run_next := t }
    max_api_interrupt_priority := 1
    privileged := true }

/-- The scheduler is locked (`exKernelLocked`); thread 1 (priority 5) runs, and thread 2
(priority 7) has become ready and waits in `ready_list[6]` for a dispatch. -/
def exLockedSys : System :=
  { osInfo := exKernelLocked
    knlInfo :=
      { run_curr := TcbRef.task 1
        run_next := TcbRef.task 1
        ready_to_run_bmp := 2 ^ 6 + 2 ^ 4 + 2 ^ 0
        queues := fun q =>
          if q = QueueRef.ready 6 then [TcbRef.task 2]
          else if q = QueueRef.ready 4 then [TcbRef.task 1]
          else if q = QueueRef.ready 0 then [TcbRef.task 0] else []
        thread := fun t =>
          if t = TcbRef.task 1 then
            { id := 1, state := thread_c.osThreadState_t.ThreadStateRunning, priority := 5,
              base_priority := 5 }
          else if t = TcbRef.task 2 then
            { id := 1, state := thread_c.osThreadState_t.ThreadStateReady, priority := 7,
              base_priority := 7 }
          else if t = TcbRef.task 0 then
            { id := 1, state := thread_c.osThreadState_t.ThreadStateReady, priority := 1,
              base_priority := 1 }
          else {} } }

/-- A buffer of three two-byte slots whose only message, `[7, 8]`, is in slot 0, so that a
write at the head of the queue wraps the tail from 0 to the last slot. -/
def exMbfHead : TN_MBF :=
  { id := ID_MESSAGEBUF, msz := 2, num_entries := 3, cnt := 1, tail := 0, head := 2
    buf := fun a => if a = 0 then 7 else if a = 1 then 8 else 0 }

/-- A pool of three blocks at `0x100`, `0x108`, `0x110`, of which the last two are free. -/
def exFmp : TN_FMP :=
  { id_fmp := TN_ID_FSMEMORYPOOL, start_addr := 0x100, block_size := 8, num_blocks := 3,
    fblkcnt := 2, free_list := 0x108
    cell := fun a => if a = 0x108 then 0x110 else 0 }

/-- A control block that is no message buffer: its identity tag is `0x1234`, neither
`ID_MESSAGEBUF` nor `0`.  The queue at the place of its receive queue is `wait 1`. -/
def exNoMbf : TN_MBF :=
  { id := 0x1234, recv_queue := QueueRef.wait 1, msz := 2, num_entries := 1 }

/-- A full pool: all three blocks `0x100`, `0x108`, `0x110` are free. -/
def exFmpFull : TN_FMP :=
  { id_fmp := TN_ID_FSMEMORYPOOL, start_addr := 0x100, block_size := 8, num_blocks := 3,
    fblkcnt := 3, free_list := 0x100
    cell := fun a => if a = 0x100 then 0x108 else if a = 0x108 then 0x110 else 0 }

/-- A context switch is pending: task 1 (priority 5) is the current task, task 2 (priority 3)
became ready in an interrupt handler and is the next task; task 0 is the idle task. -/
def exPending : KState :=
  { curr := TcbRef.task 1
    next := TcbRef.task 2
    switch_req := true
    ready_to_run_bmp := 2 ^ 3 + 2 ^ 5 + 2 ^ 31
    queues := fun q =>
      if q = QueueRef.ready 3 then [TcbRef.task 2]
      else if q = QueueRef.ready 5 then [TcbRef.task 1]
      else if q = QueueRef.ready 31 then [TcbRef.task 0] else []
    tcb := fun t =>
      if t = TcbRef.task 1 then { priority := 5, base_priority := 5, state := TSK_STATE_RUNNABLE }
      else if t = TcbRef.task 2 then
        { priority := 3, base_priority := 3, state := TSK_STATE_RUNNABLE }
      else if t = TcbRef.task 0 then
        { priority := 31, base_priority := 31, state := TSK_STATE_RUNNABLE }
      else {} }

/-- Two threads of priority 5 on the thread interface: thread 1 runs, thread 2 is ready
behind it in `ready_list[4]`; thread 0 is the idle thread. -/
def exYield : thread_c.knlInfo_t :=
  { run_curr := TcbRef.task 1
    run_next := TcbRef.task 1
    jiffies := 100
    ready_to_run_bmp := 2 ^ 4 + 2 ^ 0
    queues := fun q =>
      if q = QueueRef.ready 4 then [TcbRef.task 1, TcbRef.task 2]
      else if q = QueueRef.ready 0 then [TcbRef.task 0] else []
    thread := fun t =>
      if t = TcbRef.task 1 then
        { id := 1, state := thread_c.osThreadState_t.ThreadStateRunning, priority := 5,
          base_priority := 5 }
      else if t = TcbRef.task 2 then
        { id := 1, state := thread_c.osThreadState_t.ThreadStateReady, priority := 5,
          base_priority := 5 }
      else if t = TcbRef.task 0 then
        { id := 1, state := thread_c.osThreadState_t.ThreadStateReady, priority := 1,
          base_priority := 1 }
      else {} }

/-- Round-robin at priority 5: tasks 1, 2, 3 are ready at priority 5 and linked in the order
`q`, the head of `q` runs and has been charged `c` ticks of its slice, the slice counters of
the others are 0, `tm` is the run time charged to each task and `j` the tick count; task 9 is
the sleeping timer task, task 0 the idle task, and no context switch is pending. -/
def exRoundRobinAt (q : List TcbRef) (c : Nat) (tm : TcbRef → Nat) (j : Nat) : KState :=
  { curr := q.headD TcbRef.null
    next := q.headD TcbRef.null
    jiffies := j
    ready_to_run_bmp := 0x80000020
    queues := fun x =>
      if x = QueueRef.ready 5 then q
      else if x = QueueRef.ready 31 then [TcbRef.task 0] else []
    tcb := fun t =>
      if t = TcbRef.task 1 ∨ t = TcbRef.task 2 ∨ t = TcbRef.task 3 then
        { priority := 5, base_priority := 5, state := TSK_STATE_RUNNABLE, time := tm t,
          tslice_count := if q.head? = some t then c else 0 }
      else if t = TcbRef.task 9 then
        { priority := 0, base_priority := 0, state := TSK_STATE_WAIT,
          wait_reason := wait_reason_t.WAIT_REASON_SLEEP }
      else if t = TcbRef.task 0 then
        { priority := 31, base_priority := 31, state := TSK_STATE_RUNNABLE }
      else {} }

/-- The start of the round-robin example: the queue is task 1, task 2, task 3, task 1 runs
at the start of its slice, nothing has been charged, the tick count is 0. -/
def exRoundRobin : KState :=
  exRoundRobinAt [TcbRef.task 1, TcbRef.task 2, TcbRef.task 3] 0 (fun _ => 0) 0

/-- The time slices of `exRoundRobin`: 10 ticks at priority 5, none elsewhere. -/
def exSlices (priority : Nat) : Nat := if priority = 5 then 10 else NO_TIME_SLICE

/-- The round-robin example after the tick interrupt: the current task is still `cur`, with
slice counter `c` (the counters of the others are 0), the ready queue of priority 5 is linked
in the order `q`, the timer task 9 is ready at priority 0 and is the next task, and the
switch to it is requested. -/
def exRoundRobinTick (cur : TcbRef) (q : List TcbRef) (c : Nat) (tm : TcbRef → Nat)
    (j : Nat) : KState :=
  { curr := cur
    next := TcbRef.task 9
    switch_req := true
    jiffies := j
    ready_to_run_bmp := 0x80000021
    queues := fun x =>
      if x = QueueRef.ready 5 then q
      else if x = QueueRef.ready 31 then [TcbRef.task 0]
      else if x = QueueRef.ready 0 then [TcbRef.task 9] else []
    tcb := fun t =>
      if t = TcbRef.task 1 ∨ t = TcbRef.task 2 ∨ t = TcbRef.task 3 then
        { priority := 5, base_priority := 5, state := TSK_STATE_RUNNABLE, time := tm t,
          tslice_count := if t = cur then c else 0 }
      else if t = TcbRef.task 9 then
        { priority := 0, base_priority := 0, state := TSK_STATE_RUNNABLE,
          wait_reason := wait_reason_t.WAIT_REASON_SLEEP }
      else if t = TcbRef.task 0 then
        { priority := 31, base_priority := 31, state := TSK_STATE_RUNNABLE }
      else {} }

/-- The three orders in which the ready queue of priority 5 is linked in the course of the
round-robin example. -/
def exRotations : List (List TcbRef) :=
  [[TcbRef.task 1, TcbRef.task 2, TcbRef.task 3], [TcbRef.task 3, TcbRef.task 1, TcbRef.task 2],
   [TcbRef.task 2, TcbRef.task 3, TcbRef.task 1]]

/-- The round-robin example at the end of a slice: task 1 runs at the head of the queue
task 1, task 2, task 3, and its slice counter has reached the configured 10 ticks. -/
def exSliceEnd : KState :=
  exRoundRobinAt [TcbRef.task 1, TcbRef.task 2, TcbRef.task 3] 10 (fun _ => 0) 10

/-- The timer state `exTimers` in which the unqueued wait timer of task 4 has the expiry
`0xFFFFFFF8` of the queued wait timer of task 2. -/
def exTimersTie : KState :=
  { exTimers with
    tmeb := fun e =>
      if e = TmebRef.wait_timer (TcbRef.task 4) then
        { time := 0xFFFFFFF8, callback := CBACK.user 1, arg := CbArg.object 9 }
      else exTimers.tmeb e }

/-- A cyclic handler of period 3 whose last expiry is the largest tick count. -/
def exCyclicWrap : TN_CYCLIC := { tmeb := { time := 0xFFFFFFFF }, time := 3 }

/-- A cyclic handler of period 10 whose last expiry is tick 100. -/
def exCyclic : TN_CYCLIC := { tmeb := { time := 100 }, time := 10 }

/-- The state `exDelete` in which the tasks 2 and 3 wait in the queue `wait 1` as senders:
the message of task 2, the bytes 1 and 2, is at `0x90`. -/
def exSendBlocked : KState :=
  { exDelete with
    ram := fun a => if a = 0x90 then 1 else if a = 0x91 then 2 else 0
    tcb := fun t =>
      if t = TcbRef.task 2 then
        { priority := 5, base_priority := 5, state := TSK_STATE_WAIT,
          wait_reason := wait_reason_t.WAIT_REASON_MBF_WSEND,
          pwait_queue := some (QueueRef.wait 1), wait_rc := some 0x30, smbf_msg := 0x90 }
      else exDelete.tcb t }

/-- A full buffer of one two-byte slot, holding the message `[7, 8]`, whose send queue is
`wait 1`. -/
def exMbfBlocked : TN_MBF :=
  { id := ID_MESSAGEBUF, send_queue := QueueRef.wait 1, recv_queue := QueueRef.wait 2,
    msz := 2, num_entries := 1, cnt := 1, tail := 0, head := 0
    buf := fun a => if a = 0 then 7 else if a = 1 then 8 else 0 }

/-- Task 1 (RUNNABLE) holds the mutex with wait queue `wait 7`; its base priority is 5 and
`TaskSetPriority(task 1, 10)` has given it priority 10.  Task 3 (priority 10) waits for the
mutex with a timeout and the result cell `0x30` and was suspended while waiting.  Task 2
(priority 7) is the current and the next task, task 0 is the idle task. -/
def exSuspWait : KState :=
  { curr := TcbRef.task 2
    next := TcbRef.task 2
    ready_to_run_bmp := 0x80000480
    queues := fun q =>
      if q = QueueRef.ready 7 then [TcbRef.task 2]
      else if q = QueueRef.ready 10 then [TcbRef.task 1]
      else if q = QueueRef.ready 31 then [TcbRef.task 0]
      else if q = QueueRef.wait 7 then [TcbRef.task 3] else []
    tcb := fun t =>
      if t = TcbRef.task 1 then
        { priority := 10, base_priority := 5, state := TSK_STATE_RUNNABLE, mutex_queue := [7] }
      else if t = TcbRef.task 2 then
        { priority := 7, base_priority := 7, state := TSK_STATE_RUNNABLE }
      else if t = TcbRef.task 3 then
        { priority := 10, base_priority := 10, state := TSK_STATE_WAIT ||| TSK_STATE_SUSPEND,
          wait_reason := wait_reason_t.WAIT_REASON_MUTEX_I,
          pwait_queue := some (QueueRef.wait 7), wait_rc := some 0x30 }
      else if t = TcbRef.task 0 then
        { priority := 31, base_priority := 31, state := TSK_STATE_RUNNABLE }
      else {}
    timer_queue := [TmebRef.wait_timer (TcbRef.task 3)]
    tmeb := fun e =>
      if e = TmebRef.wait_timer (TcbRef.task 3) then
        { time := 150, callback := CBACK.task_wait_release_handler,
          arg := CbArg.task (TcbRef.task 3) }
      else {}
    holder := fun m => if m = some (QueueRef.wait 7) then TcbRef.task 1 else TcbRef.null
    rc_mem := fun _ => osError_t.TERR_ILUSE }

/-- A deadlock: task 1 waits for the mutex with wait queue `wait 7`, which task 2 holds, and
task 2 waits for the mutex with wait queue `wait 8`, which task 1 holds; both have priority
10.  Task 0 is the idle task and runs. -/
def exDeadlock : KState :=
  { curr := TcbRef.task 0
    next := TcbRef.task 0
    ready_to_run_bmp := 0x80000000
    queues := fun q =>
      if q = QueueRef.ready 31 then [TcbRef.task 0]
      else if q = QueueRef.wait 7 then [TcbRef.task 1]
      else if q = QueueRef.wait 8 then [TcbRef.task 2] else []
    tcb := fun t =>
      if t = TcbRef.task 1 then
        { priority := 10, base_priority := 10, state := TSK_STATE_WAIT,
          wait_reason := wait_reason_t.WAIT_REASON_MUTEX_I,
          pwait_queue := some (QueueRef.wait 7), mutex_queue := [8] }
      else if t = TcbRef.task 2 then
        { priority := 10, base_priority := 10, state := TSK_STATE_WAIT,
          wait_reason := wait_reason_t.WAIT_REASON_MUTEX_I,
          pwait_queue := some (QueueRef.wait 8), mutex_queue := [7] }
      else if t = TcbRef.task 0 then
        { priority := 31, base_priority := 31, state := TSK_STATE_RUNNABLE }
      else {}
    holder := fun m =>
      if m = some (QueueRef.wait 7) then TcbRef.task 2
      else if m = some (QueueRef.wait 8) then TcbRef.task 1 else TcbRef.null }

/-- Values for the constants of `ThreadNew`: priorities from 1 (idle) to 32 (ISR), normal
priority 16, and 0 for `osPriorityNone`. -/
def exThreadConst : thread_c.ThreadConst :=
  { osPriorityNone := 0, osPriorityIdle := 1, osPriorityNormal := 16, osPriorityISR := 32,
    ID_THREAD := 0x5448, FILL_STACK_VALUE := 0xFFFFFFFF, sizeof_osThread_t := 64,
    osThreadExit := 0x08000101 }

/-- Attributes of a new thread: control block `task 5`, a stack of 128 bytes at `0x20001000`,
no priority given. -/
def exThreadAttr : thread_c.osThreadAttr_t :=
  { cb_mem := TcbRef.task 5, cb_size := 64, stack_mem := 0x20001000, stack_size := 128,
    priority := 0 }

/-- A control block that is no memory pool yet. -/
def exFmpNew : TN_FMP := {}

/-! ## Theorems -/

theorem testBit_bit32 (p i : Nat) (hi : i < 32) : (bit32 p).testBit i = decide (p = i) := by
  unfold bit32
  rw [Nat.testBit_mod_two_pow]
  simp [hi, Nat.one_shiftLeft, Nat.testBit_two_pow]

theorem testBit_not32_bit32 (p i : Nat) (hi : i < 32) :
    (not32 (bit32 p)).testBit i = !decide (p = i) := by
  unfold not32
  rw [Nat.testBit_xor, Nat.testBit_two_pow_sub_one, Nat.testBit_mod_two_pow, testBit_bit32 p i hi]
  simp [hi]

@[simp] theorem TaskSetNext_queues (t : TcbRef) (s : KState) :
    (TaskSetNext t s).queues = s.queues := by
  unfold TaskSetNext; split <;> rfl

@[simp] theorem TaskSetNext_bmp (t : TcbRef) (s : KState) :
    (TaskSetNext t s).ready_to_run_bmp = s.ready_to_run_bmp := by
  unfold TaskSetNext; split <;> rfl

@[simp] theorem TaskSetNext_tcb (t : TcbRef) (s : KState) :
    (TaskSetNext t s).tcb = s.tcb := by
  unfold TaskSetNext; split <;> rfl

@[simp] theorem ThreadDispatch_queues (s : KState) : (ThreadDispatch s).queues = s.queues := by
  simp [ThreadDispatch]

@[simp] theorem ThreadDispatch_bmp (s : KState) :
    (ThreadDispatch s).ready_to_run_bmp = s.ready_to_run_bmp := by
  simp [ThreadDispatch]

@[simp] theorem ThreadDispatch_tcb (s : KState) : (ThreadDispatch s).tcb = s.tcb := by
  simp [ThreadDispatch]

theorem ThreadSetReady_inv (t : TcbRef) (s : KState) (h : ReadyBitmapInv s) :
    ReadyBitmapInv (ThreadSetReady t s) := by
  intro p hp
  have h0 := h p hp
  simp only [ThreadSetReady, QueueAddTail, Nat.testBit_mod_two_pow, Nat.testBit_or,
    testBit_bit32 _ p hp, hp, decide_True, Bool.true_and]
  by_cases hq : (s.tcb t).priority = p
  · subst hq; simp
  · have hne : QueueRef.ready p ≠ QueueRef.ready (s.tcb t).priority := by
      intro hc; injection hc with hc; exact hq hc.symm
    simp [hq, Function.update_noteq hne, h0]

theorem ReadyBitmapInv_congr {s s' : KState} (h : ReadyBitmapInv s)
    (hq : s'.queues = s.queues) (hb : s'.ready_to_run_bmp = s.ready_to_run_bmp) :
    ReadyBitmapInv s' := by
  intro p hp
  rw [hq, hb]
  exact h p hp

theorem TaskToRunnable_queues (t : TcbRef) (s : KState) :
    (TaskToRunnable t s).queues
      = QueueAddTail (QueueRef.ready (s.tcb t).priority) t s.queues := by
  unfold TaskToRunnable
  dsimp only
  split <;> simp [ThreadSetReady]

theorem TaskToRunnable_bmp (t : TcbRef) (s : KState) :
    (TaskToRunnable t s).ready_to_run_bmp
      = (s.ready_to_run_bmp ||| bit32 (s.tcb t).priority) % 2 ^ 32 := by
  unfold TaskToRunnable
  dsimp only
  split <;> simp [ThreadSetReady]

/-- Unlinking a task that is linked into `ready_list[prio]` only, and clearing the bit of
`prio` when that queue became empty, keeps the bitmap invariant. -/
theorem remove_inv (t : TcbRef) (prio : Nat) (s : KState) (h : ReadyBitmapInv s)
    (hin : t ∈ s.queues (QueueRef.ready prio))
    (hother : ∀ p, p ≠ prio → t ∉ s.queues (QueueRef.ready p)) :
    ReadyBitmapInv
      (if isQueueEmpty (QueueRef.ready prio) (QueueRemoveEntry t s.queues) then
        { s with queues := QueueRemoveEntry t s.queues
                 ready_to_run_bmp := s.ready_to_run_bmp &&& not32 (bit32 prio) }
       else { s with queues := QueueRemoveEntry t s.queues }) := by
  intro p hp
  have h0 := h p hp
  by_cases hq : prio = p
  · subst hq
    have hne : s.queues (QueueRef.ready prio) ≠ [] := List.ne_nil_of_mem hin
    split
    · rename_i he
      simp only [isQueueEmpty, List.isEmpty_iff] at he
      simp [Nat.testBit_and, testBit_not32_bit32 _ _ hp, he]
    · rename_i he
      simp only [isQueueEmpty, List.isEmpty_iff] at he
      simpa [h0, hne] using he
  · have hnot : t ∉ s.queues (QueueRef.ready p) := hother p (fun hc => hq hc.symm)
    split <;>
      simp [QueueRemoveEntry, List.erase_of_not_mem hnot, Nat.testBit_and,
        testBit_not32_bit32 _ _ hp, hq, h0]

theorem TaskToRunnable_inv (t : TcbRef) (s : KState) (hinv : ReadyBitmapInv s) :
    ReadyBitmapInv (TaskToRunnable t s) := by
  refine ReadyBitmapInv_congr (ThreadSetReady_inv t s hinv) ?_ ?_
  · rw [TaskToRunnable_queues]; rfl
  · rw [TaskToRunnable_bmp]; rfl

theorem TaskToNonRunnable_inv (t : TcbRef) (s : KState) (hinv : ReadyBitmapInv s)
    (hin : t ∈ s.queues (QueueRef.ready (s.tcb t).priority))
    (hother : ∀ p, p ≠ (s.tcb t).priority → t ∉ s.queues (QueueRef.ready p)) :
    ReadyBitmapInv (TaskToNonRunnable t s) := by
  refine ReadyBitmapInv_congr (remove_inv t _ s hinv hin hother) ?_ ?_
  · unfold TaskToNonRunnable
    dsimp only
    split_ifs <;> simp
  · unfold TaskToNonRunnable
    dsimp only
    split_ifs <;> simp

theorem ThreadChangePriority_queues (t : TcbRef) (p : Nat) (s : KState) :
    (ThreadChangePriority t p s).queues
      = QueueAddTail (QueueRef.ready p) t (QueueRemoveEntry t s.queues) := by
  unfold ThreadChangePriority
  dsimp only
  rw [ThreadDispatch_queues]
  unfold ThreadSetReady
  dsimp only
  rw [Function.update_same]
  split_ifs <;> rfl

theorem ThreadChangePriority_tcb (t : TcbRef) (p : Nat) (s : KState) :
    (ThreadChangePriority t p s).tcb
      = Function.update s.tcb t { s.tcb t with priority := p } := by
  unfold ThreadChangePriority
  dsimp only
  rw [ThreadDispatch_tcb]
  unfold ThreadSetReady
  dsimp only
  split_ifs <;> rfl

theorem ThreadChangePriority_inv (t : TcbRef) (p : Nat) (s : KState) (hinv : ReadyBitmapInv s)
    (hin : t ∈ s.queues (QueueRef.ready (s.tcb t).priority))
    (hother : ∀ q, q ≠ (s.tcb t).priority → t ∉ s.queues (QueueRef.ready q)) :
    ReadyBitmapInv (ThreadChangePriority t p s) := by
  unfold ThreadChangePriority
  dsimp only
  refine ReadyBitmapInv_congr (ThreadSetReady_inv t _ ?_) (ThreadDispatch_queues _)
    (ThreadDispatch_bmp _)
  refine ReadyBitmapInv_congr (remove_inv t _ s hinv hin hother) ?_ ?_
  · split_ifs <;> rfl
  · split_ifs <;> rfl

theorem not_mem_other_ready (s : KState) (hlink : LinkedOnce s) (t : TcbRef) (prio : Nat)
    (hin : t ∈ s.queues (QueueRef.ready prio)) :
    ∀ p, p ≠ prio → t ∉ s.queues (QueueRef.ready p) := by
  intro p hp hmem
  have := hlink.2 t _ _ hmem hin
  injection this with this
  exact hp this

theorem exReady_inv : ReadyBitmapInv exReady := by
  intro p hp
  simp only [exReady]
  interval_cases p <;> simp <;> decide

theorem exReady_linked : RunnableLinked exReady := by
  intro t h
  simp only [exReady] at h ⊢
  by_cases h1 : t = TcbRef.task 1
  · subst h1; simp
  · by_cases h0 : t = TcbRef.task 0
    · subst h0; simp
    · simp [h1, h0, TSK_STATE_DORMANT, TSK_STATE_RUNNABLE] at h

theorem exReady_once : LinkedOnce exReady := by
  constructor
  · intro q
    simp only [exReady]
    split_ifs <;> simp
  · intro t q q' h h'
    simp only [exReady] at h h'
    split_ifs at h h' <;> simp_all

/-- C1. Ready-bitmap invariant.  In a kernel state where bit `p` of `ready_to_run_bmp` is set
iff `ready_list[p]` is non-empty (for `p` in `0..31`), where every RUNNABLE task is linked
into the ready queue of its priority and every control block is linked at most once, the
invariant holds again after `TaskToRunnable t` for a task linked into no queue, after
`TaskToNonRunnable t` for a RUNNABLE task, and after `ThreadChangePriority t p'` for a
RUNNABLE task and `p' ≤ 31`. -/
theorem ready_bitmap_invariant_preserved (s : KState) (t : TcbRef) (p' : Nat)
    (hinv : ReadyBitmapInv s) (hrun : RunnableLinked s) (hlink : LinkedOnce s) :
    ((∀ q, t ∉ s.queues q) → ReadyBitmapInv (TaskToRunnable t s)) ∧
    ((s.tcb t).state = TSK_STATE_RUNNABLE → ReadyBitmapInv (TaskToNonRunnable t s)) ∧
    ((s.tcb t).state = TSK_STATE_RUNNABLE → p' ≤ 31 →
      ReadyBitmapInv (ThreadChangePriority t p' s)) := by
  refine ⟨fun _ => TaskToRunnable_inv t s hinv, ?_, ?_⟩
  · intro hst
    exact TaskToNonRunnable_inv t s hinv (hrun t hst)
      (not_mem_other_ready s hlink t _ (hrun t hst))
  · intro hst _
    exact ThreadChangePriority_inv t p' s hinv (hrun t hst)
      (not_mem_other_ready s hlink t _ (hrun t hst))

/-- Witness for C1 on `exReady`: task 2 is linked nowhere, task 1 is RUNNABLE. -/
theorem ready_bitmap_invariant_preserved_witness :
    ReadyBitmapInv (TaskToRunnable (TcbRef.task 2) exReady) ∧
    ReadyBitmapInv (TaskToNonRunnable (TcbRef.task 1) exReady) ∧
    ReadyBitmapInv (ThreadChangePriority (TcbRef.task 1) 7 exReady) :=
  ⟨(ready_bitmap_invariant_preserved exReady (TcbRef.task 2) 7
      exReady_inv exReady_linked exReady_once).1
      (by intro q; simp only [exReady]; split_ifs <;> simp),
   (ready_bitmap_invariant_preserved exReady (TcbRef.task 1) 7
      exReady_inv exReady_linked exReady_once).2.1 (by simp [exReady]),
   (ready_bitmap_invariant_preserved exReady (TcbRef.task 1) 7
      exReady_inv exReady_linked exReady_once).2.2 (by simp [exReady]) (by decide)⟩

/-! ### The circular buffer -/

theorem memcpy_from_length (buf : Int → Nat) (d : Int) (z : Nat) :
    (memcpy_from buf d z).length = z := by
  simp only [memcpy_from, List.length_map, List.length_range, Int.toNat_ofNat]

theorem memcpy_from_getElem (buf : Int → Nat) (d : Int) (z i : Nat)
    (h : i < (memcpy_from buf d z).length) :
    (memcpy_from buf d z)[i] = buf (d + (i : Int)) := by
  simp only [memcpy_from, List.getElem_map, List.getElem_range]

theorem memcpy_from_to_same (buf : Int → Nat) (d : Int) (v : List Nat) (z : Nat)
    (hv : v.length = z) : memcpy_from (memcpy_to buf d v z) d z = v := by
  apply List.ext_getElem
  · rw [memcpy_from_length, hv]
  · intro i h1 h2
    rw [memcpy_from_getElem]
    have hi : i < z := by rw [memcpy_from_length] at h1; exact h1
    unfold memcpy_to
    have hc : d ≤ d + (i : Int) ∧ d + (i : Int) < d + (z : Int) := by omega
    rw [if_pos hc]
    have : (d + (i : Int) - d).toNat = i := by omega
    rw [this, List.getD_eq_getElem _ _ h2]

theorem memcpy_from_to_disj (buf : Int → Nat) (d src : Int) (v : List Nat) (z : Nat)
    (h : src + z ≤ d ∨ d + z ≤ src) :
    memcpy_from (memcpy_to buf d v z) src z = memcpy_from buf src z := by
  apply List.ext_getElem
  · rw [memcpy_from_length, memcpy_from_length]
  · intro i h1 h2
    rw [memcpy_from_getElem, memcpy_from_getElem]
    have hi : i < z := by rw [memcpy_from_length] at h1; exact h1
    unfold memcpy_to
    rw [if_neg]
    omega

theorem slot_disjoint (z i h : Nat) (hne : i ≠ h) :
    ((i * z : Nat) : Int) + z ≤ ((h * z : Nat) : Int) ∨
    ((h * z : Nat) : Int) + z ≤ ((i * z : Nat) : Int) := by
  rcases Nat.lt_or_gt_of_ne hne with hlt | hgt
  · left
    have : (i + 1) * z ≤ h * z := Nat.mul_le_mul_right z hlt
    have h2 : (i + 1) * z = i * z + z := by ring
    omega
  · right
    have : (h + 1) * z ≤ i * z := Nat.mul_le_mul_right z hgt
    have h2 : (h + 1) * z = h * z + z := by ring
    omega

theorem mbf_slot_write_same (buf : Int → Nat) (z h : Nat) (v : List Nat) (hv : v.length = z) :
    mbf_slot (memcpy_to buf ((h * z : Nat) : Int) v z) z h = v :=
  memcpy_from_to_same buf _ v z hv

theorem mbf_slot_write_other (buf : Int → Nat) (z h i : Nat) (v : List Nat) (hne : i ≠ h) :
    mbf_slot (memcpy_to buf ((h * z : Nat) : Int) v z) z i = mbf_slot buf z i :=
  memcpy_from_to_disj buf _ _ v z (slot_disjoint z i h hne)

theorem wrap_step (n z x : Nat) (hz : 0 < z) (hx : x < n) :
    (if ((x * z : Nat) : Int) + (z : Int) ≥ (n : Int) * (z : Int) then (0 : Int)
      else ((x * z : Nat) : Int) + (z : Int)) = ((((x + 1) % n) * z : Nat) : Int) := by
  have h2 : (x + 1) * z = x * z + z := by ring
  by_cases h : x + 1 = n
  · have hge : ((x * z : Nat) : Int) + (z : Int) ≥ (n : Int) * (z : Int) := by
      have : ((n * z : Nat) : Int) = ((x * z + z : Nat) : Int) := by rw [← h, h2]
      push_cast at this ⊢
      omega
    rw [if_pos hge, h, Nat.mod_self, Nat.zero_mul]
    rfl
  · have hlt : x + 1 < n := by omega
    have h3 : (x + 1) * z < n * z := Nat.mul_lt_mul_of_pos_right hlt hz
    have hnge : ¬ (((x * z : Nat) : Int) + (z : Int) ≥ (n : Int) * (z : Int)) := by
      have : ((x * z + z : Nat) : Int) < ((n * z : Nat) : Int) := by
        rw [← h2]; exact_mod_cast h3
      push_cast at this ⊢
      omega
    rw [if_neg hnge, Nat.mod_eq_of_lt hlt, h2]
    push_cast
    rfl

theorem mod_ne_of_lt (n ti j c : Nat) (hj : j < c) (hc : c < n) :
    (ti + j) % n ≠ (ti + c) % n := by
  intro h
  have h1 := Nat.sub_mod_eq_zero_of_mod_eq h.symm
  have h2 : ti + c - (ti + j) = c - j := by omega
  rw [h2, Nat.mod_eq_of_lt (by omega)] at h1
  omega

theorem mbf_write_rep (m : TN_MBF) (n z ti c : Nat) (v : List Nat)
    (hrep : MbfRep m n z ti c) (hc : c < n) (hv : v.length = z) :
    (mbf_fifo_write m v false).1 = osError_t.TERR_NO_ERR ∧
    MbfRep (mbf_fifo_write m v false).2 n z ti (c + 1) ∧
    mbf_contents (mbf_fifo_write m v false).2.buf n z ti (c + 1)
      = mbf_contents m.buf n z ti c ++ [v] := by
  obtain ⟨hz, hti, hcn, hmsz, hnum, hcnt, htail, hhead⟩ := hrep
  have hn0 : ¬ m.num_entries = 0 := by rw [hnum]; exact_mod_cast (by omega : n ≠ 0)
  have hfull : ¬ m.cnt = m.num_entries := by
    rw [hnum, hcnt]; exact_mod_cast (by omega : c ≠ n)
  have hlt : (ti + c) % n < n := Nat.mod_lt _ (by omega)
  have hstep := wrap_step n z ((ti + c) % n) hz hlt
  simp only [mbf_fifo_write, if_neg hn0, if_neg hfull, Bool.false_eq_true, if_false]
  refine ⟨trivial, ⟨hz, hti, by omega, hmsz, hnum, by rw [hcnt]; push_cast; rfl, htail, ?_⟩, ?_⟩
  · show (if m.head + m.msz ≥ m.num_entries * m.msz then 0 else m.head + m.msz) = _
    rw [hhead, hmsz, hnum, hstep, Nat.mod_add_mod, Nat.add_assoc]
  · show mbf_contents (memcpy_to m.buf m.head v m.msz) n z ti (c + 1) = _
    rw [hhead, hmsz]
    unfold mbf_contents
    rw [List.range_succ, List.map_append, List.map_singleton, mbf_slot_write_same _ _ _ _ hv]
    congr 1
    apply List.map_congr_left
    intro j hj
    rw [List.mem_range] at hj
    exact mbf_slot_write_other _ _ _ _ _ (mod_ne_of_lt n ti j c hj hc)

theorem mbf_read_rep (m : TN_MBF) (n z ti c : Nat) (hrep : MbfRep m n z ti (c + 1)) :
    (mbf_fifo_read m).1 = osError_t.TERR_NO_ERR ∧
    (mbf_fifo_read m).2.2 = some (mbf_slot m.buf z ti) ∧
    MbfRep (mbf_fifo_read m).2.1 n z ((ti + 1) % n) c ∧
    (mbf_fifo_read m).2.1.buf = m.buf := by
  obtain ⟨hz, hti, hcn, hmsz, hnum, hcnt, htail, hhead⟩ := hrep
  have hn0 : ¬ m.num_entries = 0 := by rw [hnum]; exact_mod_cast (by omega : n ≠ 0)
  have hemp : ¬ m.cnt = 0 := by rw [hcnt]; exact_mod_cast (by omega : c + 1 ≠ 0)
  have hstep := wrap_step n z ti hz hti
  simp only [mbf_fifo_read, if_neg hn0, if_neg hemp]
  refine ⟨trivial, ?_, ⟨hz, Nat.mod_lt _ (by omega), by omega, hmsz, hnum, ?_, ?_, ?_⟩, trivial⟩
  · rw [htail, hmsz]; rfl
  · show m.cnt - 1 = _
    rw [hcnt]; push_cast; ring
  · show (if m.tail + m.msz ≥ m.num_entries * m.msz then 0 else m.tail + m.msz) = _
    rw [htail, hmsz, hnum, hstep]
  · show m.head = _
    rw [hhead, Nat.mod_add_mod]
    congr 3
    ring

theorem mbf_contents_succ (buf : Int → Nat) (n z ti c : Nat) (hti : ti < n) :
    mbf_contents buf n z ti (c + 1)
      = mbf_slot buf z ti :: mbf_contents buf n z ((ti + 1) % n) c := by
  unfold mbf_contents
  rw [List.range_succ_eq_map, List.map_cons, List.map_map, Nat.add_zero, Nat.mod_eq_of_lt hti]
  congr 1
  apply List.map_congr_left
  intro j _
  simp only [Function.comp, Nat.mod_add_mod]
  congr 2
  omega

theorem mbf_read_n_contents (c : Nat) : ∀ (m : TN_MBF) (n z ti : Nat), MbfRep m n z ti c →
    mbf_read_n c m
      = (mbf_contents m.buf n z ti c).map (fun v => (osError_t.TERR_NO_ERR, some v)) := by
  induction c with
  | zero => intro m n z ti _; rfl
  | succ c ih =>
    intro m n z ti hrep
    obtain ⟨h1, h2, h3, h4⟩ := mbf_read_rep m n z ti c hrep
    rw [mbf_contents_succ _ _ _ _ _ hrep.2.1, List.map_cons]
    show (_, _) :: mbf_read_n c (mbf_fifo_read m).2.1 = _
    rw [ih _ n z _ h3, h1, h2, h4]

theorem mbf_write_all_rep (msgs : List (List Nat)) : ∀ (m : TN_MBF) (n z ti c : Nat),
    MbfRep m n z ti c → c + msgs.length ≤ n → (∀ v ∈ msgs, v.length = z) →
    (mbf_write_all m msgs).1 = List.replicate msgs.length osError_t.TERR_NO_ERR ∧
    MbfRep (mbf_write_all m msgs).2 n z ti (c + msgs.length) ∧
    mbf_contents (mbf_write_all m msgs).2.buf n z ti (c + msgs.length)
      = mbf_contents m.buf n z ti c ++ msgs := by
  induction msgs with
  | nil =>
    intro m n z ti c hrep _ _
    refine ⟨rfl, hrep, ?_⟩
    show mbf_contents m.buf n z ti (c + 0) = _
    rw [List.append_nil]; rfl
  | cons v rest ih =>
    intro m n z ti c hrep hlen hv
    rw [List.length_cons] at hlen
    obtain ⟨h1, h2, h3⟩ :=
      mbf_write_rep m n z ti c v hrep (by omega) (hv v (List.mem_cons_self _ _))
    obtain ⟨g1, g2, g3⟩ := ih _ n z ti (c + 1) h2 (by omega)
      (fun w hw => hv w (List.mem_cons_of_mem _ hw))
    have hl : c + (v :: rest).length = c + 1 + rest.length := by
      rw [List.length_cons]; omega
    rw [hl]
    refine ⟨?_, g2, ?_⟩
    · show _ :: (mbf_write_all (mbf_fifo_write m v false).2 rest).1 = _
      rw [g1, h1]; rfl
    · show mbf_contents (mbf_write_all (mbf_fifo_write m v false).2 rest).2.buf _ _ _ _ = _
      rw [g3, h3, List.append_assoc]; rfl

theorem MbfRep_of_inv (m : TN_MBF) (hinv : MbfInv m) (hn : 1 ≤ m.num_entries) :
    ∃ n z ti c : Nat, MbfRep m n z ti c ∧ m.cnt = c ∧ m.num_entries = n ∧ m.msz = z := by
  obtain ⟨hz, hc0, hcn, _, hdt, hh, ht, hmod⟩ := hinv
  obtain ⟨z, hz'⟩ := Int.eq_ofNat_of_zero_le (le_of_lt hz)
  obtain ⟨n, hn'⟩ := Int.eq_ofNat_of_zero_le (by omega : 0 ≤ m.num_entries)
  obtain ⟨c, hc'⟩ := Int.eq_ofNat_of_zero_le hc0
  have hh' : 0 ≤ m.head ∧ m.head < m.num_entries * m.msz := by
    rcases hh with h | h
    · exact h
    · omega
  have ht' : 0 ≤ m.tail ∧ m.tail < m.num_entries * m.msz := by
    rcases ht with h | h
    · exact h
    · omega
  obtain ⟨q, hq⟩ := hdt
  have hq0 : 0 ≤ q := by
    by_contra hneg
    have : m.msz * q < 0 := Int.mul_neg_of_pos_of_neg hz (by omega)
    omega
  obtain ⟨ti, hti'⟩ := Int.eq_ofNat_of_zero_le hq0
  have hzpos : 0 < z := by rw [hz'] at hz; exact_mod_cast hz
  have htail : m.tail = ((ti * z : Nat) : Int) := by
    rw [hq, hz', hti']; push_cast; ring
  have htilt : ti < n := by
    have h1 : ((ti * z : Nat) : Int) < ((n * z : Nat) : Int) := by
      rw [← htail]; push_cast; rw [← hn', ← hz']; exact ht'.2
    have h2 : ti * z < n * z := by exact_mod_cast h1
    exact Nat.lt_of_mul_lt_mul_right h2
  have hcn' : c ≤ n := by rw [hc', hn'] at hcn; exact_mod_cast hcn
  refine ⟨n, z, ti, c, ⟨hzpos, htilt, hcn', hz', hn', hc', htail, ?_⟩, hc', hn', hz'⟩
  rw [Int.emod_eq_of_lt hh'.1 hh'.2, htail, hc', hz', hn'] at hmod
  rw [hmod]
  have : ((ti * z : Nat) : Int) + (c : Int) * (z : Int) = (((ti + c) * z : Nat) : Int) := by
    push_cast; ring
  rw [this]
  have h3 : (n : Int) * (z : Int) = ((n * z : Nat) : Int) := by push_cast; rfl
  rw [h3, ← Int.natCast_mod, Nat.mul_mod_mul_right]

/-- C2. Message-buffer FIFO round trip.  For a well-formed buffer with capacity
`num_entries ≥ 1` that holds `c` messages, and `k ≤ num_entries - c` messages of `msz`
bytes written one after the other with `mbf_fifo_write(mbf, msg, false)`: every write
returns `TERR_NO_ERR`, and the next `c + k` calls of `mbf_fifo_read` return `TERR_NO_ERR`
and deliver first the `c` messages that were stored before (the ones `c` reads of the
original buffer deliver) and then the `k` new messages in the order in which they were
written.  Head and tail may wrap around at any point. -/
theorem mbf_fifo_round_trip (m : TN_MBF) (msgs : List (List Nat)) (c : Nat)
    (hinv : MbfInv m) (hn : 1 ≤ m.num_entries) (hc : m.cnt = c)
    (hk : (msgs.length : Int) ≤ m.num_entries - m.cnt)
    (hlen : ∀ v ∈ msgs, (v.length : Int) = m.msz) :
    (mbf_write_all m msgs).1 = List.replicate msgs.length osError_t.TERR_NO_ERR ∧
    (∀ r ∈ mbf_read_n c m, r.1 = osError_t.TERR_NO_ERR ∧ r.2 ≠ none) ∧
    mbf_read_n (c + msgs.length) (mbf_write_all m msgs).2
      = mbf_read_n c m ++ msgs.map (fun v => (osError_t.TERR_NO_ERR, some v)) := by
  obtain ⟨n, z, ti, c', hrep, hc', hn', hz'⟩ := MbfRep_of_inv m hinv hn
  have hcc : c' = c := by rw [hc] at hc'; exact_mod_cast hc'.symm
  subst hcc
  have hlen' : ∀ v ∈ msgs, v.length = z := by
    intro v hv
    have := hlen v hv
    rw [hz'] at this
    exact_mod_cast this
  have hk' : c' + msgs.length ≤ n := by
    rw [hn', hc'] at hk
    omega
  obtain ⟨h1, h2, h3⟩ := mbf_write_all_rep msgs m n z ti c' hrep hk' hlen'
  refine ⟨h1, ?_, ?_⟩
  · intro r hr
    rw [mbf_read_n_contents c' m n z ti hrep, List.mem_map] at hr
    obtain ⟨v, _, hv⟩ := hr
    rw [← hv]
    exact ⟨rfl, by simp⟩
  · rw [mbf_read_n_contents _ _ n z ti h2, h3, List.map_append,
      mbf_read_n_contents c' m n z ti hrep]

theorem exMbf_inv : MbfInv exMbf := by
  unfold MbfInv exMbf
  refine ⟨by decide, by decide, by decide, ⟨0, by decide⟩, ⟨2, by decide⟩, Or.inl (by decide),
    Or.inl (by decide), by decide⟩

/-- Witness for C2: one stored message in the last slot, two messages written across the
wrap-around of `head`, three reads across the wrap-around of `tail`. -/
theorem mbf_fifo_round_trip_witness :
    (mbf_write_all exMbf [[1, 2], [3, 4]]).1
        = List.replicate 2 osError_t.TERR_NO_ERR ∧
    (∀ r ∈ mbf_read_n 1 exMbf, r.1 = osError_t.TERR_NO_ERR ∧ r.2 ≠ none) ∧
    mbf_read_n (1 + 2) (mbf_write_all exMbf [[1, 2], [3, 4]]).2
      = mbf_read_n 1 exMbf
        ++ [(osError_t.TERR_NO_ERR, some [1, 2]), (osError_t.TERR_NO_ERR, some [3, 4])] :=
  mbf_fifo_round_trip exMbf [[1, 2], [3, 4]] 1 exMbf_inv (by decide) (by decide) (by decide)
    (by decide)

/-! ### Zero timeout -/

/-- C4. Zero-timeout never blocks.  With timeout `TN_POLLING`, `tn_mbf_send` and
`tn_mbf_send_first` on an existing buffer that is full (or has no entries) and has no waiting
receiver, `tn_mbf_receive` on an existing buffer that is empty and has no waiting sender,
and `tn_fmem_get` on an existing pool without free block return `TERR_TIMEOUT`, and the
kernel state and the object are returned exactly as they were: the calling task is still
RUNNABLE in its ready queue, `next` is unchanged, no timer was inserted, and `cnt`, `head`,
`tail`, `fblkcnt`, `free_list` and the wait queues are unchanged. -/
theorem polling_never_blocks (fuel : Nat) (m : TN_MBF) (f : TN_FMP)
    (msg p_data rc_ptr : Nat) (s : KState) :
    (m.id = ID_MESSAGEBUF → (m.cnt = m.num_entries ∨ m.num_entries = 0) →
      s.queues m.recv_queue = [] →
      tn_mbf_send fuel (some m) msg TN_POLLING rc_ptr s
          = some (some osError_t.TERR_TIMEOUT, some m, s) ∧
      tn_mbf_send_first fuel (some m) msg TN_POLLING rc_ptr s
          = some (some osError_t.TERR_TIMEOUT, some m, s)) ∧
    (m.id = ID_MESSAGEBUF → msg ≠ 0 → (m.cnt = 0 ∨ m.num_entries = 0) →
      s.queues m.send_queue = [] →
      tn_mbf_receive fuel (some m) msg TN_POLLING rc_ptr s
          = some (some osError_t.TERR_TIMEOUT, some m, s)) ∧
    (f.id_fmp = TN_ID_FSMEMORYPOOL → p_data ≠ 0 → f.fblkcnt = 0 →
      tn_fmem_get (some f) p_data TN_POLLING rc_ptr s
          = (some osError_t.TERR_TIMEOUT, some f, s, none)) := by
  refine ⟨?_, ?_, ?_⟩
  · intro hid hfull hq
    have hw : ∀ b, mbf_fifo_write m (load s.ram msg m.msz.toNat) b
        = (if m.num_entries = 0 then osError_t.TERR_OUT_OF_MEM else osError_t.TERR_OVERFLOW,
            m) := by
      intro b
      unfold mbf_fifo_write
      by_cases h0 : m.num_entries = 0
      · simp [h0]
      · rcases hfull with h | h
        · simp [h0, h]
        · exact absurd h h0
    have hne : (if m.num_entries = 0 then osError_t.TERR_OUT_OF_MEM
        else osError_t.TERR_OVERFLOW) ≠ osError_t.TERR_NO_ERR := by
      split <;> decide
    constructor <;>
      simp [tn_mbf_send, tn_mbf_send_first, do_mbf_send, hid, isQueueEmpty, hq, hw, hne]
  · intro hid hmsg hemp hq
    have hr : mbf_fifo_read m
        = (if m.num_entries = 0 then osError_t.TERR_OUT_OF_MEM else osError_t.TERR_UNDERFLOW,
            m, none) := by
      unfold mbf_fifo_read
      by_cases h0 : m.num_entries = 0
      · simp [h0]
      · rcases hemp with h | h
        · simp [h0, h]
        · exact absurd h h0
    have hne : ¬ (if m.num_entries = 0 then osError_t.TERR_OUT_OF_MEM
        else osError_t.TERR_UNDERFLOW) = osError_t.TERR_NO_ERR := by
      split <;> decide
    simp [tn_mbf_receive, hid, hmsg, isQueueEmpty, hq, hr, hne]
  · intro hid hp hcnt
    simp [tn_fmem_get, hid, hp, fm_get, hcnt]

/-- Witness for C4: a full buffer, an empty buffer and an exhausted pool in `exReady`. -/
theorem polling_never_blocks_witness :
    (tn_mbf_send 1 (some exMbfFull) 0x20 TN_POLLING 0x30 exReady
        = some (some osError_t.TERR_TIMEOUT, some exMbfFull, exReady) ∧
      tn_mbf_send_first 1 (some exMbfFull) 0x20 TN_POLLING 0x30 exReady
        = some (some osError_t.TERR_TIMEOUT, some exMbfFull, exReady)) ∧
    tn_mbf_receive 1 (some exMbfEmpty) 0x20 TN_POLLING 0x30 exReady
        = some (some osError_t.TERR_TIMEOUT, some exMbfEmpty, exReady) ∧
    tn_fmem_get (some exFmpEmpty) 0x40 TN_POLLING 0x30 exReady
        = (some osError_t.TERR_TIMEOUT, some exFmpEmpty, exReady, none) :=
  ⟨(polling_never_blocks 1 exMbfFull exFmpEmpty 0x20 0x40 0x30 exReady).1 rfl
      (Or.inl rfl) rfl,
   (polling_never_blocks 1 exMbfEmpty exFmpEmpty 0x20 0x40 0x30 exReady).2.1 rfl
      (by decide) (Or.inl rfl) rfl,
   (polling_never_blocks 1 exMbfEmpty exFmpEmpty 0x20 0x40 0x30 exReady).2.2 rfl
      (by decide) rfl⟩

/-! ### Transitive priority change -/

theorem MutexChain_congr (s s' : KState) (chain : List TcbRef)
    (htcb : ∀ t ∈ chain, s'.tcb t = s.tcb t) (hh : s'.holder = s.holder)
    (h : MutexChain s chain) : MutexChain s' chain := by
  induction chain with
  | nil => exact h
  | cons a rest ih =>
    cases rest with
    | nil =>
      simp only [MutexChain, WaitsOnInheritanceMutex] at h ⊢
      rw [htcb a (List.mem_cons_self _ _)]
      exact h
    | cons b rest' =>
      simp only [MutexChain, WaitsOnInheritanceMutex] at h ⊢
      rw [htcb a (List.mem_cons_self _ _), hh]
      exact ⟨h.1, h.2.1, ih (fun t ht => htcb t (List.mem_cons_of_mem _ ht)) h.2.2⟩

theorem boosted_congr (s s' : KState) (p : Nat) (chain : List TcbRef)
    (htcb : ∀ t ∈ chain, (s'.tcb t).priority = (s.tcb t).priority) :
    boosted s' p chain = boosted s p chain := by
  unfold boosted
  induction chain with
  | nil => rfl
  | cons a rest ih =>
    simp only [List.takeWhile_cons, htcb a (List.mem_cons_self _ _)]
    rw [ih (fun t ht => htcb t (List.mem_cons_of_mem _ ht))]

theorem wait_not_runnable (st : Nat) (h : st &&& TSK_STATE_WAIT ≠ 0) :
    st ≠ TSK_STATE_RUNNABLE := by
  intro hc
  rw [hc] at h
  exact h (by decide)

/-- The effect of `ThreadSetPriority` on a wait-for chain, by induction along the chain. -/
theorem ThreadSetPriority_chain (p : Nat) (chain : List TcbRef) :
    ∀ (fuel : Nat) (s : KState), chain.Nodup → MutexChain s chain → chain.length ≤ fuel →
    ∃ s', ThreadSetPriority fuel (chain.headD TcbRef.null) p s = some s' ∧
      (∀ t, t ∉ boosted s p chain → s'.tcb t = s.tcb t) ∧
      (∀ t, t ∈ boosted s p chain → s'.tcb t = { s.tcb t with priority := p }) ∧
      (∀ t, t ∈ boosted s p chain → (s.tcb t).state = TSK_STATE_RUNNABLE →
        s'.queues = QueueAddTail (QueueRef.ready p) t (QueueRemoveEntry t s.queues) ∧
        (ReadyBitmapInv s → t ∈ s.queues (QueueRef.ready (s.tcb t).priority) →
          (∀ q, q ≠ (s.tcb t).priority → t ∉ s.queues (QueueRef.ready q)) →
          ReadyBitmapInv s')) ∧
      ((∀ t, t ∈ boosted s p chain → (s.tcb t).state ≠ TSK_STATE_RUNNABLE) →
        s'.queues = s.queues ∧ s'.ready_to_run_bmp = s.ready_to_run_bmp ∧
        s'.next = s.next) := by
  induction chain with
  | nil => intro fuel s _ h _; exact absurd h (by simp [MutexChain])
  | cons a rest ih =>
    intro fuel s hnd hch hlen
    obtain ⟨fuel', rfl⟩ : ∃ f, fuel = f + 1 := ⟨fuel - 1, by simp at hlen; omega⟩
    by_cases hle : (s.tcb a).priority ≤ p
    · have hb : boosted s p (a :: rest) = [] := by
        simp [boosted, List.takeWhile_cons, Nat.not_lt.mpr hle]
      refine ⟨s, by simp [ThreadSetPriority, hle], ?_⟩
      rw [hb]
      simp
    · have hgt : p < (s.tcb a).priority := Nat.lt_of_not_le hle
      cases rest with
      | nil =>
        have hb : boosted s p [a] = [a] := by
          simp [boosted, List.takeWhile_cons, hgt]
        have hnw : ¬ WaitsOnInheritanceMutex s a := hch
        rw [hb]
        by_cases hrun : (s.tcb a).state = TSK_STATE_RUNNABLE
        · refine ⟨ThreadChangePriority a p s, by simp [ThreadSetPriority, hle, hrun], ?_, ?_,
            ?_, ?_⟩
          · intro t ht
            have hne : t ≠ a := by simpa using ht
            rw [ThreadChangePriority_tcb, Function.update_noteq hne]
          · intro t ht
            have he : t = a := by simpa using ht
            subst he
            rw [ThreadChangePriority_tcb, Function.update_same]
          · intro t ht _
            have he : t = a := by simpa using ht
            subst he
            exact ⟨ThreadChangePriority_queues t p s,
              fun hinv hin hother => ThreadChangePriority_inv t p s hinv hin hother⟩
          · intro h
            exact absurd hrun (h a (by simp))
        · have hres : ThreadSetPriority (fuel' + 1) a p s = some (set_priority_field a p s) := by
            unfold WaitsOnInheritanceMutex at hnw
            simp only [ThreadSetPriority, hle, hrun, if_false]
            rw [if_neg hnw]
          refine ⟨set_priority_field a p s, hres, ?_, ?_, ?_, ?_⟩
          · intro t ht
            have hne : t ≠ a := by simpa using ht
            simp [set_priority_field, Function.update_noteq hne]
          · intro t ht
            have he : t = a := by simpa using ht
            subst he
            simp [set_priority_field]
          · intro t ht hr
            have he : t = a := by simpa using ht
            subst he
            exact absurd hr hrun
          · intro _
            exact ⟨rfl, rfl, rfl⟩
      | cons b rest' =>
        obtain ⟨hw, hhold, hch'⟩ := hch
        have hrun : (s.tcb a).state ≠ TSK_STATE_RUNNABLE := wait_not_runnable _ hw.1
        have ha : a ∉ b :: rest' := (List.nodup_cons.mp hnd).1
        have hnd' : (b :: rest').Nodup := (List.nodup_cons.mp hnd).2
        have htcb : ∀ t ∈ b :: rest', (set_priority_field a p s).tcb t = s.tcb t := by
          intro t ht
          have hne : t ≠ a := fun hc => ha (hc ▸ ht)
          simp [set_priority_field, Function.update_noteq hne]
        have hch1 : MutexChain (set_priority_field a p s) (b :: rest') :=
          MutexChain_congr s _ _ htcb rfl hch'
        have hlen' : (b :: rest').length ≤ fuel' := by
          simp only [List.length_cons] at hlen ⊢; omega
        obtain ⟨s', hs', h1, h2, h3, h4⟩ := ih fuel' (set_priority_field a p s) hnd' hch1 hlen'
        have hb1 : boosted (set_priority_field a p s) p (b :: rest')
            = boosted s p (b :: rest') :=
          boosted_congr _ _ _ _ (fun t ht => by rw [htcb t ht])
        rw [hb1] at h1 h2 h3 h4
        have hb : boosted s p (a :: b :: rest') = a :: boosted s p (b :: rest') := by
          simp [boosted, List.takeWhile_cons, hgt]
        have hsub : ∀ t, t ∈ boosted s p (b :: rest') → t ∈ b :: rest' :=
          fun t ht => (List.takeWhile_sublist _).subset ht
        have hres : ThreadSetPriority (fuel' + 1) a p s = some s' := by
          have hw' := hw
          unfold WaitsOnInheritanceMutex at hw'
          simp only [ThreadSetPriority, hle, hrun, if_false]
          rw [if_pos hw']
          have : (set_priority_field a p s).holder
              (get_mutex_by_wait_queque ((set_priority_field a p s).tcb a).pwait_queue) = b := by
            simp [set_priority_field, hhold]
          rw [this]
          exact hs'
        refine ⟨s', hres, ?_, ?_, ?_, ?_⟩
        · intro t ht
          rw [hb] at ht
          have hne : t ≠ a := fun hc => ht (hc ▸ List.mem_cons_self _ _)
          have hnot : t ∉ boosted s p (b :: rest') := fun hc => ht (List.mem_cons_of_mem _ hc)
          rw [h1 t hnot]
          simp [set_priority_field, Function.update_noteq hne]
        · intro t ht
          rw [hb] at ht
          rcases List.mem_cons.mp ht with he | hin
          · subst he
            have hnot : t ∉ boosted s p (b :: rest') := fun hc => ha (hsub t hc)
            rw [h1 t hnot]
            simp [set_priority_field]
          · rw [h2 t hin, htcb t (hsub t hin)]
        · intro t ht hr
          rw [hb] at ht
          rcases List.mem_cons.mp ht with he | hin
          · subst he
            exact absurd hr hrun
          · have hst : ((set_priority_field a p s).tcb t).state = TSK_STATE_RUNNABLE := by
              rw [htcb t (hsub t hin)]; exact hr
            obtain ⟨g1, g2⟩ := h3 t hin hst
            refine ⟨g1, ?_⟩
            intro hinv hmem hother
            rw [htcb t (hsub t hin)] at g2
            exact g2 (ReadyBitmapInv_congr hinv rfl rfl) hmem hother
        · intro hall
          have := h4 (fun t ht => by
            rw [htcb t (hsub t ht)]
            exact hall t (by rw [hb]; exact List.mem_cons_of_mem _ ht))
          exact this

/-- C7. Transitive priority boost.  Let `h0, ..., hk` be an acyclic wait-for chain: every
`hi` with `i < k` is in a WAIT state with reason `WAIT_REASON_MUTEX_I` on a mutex whose
holder is `h(i+1)`, and the chain ends at `hk` (which does not wait on an inheritance
mutex).  Then `ThreadSetPriority(h0, p)` ends (after at most `k + 1` rounds of its loop) and
* sets the priority of every chain task that comes before the first one whose priority is
  already numerically `≤ p` to `p`, changing no other field of these control blocks;
* changes no control block of any other task, in or outside the chain;
* when one of the boosted tasks is RUNNABLE, it is unlinked and appended to
  `ready_list[p]`, and the ready bitmap is consistent with the ready queues again;
* when none is RUNNABLE, the queues, the bitmap and `next` are unchanged. -/
theorem transitive_priority_boost (p fuel : Nat) (s : KState) (h0 : TcbRef)
    (rest : List TcbRef) (hnd : (h0 :: rest).Nodup) (hch : MutexChain s (h0 :: rest))
    (hfuel : rest.length + 1 ≤ fuel) :
    ∃ s', ThreadSetPriority fuel h0 p s = some s' ∧
      (∀ t, t ∈ boosted s p (h0 :: rest) → s'.tcb t = { s.tcb t with priority := p }) ∧
      (∀ t, t ∉ boosted s p (h0 :: rest) → s'.tcb t = s.tcb t) ∧
      (∀ t, t ∈ boosted s p (h0 :: rest) → (s.tcb t).state = TSK_STATE_RUNNABLE →
        s'.queues = QueueAddTail (QueueRef.ready p) t (QueueRemoveEntry t s.queues) ∧
        (ReadyBitmapInv s → t ∈ s.queues (QueueRef.ready (s.tcb t).priority) →
          (∀ q, q ≠ (s.tcb t).priority → t ∉ s.queues (QueueRef.ready q)) →
          ReadyBitmapInv s')) ∧
      ((∀ t, t ∈ boosted s p (h0 :: rest) → (s.tcb t).state ≠ TSK_STATE_RUNNABLE) →
        s'.queues = s.queues ∧ s'.ready_to_run_bmp = s.ready_to_run_bmp ∧
        s'.next = s.next) := by
  obtain ⟨s', h, h1, h2, h3, h4⟩ :=
    ThreadSetPriority_chain p (h0 :: rest) fuel s hnd hch (by simpa using hfuel)
  exact ⟨s', h, h2, h1, h3, h4⟩

theorem exBoost_chain : MutexChain exBoost [TcbRef.task 2, TcbRef.task 1] := by
  refine ⟨⟨by decide, by decide⟩, by decide, ?_⟩
  intro h
  exact absurd h.2 (by decide)

theorem exBoost_boosted :
    boosted exBoost 3 [TcbRef.task 2, TcbRef.task 1] = [TcbRef.task 2, TcbRef.task 1] := by
  decide

/-- Witness for C7, the scenario of the spec: L (task 1, priority 10, RUNNABLE) holds m1,
M (task 2, priority 7) holds m2 and waits on m1, H (task 3, priority 3) blocks on m2.
`ThreadSetPriority(M, 3)` leaves `M.priority = 3` and `L.priority = 3` with L in
`ready_list[3]` and bit 3 of the bitmap set; H is unchanged. -/
theorem transitive_priority_boost_witness :
    ∃ s', ThreadSetPriority 2 (TcbRef.task 2) 3 exBoost = some s' ∧
      (s'.tcb (TcbRef.task 2)).priority = 3 ∧
      (s'.tcb (TcbRef.task 1)).priority = 3 ∧
      s'.queues (QueueRef.ready 3) = [TcbRef.task 1] ∧
      s'.queues (QueueRef.ready 10) = [] ∧
      s'.tcb (TcbRef.task 3) = exBoost.tcb (TcbRef.task 3) := by
  obtain ⟨s', h, h1, h2, h3, _⟩ :=
    transitive_priority_boost 3 2 exBoost (TcbRef.task 2) [TcbRef.task 1] (by decide)
      exBoost_chain (by decide)
  rw [exBoost_boosted] at h1 h2 h3
  have hq := (h3 (TcbRef.task 1) (by decide) (by decide)).1
  refine ⟨s', h, ?_, ?_, ?_, ?_, h2 _ (by decide)⟩
  · rw [h1 _ (by decide)]
  · rw [h1 _ (by decide)]
  · rw [hq]; decide
  · rw [hq]; decide

/-! ### Well-formed queues are preserved -/

theorem KWF_of_eq {s s' : KState} (h : KWF s) (hq : s'.queues = s.queues)
    (ht : ∀ t, (s'.tcb t).state = TSK_STATE_RUNNABLE →
      (s.tcb t).state = TSK_STATE_RUNNABLE ∧ (s'.tcb t).priority = (s.tcb t).priority)
    (htq : s'.timer_queue = s.timer_queue) : KWF s' := by
  obtain ⟨h1, h2, h3, h4⟩ := h
  refine ⟨?_, ?_, ?_, ?_⟩
  · unfold LinkedOnce; rw [hq]; exact h1
  · intro t hr
    obtain ⟨a, b⟩ := ht t hr
    rw [hq, b]; exact h2 t a
  · rw [hq]; exact h3
  · rw [htq]; exact h4

theorem wait_queue_not_runnable (s : KState) (h : KWF s) (q : Nat) (w : TcbRef)
    (hw : w ∈ s.queues (QueueRef.wait q)) : (s.tcb w).state ≠ TSK_STATE_RUNNABLE := by
  intro hr
  have := h.1.2 w _ _ hw (h.2.1 w hr)
  exact QueueRef.noConfusion this

theorem KWF_remove_head (s : KState) (h : KWF s) (q : Nat) :
    KWF { s with queues := (QueueRemoveHead (QueueRef.wait q) s.queues).2 } := by
  obtain ⟨h1, h2, h3, h4⟩ := h
  have hsub : ∀ q', (Function.update s.queues (QueueRef.wait q)
      (s.queues (QueueRef.wait q)).tail q').Sublist (s.queues q') := by
    intro q'
    by_cases hq : q' = QueueRef.wait q
    · subst hq; rw [Function.update_same]; exact List.tail_sublist _
    · rw [Function.update_noteq hq]
  refine ⟨⟨fun q' => (h1.1 q').sublist (hsub q'), ?_⟩, ?_, ?_, h4⟩
  · intro t a b ha hb
    exact h1.2 t a b ((hsub a).subset ha) ((hsub b).subset hb)
  · intro t hr
    have := h2 t hr
    show t ∈ Function.update s.queues (QueueRef.wait q) (s.queues (QueueRef.wait q)).tail
      (QueueRef.ready (s.tcb t).priority)
    rw [Function.update_noteq (by intro hc; exact QueueRef.noConfusion hc)]
    exact this
  · intro q' hn
    exact h3 q' ((hsub q').subset hn)

theorem KWF_TaskToRunnable (s : KState) (h : KWF s) (w : TcbRef) (hw : ∀ q, w ∉ s.queues q)
    (hnull : w ≠ TcbRef.null) : KWF (TaskToRunnable w s) := by
  obtain ⟨h1, h2, h3, h4⟩ := h
  have hq := TaskToRunnable_queues w s
  have ht : (TaskToRunnable w s).tcb = Function.update s.tcb w
      { s.tcb w with state := TSK_STATE_RUNNABLE, pwait_queue := none } := by
    unfold TaskToRunnable
    dsimp only
    split <;> simp [ThreadSetReady]
  have htq : (TaskToRunnable w s).timer_queue = s.timer_queue := by
    unfold TaskToRunnable
    dsimp only
    split
    · simp only [ThreadSetReady, TaskSetNext]; split <;> rfl
    · rfl
  have hmem : ∀ t q', t ∈ (TaskToRunnable w s).queues q' →
      t ∈ s.queues q' ∨ (t = w ∧ q' = QueueRef.ready (s.tcb w).priority) := by
    intro t q' hm
    rw [hq] at hm
    unfold QueueAddTail at hm
    by_cases hq' : q' = QueueRef.ready (s.tcb w).priority
    · subst hq'
      rw [Function.update_same, List.mem_append, List.mem_singleton] at hm
      rcases hm with hm | hm
      · exact Or.inl hm
      · exact Or.inr ⟨hm, rfl⟩
    · rw [Function.update_noteq hq'] at hm
      exact Or.inl hm
  refine ⟨⟨?_, ?_⟩, ?_, ?_, by rw [htq]; exact h4⟩
  · intro q'
    rw [hq]
    unfold QueueAddTail
    by_cases hq' : q' = QueueRef.ready (s.tcb w).priority
    · subst hq'
      rw [Function.update_same]
      exact List.Nodup.append (h1.1 _) (List.nodup_singleton _)
        (by simpa using hw _)
    · rw [Function.update_noteq hq']; exact h1.1 _
  · intro t a b ha hb
    rcases hmem t a ha with ha' | ⟨hta, hqa⟩
    · rcases hmem t b hb with hb' | ⟨htb, _⟩
      · exact h1.2 t a b ha' hb'
      · rw [htb] at ha'; exact absurd ha' (hw a)
    · rcases hmem t b hb with hb' | ⟨_, hqb⟩
      · rw [hta] at hb'; exact absurd hb' (hw b)
      · rw [hqa, hqb]
  · intro t hr
    rw [ht] at hr ⊢
    rw [hq]
    unfold QueueAddTail
    by_cases htw : t = w
    · subst htw
      rw [Function.update_same]
      dsimp only
      rw [Function.update_same]
      simp
    · rw [Function.update_noteq htw] at hr ⊢
      have := h2 t hr
      by_cases hq' : QueueRef.ready (s.tcb t).priority = QueueRef.ready (s.tcb w).priority
      · rw [hq', Function.update_same]
        rw [hq'] at this
        exact List.mem_append_left _ this
      · rw [Function.update_noteq hq']; exact this
  · intro q' hn
    rcases hmem _ q' hn with hn | ⟨hn, _⟩
    · exact h3 q' hn
    · exact hnull hn.symm

theorem TaskSetNext_eq (t : TcbRef) (s : KState) :
    ∃ n b, TaskSetNext t s = { s with next := n, switch_req := b } := by
  unfold TaskSetNext
  split
  · exact ⟨s.next, s.switch_req, rfl⟩
  · exact ⟨t, true, rfl⟩

theorem ThreadChangePriority_eq (x : TcbRef) (p : Nat) (s : KState) :
    ∃ n b m, ThreadChangePriority x p s =
      { s with next := n, switch_req := b, ready_to_run_bmp := m
               queues := QueueAddTail (QueueRef.ready p) x (QueueRemoveEntry x s.queues)
               tcb := Function.update s.tcb x { s.tcb x with priority := p } } := by
  unfold ThreadChangePriority ThreadDispatch
  dsimp only
  obtain ⟨n, b, he⟩ := TaskSetNext_eq
    (get_task_by_tsk_queue
      (QueueRef.ready (ffs_priority (ThreadSetReady x
        { (if isQueueEmpty (QueueRef.ready (s.tcb x).priority) (QueueRemoveEntry x s.queues) then
            { s with queues := QueueRemoveEntry x s.queues
                     ready_to_run_bmp :=
                       s.ready_to_run_bmp &&& not32 (bit32 (s.tcb x).priority) }
          else { s with queues := QueueRemoveEntry x s.queues }) with
          tcb := Function.update s.tcb x { s.tcb x with priority := p } }).ready_to_run_bmp))
      (ThreadSetReady x
        { (if isQueueEmpty (QueueRef.ready (s.tcb x).priority) (QueueRemoveEntry x s.queues) then
            { s with queues := QueueRemoveEntry x s.queues
                     ready_to_run_bmp :=
                       s.ready_to_run_bmp &&& not32 (bit32 (s.tcb x).priority) }
          else { s with queues := QueueRemoveEntry x s.queues }) with
          tcb := Function.update s.tcb x { s.tcb x with priority := p } }).queues)
    (ThreadSetReady x
        { (if isQueueEmpty (QueueRef.ready (s.tcb x).priority) (QueueRemoveEntry x s.queues) then
            { s with queues := QueueRemoveEntry x s.queues
                     ready_to_run_bmp :=
                       s.ready_to_run_bmp &&& not32 (bit32 (s.tcb x).priority) }
          else { s with queues := QueueRemoveEntry x s.queues }) with
          tcb := Function.update s.tcb x { s.tcb x with priority := p } })
  split_ifs at he ⊢ <;>
    (rw [he]; simp only [ThreadSetReady, Function.update_same]; exact ⟨_, _, _, rfl⟩)

theorem KWF_relink (s s' : KState) (h : KWF s) (x : TcbRef) (p : Nat) (hx : x ≠ TcbRef.null)
    (hq : s'.queues = QueueAddTail (QueueRef.ready p) x (QueueRemoveEntry x s.queues))
    (hp : (s'.tcb x).priority = p)
    (ht : ∀ t, t ≠ x → (s'.tcb t).state = TSK_STATE_RUNNABLE →
      (s.tcb t).state = TSK_STATE_RUNNABLE ∧ (s'.tcb t).priority = (s.tcb t).priority)
    (htq : s'.timer_queue = s.timer_queue) : KWF s' := by
  obtain ⟨h1, h2, h3, h4⟩ := h
  have hmem : ∀ t q', t ∈ s'.queues q' ↔
      (t ≠ x ∧ t ∈ s.queues q') ∨ (t = x ∧ q' = QueueRef.ready p) := by
    intro t q'
    rw [hq]
    unfold QueueAddTail QueueRemoveEntry
    by_cases hq' : q' = QueueRef.ready p
    · subst hq'
      rw [Function.update_same, List.mem_append, List.mem_singleton,
        (h1.1 _).mem_erase_iff]
      simp
    · rw [Function.update_noteq hq', (h1.1 _).mem_erase_iff]
      simp [hq']
  refine ⟨⟨?_, ?_⟩, ?_, ?_, by rw [htq]; exact h4⟩
  · intro q'
    rw [hq]
    unfold QueueAddTail QueueRemoveEntry
    by_cases hq' : q' = QueueRef.ready p
    · subst hq'
      rw [Function.update_same]
      refine List.Nodup.append ((h1.1 _).erase _) (List.nodup_singleton _) ?_
      intro a ha hb
      rw [List.mem_singleton] at hb
      subst hb
      exact (h1.1 _).not_mem_erase ha
    · rw [Function.update_noteq hq']; exact (h1.1 _).erase _
  · intro t a b ha hb
    rw [hmem] at ha hb
    rcases ha with ⟨hne, ha⟩ | ⟨he, ha⟩
    · rcases hb with ⟨_, hb⟩ | ⟨he, _⟩
      · exact h1.2 t a b ha hb
      · exact absurd he hne
    · rcases hb with ⟨hne, _⟩ | ⟨_, hb⟩
      · exact absurd he hne
      · rw [ha, hb]
  · intro t hr
    rw [hmem]
    by_cases htx : t = x
    · right; subst htx; exact ⟨rfl, by rw [hp]⟩
    · left
      obtain ⟨a, b⟩ := ht t htx hr
      rw [b]
      exact ⟨htx, h2 t a⟩
  · intro q' hn
    rw [hmem] at hn
    rcases hn with ⟨_, hn⟩ | ⟨hn, _⟩
    · exact h3 q' hn
    · exact hx hn.symm

theorem runnable_ne_null (s : KState) (h : KWF s) (x : TcbRef)
    (hr : (s.tcb x).state = TSK_STATE_RUNNABLE) : x ≠ TcbRef.null := by
  intro hc
  subst hc
  exact h.2.2.1 _ (h.2.1 _ hr)

theorem KWF_ThreadChangePriority (s : KState) (h : KWF s) (x : TcbRef) (p : Nat)
    (hr : (s.tcb x).state = TSK_STATE_RUNNABLE) : KWF (ThreadChangePriority x p s) := by
  obtain ⟨n, b, m, he⟩ := ThreadChangePriority_eq x p s
  rw [he]
  refine KWF_relink s _ h x p (runnable_ne_null s h x hr) rfl ?_ ?_ rfl
  · simp
  · intro t htx hst
    simp only [Function.update_noteq htx] at hst ⊢
    exact ⟨hst, trivial⟩

theorem KWF_set_priority_field (s : KState) (h : KWF s) (x : TcbRef) (p : Nat)
    (hr : (s.tcb x).state ≠ TSK_STATE_RUNNABLE) : KWF (set_priority_field x p s) := by
  refine KWF_of_eq h rfl ?_ rfl
  intro t hst
  unfold set_priority_field at hst ⊢
  by_cases htx : t = x
  · subst htx
    simp only [Function.update_same] at hst
    exact absurd hst hr
  · simp only [Function.update_noteq htx] at hst ⊢
    exact ⟨hst, trivial⟩

/-- Induction principle for `ThreadSetPriority`: a property of the state that survives every
single priority change made by the loop holds for the result. -/
theorem ThreadSetPriority_induct (P : KState → Prop) (p : Nat)
    (hset : ∀ s t, P s → p < (s.tcb t).priority → (s.tcb t).state ≠ TSK_STATE_RUNNABLE →
      P (set_priority_field t p s))
    (hchg : ∀ s t, P s → p < (s.tcb t).priority → (s.tcb t).state = TSK_STATE_RUNNABLE →
      P (ThreadChangePriority t p s)) :
    ∀ (fuel : Nat) (task : TcbRef) (s s' : KState),
      ThreadSetPriority fuel task p s = some s' → P s → P s' := by
  intro fuel
  induction fuel with
  | zero => intro task s s' h; simp [ThreadSetPriority] at h
  | succ fuel ih =>
    intro task s s' h hP
    unfold ThreadSetPriority at h
    split_ifs at h with h1 h2 h3
    · cases h; exact hP
    · cases h; exact hchg s task hP (Nat.lt_of_not_le h1) h2
    · exact ih _ _ _ h (hset s task hP (Nat.lt_of_not_le h1) h2)
    · cases h; exact hset s task hP (Nat.lt_of_not_le h1) h2

theorem countP_lt_of_flip {α : Type} (l : List α) (f g : α → Bool) (a : α) (ha : a ∈ l)
    (hfg : ∀ x ∈ l, g x = true → f x = true) (hfa : f a = true) (hga : g a = false) :
    l.countP g < l.countP f := by
  induction l with
  | nil => cases ha
  | cons b rest ih =>
    have hmono : rest.countP g ≤ rest.countP f :=
      List.countP_mono_left (fun x hx => hfg x (List.mem_cons_of_mem _ hx))
    rw [List.countP_cons, List.countP_cons]
    rcases List.mem_cons.mp ha with hab | har
    · subst hab
      simp only [hfa, hga, if_true, Bool.false_eq_true, if_false]
      omega
    · have := ih har (fun x hx => hfg x (List.mem_cons_of_mem _ hx))
      by_cases hgb : g b = true
      · have hfb := hfg b (List.mem_cons_self _ _) hgb
        simp only [hgb, hfb, if_true]
        omega
      · simp only [hgb, Bool.false_eq_true, if_false]
        split <;> omega

/-- `ThreadSetPriority` ends when only finitely many control blocks have a priority above
`p`: the number of rounds is at most the number of those control blocks plus one. -/
theorem ThreadSetPriority_terminates (p : Nat) (L : List TcbRef) :
    ∀ (fuel : Nat) (task : TcbRef) (s : KState),
      (∀ t, p < (s.tcb t).priority → t ∈ L) →
      L.countP (fun t => decide (p < (s.tcb t).priority)) < fuel →
      ∃ s', ThreadSetPriority fuel task p s = some s' := by
  intro fuel
  induction fuel with
  | zero => intro task s _ h; omega
  | succ fuel ih =>
    intro task s hL hc
    unfold ThreadSetPriority
    split_ifs with h1 h2 h3
    · exact ⟨_, rfl⟩
    · exact ⟨_, rfl⟩
    · have hgt : p < (s.tcb task).priority := Nat.lt_of_not_le h1
      have hlt : L.countP (fun t => decide (p < ((set_priority_field task p s).tcb t).priority))
          < L.countP (fun t => decide (p < (s.tcb t).priority)) := by
        refine countP_lt_of_flip L _ _ task (hL task hgt) ?_ (by simpa using hgt) ?_
        · intro x _ hx
          unfold set_priority_field at hx
          by_cases hxt : x = task
          · subst hxt; simpa using hgt
          · simpa [Function.update_noteq hxt] using hx
        · simp [set_priority_field]
      refine ih _ _ ?_ (by omega)
      intro t ht
      unfold set_priority_field at ht
      by_cases hxt : t = task
      · subst hxt; exact hL t hgt
      · simp only [Function.update_noteq hxt] at ht
        exact hL t ht
    · exact ⟨_, rfl⟩

theorem PrioFrame_refl (s : KState) : PrioFrame s s :=
  ⟨fun t => ⟨(s.tcb t).priority, le_refl _, rfl⟩, fun _ => rfl, rfl, rfl, rfl, rfl, rfl, rfl,
    rfl⟩

theorem PrioFrame_set (s0 s : KState) (x : TcbRef) (p : Nat) (h : PrioFrame s0 s)
    (hp : p < (s.tcb x).priority) : PrioFrame s0 (set_priority_field x p s) := by
  obtain ⟨h1, h2, h3⟩ := h
  refine ⟨?_, h2, h3⟩
  intro t
  obtain ⟨pr, hle, he⟩ := h1 t
  unfold set_priority_field
  by_cases htx : t = x
  · subst htx
    refine ⟨p, ?_, ?_⟩
    · rw [he] at hp
      exact le_trans (le_of_lt hp) hle
    · simp only [Function.update_same]
      rw [he]
  · exact ⟨pr, hle, by simp only [Function.update_noteq htx]; exact he⟩

theorem PrioFrame_change (s0 s : KState) (x : TcbRef) (p : Nat) (h : PrioFrame s0 s)
    (hwf : KWF s) (hp : p < (s.tcb x).priority) (hr : (s.tcb x).state = TSK_STATE_RUNNABLE) :
    PrioFrame s0 (ThreadChangePriority x p s) := by
  obtain ⟨h1, h2, h3⟩ := h
  obtain ⟨n, b, m, he⟩ := ThreadChangePriority_eq x p s
  rw [he]
  refine ⟨?_, ?_, h3⟩
  · intro t
    obtain ⟨pr, hle, he'⟩ := h1 t
    by_cases htx : t = x
    · subst htx
      refine ⟨p, ?_, ?_⟩
      · rw [he'] at hp
        exact le_trans (le_of_lt hp) hle
      · simp only [Function.update_same]
        rw [he']
    · exact ⟨pr, hle, by simp only [Function.update_noteq htx]; exact he'⟩
  · intro q
    rw [← h2 q]
    show QueueAddTail (QueueRef.ready p) x (QueueRemoveEntry x s.queues) (QueueRef.wait q) = _
    unfold QueueAddTail QueueRemoveEntry
    rw [Function.update_noteq (by intro hc; exact QueueRef.noConfusion hc)]
    refine List.erase_of_not_mem ?_
    intro hm
    exact wait_queue_not_runnable s hwf q x hm hr

theorem ThreadSetPriority_frame (fuel : Nat) (task : TcbRef) (p : Nat) (s s' : KState)
    (hwf : KWF s) (h : ThreadSetPriority fuel task p s = some s') :
    KWF s' ∧ PrioFrame s s' := by
  refine ThreadSetPriority_induct (fun x => KWF x ∧ PrioFrame s x) p ?_ ?_ fuel task s s' h
    ⟨hwf, PrioFrame_refl s⟩
  · intro x t hx hp hr
    exact ⟨KWF_set_priority_field x hx.1 t p hr, PrioFrame_set s x t p hx.2 hp⟩
  · intro x t hx hp hr
    exact ⟨KWF_ThreadChangePriority x hx.1 t p hr, PrioFrame_change s x t p hx.2 hx.1 hp hr⟩

theorem ite_TaskSetNext_eq (c : Prop) [Decidable c] (w : TcbRef) (s : KState) :
    ∃ n b, (if c then TaskSetNext w s else s) = { s with next := n, switch_req := b } := by
  split
  · exact TaskSetNext_eq w s
  · exact ⟨s.next, s.switch_req, rfl⟩

theorem TaskToRunnable_eq (w : TcbRef) (s : KState) :
    ∃ n b, TaskToRunnable w s =
      { s with next := n, switch_req := b
               ready_to_run_bmp := (s.ready_to_run_bmp ||| bit32 (s.tcb w).priority) % 2 ^ 32
               queues := QueueAddTail (QueueRef.ready (s.tcb w).priority) w s.queues
               tcb := Function.update s.tcb w
                 { s.tcb w with state := TSK_STATE_RUNNABLE, pwait_queue := none } } := by
  unfold TaskToRunnable
  dsimp only
  split
  · unfold TaskSetNext
    split
    · refine ⟨s.next, s.switch_req, ?_⟩
      simp only [ThreadSetReady, Function.update_same]
    · refine ⟨w, true, ?_⟩
      simp only [ThreadSetReady, Function.update_same]
  · refine ⟨s.next, s.switch_req, ?_⟩
    simp only [ThreadSetReady, Function.update_same]

theorem FiniteAbove_frame (L : List TcbRef) (s s' : KState) (h : FiniteAbove L s)
    (hle : ∀ t, (s'.tcb t).priority ≤ (s.tcb t).priority) : FiniteAbove L s' := by
  intro t ht
  have := h t ht
  have := hle t
  omega

theorem FiniteAbove_fuel (L : List TcbRef) (s : KState) (p fuel : Nat) (h : FiniteAbove L s)
    (hf : L.length < fuel) :
    (∀ t, p < (s.tcb t).priority → t ∈ L) ∧
    L.countP (fun t => decide (p < (s.tcb t).priority)) < fuel := by
  refine ⟨?_, lt_of_le_of_lt (List.countP_le_length _) hf⟩
  intro t ht
  by_contra hc
  have := h t hc
  omega

/-- The first half of `task_wait_release`: the wait queue pointer is cleared and the task is
made RUNNABLE, or left SUSPEND. -/
theorem task_wait_release_first (s : KState) (w : TcbRef) (hwf : KWF s)
    (hw : ∀ q, w ∉ s.queues q) (hnull : w ≠ TcbRef.null) (s2 : KState)
    (h2' : s2 = task_wait_release_state w s) :
    KWF s2 ∧
    s2.tcb w = { s.tcb w with
      state := if (s.tcb w).state &&& TSK_STATE_SUSPEND = 0 then TSK_STATE_RUNNABLE
        else TSK_STATE_SUSPEND
      pwait_queue := none } ∧
    (∀ t, t ≠ w → s2.tcb t = s.tcb t) ∧
    (∀ q, s2.queues (QueueRef.wait q) = s.queues (QueueRef.wait q)) ∧
    s2.timer_queue = s.timer_queue ∧ s2.tmeb = s.tmeb ∧ s2.holder = s.holder ∧
    s2.rc_mem = s.rc_mem ∧ s2.ram = s.ram ∧ s2.curr = s.curr ∧ s2.jiffies = s.jiffies := by
  have h2 : s2 =
      if (s.tcb w).state &&& TSK_STATE_SUSPEND = 0 then
        TaskToRunnable w { s with tcb := Function.update s.tcb w { s.tcb w with pwait_queue := none } }
      else
        { s with tcb := Function.update s.tcb w { s.tcb w with pwait_queue := none, state := TSK_STATE_SUSPEND } } := by
    rw [h2']
    unfold task_wait_release_state
    simp only [Function.update_same, Function.update_idem]
  clear h2'
  have hwf1 : KWF { s with tcb := Function.update s.tcb w { s.tcb w with pwait_queue := none } } := by
    refine KWF_of_eq hwf rfl ?_ rfl
    intro t hst
    by_cases htw : t = w
    · subst htw
      simp only [Function.update_same] at hst ⊢
      exact ⟨hst, trivial⟩
    · simp only [Function.update_noteq htw] at hst ⊢
      exact ⟨hst, trivial⟩
  by_cases hs : (s.tcb w).state &&& TSK_STATE_SUSPEND = 0
  · rw [if_pos hs] at h2
    obtain ⟨n, b, he⟩ := TaskToRunnable_eq w
      { s with tcb := Function.update s.tcb w { s.tcb w with pwait_queue := none } }
    have hk := KWF_TaskToRunnable _ hwf1 w hw hnull
    rw [← h2] at hk he
    refine ⟨hk, ?_⟩
    rw [he]
    refine ⟨?_, ?_, ?_, rfl, rfl, rfl, rfl, rfl, rfl, rfl⟩
    · simp only [Function.update_same, if_pos hs]
    · intro t htw
      simp only [Function.update_noteq htw]
    · intro q
      dsimp only [QueueAddTail]
      rw [Function.update_noteq (by intro hc; exact QueueRef.noConfusion hc)]
  · rw [if_neg hs] at h2
    rw [h2]
    refine ⟨?_, ?_, ?_, fun _ => rfl, rfl, rfl, rfl, rfl, rfl, rfl, rfl⟩
    · refine KWF_of_eq hwf rfl ?_ rfl
      intro t hst
      by_cases htw : t = w
      · subst htw
        simp only [Function.update_same] at hst
        exact absurd hst (by decide)
      · simp only [Function.update_noteq htw] at hst ⊢
        exact ⟨hst, trivial⟩
    · simp only [Function.update_same, if_neg hs]
    · intro t htw
      simp only [Function.update_noteq htw]


theorem task_wait_release_spec (fuel : Nat) (L : List TcbRef) (s : KState) (w : TcbRef)
    (hwf : KWF s) (hfin : FiniteAbove L s) (hfuel : L.length < fuel)
    (hw : ∀ q, w ∉ s.queues q) (hnull : w ≠ TcbRef.null) :
    ∃ s', task_wait_release fuel w s = some s' ∧ KWF s' ∧ FiniteAbove L s' ∧
      WaitExit w s s' := by
  obtain ⟨hk2, ht2, ho2, hq2, f1, f2, f3, f4, f5, f6, f7⟩ :=
    task_wait_release_first s w hwf hw hnull _ rfl
  have hfin2 : FiniteAbove L (task_wait_release_state w s) := by
    refine FiniteAbove_frame L s _ hfin ?_
    intro t
    by_cases htw : t = w
    · subst htw; rw [ht2]
    · rw [ho2 t htw]
  -- the mutex part ends and only lowers priorities
  have hB : ∀ (fm : Bool) (tq : Option QueueRef),
      ∃ s3, task_wait_release_mutex fuel w fm tq (task_wait_release_state w s) = some s3 ∧
        KWF s3 ∧ PrioFrame (task_wait_release_state w s) s3 := by
    intro fm tq
    unfold task_wait_release_mutex
    dsimp only
    split_ifs
    · obtain ⟨g1, g2⟩ := FiniteAbove_fuel L _
        (find_max_blocked_priority (get_mutex_by_wait_queque tq)
          ((task_wait_release_state w s).tcb
            ((task_wait_release_state w s).holder (get_mutex_by_wait_queque tq))).base_priority
          (task_wait_release_state w s)) fuel hfin2 hfuel
      obtain ⟨s3, h3⟩ := ThreadSetPriority_terminates _ L fuel
        ((task_wait_release_state w s).holder (get_mutex_by_wait_queque tq)) _ g1 g2
      obtain ⟨k1, k2⟩ := ThreadSetPriority_frame _ _ _ _ _ hk2 h3
      exact ⟨s3, h3, k1, k2⟩
    · exact ⟨_, rfl, hk2, PrioFrame_refl _⟩
    · exact ⟨_, rfl, hk2, PrioFrame_refl _⟩
    · exact ⟨_, rfl, hk2, PrioFrame_refl _⟩
  unfold task_wait_release
  dsimp only
  obtain ⟨s3, h3, k3, ⟨p1, p2, p3, p4, p5, p6, p7, p8, p9⟩⟩ := hB
    (decide ((s.tcb w).wait_reason = wait_reason_t.WAIT_REASON_MUTEX_I ∨
      (s.tcb w).wait_reason = wait_reason_t.WAIT_REASON_MUTEX_C))
    (if decide ((s.tcb w).wait_reason = wait_reason_t.WAIT_REASON_MUTEX_I ∨
      (s.tcb w).wait_reason = wait_reason_t.WAIT_REASON_MUTEX_C) = true then (s.tcb w).pwait_queue
      else none)
  rw [h3]
  refine ⟨clear_wait_reason w s3, rfl, ?_, ?_, ?_⟩
  · refine KWF_of_eq k3 rfl ?_ rfl
    intro t hst
    unfold clear_wait_reason at hst ⊢
    by_cases htw : t = w
    · subst htw
      simp only [Function.update_same] at hst ⊢
      exact ⟨hst, trivial⟩
    · simp only [Function.update_noteq htw] at hst ⊢
      exact ⟨hst, trivial⟩
  · refine FiniteAbove_frame L _ _ hfin2 ?_
    intro t
    obtain ⟨pr, hle, he⟩ := p1 t
    unfold clear_wait_reason
    by_cases htw : t = w
    · subst htw
      simp only [Function.update_same]
      rw [he]
      exact hle
    · simp only [Function.update_noteq htw]
      rw [he]
      exact hle
  · refine ⟨?_, ?_, ?_, by rw [← f1, ← p3]; rfl, by rw [← f2, ← p4]; rfl,
      by rw [← f3, ← p5]; rfl, by rw [← f4, ← p6]; rfl, by rw [← f5, ← p7]; rfl,
      by rw [← f6, ← p8]; rfl, by rw [← f7, ← p9]; rfl⟩
    · obtain ⟨pr, hle, he⟩ := p1 w
      rw [ht2] at hle
      refine ⟨pr, hle, ?_⟩
      unfold clear_wait_reason
      simp only [Function.update_same]
      rw [he, ht2]
    · intro t htw
      obtain ⟨pr, hle, he⟩ := p1 t
      rw [ho2 t htw] at hle
      refine ⟨pr, hle, ?_⟩
      unfold clear_wait_reason
      simp only [Function.update_noteq htw]
      rw [he, ho2 t htw]
    · intro q
      rw [← hq2 q, ← p2 q]
      rfl

theorem KWF_write_wait_rc (s : KState) (h : KWF s) (w : TcbRef) (rc : osError_t) :
    KWF (write_wait_rc w rc s) := by
  unfold write_wait_rc
  split
  · exact h
  · exact KWF_of_eq h rfl (fun t ht => ⟨ht, rfl⟩) rfl

theorem write_wait_rc_tcb (s : KState) (w : TcbRef) (rc : osError_t) :
    (write_wait_rc w rc s).tcb = s.tcb := by
  unfold write_wait_rc
  split <;> rfl

theorem write_wait_rc_eq (s : KState) (w : TcbRef) (rc : osError_t) :
    write_wait_rc w rc s = { s with rc_mem := match (s.tcb w).wait_rc with
      | none => s.rc_mem
      | some a => Function.update s.rc_mem a rc } := by
  unfold write_wait_rc
  split <;> rename_i h <;> simp only [h]

theorem ThreadWaitComplete_spec (fuel : Nat) (L : List TcbRef) (s : KState) (w : TcbRef)
    (hwf : KWF s) (hfin : FiniteAbove L s) (hfuel : L.length < fuel)
    (hw : ∀ q, w ∉ s.queues q) (hnull : w ≠ TcbRef.null) :
    ∃ s', ThreadWaitComplete fuel w s = some s' ∧ KWF s' ∧ FiniteAbove L s' ∧
      WaitDone w osError_t.TERR_NO_ERR s s' := by
  have hwf1 : KWF (TimerDelete (TmebRef.wait_timer w) s) :=
    ⟨hwf.1, hwf.2.1, hwf.2.2.1, hwf.2.2.2.erase _⟩
  obtain ⟨s1, h1, k1, fin1, ⟨e1, e2, e3, e4, e5, e6, e7, e8, e9, e10⟩⟩ :=
    task_wait_release_spec fuel L (TimerDelete (TmebRef.wait_timer w) s) w hwf1 hfin hfuel hw
      hnull
  refine ⟨write_wait_rc w osError_t.TERR_NO_ERR s1, ?_, KWF_write_wait_rc s1 k1 w _, ?_, ?_⟩
  · unfold ThreadWaitComplete
    rw [if_neg hnull, h1]
    rfl
  · intro t ht
    rw [write_wait_rc_tcb]
    exact fin1 t ht
  · rw [write_wait_rc_eq]
    obtain ⟨pr, hle, he⟩ := e1
    refine ⟨⟨pr, hle, he⟩, e2, e3, e4, ?_, e5, e6, e8, e9, e10⟩
    show (match (s1.tcb w).wait_rc with
      | none => s1.rc_mem
      | some a => Function.update s1.rc_mem a osError_t.TERR_NO_ERR) = _
    rw [he, e7]
    rfl

/-! ### Deletion wakes every waiter -/

/-- One round of the loop of `ThreadWaitDelete`: the head of the wait queue is released with
`TERR_NO_ERR`, which is then overwritten with `TERR_DLT`. -/
theorem ThreadWaitDelete_round (fuel : Nat) (L : List TcbRef) (q : Nat) (s : KState)
    (w : TcbRef) (rest : List TcbRef) (hwf : KWF s) (hfin : FiniteAbove L s)
    (hfuel : L.length < fuel) (hq : s.queues (QueueRef.wait q) = w :: rest) :
    ∃ s1, ThreadWaitComplete fuel w
        { s with queues := (QueueRemoveHead (QueueRef.wait q) s.queues).2 } = some s1 ∧
      KWF (write_wait_rc w osError_t.TERR_DLT s1) ∧
      FiniteAbove L (write_wait_rc w osError_t.TERR_DLT s1) ∧
      (write_wait_rc w osError_t.TERR_DLT s1).queues (QueueRef.wait q) = rest ∧
      (∀ t, ((write_wait_rc w osError_t.TERR_DLT s1).tcb t).wait_rc = (s.tcb t).wait_rc) ∧
      (∀ t, t ≠ w → ((write_wait_rc w osError_t.TERR_DLT s1).tcb t).state = (s.tcb t).state) ∧
      ((write_wait_rc w osError_t.TERR_DLT s1).tcb w).state =
        (if (s.tcb w).state &&& TSK_STATE_SUSPEND = 0 then TSK_STATE_RUNNABLE
          else TSK_STATE_SUSPEND) ∧
      (∀ a, (s.tcb w).wait_rc = some a →
        (write_wait_rc w osError_t.TERR_DLT s1).rc_mem a = osError_t.TERR_DLT) ∧
      (∀ a, s.rc_mem a = osError_t.TERR_DLT →
        (write_wait_rc w osError_t.TERR_DLT s1).rc_mem a = osError_t.TERR_DLT) ∧
      (write_wait_rc w osError_t.TERR_DLT s1).timer_queue
        = s.timer_queue.erase (TmebRef.wait_timer w) := by
  have hwf0 := KWF_remove_head s hwf q
  have hmem : w ∈ s.queues (QueueRef.wait q) := by rw [hq]; exact List.mem_cons_self _ _
  have hnull : w ≠ TcbRef.null := fun hc => hwf.2.2.1 _ (hc ▸ hmem)
  have hq0 : (QueueRemoveHead (QueueRef.wait q) s.queues).2 (QueueRef.wait q) = rest := by
    unfold QueueRemoveHead
    simp only [Function.update_same, hq, List.tail_cons]
  have hw0 : ∀ q', w ∉ (QueueRemoveHead (QueueRef.wait q) s.queues).2 q' := by
    intro q' hm
    by_cases hq' : q' = QueueRef.wait q
    · subst hq'
      rw [hq0] at hm
      have hnd := hwf.1.1 (QueueRef.wait q)
      rw [hq] at hnd
      exact (List.nodup_cons.mp hnd).1 hm
    · unfold QueueRemoveHead at hm
      simp only [Function.update_noteq hq'] at hm
      exact hq' (hwf.1.2 w _ _ hm hmem)
  obtain ⟨s1, h1, k1, fin1, ⟨⟨pr, _, e1⟩, e2, e3, e4, e5, _⟩⟩ :=
    ThreadWaitComplete_spec fuel L _ w hwf0 hfin hfuel hw0 hnull
  have hrc1 : (s1.tcb w).wait_rc = (s.tcb w).wait_rc := by rw [e1]
  refine ⟨s1, h1, KWF_write_wait_rc s1 k1 w _, ?_, ?_, ?_, ?_, ?_, ?_, ?_, ?_⟩
  · intro t ht
    rw [write_wait_rc_tcb]
    exact fin1 t ht
  · rw [write_wait_rc_eq]
    show s1.queues (QueueRef.wait q) = rest
    rw [e3 q]
    exact hq0
  · intro t
    rw [write_wait_rc_tcb]
    by_cases htw : t = w
    · subst htw; exact hrc1
    · obtain ⟨pr', _, he⟩ := e2 t htw
      rw [he]
  · intro t htw
    rw [write_wait_rc_tcb]
    obtain ⟨pr', _, he⟩ := e2 t htw
    rw [he]
  · rw [write_wait_rc_tcb, e1]
  · intro a ha
    rw [write_wait_rc_eq]
    show (match (s1.tcb w).wait_rc with
      | none => s1.rc_mem
      | some a => Function.update s1.rc_mem a osError_t.TERR_DLT) a = _
    rw [hrc1, ha]
    simp only [Function.update_same]
  · intro a ha
    rw [write_wait_rc_eq]
    show (match (s1.tcb w).wait_rc with
      | none => s1.rc_mem
      | some a => Function.update s1.rc_mem a osError_t.TERR_DLT) a = _
    rw [hrc1, e5]
    cases hc : (s.tcb w).wait_rc with
    | none => exact ha
    | some b =>
      simp only
      by_cases hab : a = b
      · subst hab; simp only [Function.update_same]
      · simp only [Function.update_noteq hab]; exact ha
  · rw [write_wait_rc_eq]
    exact e4

theorem ThreadWaitDelete_loop (fuel : Nat) (L : List TcbRef) (q : Nat) (hfuel : L.length < fuel) :
    ∀ (l : List TcbRef) (n : Nat) (s : KState), KWF s → FiniteAbove L s →
      s.queues (QueueRef.wait q) = l → l.length < n →
      ∃ s', ThreadWaitDelete fuel (QueueRef.wait q) n s = some (l.length, s') ∧ KWF s' ∧
        s'.queues (QueueRef.wait q) = [] ∧
        (∀ t, (s'.tcb t).wait_rc = (s.tcb t).wait_rc) ∧
        (∀ t, t ∉ l → (s'.tcb t).state = (s.tcb t).state) ∧
        (∀ a, s.rc_mem a = osError_t.TERR_DLT → s'.rc_mem a = osError_t.TERR_DLT) ∧
        (∀ e, e ∉ s.timer_queue → e ∉ s'.timer_queue) ∧
        (∀ w, w ∈ l →
          (∀ a, (s.tcb w).wait_rc = some a → s'.rc_mem a = osError_t.TERR_DLT) ∧
          TmebRef.wait_timer w ∉ s'.timer_queue ∧
          (s'.tcb w).state = (if (s.tcb w).state &&& TSK_STATE_SUSPEND = 0
            then TSK_STATE_RUNNABLE else TSK_STATE_SUSPEND)) := by
  intro l
  induction l with
  | nil =>
    intro n s hwf _ hq hn
    obtain ⟨n', rfl⟩ : ∃ k, n = k + 1 := ⟨n - 1, by simp at hn; omega⟩
    refine ⟨s, ?_, hwf, hq, fun _ => rfl, fun _ _ => rfl, fun _ h => h, fun _ h => h, ?_⟩
    · unfold ThreadWaitDelete
      simp [isQueueEmpty, hq]
    · intro w hw; cases hw
  | cons w rest ih =>
    intro n s hwf hfin hq hn
    obtain ⟨n', rfl⟩ : ∃ k, n = k + 1 := ⟨n - 1, by simp at hn; omega⟩
    obtain ⟨s1, h1, k1, fin1, r1, r2, r3, r4, r5, r6, r7⟩ :=
      ThreadWaitDelete_round fuel L q s w rest hwf hfin hfuel hq
    have hn' : rest.length < n' := by simp only [List.length_cons] at hn; omega
    obtain ⟨s', g1, g2, g3, g4, g5, g6, g7, g8⟩ := ih n' _ k1 fin1 r1 hn'
    have hnd : (w :: rest).Nodup := by rw [← hq]; exact hwf.1.1 _
    have hwrest : w ∉ rest := (List.nodup_cons.mp hnd).1
    have htimer : TmebRef.wait_timer w ∉
        (write_wait_rc w osError_t.TERR_DLT s1).timer_queue := by
      rw [r7]
      exact hwf.2.2.2.not_mem_erase
    refine ⟨s', ?_, g2, g3, ?_, ?_, ?_, ?_, ?_⟩
    · unfold ThreadWaitDelete
      have hne : isQueueEmpty (QueueRef.wait q) s.queues = false := by
        simp [isQueueEmpty, hq]
      simp only [hne, Bool.false_eq_true, if_false]
      have hhead : (QueueRemoveHead (QueueRef.wait q) s.queues).1.getD TcbRef.null = w := by
        simp [QueueRemoveHead, hq]
      rw [hhead, h1]
      simp only
      rw [g1]
      rfl
    · intro t; rw [g4 t, r2 t]
    · intro t ht
      have htw : t ≠ w := fun hc => ht (hc ▸ List.mem_cons_self _ _)
      have htr : t ∉ rest := fun hc => ht (List.mem_cons_of_mem _ hc)
      rw [g5 t htr, r3 t htw]
    · intro a ha; exact g6 a (r6 a ha)
    · intro e he
      refine g7 e ?_
      rw [r7]
      exact fun hc => he (List.mem_of_mem_erase hc)
    · intro x hx
      rcases List.mem_cons.mp hx with hxw | hxr
      · subst hxw
        refine ⟨fun a ha => g6 a (r5 a ha), g7 _ htimer, ?_⟩
        rw [g5 x hwrest, r4]
      · obtain ⟨c1, c2, c3⟩ := g8 x hxr
        have hxw : x ≠ w := fun hc => hwrest (hc ▸ hxr)
        refine ⟨fun a ha => c1 a (by rw [r2 x]; exact ha), c2, ?_⟩
        rw [c3, r3 x hxw]

/-- C3. Deletion wakes every waiter with Deleted.  For a wait queue that holds `N ≥ 0`
blocked tasks (in a state with well-formed queues and finitely many tasks),
`ThreadWaitDelete` ends after exactly `N` rounds of its loop and leaves the wait queue empty;
for every former waiter the result cell `*wait_rc` (when `wait_rc` is not `NULL`) holds
`TERR_DLT`, its wait timer is not in the timer queue, and the task is RUNNABLE and linked into
the ready queue of its priority, or, if it was suspended while waiting, its state is exactly
SUSPEND. -/
theorem wait_delete_wakes_all (fuel n q : Nat) (L : List TcbRef) (s : KState)
    (hwf : KWF s) (hfin : FiniteAbove L s) (hfuel : L.length < fuel)
    (hn : (s.queues (QueueRef.wait q)).length < n) :
    ∃ s', ThreadWaitDelete fuel (QueueRef.wait q) n s
        = some ((s.queues (QueueRef.wait q)).length, s') ∧
      s'.queues (QueueRef.wait q) = [] ∧
      ∀ w, w ∈ s.queues (QueueRef.wait q) →
        (∀ a, (s.tcb w).wait_rc = some a → s'.rc_mem a = osError_t.TERR_DLT) ∧
        TmebRef.wait_timer w ∉ s'.timer_queue ∧
        (if (s.tcb w).state &&& TSK_STATE_SUSPEND = 0 then
          (s'.tcb w).state = TSK_STATE_RUNNABLE ∧
          w ∈ s'.queues (QueueRef.ready (s'.tcb w).priority)
         else (s'.tcb w).state = TSK_STATE_SUSPEND) := by
  obtain ⟨s', h1, h2, h3, _, _, _, _, h8⟩ :=
    ThreadWaitDelete_loop fuel L q hfuel _ n s hwf hfin rfl hn
  refine ⟨s', h1, h3, ?_⟩
  intro w hw
  obtain ⟨c1, c2, c3⟩ := h8 w hw
  refine ⟨c1, c2, ?_⟩
  split
  · rename_i hs
    rw [if_pos hs] at c3
    exact ⟨c3, h2.2.1 w c3⟩
  · rename_i hs
    rw [if_neg hs] at c3
    exact c3

theorem exDelete_wf : KWF exDelete := by
  refine ⟨⟨?_, ?_⟩, ?_, ?_, by decide⟩
  · intro q
    simp only [exDelete]
    split_ifs <;> simp
  · intro t q q' h h'
    simp only [exDelete] at h h'
    split_ifs at h h' <;> simp_all
  · intro t h
    simp only [exDelete] at h ⊢
    by_cases h1 : t = TcbRef.task 1
    · subst h1; simp
    · by_cases h2 : t = TcbRef.task 2
      · subst h2; simp [TSK_STATE_WAIT, TSK_STATE_RUNNABLE] at h
      · by_cases h3 : t = TcbRef.task 3
        · subst h3; simp [TSK_STATE_WAIT, TSK_STATE_SUSPEND, TSK_STATE_RUNNABLE] at h
        · by_cases h0 : t = TcbRef.task 0
          · subst h0; simp
          · simp [h1, h2, h3, h0, TSK_STATE_RUNNABLE] at h
  · intro q
    simp only [exDelete]
    split_ifs <;> simp

theorem exDelete_finite : FiniteAbove exTasks exDelete := by
  intro t ht
  simp only [exTasks, List.mem_cons, List.mem_singleton, not_or, List.not_mem_nil,
    not_false_eq_true, and_true] at ht
  simp [exDelete, ht.1, ht.2.1, ht.2.2.1, ht.2.2.2]

/-- Witness for C3: two waiters, one of them suspended while waiting. -/
theorem wait_delete_wakes_all_witness :
    ∃ s', ThreadWaitDelete 5 (QueueRef.wait 1) 3 exDelete = some (2, s') ∧
      s'.queues (QueueRef.wait 1) = [] ∧
      s'.rc_mem 0x30 = osError_t.TERR_DLT ∧
      TmebRef.wait_timer (TcbRef.task 2) ∉ s'.timer_queue ∧
      (s'.tcb (TcbRef.task 2)).state = TSK_STATE_RUNNABLE ∧
      TcbRef.task 2 ∈ s'.queues (QueueRef.ready (s'.tcb (TcbRef.task 2)).priority) ∧
      (s'.tcb (TcbRef.task 3)).state = TSK_STATE_SUSPEND := by
  obtain ⟨s', h1, h2, h3⟩ :=
    wait_delete_wakes_all 5 3 1 exTasks exDelete exDelete_wf exDelete_finite (by decide)
      (by decide)
  obtain ⟨a1, a2, a3⟩ := h3 (TcbRef.task 2) (by decide)
  obtain ⟨_, _, b3⟩ := h3 (TcbRef.task 3) (by decide)
  rw [if_pos (by decide)] at a3
  rw [if_neg (by decide)] at b3
  exact ⟨s', h1, h2, a1 0x30 (by decide), a2, a3.1, a3.2, b3⟩

/-! ### Entering a wait -/

theorem ThreadDispatch_eq (s : KState) :
    ∃ n b, ThreadDispatch s = { s with next := n, switch_req := b } :=
  TaskSetNext_eq _ s

theorem TaskToNonRunnable_eq (t : TcbRef) (s : KState) :
    ∃ n b m, TaskToNonRunnable t s =
      { s with next := n, switch_req := b, ready_to_run_bmp := m
               queues := QueueRemoveEntry t s.queues } := by
  unfold TaskToNonRunnable
  dsimp only
  split
  · obtain ⟨n, b, he⟩ := ThreadDispatch_eq
      { s with queues := QueueRemoveEntry t s.queues
               ready_to_run_bmp := s.ready_to_run_bmp &&& not32 (bit32 (s.tcb t).priority) }
    exact ⟨n, b, _, he⟩
  · split
    · obtain ⟨n, b, he⟩ := TaskSetNext_eq
        (get_task_by_tsk_queue (QueueRef.ready (s.tcb t).priority) (QueueRemoveEntry t s.queues))
        { s with queues := QueueRemoveEntry t s.queues }
      exact ⟨n, b, s.ready_to_run_bmp, he⟩
    · exact ⟨s.next, s.switch_req, s.ready_to_run_bmp, rfl⟩

theorem mem_do_timer_insert_walk (tmeb : TmebRef → TMEB) (event e : TmebRef)
    (l : List TmebRef) : e ∈ do_timer_insert_walk tmeb event l ↔ e = event ∨ e ∈ l := by
  induction l with
  | nil => simp [do_timer_insert_walk]
  | cons a rest ih =>
    unfold do_timer_insert_walk
    split
    · simp
    · simp only [List.mem_cons, ih]
      tauto

theorem nodup_do_timer_insert_walk (tmeb : TmebRef → TMEB) (event : TmebRef)
    (l : List TmebRef) (hl : l.Nodup) (he : event ∉ l) :
    (do_timer_insert_walk tmeb event l).Nodup := by
  induction l with
  | nil => simp [do_timer_insert_walk]
  | cons a rest ih =>
    unfold do_timer_insert_walk
    split
    · exact List.nodup_cons.mpr ⟨he, hl⟩
    · have hne : a ≠ event := fun hc => he (hc ▸ List.mem_cons_self _ _)
      have her : event ∉ rest := fun hc => he (List.mem_cons_of_mem _ hc)
      refine List.nodup_cons.mpr ⟨?_, ih (List.nodup_cons.mp hl).2 her⟩
      rw [mem_do_timer_insert_walk]
      intro hc
      rcases hc with hc | hc
      · exact hne hc
      · exact (List.nodup_cons.mp hl).1 hc

/-- What `ThreadToWaitAction` on a wait queue does to a RUNNABLE task whose wait timer is not
queued. -/
theorem ThreadToWaitAction_spec (s : KState) (t : TcbRef) (q : Nat) (reason : wait_reason_t)
    (d : Nat) (hwf : KWF s) (hr : (s.tcb t).state = TSK_STATE_RUNNABLE)
    (htm : TmebRef.wait_timer t ∉ s.timer_queue) :
    KWF (ThreadToWaitAction t (some (QueueRef.wait q)) reason d s) ∧
    (ThreadToWaitAction t (some (QueueRef.wait q)) reason d s).queues (QueueRef.wait q)
      = s.queues (QueueRef.wait q) ++ [t] ∧
    (ThreadToWaitAction t (some (QueueRef.wait q)) reason d s).tcb t
      = tcb_waiting (s.tcb t) reason (QueueRef.wait q) ∧
    (∀ x, x ≠ t → (ThreadToWaitAction t (some (QueueRef.wait q)) reason d s).tcb x = s.tcb x) ∧
    (∀ e, e ∈ (ThreadToWaitAction t (some (QueueRef.wait q)) reason d s).timer_queue →
      e = TmebRef.wait_timer t ∨ e ∈ s.timer_queue) := by
  obtain ⟨n, b, m, he⟩ := TaskToNonRunnable_eq t s
  have hin := hwf.2.1 t hr
  have hnull : t ≠ TcbRef.null := runnable_ne_null s hwf t hr
  have hnw : ∀ q', t ∉ s.queues (QueueRef.wait q') :=
    fun q' hm => wait_queue_not_runnable s hwf q' t hm hr
  -- the state before the timer is inserted
  have key : ∀ s3 : KState,
      s3.queues = QueueAddTail (QueueRef.wait q) t (QueueRemoveEntry t s.queues) →
      s3.tcb = Function.update s.tcb t (tcb_waiting (s.tcb t) reason (QueueRef.wait q)) →
      (s3.timer_queue.Nodup ∧ ∀ e, e ∈ s3.timer_queue →
        e = TmebRef.wait_timer t ∨ e ∈ s.timer_queue) →
      KWF s3 ∧ s3.queues (QueueRef.wait q) = s.queues (QueueRef.wait q) ++ [t] ∧
      s3.tcb t = tcb_waiting (s.tcb t) reason (QueueRef.wait q) ∧
      (∀ x, x ≠ t → s3.tcb x = s.tcb x) ∧
      (∀ e, e ∈ s3.timer_queue → e = TmebRef.wait_timer t ∨ e ∈ s.timer_queue) := by
    intro s3 hq ht htq
    have hmem : ∀ x q', x ∈ s3.queues q' ↔
        (x ≠ t ∧ x ∈ s.queues q') ∨ (x = t ∧ q' = QueueRef.wait q) := by
      intro x q'
      rw [hq]
      unfold QueueAddTail QueueRemoveEntry
      by_cases hq' : q' = QueueRef.wait q
      · subst hq'
        rw [Function.update_same, List.mem_append, List.mem_singleton,
          (hwf.1.1 _).mem_erase_iff]
        simp
      · rw [Function.update_noteq hq', (hwf.1.1 _).mem_erase_iff]
        simp [hq']
    refine ⟨⟨⟨?_, ?_⟩, ?_, ?_, htq.1⟩, ?_, ?_, ?_, htq.2⟩
    · intro q'
      rw [hq]
      unfold QueueAddTail QueueRemoveEntry
      by_cases hq' : q' = QueueRef.wait q
      · subst hq'
        rw [Function.update_same]
        refine List.Nodup.append ((hwf.1.1 _).erase _) (List.nodup_singleton _) ?_
        intro a ha hb
        rw [List.mem_singleton] at hb
        subst hb
        exact (hwf.1.1 _).not_mem_erase ha
      · rw [Function.update_noteq hq']; exact (hwf.1.1 _).erase _
    · intro x a c ha hc
      rw [hmem] at ha hc
      rcases ha with ⟨hne, ha⟩ | ⟨hxe, ha⟩
      · rcases hc with ⟨_, hc⟩ | ⟨hxe, _⟩
        · exact hwf.1.2 x a c ha hc
        · exact absurd hxe hne
      · rcases hc with ⟨hne, _⟩ | ⟨_, hc⟩
        · exact absurd hxe hne
        · rw [ha, hc]
    · intro x hx
      rw [ht] at hx ⊢
      by_cases hxt : x = t
      · subst hxt
        simp only [Function.update_same, tcb_waiting] at hx
        exact absurd hx (by decide)
      · simp only [Function.update_noteq hxt] at hx ⊢
        rw [hmem]
        exact Or.inl ⟨hxt, hwf.2.1 x hx⟩
    · intro q' hn
      rw [hmem] at hn
      rcases hn with ⟨_, hn⟩ | ⟨hn, _⟩
      · exact hwf.2.2.1 q' hn
      · exact hnull hn.symm
    · rw [hq]
      unfold QueueAddTail QueueRemoveEntry
      rw [Function.update_same, List.erase_of_not_mem (hnw q)]
    · rw [ht, Function.update_same]
    · intro x hx
      rw [ht, Function.update_noteq hx]
  unfold ThreadToWaitAction
  rw [he]
  dsimp only
  split
  · refine key _ rfl ?_ ?_
    · unfold TimerInsert do_timer_insert
      simp only [Function.update_same, Function.update_idem, tcb_waiting]
    · unfold TimerInsert do_timer_insert
      refine ⟨nodup_do_timer_insert_walk _ _ _ hwf.2.2.2 htm, ?_⟩
      intro e hmem
      exact (mem_do_timer_insert_walk _ _ _ _).mp hmem
  · refine key _ rfl ?_ ⟨hwf.2.2.2, fun e hmem => Or.inr hmem⟩
    simp only [Function.update_same, Function.update_idem, tcb_waiting]

theorem enter_wait_all_spec (L : List TcbRef) (q : Nat) (reason : wait_reason_t)
    (entries : List (TcbRef × Nat)) :
    ∀ s : KState, KWF s → FiniteAbove L s → (entries.map Prod.fst).Nodup →
      (∀ t, t ∈ entries.map Prod.fst →
        (s.tcb t).state = TSK_STATE_RUNNABLE ∧ TmebRef.wait_timer t ∉ s.timer_queue) →
      KWF (enter_wait_all (QueueRef.wait q) reason entries s) ∧
      FiniteAbove L (enter_wait_all (QueueRef.wait q) reason entries s) ∧
      (enter_wait_all (QueueRef.wait q) reason entries s).queues (QueueRef.wait q)
        = s.queues (QueueRef.wait q) ++ entries.map Prod.fst ∧
      (∀ t, t ∈ entries.map Prod.fst →
        (enter_wait_all (QueueRef.wait q) reason entries s).tcb t
          = tcb_waiting (s.tcb t) reason (QueueRef.wait q)) ∧
      (∀ x, x ∉ entries.map Prod.fst →
        (enter_wait_all (QueueRef.wait q) reason entries s).tcb x = s.tcb x) := by
  induction entries with
  | nil =>
    intro s hwf hfin _ _
    refine ⟨hwf, hfin, by simp [enter_wait_all], ?_, fun _ _ => rfl⟩
    intro t ht
    simp at ht
  | cons e rest ih =>
    intro s hwf hfin hnd hrun
    simp only [List.map_cons] at hnd hrun
    obtain ⟨hr, htm⟩ := hrun e.1 (List.mem_cons_self _ _)
    obtain ⟨k1, k2, k3, k4, k5⟩ := ThreadToWaitAction_spec s e.1 q reason e.2 hwf hr htm
    have hnot : e.1 ∉ rest.map Prod.fst := (List.nodup_cons.mp hnd).1
    have hfin1 : FiniteAbove L (ThreadToWaitAction e.1 (some (QueueRef.wait q)) reason e.2 s) := by
      refine FiniteAbove_frame L s _ hfin ?_
      intro t
      by_cases hte : t = e.1
      · rw [hte, k3]; exact le_refl _
      · rw [k4 t hte]
    obtain ⟨g1, g2, g3, g4, g5⟩ := ih _ k1 hfin1 (List.nodup_cons.mp hnd).2 (by
      intro t ht
      have hte : t ≠ e.1 := fun hc => hnot (hc ▸ ht)
      obtain ⟨a, b⟩ := hrun t (List.mem_cons_of_mem _ ht)
      refine ⟨by rw [k4 t hte]; exact a, ?_⟩
      intro hc
      rcases k5 _ hc with hc | hc
      · injection hc with hc; exact hte hc
      · exact b hc)
    refine ⟨g1, g2, ?_, ?_, ?_⟩
    · show (enter_wait_all _ _ rest _).queues _ = _
      rw [g3, k2, List.map_cons, List.append_assoc]
      rfl
    · intro t ht
      show (enter_wait_all _ _ rest _).tcb _ = _
      rcases List.mem_cons.mp ht with hte | htr
      · rw [hte, g5 _ hnot, k3]
      · have hte : t ≠ e.1 := fun hc => hnot (hc ▸ htr)
        rw [g4 t htr, k4 t hte]
    · intro x hx
      show (enter_wait_all _ _ rest _).tcb _ = _
      have hxe : x ≠ e.1 := fun hc => hx (hc ▸ List.mem_cons_self _ _)
      have hxr : x ∉ rest.map Prod.fst := fun hc => hx (List.mem_cons_of_mem _ hc)
      rw [g5 x hxr, k4 x hxe]

/-! ### Releasing the head of a wait queue -/

theorem remove_head_facts (s : KState) (hwf : KWF s) (q : Nat) (w : TcbRef)
    (rest : List TcbRef) (hq : s.queues (QueueRef.wait q) = w :: rest) :
    w ≠ TcbRef.null ∧
    (QueueRemoveHead (QueueRef.wait q) s.queues).1.getD TcbRef.null = w ∧
    (QueueRemoveHead (QueueRef.wait q) s.queues).2 (QueueRef.wait q) = rest ∧
    ∀ q', w ∉ (QueueRemoveHead (QueueRef.wait q) s.queues).2 q' := by
  have hmem : w ∈ s.queues (QueueRef.wait q) := by rw [hq]; exact List.mem_cons_self _ _
  have hq0 : (QueueRemoveHead (QueueRef.wait q) s.queues).2 (QueueRef.wait q) = rest := by
    unfold QueueRemoveHead
    simp only [Function.update_same, hq, List.tail_cons]
  refine ⟨fun hc => hwf.2.2.1 _ (hc ▸ hmem), by simp [QueueRemoveHead, hq], hq0, ?_⟩
  intro q' hm
  by_cases hq' : q' = QueueRef.wait q
  · subst hq'
    rw [hq0] at hm
    have hnd := hwf.1.1 (QueueRef.wait q)
    rw [hq] at hnd
    exact (List.nodup_cons.mp hnd).1 hm
  · unfold QueueRemoveHead at hm
    simp only [Function.update_noteq hq'] at hm
    exact hq' (hwf.1.2 w _ _ hm hmem)

theorem load_length (ram : Nat → Nat) (p n : Nat) : (load ram p n).length = n := by
  simp [load]

theorem load_store_same (ram : Nat → Nat) (dst n : Nat) (bytes : List Nat)
    (hb : bytes.length = n) : load (store ram dst bytes n) dst n = bytes := by
  apply List.ext_getElem
  · rw [load_length, hb]
  · intro i h1 h2
    have hi : i < n := by rw [load_length] at h1; exact h1
    simp only [load, List.getElem_map, List.getElem_range, store]
    rw [if_pos (by omega), Nat.add_sub_cancel_left, List.getD_eq_getElem _ _ h2]

/-- `do_mbf_send` with a waiting receiver: the message is handed to the first receiver, whose
wait is completed with `TERR_NO_ERR`; the buffer is not touched. -/
theorem do_mbf_send_handoff (fuel : Nat) (L : List TcbRef) (s : KState) (m : TN_MBF)
    (msg timeout : Nat) (sf : Bool) (rc_ptr q : Nat) (w : TcbRef) (rest : List TcbRef)
    (hwf : KWF s) (hfin : FiniteAbove L s) (hfuel : L.length < fuel)
    (hid : m.id = ID_MESSAGEBUF) (hrq : m.recv_queue = QueueRef.wait q)
    (hq : s.queues (QueueRef.wait q) = w :: rest) :
    ∃ s', do_mbf_send fuel (some m) msg timeout sf rc_ptr s
        = some (some osError_t.TERR_NO_ERR, some m, s') ∧
      KWF s' ∧ FiniteAbove L s' ∧
      WaitDone w osError_t.TERR_NO_ERR
        { s with queues := (QueueRemoveHead (QueueRef.wait q) s.queues).2
                 ram := store s.ram (s.tcb w).rmbf_msg (load s.ram msg m.msz.toNat)
                   m.msz.toNat } s' := by
  obtain ⟨hnull, hhead, hq0, hw0⟩ := remove_head_facts s hwf q w rest hq
  have hwf0 := KWF_remove_head s hwf q
  have hwf1 : KWF { s with queues := (QueueRemoveHead (QueueRef.wait q) s.queues).2
                           ram := store s.ram (s.tcb w).rmbf_msg (load s.ram msg m.msz.toNat)
                             m.msz.toNat } :=
    KWF_of_eq hwf0 rfl (fun t ht => ⟨ht, rfl⟩) rfl
  obtain ⟨s', h1, k1, fin1, hd⟩ := ThreadWaitComplete_spec fuel L _ w hwf1 hfin hfuel hw0 hnull
  refine ⟨s', ?_, k1, fin1, hd⟩
  unfold do_mbf_send
  have hne : isQueueEmpty m.recv_queue s.queues = false := by
    simp [isQueueEmpty, hrq, hq]
  simp only [hid, ne_eq, not_true_eq_false, if_false, hne, Bool.false_eq_true,
    not_false_eq_true, if_true]
  rw [hrq, hhead, h1]
  rfl

/-- `tn_fmem_release` with a waiting getter: the block is handed to the first getter, whose
wait is completed with `TERR_NO_ERR`; the pool is not touched. -/
theorem tn_fmem_release_handoff (fuel : Nat) (L : List TcbRef) (s : KState) (f : TN_FMP)
    (p q : Nat) (w : TcbRef) (rest : List TcbRef)
    (hwf : KWF s) (hfin : FiniteAbove L s) (hfuel : L.length < fuel)
    (hid : f.id_fmp = TN_ID_FSMEMORYPOOL) (hp : p ≠ 0) (hwq : f.wait_queue = QueueRef.wait q)
    (hq : s.queues (QueueRef.wait q) = w :: rest) :
    ∃ s', tn_fmem_release fuel (some f) p s = some (osError_t.TERR_NO_ERR, some f, s') ∧
      KWF s' ∧ FiniteAbove L s' ∧
      WaitDone w osError_t.TERR_NO_ERR
        (set_fmem_data_elem w p
          { s with queues := (QueueRemoveHead (QueueRef.wait q) s.queues).2 }) s' := by
  obtain ⟨hnull, hhead, hq0, hw0⟩ := remove_head_facts s hwf q w rest hq
  have hwf0 := KWF_remove_head s hwf q
  have hwf1 : KWF (set_fmem_data_elem w p
      { s with queues := (QueueRemoveHead (QueueRef.wait q) s.queues).2 }) := by
    refine KWF_of_eq hwf0 rfl ?_ rfl
    intro t ht
    by_cases htw : t = w
    · subst htw
      simp only [set_fmem_data_elem, Function.update_same] at ht ⊢
      exact ⟨ht, trivial⟩
    · simp only [set_fmem_data_elem, Function.update_noteq htw] at ht ⊢
      exact ⟨ht, trivial⟩
  have hfin1 : FiniteAbove L (set_fmem_data_elem w p
      { s with queues := (QueueRemoveHead (QueueRef.wait q) s.queues).2 }) := by
    refine FiniteAbove_frame L s _ hfin ?_
    intro t
    by_cases htw : t = w
    · subst htw; simp only [set_fmem_data_elem, Function.update_same]; exact le_refl _
    · simp only [set_fmem_data_elem, Function.update_noteq htw]; exact le_refl _
  obtain ⟨s', h1, k1, fin1, hd⟩ := ThreadWaitComplete_spec fuel L _ w hwf1 hfin1 hfuel hw0 hnull
  refine ⟨s', ?_, k1, fin1, hd⟩
  unfold tn_fmem_release task_wait_complete
  have hne : isQueueEmpty f.wait_queue s.queues = false := by
    simp [isQueueEmpty, hwq, hq]
  simp only [hid, hp, ne_eq, not_true_eq_false, if_false, hne, Bool.false_eq_true,
    not_false_eq_true, if_true]
  rw [hwq, hhead]
  exact (congrArg (Option.map _) h1).trans rfl

theorem wait_state_not_suspended : TSK_STATE_WAIT &&& TSK_STATE_SUSPEND = 0 := by decide

/-- Successive hand-offs by `do_mbf_send` release the waiting receivers from the head of the
receive queue. -/
theorem mbf_send_all_fifo (fuel : Nat) (L : List TcbRef) (m : TN_MBF) (timeout : Nat)
    (sf : Bool) (rc_ptr q : Nat) (hfuel : L.length < fuel) (hid : m.id = ID_MESSAGEBUF)
    (hrq : m.recv_queue = QueueRef.wait q) (msgs : List Nat) :
    ∀ (ts : List TcbRef) (s : KState), KWF s → FiniteAbove L s →
      s.queues (QueueRef.wait q) = ts → (∀ t, t ∈ ts → (s.tcb t).state = TSK_STATE_WAIT) →
      msgs.length ≤ ts.length →
      ∃ sk, mbf_send_all fuel timeout sf rc_ptr (some m) msgs s = some (some m, sk) ∧
        KWF sk ∧ FiniteAbove L sk ∧ sk.queues (QueueRef.wait q) = ts.drop msgs.length ∧
        (∀ t, t ∈ ts.drop msgs.length → (sk.tcb t).state = TSK_STATE_WAIT) := by
  induction msgs with
  | nil => intro ts s hwf hfin hq hst _; exact ⟨s, rfl, hwf, hfin, hq, hst⟩
  | cons msg rest ih =>
    intro ts s hwf hfin hq hst hlen
    cases ts with
    | nil => simp at hlen
    | cons w ts' =>
      obtain ⟨s', h1, k1, fin1, ⟨_, e2, e3, _⟩⟩ :=
        do_mbf_send_handoff fuel L s m msg timeout sf rc_ptr q w ts' hwf hfin hfuel hid hrq hq
      obtain ⟨_, _, hq0, _⟩ := remove_head_facts s hwf q w ts' hq
      have hnd : (w :: ts').Nodup := by rw [← hq]; exact hwf.1.1 _
      have hq' : s'.queues (QueueRef.wait q) = ts' := by rw [e3 q]; exact hq0
      have hst' : ∀ t, t ∈ ts' → (s'.tcb t).state = TSK_STATE_WAIT := by
        intro t ht
        have htw : t ≠ w := fun hc => (List.nodup_cons.mp hnd).1 (hc ▸ ht)
        obtain ⟨pr, _, he⟩ := e2 t htw
        rw [he]
        exact hst t (List.mem_cons_of_mem _ ht)
      obtain ⟨sk, g1, g2, g3, g4, g5⟩ := ih ts' s' k1 fin1 hq' hst'
        (by simp only [List.length_cons] at hlen; omega)
      refine ⟨sk, ?_, g2, g3, g4, g5⟩
      show (match do_mbf_send fuel (some m) msg timeout sf rc_ptr s with
        | none => none
        | some r => mbf_send_all fuel timeout sf rc_ptr r.2.1 rest r.2.2) = _
      rw [h1]
      exact g1

/-- Successive hand-offs by `tn_fmem_release` release the waiting getters from the head of
the wait queue of the pool. -/
theorem fmem_release_all_fifo (fuel : Nat) (L : List TcbRef) (f : TN_FMP) (q : Nat)
    (hfuel : L.length < fuel) (hid : f.id_fmp = TN_ID_FSMEMORYPOOL)
    (hwq : f.wait_queue = QueueRef.wait q) (blocks : List Nat) :
    ∀ (ts : List TcbRef) (s : KState), KWF s → FiniteAbove L s →
      s.queues (QueueRef.wait q) = ts → (∀ t, t ∈ ts → (s.tcb t).state = TSK_STATE_WAIT) →
      blocks.length ≤ ts.length → (∀ b, b ∈ blocks → b ≠ 0) →
      ∃ sk, fmem_release_all fuel (some f) blocks s = some (some f, sk) ∧
        KWF sk ∧ FiniteAbove L sk ∧ sk.queues (QueueRef.wait q) = ts.drop blocks.length ∧
        (∀ t, t ∈ ts.drop blocks.length → (sk.tcb t).state = TSK_STATE_WAIT) := by
  induction blocks with
  | nil => intro ts s hwf hfin hq hst _ _; exact ⟨s, rfl, hwf, hfin, hq, hst⟩
  | cons p rest ih =>
    intro ts s hwf hfin hq hst hlen hnz
    cases ts with
    | nil => simp at hlen
    | cons w ts' =>
      obtain ⟨s', h1, k1, fin1, ⟨_, e2, e3, _⟩⟩ :=
        tn_fmem_release_handoff fuel L s f p q w ts' hwf hfin hfuel hid
          (hnz p (List.mem_cons_self _ _)) hwq hq
      obtain ⟨_, _, hq0, _⟩ := remove_head_facts s hwf q w ts' hq
      have hnd : (w :: ts').Nodup := by rw [← hq]; exact hwf.1.1 _
      have hq' : s'.queues (QueueRef.wait q) = ts' := by rw [e3 q]; exact hq0
      have hst' : ∀ t, t ∈ ts' → (s'.tcb t).state = TSK_STATE_WAIT := by
        intro t ht
        have htw : t ≠ w := fun hc => (List.nodup_cons.mp hnd).1 (hc ▸ ht)
        obtain ⟨pr, _, he⟩ := e2 t htw
        rw [he]
        simp only [set_fmem_data_elem, Function.update_noteq htw]
        exact hst t (List.mem_cons_of_mem _ ht)
      obtain ⟨sk, g1, g2, g3, g4, g5⟩ := ih ts' s' k1 fin1 hq' hst'
        (by simp only [List.length_cons] at hlen; omega)
        (fun b hb => hnz b (List.mem_cons_of_mem _ hb))
      refine ⟨sk, ?_, g2, g3, g4, g5⟩
      show (match tn_fmem_release fuel (some f) p s with
        | none => none
        | some r => fmem_release_all fuel r.2.1 rest r.2.2) = _
      rw [h1]
      exact g1

/-- C6. FIFO wake-up order.  Tasks `t1, ..., tn` (pairwise different, RUNNABLE, their wait
timers idle) enter a wait on the empty wait queue `q` in this order through
`ThreadToWaitAction`.  Then (1) the wait queue holds exactly `t1, ..., tn` in this order;
(2) if `q` is the receive queue of a message buffer, then after any `k < n` sends the
`(k+1)`-th `do_mbf_send` returns `TERR_NO_ERR`, wakes exactly the task `t(k+1)` (WAIT before,
RUNNABLE after, no other task changes its state), leaves `t(k+2), ..., tn` in the queue and
has copied its message to the receive area of `t(k+1)`; (3) if `q` is the wait queue of a
memory pool, the same holds for `tn_fmem_release`, the `(k+1)`-th released block being stored
in `fmem_data_elem` of `t(k+1)`. -/
theorem fifo_wakeup_order (fuel : Nat) (L : List TcbRef) (s : KState) (q : Nat)
    (entries : List (TcbRef × Nat))
    (hwf : KWF s) (hfin : FiniteAbove L s) (hfuel : L.length < fuel)
    (hnd : (entries.map Prod.fst).Nodup)
    (hrun : ∀ t, t ∈ entries.map Prod.fst →
      (s.tcb t).state = TSK_STATE_RUNNABLE ∧ TmebRef.wait_timer t ∉ s.timer_queue)
    (hempty : s.queues (QueueRef.wait q) = []) :
    (∀ reason, (enter_wait_all (QueueRef.wait q) reason entries s).queues (QueueRef.wait q)
      = entries.map Prod.fst) ∧
    (∀ (m : TN_MBF) (timeout : Nat) (sf : Bool) (rc_ptr : Nat) (msgs : List Nat) (msg : Nat),
      m.id = ID_MESSAGEBUF → m.recv_queue = QueueRef.wait q →
      msgs.length < (entries.map Prod.fst).length →
      ∃ sk s', mbf_send_all fuel timeout sf rc_ptr (some m) msgs
          (enter_wait_all (QueueRef.wait q) wait_reason_t.WAIT_REASON_MBF_WRECEIVE entries s)
          = some (some m, sk) ∧
        do_mbf_send fuel (some m) msg timeout sf rc_ptr sk
          = some (some osError_t.TERR_NO_ERR, some m, s') ∧
        sk.queues (QueueRef.wait q) = (entries.map Prod.fst).drop msgs.length ∧
        s'.queues (QueueRef.wait q) = (entries.map Prod.fst).drop (msgs.length + 1) ∧
        (sk.tcb ((entries.map Prod.fst).getD msgs.length TcbRef.null)).state
          = TSK_STATE_WAIT ∧
        (s'.tcb ((entries.map Prod.fst).getD msgs.length TcbRef.null)).state
          = TSK_STATE_RUNNABLE ∧
        (∀ t, t ≠ (entries.map Prod.fst).getD msgs.length TcbRef.null →
          (s'.tcb t).state = (sk.tcb t).state) ∧
        load s'.ram (sk.tcb ((entries.map Prod.fst).getD msgs.length TcbRef.null)).rmbf_msg
          m.msz.toNat = load sk.ram msg m.msz.toNat) ∧
    (∀ (f : TN_FMP) (blocks : List Nat) (p : Nat),
      f.id_fmp = TN_ID_FSMEMORYPOOL → f.wait_queue = QueueRef.wait q →
      (∀ b, b ∈ blocks → b ≠ 0) → p ≠ 0 →
      blocks.length < (entries.map Prod.fst).length →
      ∃ sk s', fmem_release_all fuel (some f) blocks
          (enter_wait_all (QueueRef.wait q) wait_reason_t.WAIT_REASON_WFIXMEM entries s)
          = some (some f, sk) ∧
        tn_fmem_release fuel (some f) p sk = some (osError_t.TERR_NO_ERR, some f, s') ∧
        sk.queues (QueueRef.wait q) = (entries.map Prod.fst).drop blocks.length ∧
        s'.queues (QueueRef.wait q) = (entries.map Prod.fst).drop (blocks.length + 1) ∧
        (sk.tcb ((entries.map Prod.fst).getD blocks.length TcbRef.null)).state
          = TSK_STATE_WAIT ∧
        (s'.tcb ((entries.map Prod.fst).getD blocks.length TcbRef.null)).state
          = TSK_STATE_RUNNABLE ∧
        (∀ t, t ≠ (entries.map Prod.fst).getD blocks.length TcbRef.null →
          (s'.tcb t).state = (sk.tcb t).state) ∧
        (s'.tcb ((entries.map Prod.fst).getD blocks.length TcbRef.null)).fmem_data_elem
          = p) := by
  have hent : ∀ reason,
      KWF (enter_wait_all (QueueRef.wait q) reason entries s) ∧
      FiniteAbove L (enter_wait_all (QueueRef.wait q) reason entries s) ∧
      (enter_wait_all (QueueRef.wait q) reason entries s).queues (QueueRef.wait q)
        = entries.map Prod.fst ∧
      (∀ t, t ∈ entries.map Prod.fst →
        ((enter_wait_all (QueueRef.wait q) reason entries s).tcb t).state
          = TSK_STATE_WAIT) := by
    intro reason
    obtain ⟨a1, a2, a3, a4, _⟩ := enter_wait_all_spec L q reason entries s hwf hfin hnd hrun
    refine ⟨a1, a2, by rw [a3, hempty, List.nil_append], ?_⟩
    intro t ht
    rw [a4 t ht]
    rfl
  refine ⟨fun reason => (hent reason).2.2.1, ?_, ?_⟩
  · intro m timeout sf rc_ptr msgs msg hid hrq hk
    obtain ⟨kwf0, fin0, hq0, hst0⟩ := hent wait_reason_t.WAIT_REASON_MBF_WRECEIVE
    obtain ⟨sk, g1, g2, g3, g4, g5⟩ :=
      mbf_send_all_fifo fuel L m timeout sf rc_ptr q hfuel hid hrq msgs _ _ kwf0 fin0 hq0 hst0
        (le_of_lt hk)
    rw [List.getD_eq_getElem _ _ hk]
    have hdrop := List.drop_eq_getElem_cons hk
    rw [hdrop] at g4
    obtain ⟨s', h1, _, _, ⟨e1, e2, e3, _, _, _, _, e8, _⟩⟩ :=
      do_mbf_send_handoff fuel L sk m msg timeout sf rc_ptr q _ _ g2 g3 hfuel hid hrq g4
    obtain ⟨_, _, r3, _⟩ := remove_head_facts sk g2 q _ _ g4
    have hwst : (sk.tcb (entries.map Prod.fst)[msgs.length]).state = TSK_STATE_WAIT :=
      g5 _ (by rw [hdrop]; exact List.mem_cons_self _ _)
    refine ⟨sk, s', g1, h1, by rw [g4, hdrop], by rw [e3 q]; exact r3, hwst, ?_, ?_, ?_⟩
    · obtain ⟨pr, _, he⟩ := e1
      have h2 : (s'.tcb (entries.map Prod.fst)[msgs.length]).state =
          if (sk.tcb (entries.map Prod.fst)[msgs.length]).state &&& TSK_STATE_SUSPEND = 0
          then TSK_STATE_RUNNABLE else TSK_STATE_SUSPEND := by rw [he]
      rw [h2, hwst]
      rfl
    · intro t ht
      obtain ⟨pr, _, he⟩ := e2 t ht
      rw [he]
    · rw [e8]
      exact load_store_same _ _ _ _ (load_length _ _ _)
  · intro f blocks p hid hwq hnz hp hk
    obtain ⟨kwf0, fin0, hq0, hst0⟩ := hent wait_reason_t.WAIT_REASON_WFIXMEM
    obtain ⟨sk, g1, g2, g3, g4, g5⟩ :=
      fmem_release_all_fifo fuel L f q hfuel hid hwq blocks _ _ kwf0 fin0 hq0 hst0
        (le_of_lt hk) hnz
    rw [List.getD_eq_getElem _ _ hk]
    have hdrop := List.drop_eq_getElem_cons hk
    rw [hdrop] at g4
    obtain ⟨s', h1, _, _, ⟨e1, e2, e3, _⟩⟩ :=
      tn_fmem_release_handoff fuel L sk f p q _ _ g2 g3 hfuel hid hp hwq g4
    obtain ⟨_, _, r3, _⟩ := remove_head_facts sk g2 q _ _ g4
    have hwst : (sk.tcb (entries.map Prod.fst)[blocks.length]).state = TSK_STATE_WAIT :=
      g5 _ (by rw [hdrop]; exact List.mem_cons_self _ _)
    obtain ⟨pr, _, he⟩ := e1
    refine ⟨sk, s', g1, h1, by rw [g4, hdrop], by rw [e3 q]; exact r3, hwst, ?_, ?_, ?_⟩
    · have h2 : (s'.tcb (entries.map Prod.fst)[blocks.length]).state =
          if (sk.tcb (entries.map Prod.fst)[blocks.length]).state &&& TSK_STATE_SUSPEND = 0
          then TSK_STATE_RUNNABLE else TSK_STATE_SUSPEND := by
        rw [he]
        simp only [set_fmem_data_elem, Function.update_same]
      rw [h2, hwst]
      rfl
    · intro t ht
      obtain ⟨pr', _, he'⟩ := e2 t ht
      rw [he']
      simp only [set_fmem_data_elem, Function.update_noteq ht]
    · rw [he]
      simp only [set_fmem_data_elem, Function.update_same]

theorem exFifo_wf : KWF exFifo := by
  refine ⟨⟨?_, ?_⟩, ?_, ?_, by decide⟩
  · intro q
    simp only [exFifo]
    split_ifs <;> simp
  · intro t q q' h h'
    simp only [exFifo] at h h'
    split_ifs at h h' <;> simp_all
  · intro t h
    simp only [exFifo] at h ⊢
    by_cases h1 : t = TcbRef.task 1
    · subst h1; simp
    · by_cases h2 : t = TcbRef.task 2
      · subst h2; simp
      · by_cases h3 : t = TcbRef.task 3
        · subst h3; simp
        · by_cases h0 : t = TcbRef.task 0
          · subst h0; simp
          · simp [h1, h2, h3, h0, TSK_STATE_RUNNABLE] at h
  · intro q
    simp only [exFifo]
    split_ifs <;> simp

theorem exFifo_finite : FiniteAbove exTasks exFifo := by
  intro t ht
  simp only [exTasks, List.mem_cons, List.mem_singleton, not_or, List.not_mem_nil,
    not_false_eq_true, and_true] at ht
  simp [exFifo, ht.1, ht.2.1, ht.2.2.1, ht.2.2.2]

/-- Witness for C6: tasks 1, 2, 3 wait for a message in this order; after one send the second
send wakes task 2 and leaves task 3 waiting. -/
theorem fifo_wakeup_order_witness :
    (enter_wait_all (QueueRef.wait 1) wait_reason_t.WAIT_REASON_MBF_WRECEIVE exFifoEntries
      exFifo).queues (QueueRef.wait 1) = [TcbRef.task 1, TcbRef.task 2, TcbRef.task 3] ∧
    ∃ sk s', mbf_send_all 5 0 false 0 (some exFifoMbf) [0x80]
        (enter_wait_all (QueueRef.wait 1) wait_reason_t.WAIT_REASON_MBF_WRECEIVE exFifoEntries
          exFifo) = some (some exFifoMbf, sk) ∧
      do_mbf_send 5 (some exFifoMbf) 0x90 0 false 0 sk
        = some (some osError_t.TERR_NO_ERR, some exFifoMbf, s') ∧
      sk.queues (QueueRef.wait 1) = [TcbRef.task 2, TcbRef.task 3] ∧
      s'.queues (QueueRef.wait 1) = [TcbRef.task 3] ∧
      (s'.tcb (TcbRef.task 2)).state = TSK_STATE_RUNNABLE ∧
      (s'.tcb (TcbRef.task 3)).state = (sk.tcb (TcbRef.task 3)).state ∧
      load s'.ram (sk.tcb (TcbRef.task 2)).rmbf_msg 2 = load sk.ram 0x90 2 := by
  have hrun : ∀ t, t ∈ exFifoEntries.map Prod.fst →
      (exFifo.tcb t).state = TSK_STATE_RUNNABLE ∧
        TmebRef.wait_timer t ∉ exFifo.timer_queue := by
    intro t ht
    simp only [exFifoEntries, List.map_cons, List.map_nil, List.mem_cons, List.mem_singleton,
      List.not_mem_nil, or_false] at ht
    rcases ht with h | h | h <;> subst h <;> exact ⟨by decide, by decide⟩
  obtain ⟨h1, h2, _⟩ :=
    fifo_wakeup_order 5 exTasks exFifo 1 exFifoEntries exFifo_wf exFifo_finite (by decide)
      (by decide) hrun rfl
  obtain ⟨sk, s', a1, a2, a3, a4, _, a6, a7, a8⟩ :=
    h2 exFifoMbf 0 false 0 [0x80] 0x90 rfl rfl (by decide)
  exact ⟨h1 _, sk, s', a1, a2, a3, a4, a6, a7 (TcbRef.task 3) (by decide), a8⟩

/-- C5. Exactly one outcome per wait fails on the sequence "timer task detaches the due wait
timer, completion, timeout callback".  Task 1 waits in `tn_mbf_receive` with a timeout and
the result cell `0x30`.  The timer task detaches the due wait timer and leaves the critical
section; a polling `tn_mbf_send` then hands its message to task 1 through
`ThreadWaitComplete`: the result cell holds `TERR_NO_ERR`, task 1 is RUNNABLE and left the
wait queue, the message is in its receive area.  The callback `task_wait_release_handler`,
run afterwards for the same wait, changes the result cell to `TERR_TIMEOUT`. -/
theorem timeout_callback_overwrites_completion :
    exRaceBlocked.map (fun s => (s.rc_mem 0x30, (s.tcb (TcbRef.task 1)).state,
        s.queues (QueueRef.wait 1), s.timer_queue))
      = some (osError_t.TERR_UNDERFLOW, TSK_STATE_WAIT, [TcbRef.task 1],
          [TmebRef.wait_timer (TcbRef.task 1)]) ∧
    exRaceCompleted.map (fun d => (d.1, d.2.rc_mem 0x30, (d.2.tcb (TcbRef.task 1)).state))
      = some (TmebRef.wait_timer (TcbRef.task 1), osError_t.TERR_NO_ERR,
          TSK_STATE_RUNNABLE) ∧
    exRaceCompleted.map (fun d => (d.2.queues (QueueRef.ready 4),
        d.2.queues (QueueRef.wait 1), load d.2.ram 0x50 2))
      = some ([TcbRef.task 1], [], [7, 9]) ∧
    exRaceTimedOut.map (fun s => (s.rc_mem 0x30, (s.tcb (TcbRef.task 1)).state,
        load s.ram 0x50 2))
      = some (osError_t.TERR_TIMEOUT, TSK_STATE_RUNNABLE, [7, 9]) := by
  decide

/-! ### thread.c: the running thread -/

/-- C10. Exactly one Running thread fails after `_ThreadSetPriority` on the running thread.
In the started kernel `exThreads` exactly the thread `task 1` is in state
`ThreadStateRunning`, and it is the current thread.  After
`_ThreadSetPriority(task 1, 6)`, which raises its priority from 5 to 6, `ThreadReadyAdd` has
set its state to `ThreadStateReady` and `ThreadDispatch(NULL)` has switched to nobody: no
thread at all is in state `ThreadStateRunning`, while `task 1` still is the current and the
next thread. -/
theorem set_priority_of_running_thread_leaves_none_running :
    (∀ t, (exThreads.thread t).state = thread_c.osThreadState_t.ThreadStateRunning ↔
      t = TcbRef.task 1) ∧
    thread_c.ThreadGetRunning exThreads = TcbRef.task 1 ∧
    (∀ t, ((thread_c._ThreadSetPriority (TcbRef.task 1) 6 exThreads).thread t).state
      ≠ thread_c.osThreadState_t.ThreadStateRunning) ∧
    ((thread_c._ThreadSetPriority (TcbRef.task 1) 6 exThreads).thread (TcbRef.task 1)).state
      = thread_c.osThreadState_t.ThreadStateReady ∧
    (thread_c._ThreadSetPriority (TcbRef.task 1) 6 exThreads).run_curr = TcbRef.task 1 ∧
    (thread_c._ThreadSetPriority (TcbRef.task 1) 6 exThreads).run_next = TcbRef.task 1 := by
  refine ⟨?_, by decide, ?_, by decide, by decide, by decide⟩
  · intro t
    by_cases h1 : t = TcbRef.task 1
    · subst h1; decide
    · by_cases h0 : t = TcbRef.task 0
      · subst h0; decide
      · simp [exThreads, h1, h0]
  · intro t
    by_cases h1 : t = TcbRef.task 1
    · subst h1; decide
    · by_cases h0 : t = TcbRef.task 0
      · subst h0; decide
      · have hd : thread_c._ThreadSetPriority (TcbRef.task 1) 6 exThreads =
            thread_c.ThreadReadyAdd (TcbRef.task 1) (thread_c.set_priority (TcbRef.task 1) 6
              (thread_c.ThreadReadyDel (TcbRef.task 1)
                (thread_c.set_base_priority (TcbRef.task 1) 6 exThreads))) := by
          unfold thread_c._ThreadSetPriority
          rw [if_pos (by decide), if_neg (by decide)]
          unfold thread_c.ThreadDispatch
          dsimp only
          rw [if_neg (by decide)]
        rw [hd]
        simp [thread_c.ThreadReadyAdd, thread_c.set_priority, thread_c.ThreadReadyDel,
          thread_c.set_base_priority, thread_c.set_state, Function.update_noteq h1]
        split <;> simp [Function.update_noteq h1, exThreads, h1, h0]

/-! ### Priority and base priority -/

theorem PrioInv_update (s s' : KState) (x : TcbRef) (t' : TN_TCB) (h : PrioInv s)
    (htcb : s'.tcb = Function.update s.tcb x t') (hx : t'.priority ≤ t'.base_priority) :
    PrioInv s' := by
  intro t
  rw [htcb]
  by_cases htx : t = x
  · subst htx; simp only [Function.update_same]; exact hx
  · simp only [Function.update_noteq htx]; exact h t

theorem PrioInv_of_tcb (s s' : KState) (h : PrioInv s) (htcb : s'.tcb = s.tcb) :
    PrioInv s' := by
  intro t
  rw [htcb]
  exact h t

theorem PrioInv_TaskToRunnable (s : KState) (x : TcbRef) (h : PrioInv s) :
    PrioInv (TaskToRunnable x s) := by
  obtain ⟨n, b, he⟩ := TaskToRunnable_eq x s
  rw [he]
  exact PrioInv_update s _ x _ h rfl (h x)

theorem PrioInv_TaskToNonRunnable (s : KState) (x : TcbRef) (h : PrioInv s) :
    PrioInv (TaskToNonRunnable x s) := by
  obtain ⟨n, b, m, he⟩ := TaskToNonRunnable_eq x s
  rw [he]
  exact PrioInv_of_tcb s _ h rfl

theorem PrioInv_ThreadChangePriority (s : KState) (x : TcbRef) (p : Nat) (h : PrioInv s)
    (hp : p ≤ (s.tcb x).base_priority) : PrioInv (ThreadChangePriority x p s) :=
  PrioInv_update s _ x _ h (ThreadChangePriority_tcb x p s) hp

theorem PrioInv_set_priority_field (s : KState) (x : TcbRef) (p : Nat) (h : PrioInv s)
    (hp : p ≤ (s.tcb x).base_priority) : PrioInv (set_priority_field x p s) :=
  PrioInv_update s _ x _ h rfl hp

theorem PrioInv_task_set_dormant_state (s : KState) (x : TcbRef) (h : PrioInv s) :
    PrioInv (task_set_dormant_state x s) :=
  PrioInv_update s _ x _ h rfl (le_refl _)

theorem PrioInv_dormant_of_others (s0 s : KState) (x : TcbRef) (h : PrioInv s)
    (hoth : ∀ t, t ≠ x → s0.tcb t = s.tcb t) : PrioInv (task_set_dormant_state x s0) := by
  intro t
  unfold task_set_dormant_state
  by_cases htx : t = x
  · subst htx; simp only [Function.update_same]; exact le_refl _
  · simp only [Function.update_noteq htx]; rw [hoth t htx]; exact h t

theorem PrioInv_TaskCreate (s : KState) (x : TcbRef) (attr : task_create_attr_t)
    (h : PrioInv s) : PrioInv (TaskCreate x attr s) := by
  unfold TaskCreate
  dsimp only
  split
  · refine PrioInv_TaskToRunnable _ x (PrioInv_dormant_of_others _ s x h ?_)
    intro t ht
    simp only [Function.update_noteq ht]
  · refine PrioInv_dormant_of_others _ s x h ?_
    intro t ht
    simp only [Function.update_noteq ht]

theorem PrioInv_ThreadSetPriority (fuel : Nat) (task : TcbRef) (p : Nat) (s s' : KState)
    (h : PrioInv s) (hr : ThreadSetPriority fuel task p s = some s') : PrioInv s' := by
  refine ThreadSetPriority_induct PrioInv p ?_ ?_ fuel task s s' hr h
  · intro x t hx hp _
    exact PrioInv_set_priority_field x t p hx (le_trans (le_of_lt hp) (hx t))
  · intro x t hx hp _
    exact PrioInv_ThreadChangePriority x t p hx (le_trans (le_of_lt hp) (hx t))

theorem PrioInv_TaskSetPriority (s : KState) (x : TcbRef) (p : Nat) (h : PrioInv s)
    (hp : p ≤ (s.tcb x).base_priority) : PrioInv (TaskSetPriority x p s).2 := by
  have hp' : (if p = 0 then (s.tcb x).base_priority else p) ≤ (s.tcb x).base_priority := by
    split
    · exact le_refl _
    · exact hp
  unfold TaskSetPriority
  dsimp only
  split
  · exact h
  · split
    · exact PrioInv_ThreadChangePriority s x _ h hp'
    · exact PrioInv_set_priority_field s x _ h hp'

theorem PrioInv_unlock_held_mutexes (do_unlock_mutex : Nat → KState → KState)
    (hunlock : ∀ m s, PrioInv s → PrioInv (do_unlock_mutex m s)) (task : TcbRef) :
    ∀ (fuel : Nat) (s s' : KState), PrioInv s →
      unlock_held_mutexes do_unlock_mutex task fuel s = some s' → PrioInv s' := by
  intro fuel
  induction fuel with
  | zero => intro s s' _ h; simp [unlock_held_mutexes] at h
  | succ fuel ih =>
    intro s s' hs h
    unfold unlock_held_mutexes at h
    split at h
    · cases h; exact hs
    · rename_i m rest hq
      refine ih _ s' (hunlock m _ ?_) h
      exact PrioInv_update s _ task _ hs rfl (hs task)

theorem PrioInv_TaskTerminate (do_unlock_mutex : Nat → KState → KState)
    (hunlock : ∀ m s, PrioInv s → PrioInv (do_unlock_mutex m s)) (fuel : Nat) (task : TcbRef)
    (s : KState) (r : osError_t × KState) (h : PrioInv s)
    (hr : TaskTerminate do_unlock_mutex fuel task s = some r) : PrioInv r.2 := by
  unfold TaskTerminate at hr
  split at hr
  · cases hr; exact h
  · dsimp only at hr
    have h1 : PrioInv (if (s.tcb task).state = TSK_STATE_RUNNABLE then TaskToNonRunnable task s
        else if (s.tcb task).state &&& TSK_STATE_WAIT ≠ 0 then
          TimerDelete (TmebRef.wait_timer task)
            { s with queues := QueueRemoveEntry task s.queues }
        else s) := by
      split
      · exact PrioInv_TaskToNonRunnable s task h
      · split
        · exact PrioInv_of_tcb s _ h rfl
        · exact h
    cases hu : unlock_held_mutexes do_unlock_mutex task fuel
        (if (s.tcb task).state = TSK_STATE_RUNNABLE then TaskToNonRunnable task s
        else if (s.tcb task).state &&& TSK_STATE_WAIT ≠ 0 then
          TimerDelete (TmebRef.wait_timer task)
            { s with queues := QueueRemoveEntry task s.queues }
        else s) with
    | none => rw [hu] at hr; cases hr
    | some s2 =>
      rw [hu] at hr
      cases hr
      exact PrioInv_task_set_dormant_state s2 task
        (PrioInv_unlock_held_mutexes do_unlock_mutex hunlock task fuel _ s2 h1 hu)

theorem PrioInv_TaskExit (do_unlock_mutex : Nat → KState → KState)
    (hunlock : ∀ m s, PrioInv s → PrioInv (do_unlock_mutex m s)) (fuel : Nat) (del : Bool)
    (s s' : KState) (h : PrioInv s)
    (hr : TaskExit do_unlock_mutex fuel del s = some s') : PrioInv s' := by
  unfold TaskExit at hr
  dsimp only at hr
  cases hu : unlock_held_mutexes do_unlock_mutex (TaskGetCurrent s) fuel s with
  | none => rw [hu] at hr; cases hr
  | some s1 =>
    rw [hu] at hr
    have h1 := PrioInv_unlock_held_mutexes do_unlock_mutex hunlock _ fuel s s1 h hu
    have h2 := PrioInv_task_set_dormant_state _ (TaskGetCurrent s)
      (PrioInv_TaskToNonRunnable s1 (TaskGetCurrent s) h1)
    simp only [Option.map_some', Option.some.injEq] at hr
    rw [← hr]
    split
    · exact PrioInv_update _ _ (TaskGetCurrent s) _ h2 rfl (h2 _)
    · exact h2

theorem exReady_prio : PrioInv exReady := by
  intro t
  simp only [exReady]
  split_ifs <;> exact le_refl _

/-- C9, counterexample.  In `exReady` every priority equals the base priority.  After
`TaskCreate` of task 2 with base priority 5 and `TaskSetPriority(task 2, 10)`, with 10 in the
range that `osTaskSetPriority` accepts, the call returns `TERR_NO_ERR` and task 2 has
priority 10 and base priority 5: its priority is numerically above its base priority. -/
theorem set_priority_exceeds_base_priority :
    PrioInv exReady ∧ PrioInv exCreated ∧ priority_in_range 10 ∧
    (TaskSetPriority (TcbRef.task 2) 10 exCreated).1 = osError_t.TERR_NO_ERR ∧
    ((TaskSetPriority (TcbRef.task 2) 10 exCreated).2.tcb (TcbRef.task 2)).priority = 10 ∧
    ((TaskSetPriority (TcbRef.task 2) 10 exCreated).2.tcb (TcbRef.task 2)).base_priority = 5 ∧
    ¬ PrioInv (TaskSetPriority (TcbRef.task 2) 10 exCreated).2 := by
  refine ⟨exReady_prio, PrioInv_TaskCreate _ _ _ exReady_prio,
    by unfold priority_in_range; decide, by decide, by decide, by decide, ?_⟩
  intro h
  have h2 := h (TcbRef.task 2)
  revert h2
  decide

/-- C9, amended.  Let every task have a priority numerically at most its base priority.
This still holds in every state reached through `TaskCreate`, `ThreadSetPriority`,
`TaskTerminate`, `TaskExit`, and through `TaskSetPriority(t, p)` and
`ThreadChangePriority(t, p)` with `p` numerically at most the base priority of `t`
(`p = 0` included), for every `do_unlock_mutex` that keeps the property. -/
theorem priority_within_base_priority (do_unlock_mutex : Nat → KState → KState)
    (hunlock : ∀ m s, PrioInv s → PrioInv (do_unlock_mutex m s)) (s s' : KState)
    (h0 : PrioInv s) (hr : Relation.ReflTransGen (PrioStep do_unlock_mutex) s s') :
    PrioInv s' := by
  induction hr with
  | refl => exact h0
  | tail _ hstep ih =>
    cases hstep with
    | create task attr => exact PrioInv_TaskCreate _ task attr ih
    | set_priority task p hp => exact PrioInv_TaskSetPriority _ task p ih hp
    | set_transitive _ _ _ _ hy => exact PrioInv_ThreadSetPriority _ _ _ _ _ ih hy
    | change task p hp => exact PrioInv_ThreadChangePriority _ task p ih hp
    | terminate fuel task r hy =>
      exact PrioInv_TaskTerminate do_unlock_mutex hunlock fuel task _ r ih hy
    | exit _ _ _ hy => exact PrioInv_TaskExit do_unlock_mutex hunlock _ _ _ _ ih hy

/-- Witness for C9: task 2 is created with base priority 5, raised to priority 3 by
`TaskSetPriority`, and terminated by `TaskTerminate` (it holds no mutex). -/
theorem priority_within_base_priority_witness :
    PrioInv (TaskSetPriority (TcbRef.task 2) 3 exCreated).2 ∧
    ∃ r, TaskTerminate (fun _ s => s) 1 (TcbRef.task 2)
        (TaskSetPriority (TcbRef.task 2) 3 exCreated).2 = some r ∧ PrioInv r.2 := by
  have hstep1 : Relation.ReflTransGen (PrioStep (fun _ s => s)) exReady
      (TaskSetPriority (TcbRef.task 2) 3 exCreated).2 :=
    Relation.ReflTransGen.tail
      (Relation.ReflTransGen.single (PrioStep.create exReady (TcbRef.task 2) exAttr))
      (PrioStep.set_priority exCreated (TcbRef.task 2) 3 (by decide))
  have hsome : (TaskTerminate (fun _ s => s) 1 (TcbRef.task 2)
      (TaskSetPriority (TcbRef.task 2) 3 exCreated).2).isSome = true := by decide
  obtain ⟨r, hterm⟩ := Option.isSome_iff_exists.mp hsome
  exact ⟨priority_within_base_priority (fun _ s => s) (fun _ _ h => h) _ _ exReady_prio hstep1,
    r, hterm, priority_within_base_priority (fun _ s => s) (fun _ _ h => h) _ _ exReady_prio
      (Relation.ReflTransGen.tail hstep1 (PrioStep.terminate _ 1 (TcbRef.task 2) r hterm))⟩

/-! ### The held-mutex invariant and set_priority -/

theorem MutexInv_of_priority (s s' : KState) (t : TcbRef) (p : Nat) (hinv : MutexInv s)
    (hadm : Admissible t p s) (hh : s'.holder = s.holder)
    (hq : ∀ m w, w ∈ s'.queues (QueueRef.wait m) → w ∈ s.queues (QueueRef.wait m))
    (hp : ∀ x, (s'.tcb x).priority = if x = t then p else (s.tcb x).priority) :
    MutexInv s' := by
  intro m w ho hw
  rw [hh] at ho ⊢
  have hw' := hq m w hw
  rw [hp, hp]
  by_cases h1 : s.holder (some (QueueRef.wait m)) = t
  · by_cases h2 : w = t
    · rw [if_pos h1, if_pos h2]
    · rw [if_pos h1, if_neg h2]
      exact hadm.1 m w h1 hw' h2
  · by_cases h2 : w = t
    · rw [if_neg h1, if_pos h2]
      exact hadm.2 m ho (h2 ▸ hw') h1
    · rw [if_neg h1, if_neg h2]
      exact hinv m w ho hw'

theorem TaskSetPriority_MutexInv (s : KState) (t : TcbRef) (p : Nat) (hinv : MutexInv s)
    (hadm : Admissible t (if p = 0 then (s.tcb t).base_priority else p) s) :
    MutexInv (TaskSetPriority t p s).2 := by
  unfold TaskSetPriority
  dsimp only
  split
  · exact hinv
  · split
    · obtain ⟨n, b, m, he⟩ := ThreadChangePriority_eq t
        (if p = 0 then (s.tcb t).base_priority else p) s
      rw [he]
      refine MutexInv_of_priority s _ t _ hinv hadm rfl ?_ ?_
      · intro q w hw
        dsimp only [QueueAddTail] at hw
        rw [Function.update_noteq (by intro hc; exact QueueRef.noConfusion hc)] at hw
        exact List.mem_of_mem_erase hw
      · intro x
        by_cases hx : x = t
        · subst hx; simp only [Function.update_same, if_true]
        · simp only [Function.update_noteq hx, if_neg hx]
    · refine MutexInv_of_priority s _ t _ hinv hadm rfl (fun _ _ h => h) ?_
      intro x
      unfold set_priority_field
      by_cases hx : x = t
      · subst hx; simp only [Function.update_same, if_true]
      · simp only [Function.update_noteq hx, if_neg hx]

theorem thread_c_set_state_priority (th : TcbRef) (st : thread_c.osThreadState_t)
    (k : thread_c.knlInfo_t) (x : TcbRef) :
    ((thread_c.set_state th st k).thread x).priority = (k.thread x).priority := by
  unfold thread_c.set_state
  by_cases hx : x = th
  · subst hx; simp only [Function.update_same]
  · simp only [Function.update_noteq hx]

theorem thread_c_ThreadSwitch_priority (th : TcbRef) (k : thread_c.knlInfo_t) (x : TcbRef) :
    ((thread_c.ThreadSwitch th k).thread x).priority = (k.thread x).priority :=
  thread_c_set_state_priority th _ k x

theorem thread_c_ThreadDispatch_priority (th : TcbRef) (k : thread_c.knlInfo_t) (x : TcbRef) :
    ((thread_c.ThreadDispatch th k).thread x).priority = (k.thread x).priority := by
  unfold thread_c.ThreadDispatch
  dsimp only
  split_ifs
  · rw [thread_c_ThreadSwitch_priority, thread_c_set_state_priority]
  · rfl
  · rw [thread_c_ThreadSwitch_priority, thread_c_set_state_priority]
  · rfl

theorem thread_c_ThreadDispatch_frame (th : TcbRef) (k : thread_c.knlInfo_t) :
    (thread_c.ThreadDispatch th k).owner = k.owner ∧
    (thread_c.ThreadDispatch th k).queues = k.queues := by
  unfold thread_c.ThreadDispatch
  dsimp only
  split_ifs
  · exact ⟨rfl, rfl⟩
  · exact ⟨rfl, rfl⟩
  · exact ⟨rfl, rfl⟩
  · exact ⟨rfl, rfl⟩

theorem thread_c_ThreadReadyAdd_frame (th : TcbRef) (k : thread_c.knlInfo_t) :
    (thread_c.ThreadReadyAdd th k).owner = k.owner ∧
    (∀ m w, w ∈ (thread_c.ThreadReadyAdd th k).queues (QueueRef.wait m) →
      w ∈ k.queues (QueueRef.wait m)) ∧
    (∀ x, ((thread_c.ThreadReadyAdd th k).thread x).priority = (k.thread x).priority) := by
  refine ⟨rfl, ?_, ?_⟩
  · intro m w hw
    unfold thread_c.ThreadReadyAdd at hw
    dsimp only [QueueAddTail] at hw
    rw [Function.update_noteq (by intro hc; exact QueueRef.noConfusion hc)] at hw
    exact List.mem_of_mem_erase hw
  · intro x
    unfold thread_c.ThreadReadyAdd
    dsimp only
    exact thread_c_set_state_priority th _ _ x

theorem thread_c_ThreadReadyDel_frame (th : TcbRef) (k : thread_c.knlInfo_t) :
    (thread_c.ThreadReadyDel th k).owner = k.owner ∧
    (∀ m w, w ∈ (thread_c.ThreadReadyDel th k).queues (QueueRef.wait m) →
      w ∈ k.queues (QueueRef.wait m)) ∧
    (thread_c.ThreadReadyDel th k).thread = k.thread := by
  unfold thread_c.ThreadReadyDel
  dsimp only
  split
  · exact ⟨rfl, fun m w hw => List.mem_of_mem_erase hw, rfl⟩
  · exact ⟨rfl, fun m w hw => List.mem_of_mem_erase hw, rfl⟩

theorem thread_c_set_priority_base (t : TcbRef) (p : Nat) (k : thread_c.knlInfo_t)
    (x : TcbRef) :
    ((thread_c.set_priority t p (thread_c.set_base_priority t p k)).thread x).priority
      = if x = t then p else (k.thread x).priority := by
  unfold thread_c.set_priority thread_c.set_base_priority
  by_cases hx : x = t
  · subst hx; simp only [Function.update_same, if_true]
  · simp only [Function.update_noteq hx, if_neg hx]

theorem thread_c_ThreadSetPriority_frame (t : TcbRef) (p : Nat) (k : thread_c.knlInfo_t) :
    (thread_c._ThreadSetPriority t p k).owner = k.owner ∧
    (∀ m w, w ∈ (thread_c._ThreadSetPriority t p k).queues (QueueRef.wait m) →
      w ∈ k.queues (QueueRef.wait m)) ∧
    (∀ x, ((thread_c._ThreadSetPriority t p k).thread x).priority
      = if x = t then p else (k.thread x).priority) := by
  unfold thread_c._ThreadSetPriority
  split
  · dsimp only
    split
    · exact ⟨rfl, fun _ _ h => h, thread_c_set_priority_base t p k⟩
    · obtain ⟨d1, d2⟩ := thread_c_ThreadDispatch_frame TcbRef.null
        (thread_c.ThreadReadyAdd t (thread_c.set_priority t p
          (thread_c.ThreadReadyDel t (thread_c.set_base_priority t p k))))
      obtain ⟨a1, a2, a3⟩ := thread_c_ThreadReadyAdd_frame t (thread_c.set_priority t p
          (thread_c.ThreadReadyDel t (thread_c.set_base_priority t p k)))
      obtain ⟨b1, b2, b3⟩ := thread_c_ThreadReadyDel_frame t
        (thread_c.set_base_priority t p k)
      refine ⟨?_, ?_, ?_⟩
      · rw [d1, a1]; exact b1
      · intro m w hw
        rw [d2] at hw
        exact b2 m w (a2 m w hw)
      · intro x
        rw [thread_c_ThreadDispatch_priority, a3 x]
        have hx := thread_c_set_priority_base t p k x
        unfold thread_c.set_priority at hx ⊢
        dsimp only at hx ⊢
        rw [b3]
        exact hx
  · rename_i hp
    refine ⟨rfl, fun _ _ h => h, ?_⟩
    intro x
    by_cases hx : x = t
    · subst hx
      rw [if_pos rfl]
      exact not_not.mp hp
    · rw [if_neg hx]

theorem thread_c_ThreadSetPriority_MutexInv (r : Nat → Nat → Prop) (t : TcbRef) (p : Nat)
    (k : thread_c.knlInfo_t) (hrefl : r p p) (hinv : thread_c.MutexInv r k)
    (hadm : thread_c.Admissible r t p k) :
    thread_c.MutexInv r (thread_c._ThreadSetPriority t p k) := by
  obtain ⟨f1, f2, f3⟩ := thread_c_ThreadSetPriority_frame t p k
  intro m w ho hw
  rw [f1] at ho ⊢
  have hw' := f2 m w hw
  rw [f3, f3]
  by_cases h1 : k.owner (QueueRef.wait m) = t
  · by_cases h2 : w = t
    · rw [if_pos h1, if_pos h2]; exact hrefl
    · rw [if_pos h1, if_neg h2]
      exact hadm.1 m w h1 hw' h2
  · by_cases h2 : w = t
    · rw [if_neg h1, if_pos h2]
      exact hadm.2 m ho (h2 ▸ hw') h1
    · rw [if_neg h1, if_neg h2]
      exact hinv m w ho hw'

theorem exHeld_cases (m : Nat) (w : TcbRef)
    (ho : exHeld.holder (some (QueueRef.wait m)) ≠ TcbRef.null)
    (hw : w ∈ exHeld.queues (QueueRef.wait m)) : m = 7 ∧ w = TcbRef.task 2 := by
  by_cases hm : m = 7
  · subst hm
    simp [exHeld] at hw
    exact ⟨rfl, hw⟩
  · simp [exHeld, hm] at ho

theorem exHeldThreads_cases (m : Nat) (w : TcbRef)
    (ho : exHeldThreads.owner (QueueRef.wait m) ≠ TcbRef.null)
    (hw : w ∈ exHeldThreads.queues (QueueRef.wait m)) : m = 7 ∧ w = TcbRef.task 2 := by
  by_cases hm : m = 7
  · subst hm
    simp [exHeldThreads] at hw
    exact ⟨rfl, hw⟩
  · simp [exHeldThreads, hm] at ho

theorem exHeld_inv : MutexInv exHeld := by
  intro m w ho hw
  obtain ⟨hm, hw2⟩ := exHeld_cases m w ho hw
  subst hm; subst hw2
  decide

theorem exHeldThreads_inv (r : Nat → Nat → Prop) (h : r 5 5) :
    thread_c.MutexInv r exHeldThreads := by
  intro m w ho hw
  obtain ⟨hm, hw2⟩ := exHeldThreads_cases m w ho hw
  subst hm; subst hw2
  exact h

/-- C8, counterexample.  In `exHeld` task 1 holds a mutex and task 2 waits for it, both at
priority 3, so the held-mutex invariant holds.  `TaskSetPriority(task 1, 10)` (10 is in
range, and is the base priority of task 1) gives the holder priority 10, numerically above
the waiter; `TaskSetPriority(task 2, 1)` gives the waiter priority 1, numerically below the
holder.  On the thread interface (`exHeldThreads`, owner and waiter at priority 5)
`_ThreadSetPriority(owner, 6)` breaks the invariant read with `≤`, and
`_ThreadSetPriority(owner, 4)` breaks it read with `≥`, the priority order of `thread.c`. -/
theorem set_priority_breaks_held_mutex_invariant :
    MutexInv exHeld ∧ priority_in_range 10 ∧ priority_in_range 1 ∧
    ¬ MutexInv (TaskSetPriority (TcbRef.task 1) 10 exHeld).2 ∧
    ¬ MutexInv (TaskSetPriority (TcbRef.task 2) 1 exHeld).2 ∧
    thread_c.MutexInv (fun a b => a ≤ b) exHeldThreads ∧
    thread_c.MutexInv (fun a b => a ≥ b) exHeldThreads ∧
    ¬ thread_c.MutexInv (fun a b => a ≤ b)
      (thread_c._ThreadSetPriority (TcbRef.task 1) 6 exHeldThreads) ∧
    ¬ thread_c.MutexInv (fun a b => a ≥ b)
      (thread_c._ThreadSetPriority (TcbRef.task 1) 4 exHeldThreads) := by
  refine ⟨exHeld_inv, by unfold priority_in_range; decide, by unfold priority_in_range; decide,
    ?_, ?_, exHeldThreads_inv _ (le_refl 5), exHeldThreads_inv _ (le_refl 5), ?_, ?_⟩
  · intro h
    have h2 := h 7 (TcbRef.task 2) (by decide) (by decide)
    revert h2
    decide
  · intro h
    have h2 := h 7 (TcbRef.task 2) (by decide) (by decide)
    revert h2
    decide
  · intro h
    have h2 := h 7 (TcbRef.task 2) (by decide) (by decide)
    revert h2
    decide
  · intro h
    have h2 := h 7 (TcbRef.task 2) (by decide) (by decide)
    revert h2
    decide

/-- C8, amended.  `TaskSetPriority(t, p)` and `_ThreadSetPriority(t, p)` write the priority
of `t` only and adjust no other thread.  They preserve the held-mutex invariant when the
new priority of `t` (for `TaskSetPriority` with `p = 0`: the base priority) is at least as
urgent as the priority of every other thread waiting for a mutex that `t` holds, and the
holder of every mutex that `t` waits for is at least as urgent as the new priority. -/
theorem set_priority_preserves_held_mutex_invariant (s : KState) (t : TcbRef) (p : Nat)
    (k : thread_c.knlInfo_t) (t' : TcbRef) (p' : Nat) (r : Nat → Nat → Prop)
    (hinv : MutexInv s)
    (hadm : Admissible t (if p = 0 then (s.tcb t).base_priority else p) s)
    (hrefl : r p' p') (hinvk : thread_c.MutexInv r k)
    (hadmk : thread_c.Admissible r t' p' k) :
    MutexInv (TaskSetPriority t p s).2 ∧
    thread_c.MutexInv r (thread_c._ThreadSetPriority t' p' k) :=
  ⟨TaskSetPriority_MutexInv s t p hinv hadm,
    thread_c_ThreadSetPriority_MutexInv r t' p' k hrefl hinvk hadmk⟩

/-- Witness for C8: the holder of `exHeld` is raised to priority 2, above its waiter at 3; the
owner of `exHeldThreads` is raised to priority 6, above its waiter at 5, in the priority
order of `thread.c`. -/
theorem set_priority_preserves_held_mutex_invariant_witness :
    MutexInv (TaskSetPriority (TcbRef.task 1) 2 exHeld).2 ∧
    thread_c.MutexInv (fun a b => a ≥ b)
      (thread_c._ThreadSetPriority (TcbRef.task 1) 6 exHeldThreads) := by
  refine set_priority_preserves_held_mutex_invariant exHeld (TcbRef.task 1) 2 exHeldThreads
    (TcbRef.task 1) 6 (fun a b => a ≥ b) exHeld_inv ⟨?_, ?_⟩ (le_refl 6)
    (exHeldThreads_inv _ (le_refl 5)) ⟨?_, ?_⟩
  · intro m w ho hw _
    obtain ⟨hm, hw2⟩ := exHeld_cases m w (by rw [ho]; decide) hw
    subst hm; subst hw2
    decide
  · intro m ho hw
    obtain ⟨_, hw2⟩ := exHeld_cases m _ ho hw
    cases hw2
  · intro m w ho hw _
    obtain ⟨hm, hw2⟩ := exHeldThreads_cases m w (by rw [ho]; decide) hw
    subst hm; subst hw2
    decide
  · intro m ho hw
    obtain ⟨_, hw2⟩ := exHeldThreads_cases m _ ho hw
    cases hw2

/-! ### The timer queue stays sorted -/

theorem tn_time_before_iff (t0 a b : Nat) (ha : InWindow t0 a) (hb : InWindow t0 b) :
    tn_time_before a b = true ↔ tick_offset t0 a < tick_offset t0 b := by
  unfold InWindow tick_offset at *
  unfold tn_time_before
  rw [decide_eq_true_eq]
  norm_num at ha hb ⊢
  omega

theorem tn_time_before_false_iff (t0 a b : Nat) (ha : InWindow t0 a) (hb : InWindow t0 b) :
    tn_time_before a b = false ↔ tick_offset t0 b ≤ tick_offset t0 a := by
  rw [← Bool.not_eq_true, tn_time_before_iff t0 a b ha hb]
  omega

theorem sorted_do_timer_insert_walk (tmeb : TmebRef → TMEB) (t0 : Nat) (event : TmebRef)
    (he : InWindow t0 (tmeb event).time) :
    ∀ l : List TmebRef, TimerSorted tmeb l → (∀ e, e ∈ l → InWindow t0 (tmeb e).time) →
      TimerSorted tmeb (do_timer_insert_walk tmeb event l) := by
  intro l
  induction l with
  | nil => intro _ _; simp [do_timer_insert_walk, TimerSorted]
  | cons tm rest ih =>
    intro hs hw
    unfold TimerSorted at hs
    rw [List.pairwise_cons] at hs
    have hwtm := hw tm (List.mem_cons_self _ _)
    unfold do_timer_insert_walk
    split
    · rename_i hb
      have hlt := (tn_time_before_iff t0 _ _ he hwtm).mp hb
      unfold TimerSorted
      rw [List.pairwise_cons, List.pairwise_cons]
      refine ⟨?_, hs⟩
      intro x hx
      have hwx := hw x hx
      rw [tn_time_before_false_iff t0 _ _ hwx he]
      rcases List.mem_cons.mp hx with h | h
      · subst h; exact le_of_lt hlt
      · have := (tn_time_before_false_iff t0 _ _ (hw x hx) hwtm).mp (hs.1 x h)
        omega
    · rename_i hb
      unfold TimerSorted
      rw [List.pairwise_cons]
      refine ⟨?_, ih hs.2 (fun e h => hw e (List.mem_cons_of_mem _ h))⟩
      intro x hx
      rcases (mem_do_timer_insert_walk tmeb event x rest).mp hx with h | h
      · subst h; exact Bool.eq_false_iff.mpr hb
      · exact hs.1 x h

theorem perm_do_timer_insert_walk (tmeb : TmebRef → TMEB) (event : TmebRef) :
    ∀ l : List TmebRef, (do_timer_insert_walk tmeb event l).Perm (event :: l) := by
  intro l
  induction l with
  | nil => exact List.Perm.refl _
  | cons tm rest ih =>
    unfold do_timer_insert_walk
    split
    · exact List.Perm.refl _
    · exact (List.Perm.cons tm ih).trans (List.Perm.swap event tm rest)

theorem TimerSorted_congr (tmeb tmeb' : TmebRef → TMEB) (l : List TmebRef)
    (h : ∀ e, e ∈ l → tmeb' e = tmeb e) (hs : TimerSorted tmeb l) : TimerSorted tmeb' l := by
  unfold TimerSorted at *
  induction l with
  | nil => exact List.Pairwise.nil
  | cons a rest ih =>
    rw [List.pairwise_cons] at hs ⊢
    refine ⟨?_, ih (fun e he => h e (List.mem_cons_of_mem _ he)) hs.2⟩
    intro x hx
    rw [h a (List.mem_cons_self _ _), h x (List.mem_cons_of_mem _ hx)]
    exact hs.1 x hx

/-- C11. Timer queue stays sorted.  Let the timer queue be sorted by ascending expiry in the
wrap-around order, all its expiries lying in one window of `2 ^ 31` ticks (starting at `t0`).
(1) After `do_timer_insert` of an event that is not queued and whose expiry lies in the
window, the queue is sorted and is a rearrangement of the old queue plus the event.  (2) The
same holds after `timer_insert`, the expiry being `jiffies + time`, and the expiries of the
old events are untouched.  (3) After `timer_delete` of a queued event the queue is sorted
and, together with the event, is a rearrangement of the old queue. -/
theorem timer_queue_stays_sorted (s : KState) (t0 : Nat)
    (hsorted : TimerSorted s.tmeb s.timer_queue)
    (hwin : ∀ e, e ∈ s.timer_queue → InWindow t0 (s.tmeb e).time) :
    (∀ event, event ∉ s.timer_queue → InWindow t0 (s.tmeb event).time →
      TimerSorted (do_timer_insert event s).tmeb (do_timer_insert event s).timer_queue ∧
      (do_timer_insert event s).timer_queue.Perm (event :: s.timer_queue)) ∧
    (∀ event time callback arg, event ∉ s.timer_queue → InWindow t0 (s.jiffies + time) →
      TimerSorted (timer_insert event time callback arg s).tmeb
        (timer_insert event time callback arg s).timer_queue ∧
      (timer_insert event time callback arg s).timer_queue.Perm (event :: s.timer_queue) ∧
      ((timer_insert event time callback arg s).tmeb event).time
        = (s.jiffies + time) % 2 ^ 32 ∧
      (∀ e, e ∈ s.timer_queue →
        (timer_insert event time callback arg s).tmeb e = s.tmeb e)) ∧
    (∀ event, event ∈ s.timer_queue →
      TimerSorted (timer_delete event s).tmeb (timer_delete event s).timer_queue ∧
      (event :: (timer_delete event s).timer_queue).Perm s.timer_queue) := by
  refine ⟨?_, ?_, ?_⟩
  · intro event _ he
    exact ⟨sorted_do_timer_insert_walk s.tmeb t0 event he _ hsorted hwin,
      perm_do_timer_insert_walk s.tmeb event _⟩
  · intro event time callback arg hnew he
    have hother : ∀ e, e ∈ s.timer_queue →
        Function.update s.tmeb event
          { time := (s.jiffies + time) % 2 ^ 32, callback := callback, arg := arg } e
          = s.tmeb e := by
      intro e hmem
      have hne : e ≠ event := by
        intro hc
        rw [hc] at hmem
        exact hnew hmem
      exact Function.update_noteq hne _ _
    have he' : InWindow t0 ((Function.update s.tmeb event
          { time := (s.jiffies + time) % 2 ^ 32, callback := callback, arg := arg }
          event).time) := by
      rw [Function.update_same]
      unfold InWindow tick_offset at he ⊢
      simpa using he
    refine ⟨?_, perm_do_timer_insert_walk _ event _, ?_, hother⟩
    · refine sorted_do_timer_insert_walk _ t0 event he' _
        (TimerSorted_congr s.tmeb _ _ hother hsorted) ?_
      intro e hmem
      rw [hother e hmem]
      exact hwin e hmem
    · show (Function.update s.tmeb event _ event).time = _
      rw [Function.update_same]
  · intro event hmem
    refine ⟨?_, List.perm_cons_erase hmem |>.symm⟩
    exact List.Pairwise.sublist (List.erase_sublist event s.timer_queue) hsorted

theorem exTimers_sorted : TimerSorted exTimers.tmeb exTimers.timer_queue := by
  unfold TimerSorted
  simp only [exTimers, List.pairwise_cons, List.mem_singleton, List.not_mem_nil,
    forall_eq, List.Pairwise.nil, and_true, false_implies, implies_true]
  decide

theorem exTimers_window (e : TmebRef) (he : e ∈ exTimers.timer_queue) :
    InWindow 0xFFFFFFF0 (exTimers.tmeb e).time := by
  simp only [exTimers, List.mem_cons, List.mem_singleton, List.not_mem_nil, or_false] at he
  unfold InWindow tick_offset
  rcases he with h | h
  · subst h; decide
  · subst h; decide

/-- Witness for C11: with jiffies `0xFFFFFFF0` and timers due at `0xFFFFFFF8` and, after the
wrap, at `0x10`, the wait timer of task 4 is inserted with timeout `0x12`, that is for time
`0x2`, and the first timer is deleted. -/
theorem timer_queue_stays_sorted_witness :
    TimerSorted (timer_insert (TmebRef.wait_timer (TcbRef.task 4)) 0x12
        CBACK.task_wait_release_handler (CbArg.task (TcbRef.task 4)) exTimers).tmeb
      (timer_insert (TmebRef.wait_timer (TcbRef.task 4)) 0x12
        CBACK.task_wait_release_handler (CbArg.task (TcbRef.task 4)) exTimers).timer_queue ∧
    (timer_insert (TmebRef.wait_timer (TcbRef.task 4)) 0x12
        CBACK.task_wait_release_handler (CbArg.task (TcbRef.task 4)) exTimers).timer_queue
      = [TmebRef.wait_timer (TcbRef.task 2), TmebRef.wait_timer (TcbRef.task 4),
          TmebRef.wait_timer (TcbRef.task 3)] ∧
    TimerSorted (timer_delete (TmebRef.wait_timer (TcbRef.task 2)) exTimers).tmeb
      (timer_delete (TmebRef.wait_timer (TcbRef.task 2)) exTimers).timer_queue := by
  obtain ⟨_, h2, h3⟩ :=
    timer_queue_stays_sorted exTimers 0xFFFFFFF0 exTimers_sorted exTimers_window
  exact ⟨(h2 _ 0x12 _ _ (by decide) (by unfold InWindow tick_offset; decide)).1, by decide,
    (h3 (TmebRef.wait_timer (TcbRef.task 2)) (by decide)).1⟩

/-! ### kernel.c: lock, unlock and the state machine -/

theorem osInfo_state_eta (o : osInfo_t) (st : osKernelState_t) (h : o.kernel_state = st) :
    { o with kernel_state := st } = o := by
  cases o
  simp only at h
  subst h
  rfl

/-- C12, counterexample.  In the state Locked, `KernelLock` leaves the state Locked and
returns 1, and the following `KernelUnlock` sets the state Running: after lock and unlock
the kernel state differs from the state before. -/
theorem lock_unlock_from_locked_ends_running :
    exKernelLocked.kernel_state = osKernelState_t.osKernelLocked ∧
    (KernelLock exKernelLocked).1 = 1 ∧
    (KernelUnlock (KernelLock exKernelLocked).2).2.kernel_state
      = osKernelState_t.osKernelRunning ∧
    (KernelUnlock (KernelLock exKernelLocked).2).2.kernel_state
      ≠ exKernelLocked.kernel_state := by
  decide

/-- C12, amended.  For every kernel state other than Locked, `KernelLock` followed by
`KernelUnlock` leaves `osInfo`, and so the kernel state, as it was; from Locked the pair
ends in Running, since locks are not counted. -/
theorem lock_unlock_restores_state (o : osInfo_t) :
    (o.kernel_state ≠ osKernelState_t.osKernelLocked →
      (KernelUnlock (KernelLock o).2).2 = o) ∧
    (o.kernel_state = osKernelState_t.osKernelLocked →
      (KernelUnlock (KernelLock o).2).2.kernel_state = osKernelState_t.osKernelRunning) := by
  constructor
  · intro h
    cases hs : o.kernel_state with
    | osKernelInactive => simp only [KernelLock, KernelUnlock, hs]
    | osKernelReady => simp only [KernelLock, KernelUnlock, hs]
    | osKernelRunning =>
      simp only [KernelLock, KernelUnlock, hs]
      exact osInfo_state_eta o _ hs
    | osKernelLocked => exact absurd hs h
  · intro h
    simp only [KernelLock, KernelUnlock, h]

/-- Witness for C12: lock and unlock of a running kernel. -/
theorem lock_unlock_restores_state_witness :
    (KernelUnlock (KernelLock exKernelRunning).2).2 = exKernelRunning :=
  (lock_unlock_restores_state exKernelRunning).1 (by decide)

/-- C13. Lock state save/restore round trip.  In the states Running and Locked, `KernelLock`
and `KernelUnlock` return the previous lock state (0 for Running, 1 for Locked), and
`KernelRestoreLock` applied to the returned value, in the state that the call left, returns
that value and puts `osInfo` back as it was before the call.  In every state
`KernelRestoreLock` with an argument other than 0 and 1 returns `osError` and changes
nothing. -/
theorem lock_state_round_trip (o : osInfo_t)
    (h : o.kernel_state = osKernelState_t.osKernelRunning ∨
      o.kernel_state = osKernelState_t.osKernelLocked) :
    (KernelLock o).1 = (if o.kernel_state = osKernelState_t.osKernelRunning then 0 else 1) ∧
    (KernelUnlock o).1 = (if o.kernel_state = osKernelState_t.osKernelRunning then 0 else 1) ∧
    KernelRestoreLock (KernelLock o).1 (KernelLock o).2 = ((KernelLock o).1, o) ∧
    KernelRestoreLock (KernelUnlock o).1 (KernelUnlock o).2 = ((KernelUnlock o).1, o) ∧
    (∀ (o' : osInfo_t) (lock : Int), lock ≠ 0 → lock ≠ 1 →
      KernelRestoreLock lock o' = (osError, o')) := by
  refine ⟨?_, ?_, ?_, ?_, ?_⟩
  · rcases h with h | h <;> simp [KernelLock, h]
  · rcases h with h | h <;> simp [KernelUnlock, h]
  · rcases h with h | h
    · simp only [KernelLock, KernelRestoreLock, h, if_true]
      rw [Prod.mk.injEq]
      exact ⟨rfl, osInfo_state_eta o _ h⟩
    · simp only [KernelLock, KernelRestoreLock, h]
      rw [if_pos trivial, Prod.mk.injEq]
      exact ⟨rfl, osInfo_state_eta o _ h⟩
  · rcases h with h | h
    · simp only [KernelUnlock, KernelRestoreLock, h, if_true]
      rw [Prod.mk.injEq]
      exact ⟨rfl, osInfo_state_eta o _ h⟩
    · simp only [KernelUnlock, KernelRestoreLock, h]
      rw [if_pos trivial, Prod.mk.injEq]
      exact ⟨rfl, osInfo_state_eta o _ h⟩
  · intro o' lock h0 h1
    unfold KernelRestoreLock
    cases o'.kernel_state <;> simp [h0, h1]

/-- Witness for C13: the locked kernel `exKernelLocked`. -/
theorem lock_state_round_trip_witness :
    (KernelLock exKernelLocked).1 = 1 ∧ (KernelUnlock exKernelLocked).1 = 1 ∧
    KernelRestoreLock 1 (KernelLock exKernelLocked).2 = (1, exKernelLocked) ∧
    KernelRestoreLock 1 (KernelUnlock exKernelLocked).2 = (1, exKernelLocked) ∧
    KernelRestoreLock 5 exKernelRunning = (osError, exKernelRunning) := by
  obtain ⟨h1, h2, h3, h4, h5⟩ := lock_state_round_trip exKernelLocked (Or.inr rfl)
  exact ⟨h1, h2, h3, h4, h5 exKernelRunning 5 (by decide) (by decide)⟩

theorem KernelStart_ok (env : KernelEnv) (o : osInfo_t)
    (h : (KernelStart env o).1 = osOK) :
    o.kernel_state = osKernelState_t.osKernelReady ∧
    (KernelStart env o).2.kernel_state = osKernelState_t.osKernelRunning := by
  unfold KernelStart at h ⊢
  dsimp only at h ⊢
  split_ifs at h ⊢ with h1 h2 h3
  all_goals first
    | exact ⟨not_not.mp h1, rfl⟩
    | exact absurd h (by simp [osOK, osError])

theorem KernelStep_locked (env : KernelEnv) (o o' : osInfo_t)
    (h : o.kernel_state = osKernelState_t.osKernelRunning ∨
      o.kernel_state = osKernelState_t.osKernelLocked)
    (hstep : KernelStep env o o') :
    o'.kernel_state = osKernelState_t.osKernelRunning ∨
      o'.kernel_state = osKernelState_t.osKernelLocked := by
  cases hstep with
  | init =>
    unfold KernelInitialize
    rcases h with h | h <;> simp [h]
  | start =>
    unfold KernelStart
    rcases h with h | h <;> simp [h]
  | lock =>
    unfold KernelLock
    rcases h with h | h <;> simp [h]
  | unlock =>
    unfold KernelUnlock
    rcases h with h | h <;> simp [h]
  | restore_lock lock =>
    unfold KernelRestoreLock
    rcases h with h | h <;> simp only [h] <;> split_ifs <;> simp [h]

/-- C14. Kernel state machine.  `KernelInitialize` returns `osOK` exactly from Inactive (the
new state is Ready) and from Ready (nothing changes), and `osError` without change from
Running and Locked.  `KernelStart` returns `osError` without change unless the state is
Ready, and when it returns `osOK` the state was Ready and is Running.  `KernelLock`,
`KernelUnlock` and `KernelRestoreLock` return `osError` without change in Inactive and
Ready; in Running and Locked they change at most the kernel state, to Running or Locked.
Hence from Running or Locked every sequence of these five services ends in Running or
Locked. -/
theorem kernel_state_machine (env : KernelEnv) (o : osInfo_t) :
    ((KernelInitialize o).1 = osOK ↔
      (o.kernel_state = osKernelState_t.osKernelInactive ∨
        o.kernel_state = osKernelState_t.osKernelReady)) ∧
    (o.kernel_state = osKernelState_t.osKernelInactive →
      (KernelInitialize o).2.kernel_state = osKernelState_t.osKernelReady) ∧
    (o.kernel_state = osKernelState_t.osKernelReady → KernelInitialize o = (osOK, o)) ∧
    (o.kernel_state = osKernelState_t.osKernelRunning ∨
      o.kernel_state = osKernelState_t.osKernelLocked → KernelInitialize o = (osError, o)) ∧
    (o.kernel_state ≠ osKernelState_t.osKernelReady → KernelStart env o = (osError, o)) ∧
    ((KernelStart env o).1 = osOK →
      o.kernel_state = osKernelState_t.osKernelReady ∧
      (KernelStart env o).2.kernel_state = osKernelState_t.osKernelRunning) ∧
    (o.kernel_state = osKernelState_t.osKernelInactive ∨
      o.kernel_state = osKernelState_t.osKernelReady →
      KernelLock o = (osError, o) ∧ KernelUnlock o = (osError, o) ∧
      ∀ lock, KernelRestoreLock lock o = (osError, o)) ∧
    (o.kernel_state = osKernelState_t.osKernelRunning ∨
      o.kernel_state = osKernelState_t.osKernelLocked →
      ∀ r, r = (KernelLock o).2 ∨ r = (KernelUnlock o).2 ∨
          (∃ lock, r = (KernelRestoreLock lock o).2) →
        (r.kernel_state = osKernelState_t.osKernelRunning ∨
          r.kernel_state = osKernelState_t.osKernelLocked) ∧
        { r with kernel_state := o.kernel_state } = o) ∧
    (o.kernel_state = osKernelState_t.osKernelRunning ∨
      o.kernel_state = osKernelState_t.osKernelLocked →
      ∀ o', Relation.ReflTransGen (KernelStep env) o o' →
        o'.kernel_state = osKernelState_t.osKernelRunning ∨
          o'.kernel_state = osKernelState_t.osKernelLocked) := by
  refine ⟨?_, ?_, ?_, ?_, ?_, KernelStart_ok env o, ?_, ?_, ?_⟩
  · unfold KernelInitialize
    cases hs : o.kernel_state <;> simp [osOK, osError]
  · intro h
    simp [KernelInitialize, h]
  · intro h
    simp [KernelInitialize, h]
  · intro h
    rcases h with h | h <;> simp [KernelInitialize, h]
  · intro h
    simp [KernelStart, h]
  · intro h
    rcases h with h | h <;> simp [KernelLock, KernelUnlock, KernelRestoreLock, h]
  · intro h r hr
    have hstep : KernelStep env o r := by
      rcases hr with hr | hr | ⟨lock, hr⟩
      · rw [hr]; exact KernelStep.lock o
      · rw [hr]; exact KernelStep.unlock o
      · rw [hr]; exact KernelStep.restore_lock o lock
    refine ⟨KernelStep_locked env o r h hstep, ?_⟩
    rcases hr with hr | hr | ⟨lock, hr⟩
    · rw [hr]
      rcases h with h | h <;> simp only [KernelLock, h] <;> exact osInfo_state_eta o _ h
    · rw [hr]
      rcases h with h | h <;> simp only [KernelUnlock, h] <;> exact osInfo_state_eta o _ h
    · rw [hr]
      rcases h with h | h <;> simp only [KernelRestoreLock, h] <;> split_ifs <;>
        exact osInfo_state_eta o _ h
  · intro h o' hr
    induction hr with
    | refl => exact h
    | tail _ hstep ih => exact KernelStep_locked env _ _ ih hstep

/-- Witness for C14: from the running kernel, lock, initialize, start and unlock. -/
theorem kernel_state_machine_witness :
    KernelInitialize exKernelRunning = (osError, exKernelRunning) ∧
    ((KernelUnlock (KernelStart exEnv (KernelInitialize
        (KernelLock exKernelRunning).2).2).2).2.kernel_state
        = osKernelState_t.osKernelRunning ∨
      (KernelUnlock (KernelStart exEnv (KernelInitialize
        (KernelLock exKernelRunning).2).2).2).2.kernel_state
        = osKernelState_t.osKernelLocked) := by
  obtain ⟨_, _, _, h4, _, _, _, _, h9⟩ := kernel_state_machine exEnv exKernelRunning
  refine ⟨h4 (Or.inl rfl), h9 (Or.inl rfl) _ ?_⟩
  exact Relation.ReflTransGen.tail (Relation.ReflTransGen.tail (Relation.ReflTransGen.tail
    (Relation.ReflTransGen.single (KernelStep.lock _)) (KernelStep.init _))
    (KernelStep.start _)) (KernelStep.unlock _)

/-! ### thread.c: dispatch and the scheduler lock -/

/-- C15, counterexample.  In `exLockedSys` the kernel state is Locked.  `ThreadDispatch(NULL)`
and `ThreadDispatch(task 2)` nevertheless make thread 2 the next thread, set its state to
Running and the state of thread 1 to Ready, and request a context switch. -/
theorem dispatch_switches_while_locked :
    exLockedSys.osInfo.kernel_state = osKernelState_t.osKernelLocked ∧
    exLockedSys.knlInfo.run_next = TcbRef.task 1 ∧
    exLockedSys.knlInfo.switch_req = false ∧
    (sys_ThreadDispatch TcbRef.null exLockedSys).knlInfo.run_next = TcbRef.task 2 ∧
    (sys_ThreadDispatch TcbRef.null exLockedSys).knlInfo.switch_req = true ∧
    ((sys_ThreadDispatch TcbRef.null exLockedSys).knlInfo.thread (TcbRef.task 2)).state
      = thread_c.osThreadState_t.ThreadStateRunning ∧
    ((sys_ThreadDispatch TcbRef.null exLockedSys).knlInfo.thread (TcbRef.task 1)).state
      = thread_c.osThreadState_t.ThreadStateReady ∧
    (sys_ThreadDispatch (TcbRef.task 2) exLockedSys).knlInfo.run_next = TcbRef.task 2 ∧
    (sys_ThreadDispatch (TcbRef.task 2) exLockedSys).knlInfo.switch_req = true ∧
    (sys_ThreadDispatch (TcbRef.task 2) exLockedSys).osInfo.kernel_state
      = osKernelState_t.osKernelLocked := by
  decide

/-- C15, amended.  `ThreadDispatch` does not consult the kernel state: its effect on
`knlInfo` is the same whatever `osInfo` holds, and it leaves `osInfo` alone.  In every
state, Locked included, it is a no-op exactly on the priorities: when the priority of the
dispatched thread (the argument, or for `NULL` the ready thread of highest priority) is not
greater than the priority of the running thread, nothing changes; otherwise the dispatched
thread becomes the next thread in state Running and a context switch is requested. -/
theorem dispatch_ignores_lock (σ : System) (thread : TcbRef) :
    (sys_ThreadDispatch thread σ).osInfo = σ.osInfo ∧
    (∀ o : osInfo_t, (sys_ThreadDispatch thread { σ with osInfo := o }).knlInfo
      = (sys_ThreadDispatch thread σ).knlInfo) ∧
    ((σ.knlInfo.thread (thread_c.dispatch_target thread σ.knlInfo)).priority
        ≤ (σ.knlInfo.thread (thread_c.ThreadGetRunning σ.knlInfo)).priority →
      sys_ThreadDispatch thread σ = σ) ∧
    ((σ.knlInfo.thread (thread_c.ThreadGetRunning σ.knlInfo)).priority
        < (σ.knlInfo.thread (thread_c.dispatch_target thread σ.knlInfo)).priority →
      (sys_ThreadDispatch thread σ).knlInfo.run_next
        = thread_c.dispatch_target thread σ.knlInfo ∧
      (sys_ThreadDispatch thread σ).knlInfo.switch_req = true ∧
      ((sys_ThreadDispatch thread σ).knlInfo.thread
        (thread_c.dispatch_target thread σ.knlInfo)).state
        = thread_c.osThreadState_t.ThreadStateRunning) := by
  refine ⟨rfl, fun _ => rfl, ?_, ?_⟩
  · intro h
    unfold sys_ThreadDispatch thread_c.ThreadDispatch
    unfold thread_c.dispatch_target at h
    dsimp only
    rw [if_neg (by omega)]
  · intro h
    unfold sys_ThreadDispatch thread_c.ThreadDispatch
    unfold thread_c.dispatch_target at h ⊢
    dsimp only
    rw [if_pos h]
    refine ⟨rfl, rfl, ?_⟩
    unfold thread_c.ThreadSwitch thread_c.set_state
    simp only [Function.update_same]

/-- Witness for C15: in `exLockedSys` a dispatch of the idle thread (priority 1) changes
nothing, and a dispatch of thread 2 (priority 7) switches to it. -/
theorem dispatch_ignores_lock_witness :
    sys_ThreadDispatch (TcbRef.task 0) exLockedSys = exLockedSys ∧
    (sys_ThreadDispatch (TcbRef.task 2) exLockedSys).knlInfo.run_next = TcbRef.task 2 := by
  obtain ⟨_, _, h3, _⟩ := dispatch_ignores_lock exLockedSys (TcbRef.task 0)
  obtain ⟨_, _, _, h4⟩ := dispatch_ignores_lock exLockedSys (TcbRef.task 2)
  exact ⟨h3 (by decide), (h4 (by decide)).1⟩

/-! ### set_priority is idempotent -/

theorem KState_eta3 (X : KState) (Q : QueueRef → List TcbRef) (m : Nat) (T : TcbRef → TN_TCB)
    (hQ : Q = X.queues) (hm : m = X.ready_to_run_bmp) (hT : T = X.tcb) :
    { X with queues := Q, ready_to_run_bmp := m, tcb := T } = X := by
  subst hQ hm hT
  rfl

theorem or_bit32_idem (b p : Nat) :
    ((b ||| bit32 p) % 2 ^ 32 ||| bit32 p) % 2 ^ 32 = (b ||| bit32 p) % 2 ^ 32 := by
  apply Nat.eq_of_testBit_eq
  intro i
  simp only [Nat.testBit_mod_two_pow, Nat.testBit_or]
  by_cases hi : i < 32
  · simp only [hi, decide_True, Bool.true_and, testBit_bit32 p i hi]
    cases b.testBit i <;> cases decide (p = i) <;> rfl
  · simp [hi]

theorem and_not_or_bit32 (x p : Nat) (hx : x = (x ||| bit32 p) % 2 ^ 32) :
    ((x &&& not32 (bit32 p)) ||| bit32 p) % 2 ^ 32 = x := by
  apply Nat.eq_of_testBit_eq
  intro i
  have hxi : x.testBit i = (decide (i < 32) && (x.testBit i || (bit32 p).testBit i)) := by
    conv_lhs => rw [hx]
    simp only [Nat.testBit_mod_two_pow, Nat.testBit_or]
  simp only [Nat.testBit_mod_two_pow, Nat.testBit_or, Nat.testBit_and]
  by_cases hi : i < 32
  · rw [testBit_not32_bit32 p i hi, testBit_bit32 p i hi]
    rw [testBit_bit32 p i hi] at hxi
    simp only [hi, decide_True, Bool.true_and] at hxi ⊢
    by_cases hp : p = i
    · simp [hp] at hxi ⊢
      exact hxi
    · simp [hp]
  · simp only [hi, decide_False, Bool.false_and] at hxi ⊢
    exact hxi.symm

theorem erase_append_self (L : List TcbRef) (t : TcbRef) (h : t ∉ L) :
    (L ++ [t]).erase t = L := by
  rw [List.erase_append_right _ h]
  simp

theorem ThreadChangePriority_fixed (X : KState) (t : TcbRef) (p : Nat) (L : List TcbRef)
    (hp : (X.tcb t).priority = p) (hq : X.queues (QueueRef.ready p) = L ++ [t])
    (hL : t ∉ L) (hother : ∀ q, q ≠ QueueRef.ready p → t ∉ X.queues q)
    (hb : X.ready_to_run_bmp = (X.ready_to_run_bmp ||| bit32 p) % 2 ^ 32) :
    ThreadChangePriority t p X = ThreadDispatch X := by
  have herase : QueueRemoveEntry t X.queues (QueueRef.ready p) = L := by
    unfold QueueRemoveEntry
    rw [hq]
    exact erase_append_self L t hL
  have hQ : QueueAddTail (QueueRef.ready p) t (QueueRemoveEntry t X.queues) = X.queues := by
    funext q
    unfold QueueAddTail
    by_cases hqq : q = QueueRef.ready p
    · subst hqq
      rw [Function.update_same, herase, hq]
    · rw [Function.update_noteq hqq]
      unfold QueueRemoveEntry
      exact List.erase_of_not_mem (hother q hqq)
  have hT : Function.update X.tcb t { X.tcb t with priority := p } = X.tcb := by
    have : ({ X.tcb t with priority := p } : TN_TCB) = X.tcb t := by
      rw [← hp]
    rw [this, Function.update_eq_self]
  unfold ThreadChangePriority
  dsimp only
  congr 1
  unfold ThreadSetReady
  dsimp only
  rw [hp]
  split
  · dsimp only
    simp only [Function.update_same]
    exact KState_eta3 X _ _ _ hQ (and_not_or_bit32 _ p hb) hT
  · dsimp only
    simp only [Function.update_same]
    exact KState_eta3 X _ _ _ hQ hb.symm hT

theorem TaskSetNext_idem (x : TcbRef) (X : KState) :
    TaskSetNext x (TaskSetNext x X) = TaskSetNext x X := by
  unfold TaskSetNext TaskGetNext TaskGetCurrent
  by_cases h : x = X.next ∨ x = X.curr
  · rw [if_pos h, if_pos h]
  · rw [if_neg h]
    dsimp only
    rw [if_pos (Or.inl rfl)]

theorem ThreadDispatch_idem (X : KState) : ThreadDispatch (ThreadDispatch X) = ThreadDispatch X := by
  have h1 := ThreadDispatch_queues X
  have h2 := ThreadDispatch_bmp X
  unfold ThreadDispatch at h1 h2 ⊢
  dsimp only at h1 h2 ⊢
  rw [h1, h2]
  exact TaskSetNext_idem _ X

theorem ThreadChangePriority_bmp_fix (t : TcbRef) (p : Nat) (s : KState) :
    (ThreadChangePriority t p s).ready_to_run_bmp
      = ((ThreadChangePriority t p s).ready_to_run_bmp ||| bit32 p) % 2 ^ 32 := by
  unfold ThreadChangePriority
  dsimp only
  rw [ThreadDispatch_bmp]
  unfold ThreadSetReady
  dsimp only
  rw [Function.update_same]
  exact (or_bit32_idem _ p).symm

theorem ThreadChangePriority_idem (s : KState) (t : TcbRef) (p : Nat)
    (hnd : ∀ q, (s.queues q).Nodup) :
    ThreadChangePriority t p (ThreadChangePriority t p s) = ThreadChangePriority t p s := by
  have hdisp : ThreadDispatch (ThreadChangePriority t p s) = ThreadChangePriority t p s := by
    unfold ThreadChangePriority
    dsimp only
    exact ThreadDispatch_idem _
  have hnot : ∀ q, t ∉ (s.queues q).erase t := fun q => (hnd q).not_mem_erase
  rw [ThreadChangePriority_fixed (ThreadChangePriority t p s) t p
    ((s.queues (QueueRef.ready p)).erase t) ?_ ?_ (hnot _) ?_
    (ThreadChangePriority_bmp_fix t p s)]
  · exact hdisp
  · rw [ThreadChangePriority_tcb, Function.update_same]
  · rw [ThreadChangePriority_queues]
    unfold QueueAddTail QueueRemoveEntry
    rw [Function.update_same]
  · intro q hq
    rw [ThreadChangePriority_queues]
    unfold QueueAddTail QueueRemoveEntry
    rw [Function.update_noteq hq]
    exact hnot q

theorem set_priority_field_idem (s : KState) (t : TcbRef) (p : Nat) :
    set_priority_field t p (set_priority_field t p s) = set_priority_field t p s := by
  unfold set_priority_field
  simp only [Function.update_same, Function.update_idem]

theorem TaskSetPriority_runnable (s : KState) (t : TcbRef) (p : Nat)
    (hr : (s.tcb t).state = TSK_STATE_RUNNABLE) :
    TaskSetPriority t p s = (osError_t.TERR_NO_ERR,
      ThreadChangePriority t (if p = 0 then (s.tcb t).base_priority else p) s) := by
  unfold TaskSetPriority
  dsimp only
  rw [if_neg (by rw [hr]; decide), if_pos hr]

theorem TaskSetPriority_other (s : KState) (t : TcbRef) (p : Nat)
    (hd : (s.tcb t).state ≠ TSK_STATE_DORMANT) (hr : (s.tcb t).state ≠ TSK_STATE_RUNNABLE) :
    TaskSetPriority t p s = (osError_t.TERR_NO_ERR,
      set_priority_field t (if p = 0 then (s.tcb t).base_priority else p) s) := by
  unfold TaskSetPriority
  dsimp only
  rw [if_neg hd, if_neg hr]

/-- C16. set_priority is idempotent.  In a state whose queues hold every control block at
most once, `TaskSetPriority(t, p)` applied twice returns the same code and yields exactly
the same state as applied once, for every task `t` and every `p`; the same holds for
`_ThreadSetPriority(t, p)` in every state. -/
theorem set_priority_idempotent (s : KState) (t : TcbRef) (p : Nat)
    (k : thread_c.knlInfo_t) (t' : TcbRef) (p' : Nat)
    (hnd : ∀ q, (s.queues q).Nodup) :
    TaskSetPriority t p (TaskSetPriority t p s).2 = TaskSetPriority t p s ∧
    thread_c._ThreadSetPriority t' p' (thread_c._ThreadSetPriority t' p' k)
      = thread_c._ThreadSetPriority t' p' k := by
  constructor
  · by_cases hd : (s.tcb t).state = TSK_STATE_DORMANT
    · have e1 : TaskSetPriority t p s = (osError_t.TERR_WCONTEXT, s) := by
        unfold TaskSetPriority
        dsimp only
        rw [if_pos hd]
      rw [e1]
      exact e1
    · by_cases hr : (s.tcb t).state = TSK_STATE_RUNNABLE
      · rw [TaskSetPriority_runnable s t p hr]
        dsimp only
        have h1 : ((ThreadChangePriority t
            (if p = 0 then (s.tcb t).base_priority else p) s).tcb t).state
            = TSK_STATE_RUNNABLE := by
          rw [ThreadChangePriority_tcb, Function.update_same]
          exact hr
        have h2 : ((ThreadChangePriority t
            (if p = 0 then (s.tcb t).base_priority else p) s).tcb t).base_priority
            = (s.tcb t).base_priority := by
          rw [ThreadChangePriority_tcb, Function.update_same]
        rw [TaskSetPriority_runnable _ t p h1, h2, ThreadChangePriority_idem s t _ hnd]
      · rw [TaskSetPriority_other s t p hd hr]
        dsimp only
        have h1 : ((set_priority_field t
            (if p = 0 then (s.tcb t).base_priority else p) s).tcb t).state
            = (s.tcb t).state := by
          unfold set_priority_field
          simp only [Function.update_same]
        have h2 : ((set_priority_field t
            (if p = 0 then (s.tcb t).base_priority else p) s).tcb t).base_priority
            = (s.tcb t).base_priority := by
          unfold set_priority_field
          simp only [Function.update_same]
        rw [TaskSetPriority_other _ t p (by rw [h1]; exact hd) (by rw [h1]; exact hr), h2,
          set_priority_field_idem]
  · have hp := (thread_c_ThreadSetPriority_frame t' p' k).2.2 t'
    rw [if_pos rfl] at hp
    generalize thread_c._ThreadSetPriority t' p' k = k1 at hp ⊢
    unfold thread_c._ThreadSetPriority
    rw [if_neg (by rw [hp]; exact fun h => h rfl)]

theorem exReady_nodup (q : QueueRef) : (exReady.queues q).Nodup := by
  simp only [exReady]
  split_ifs <;> simp

/-- Witness for C16: the running task 1 of `exReady` is moved from priority 5 to 3, and
thread 1 of `exThreads` from priority 5 to 6. -/
theorem set_priority_idempotent_witness :
    TaskSetPriority (TcbRef.task 1) 3 (TaskSetPriority (TcbRef.task 1) 3 exReady).2
      = TaskSetPriority (TcbRef.task 1) 3 exReady ∧
    thread_c._ThreadSetPriority (TcbRef.task 1) 6
        (thread_c._ThreadSetPriority (TcbRef.task 1) 6 exThreads)
      = thread_c._ThreadSetPriority (TcbRef.task 1) 6 exThreads :=
  set_priority_idempotent exReady (TcbRef.task 1) 3 exThreads (TcbRef.task 1) 6 exReady_nodup

/-! ### send_first pushes at the head -/

theorem wrap_back (n z ti : Nat) (hz : 0 < z) (hti : ti < n) :
    (if ((ti * z : Nat) : Int) = 0 then (n : Int) * (z : Int) - (z : Int)
      else ((ti * z : Nat) : Int) - (z : Int)) = ((((ti + n - 1) % n) * z : Nat) : Int) := by
  obtain ⟨k, rfl⟩ : ∃ k, n = k + 1 := ⟨n - 1, by omega⟩
  cases ti with
  | zero =>
    have h1 : (0 + (k + 1) - 1) % (k + 1) = k := by
      rw [Nat.zero_add, Nat.add_sub_cancel, Nat.mod_eq_of_lt (by omega)]
    rw [h1, Nat.zero_mul, if_pos Nat.cast_zero]
    push_cast
    ring
  | succ j =>
    have h1 : (j + 1 + (k + 1) - 1) % (k + 1) = j := by
      have : j + 1 + (k + 1) - 1 = j + (k + 1) := by omega
      rw [this, Nat.add_mod_right, Nat.mod_eq_of_lt (by omega)]
    have h2 : ¬ (((j + 1) * z : Nat) : Int) = 0 := by
      have : 0 < (j + 1) * z := Nat.mul_pos (by omega) hz
      omega
    rw [h1, if_neg h2]
    push_cast
    ring

theorem mbf_write_first_rep (m : TN_MBF) (n z ti c : Nat) (v : List Nat)
    (hrep : MbfRep m n z ti c) (hc : c < n) (hv : v.length = z) :
    (mbf_fifo_write m v true).1 = osError_t.TERR_NO_ERR ∧
    MbfRep (mbf_fifo_write m v true).2 n z ((ti + n - 1) % n) (c + 1) ∧
    mbf_contents (mbf_fifo_write m v true).2.buf n z ((ti + n - 1) % n) (c + 1)
      = v :: mbf_contents m.buf n z ti c := by
  obtain ⟨hz, hti, hcn, hmsz, hnum, hcnt, htail, hhead⟩ := hrep
  have hn0 : ¬ m.num_entries = 0 := by rw [hnum]; exact_mod_cast (by omega : n ≠ 0)
  have hfull : ¬ m.cnt = m.num_entries := by
    rw [hnum, hcnt]; exact_mod_cast (by omega : c ≠ n)
  have hlt : (ti + n - 1) % n < n := Nat.mod_lt _ (by omega)
  have hback := wrap_back n z ti hz hti
  have hnext : ((ti + n - 1) % n + 1) % n = ti := by
    rw [Nat.mod_add_mod]
    have : ti + n - 1 + 1 = ti + n := by omega
    rw [this, Nat.add_mod_right, Nat.mod_eq_of_lt hti]
  have htail' : (if m.tail = 0 then m.num_entries * m.msz - m.msz else m.tail - m.msz)
      = ((((ti + n - 1) % n) * z : Nat) : Int) := by
    rw [htail, hmsz, hnum]
    exact hback
  simp only [mbf_fifo_write, if_neg hn0, if_neg hfull, if_true]
  refine ⟨trivial, ⟨hz, hlt, by omega, hmsz, hnum, by rw [hcnt]; push_cast; rfl, htail', ?_⟩, ?_⟩
  · show m.head = _
    rw [hhead]
    have : ((ti + n - 1) % n + (c + 1)) % n = (ti + c) % n := by
      rw [Nat.mod_add_mod]
      have : ti + n - 1 + (c + 1) = ti + c + n := by omega
      rw [this, Nat.add_mod_right]
    rw [this]
  · show mbf_contents (memcpy_to m.buf
        (if m.tail = 0 then m.num_entries * m.msz - m.msz else m.tail - m.msz) v m.msz)
        n z ((ti + n - 1) % n) (c + 1) = _
    rw [htail', hmsz, mbf_contents_succ _ _ _ _ _ hlt, mbf_slot_write_same _ _ _ _ hv, hnext]
    congr 1
    unfold mbf_contents
    apply List.map_congr_left
    intro j hj
    rw [List.mem_range] at hj
    refine mbf_slot_write_other _ _ _ _ _ ?_
    have hne := mod_ne_of_lt n ((ti + n - 1) % n) 0 (j + 1) (by omega) (by omega)
    have h3 : ((ti + n - 1) % n + (j + 1)) % n = (ti + j) % n := by
      have e : (ti + n - 1) % n + (j + 1) = ((ti + n - 1) % n + 1) + j := by omega
      rw [e, ← Nat.mod_add_mod ((ti + n - 1) % n + 1) n j, hnext]
    rw [Nat.add_zero, Nat.mod_mod, h3] at hne
    exact fun h => hne h.symm

/-- C17. send_first pushes at the head.  For a buffer that satisfies the ring-buffer
invariant, has `n ≥ 1` entries and holds `c < n` messages, `mbf_fifo_write(v, true)` returns
`TERR_NO_ERR`, and the next `c + 1` reads return `v` and then the `c` messages that `c`
reads would have returned before, in the same order, for every position of the tail (so also
when it wraps from 0 to the last slot).  With no waiting receiver `tn_mbf_send_first` is
exactly this write. -/
theorem send_first_pushes_at_head (m : TN_MBF) (v : List Nat) (c : Nat)
    (hinv : MbfInv m) (hn : 1 ≤ m.num_entries) (hc : m.cnt = c)
    (hfree : m.cnt < m.num_entries) (hlen : (v.length : Int) = m.msz) :
    (mbf_fifo_write m v true).1 = osError_t.TERR_NO_ERR ∧
    (∀ r ∈ mbf_read_n c m, r.1 = osError_t.TERR_NO_ERR ∧ r.2 ≠ none) ∧
    mbf_read_n (c + 1) (mbf_fifo_write m v true).2
      = (osError_t.TERR_NO_ERR, some v) :: mbf_read_n c m ∧
    (∀ (fuel msg timeout rc_ptr : Nat) (s : KState), m.id = ID_MESSAGEBUF →
      isQueueEmpty m.recv_queue s.queues = true → load s.ram msg m.msz.toNat = v →
      tn_mbf_send_first fuel (some m) msg timeout rc_ptr s
        = some (some osError_t.TERR_NO_ERR, some (mbf_fifo_write m v true).2, s)) := by
  obtain ⟨n, z, ti, c', hrep, hc', hn', hz'⟩ := MbfRep_of_inv m hinv hn
  have hcc : c' = c := by rw [hc] at hc'; exact_mod_cast hc'.symm
  subst hcc
  have hlen' : v.length = z := by
    rw [hz'] at hlen
    exact_mod_cast hlen
  have hk' : c' < n := by
    rw [hn', hc'] at hfree
    exact_mod_cast hfree
  obtain ⟨h1, h2, h3⟩ := mbf_write_first_rep m n z ti c' v hrep hk' hlen'
  refine ⟨h1, ?_, ?_, ?_⟩
  · intro r hr
    rw [mbf_read_n_contents c' m n z ti hrep, List.mem_map] at hr
    obtain ⟨w, _, hw⟩ := hr
    rw [← hw]
    exact ⟨rfl, by simp⟩
  · rw [mbf_read_n_contents _ _ n z _ h2, h3, List.map_cons,
      mbf_read_n_contents c' m n z ti hrep]
  · intro fuel msg timeout rc_ptr s hid hq hload
    unfold tn_mbf_send_first do_mbf_send
    simp only [hid, ne_eq, not_true_eq_false, if_false, hq, hload, h1]

theorem exMbfHead_inv : MbfInv exMbfHead := by
  unfold MbfInv exMbfHead
  refine ⟨by decide, by decide, by decide, ⟨1, by decide⟩, ⟨0, by decide⟩, Or.inl (by decide),
    Or.inl (by decide), by decide⟩

/-- Witness for C17: the tail of `exMbfHead` is 0, the write at the head wraps it to the last
slot, and the two reads return the new message and then the old one. -/
theorem send_first_pushes_at_head_witness :
    (mbf_fifo_write exMbfHead [1, 2] true).2.tail = 4 ∧
    mbf_read_n 2 (mbf_fifo_write exMbfHead [1, 2] true).2
      = [(osError_t.TERR_NO_ERR, some [1, 2]), (osError_t.TERR_NO_ERR, some [7, 8])] := by
  obtain ⟨_, _, h3, _⟩ :=
    send_first_pushes_at_head exMbfHead [1, 2] 1 exMbfHead_inv (by decide) (by decide)
      (by decide) (by decide)
  refine ⟨by decide, ?_⟩
  rw [h3]
  decide

/-! ### Direct hand-off to a waiting receiver -/

/-- C18. Direct hand-off to a waiting receiver.  Let the receive queue of an existing buffer
hold the task `w` first (in a state with well-formed queues and finitely many tasks).  Then
`do_mbf_send`, for both values of `send_to_first` and every timeout, returns `TERR_NO_ERR`
and the control block of the buffer exactly as it was (`cnt`, `head`, `tail` and the stored
bytes included); the message of the sender is in the receive area that `w` recorded, the
result cell of `w` holds `TERR_NO_ERR`, `w` has left the receive queue and the timer queue
and has no wait reason, and `w` is RUNNABLE and linked in the ready queue of its priority,
or SUSPEND if it was suspended while waiting. -/
theorem direct_handoff_to_receiver (fuel : Nat) (L : List TcbRef) (s : KState) (m : TN_MBF)
    (msg timeout : Nat) (sf : Bool) (rc_ptr q : Nat) (w : TcbRef) (rest : List TcbRef)
    (hwf : KWF s) (hfin : FiniteAbove L s) (hfuel : L.length < fuel)
    (hid : m.id = ID_MESSAGEBUF) (hrq : m.recv_queue = QueueRef.wait q)
    (hq : s.queues (QueueRef.wait q) = w :: rest) :
    ∃ s', do_mbf_send fuel (some m) msg timeout sf rc_ptr s
        = some (some osError_t.TERR_NO_ERR, some m, s') ∧
      load s'.ram (s.tcb w).rmbf_msg m.msz.toNat = load s.ram msg m.msz.toNat ∧
      (∀ a, (s.tcb w).wait_rc = some a → s'.rc_mem a = osError_t.TERR_NO_ERR) ∧
      s'.queues (QueueRef.wait q) = rest ∧
      TmebRef.wait_timer w ∉ s'.timer_queue ∧
      (s'.tcb w).wait_reason = wait_reason_t.WAIT_REASON_NO ∧
      (if (s.tcb w).state &&& TSK_STATE_SUSPEND = 0 then
        (s'.tcb w).state = TSK_STATE_RUNNABLE ∧
        w ∈ s'.queues (QueueRef.ready (s'.tcb w).priority)
       else (s'.tcb w).state = TSK_STATE_SUSPEND) := by
  obtain ⟨s', h1, k1, _, ⟨⟨pr, _, e1⟩, _, e3, e4, e5, _, _, e8, _, _⟩⟩ :=
    do_mbf_send_handoff fuel L s m msg timeout sf rc_ptr q w rest hwf hfin hfuel hid hrq hq
  obtain ⟨_, _, r3, _⟩ := remove_head_facts s hwf q w rest hq
  refine ⟨s', h1, ?_, ?_, ?_, ?_, ?_, ?_⟩
  · rw [e8]
    exact load_store_same _ _ _ _ (load_length _ _ _)
  · intro a ha
    rw [e5]
    simp only [ha, Function.update_same]
  · rw [e3 q]
    exact r3
  · rw [e4]
    exact (List.Nodup.not_mem_erase hwf.2.2.2)
  · rw [e1]
  · have hst : (s'.tcb w).state = if (s.tcb w).state &&& TSK_STATE_SUSPEND = 0
        then TSK_STATE_RUNNABLE else TSK_STATE_SUSPEND := by rw [e1]
    split
    · rename_i hs
      rw [if_pos hs] at hst
      exact ⟨hst, k1.2.1 w hst⟩
    · rename_i hs
      rw [if_neg hs] at hst
      exact hst

/-- Witness for C18: a `send_first` with an infinite timeout to the buffer whose receive
queue is `wait 1` in `exDelete`; the first receiver is task 2. -/
theorem direct_handoff_to_receiver_witness :
    ∃ s', do_mbf_send 5 (some exFifoMbf) 0x90 TN_WAIT_INFINITE true 0 exDelete
        = some (some osError_t.TERR_NO_ERR, some exFifoMbf, s') ∧
      load s'.ram 0x50 2 = load exDelete.ram 0x90 2 ∧
      s'.rc_mem 0x30 = osError_t.TERR_NO_ERR ∧
      s'.queues (QueueRef.wait 1) = [TcbRef.task 3] ∧
      (s'.tcb (TcbRef.task 2)).state = TSK_STATE_RUNNABLE := by
  obtain ⟨s', h1, h2, h3, h4, _, _, h7⟩ :=
    direct_handoff_to_receiver 5 exTasks exDelete exFifoMbf 0x90 TN_WAIT_INFINITE true 0 1
      (TcbRef.task 2) [TcbRef.task 3] exDelete_wf exDelete_finite (by decide) rfl rfl
      (by decide)
  rw [if_pos (by decide)] at h7
  exact ⟨s', h1, h2, h3 0x30 (by decide), h4, h7.1⟩

/-! ### Memory pool round trip -/

theorem fm_put_fm_get (f : TN_FMP) (x : Nat) (hcnt : 0 < f.fblkcnt)
    (hle : f.fblkcnt ≤ f.num_blocks) :
    fm_put { (fm_get f).2 with cell := Function.update (fm_get f).2.cell f.free_list x }
      f.free_list = (osError_t.TERR_NO_ERR, f) := by
  unfold fm_get
  rw [if_pos hcnt]
  unfold fm_put
  dsimp only
  rw [if_pos (by omega)]
  congr 1
  cases f
  simp only [Function.update_idem, Function.update_eq_self, sub_add_cancel]

/-- C19. Memory-pool round trip.  For an existing pool with `0 < fblkcnt ≤ num_blocks`, a
non-`NULL` free list and an empty wait queue, `tn_fmem_get` returns `TERR_NO_ERR` without
blocking, delivers the block at the head of the free list and decrements `fblkcnt`; a
following `tn_fmem_release` of that block returns `TERR_NO_ERR` and puts the control block
and the links of the free list back exactly as they were before the get, whatever the
caller stored in the block in between. -/
theorem fmem_get_release_round_trip (f : TN_FMP) (p_data timeout rc_ptr fuel : Nat)
    (s : KState) (hid : f.id_fmp = TN_ID_FSMEMORYPOOL) (hp : p_data ≠ 0)
    (hcnt : 0 < f.fblkcnt) (hle : f.fblkcnt ≤ f.num_blocks) (hfree : f.free_list ≠ 0)
    (hq : isQueueEmpty f.wait_queue s.queues = true) :
    tn_fmem_get (some f) p_data timeout rc_ptr s
      = (some osError_t.TERR_NO_ERR, some (fm_get f).2, s, some f.free_list) ∧
    (fm_get f).2.fblkcnt = f.fblkcnt - 1 ∧
    (fm_get f).2.free_list = f.cell f.free_list ∧
    tn_fmem_release fuel (some (fm_get f).2) f.free_list s
      = some (osError_t.TERR_NO_ERR, some f, s) ∧
    (∀ x, tn_fmem_release fuel
        (some { (fm_get f).2 with cell := Function.update (fm_get f).2.cell f.free_list x })
        f.free_list s = some (osError_t.TERR_NO_ERR, some f, s)) := by
  have hg1 : (fm_get f).1 = f.free_list := by
    unfold fm_get
    rw [if_pos hcnt]
  have hgid : (fm_get f).2.id_fmp = f.id_fmp := by
    unfold fm_get
    rw [if_pos hcnt]
  have hgq : (fm_get f).2.wait_queue = f.wait_queue := by
    unfold fm_get
    rw [if_pos hcnt]
  have hrel : ∀ x, tn_fmem_release fuel
      (some { (fm_get f).2 with cell := Function.update (fm_get f).2.cell f.free_list x })
      f.free_list s = some (osError_t.TERR_NO_ERR, some f, s) := by
    intro x
    unfold tn_fmem_release
    dsimp only
    rw [if_neg hfree, if_neg (not_not.mpr (hgid.trans hid)),
      if_neg (not_not.mpr (by rw [hgq]; exact hq))]
    exact congrArg (fun r => some (osError_t.TERR_NO_ERR, some r.2, s))
      (fm_put_fm_get f x hcnt hle)
  refine ⟨?_, ?_, ?_, ?_, hrel⟩
  · unfold tn_fmem_get
    dsimp only
    rw [if_neg hp, if_neg (not_not.mpr hid), hg1, if_pos hfree]
  · unfold fm_get
    rw [if_pos hcnt]
  · unfold fm_get
    rw [if_pos hcnt]
  · have h := hrel ((fm_get f).2.cell f.free_list)
    rw [Function.update_eq_self] at h
    exact h

/-- Witness for C19: the pool `exFmp` in the state `exReady`, where nobody waits. -/
theorem fmem_get_release_round_trip_witness :
    tn_fmem_get (some exFmp) 0x40 TN_POLLING 0x44 exReady
      = (some osError_t.TERR_NO_ERR, some (fm_get exFmp).2, exReady, some 0x108) ∧
    (fm_get exFmp).2.fblkcnt = 1 ∧ (fm_get exFmp).2.free_list = 0x110 ∧
    tn_fmem_release 5 (some (fm_get exFmp).2) 0x108 exReady
      = some (osError_t.TERR_NO_ERR, some exFmp, exReady) := by
  obtain ⟨h1, h2, h3, h4, _⟩ :=
    fmem_get_release_round_trip exFmp 0x40 TN_POLLING 0x44 5 exReady rfl (by decide)
      (by decide) (by decide) (by decide) (by decide)
  exact ⟨h1, h2, h3, h4⟩

/-! ### Identity-tag rejection -/

theorem mbf_services_reject_wrong_id (m : TN_MBF) (h : m.id ≠ ID_MESSAGEBUF) :
    (∀ fuel msg timeout sf rc_ptr s,
      do_mbf_send fuel (some m) msg timeout sf rc_ptr s
        = some (some osError_t.TERR_NOEXS, some m, s)) ∧
    (∀ fuel msg timeout rc_ptr s, msg ≠ 0 →
      tn_mbf_receive fuel (some m) msg timeout rc_ptr s
        = some (some osError_t.TERR_NOEXS, some m, s)) ∧
    tn_mbf_flush (some m) = (osError_t.TERR_NOEXS, some m) ∧
    tn_mbf_empty (some m) = osError_t.TERR_NOEXS ∧
    tn_mbf_full (some m) = osError_t.TERR_NOEXS ∧
    (∀ cnt, cnt ≠ 0 → tn_mbf_cnt (some m) cnt = (osError_t.TERR_NOEXS, none)) ∧
    (∀ fuel n s, m.id = 0 →
      tn_mbf_delete fuel n (some m) s = some (osError_t.TERR_NOEXS, some m, s)) := by
  refine ⟨?_, ?_, ?_, ?_, ?_, ?_, ?_⟩
  · intro fuel msg timeout sf rc_ptr s
    simp [do_mbf_send, h]
  · intro fuel msg timeout rc_ptr s hmsg
    simp [tn_mbf_receive, h, hmsg]
  · simp [tn_mbf_flush, h]
  · simp [tn_mbf_empty, h]
  · simp [tn_mbf_full, h]
  · intro cnt hc
    simp [tn_mbf_cnt, h, hc]
  · intro fuel n s h0
    simp [tn_mbf_delete, h0]

/-- C20. Identity-tag rejection fails for `tn_mbf_delete`.  The control block `exNoMbf` has
the tag `0x1234`, which is not `ID_MESSAGEBUF`; `tn_mbf_send` on it returns `TERR_NOEXS`
and changes nothing.  `tn_mbf_delete` on it, in the state `exDelete` where tasks 2 and 3
wait in the queue at the place of its receive queue, returns `TERR_NO_ERR`, overwrites the
tag with `ID_INVALID`, empties that queue, stores `TERR_DLT` in the result cell of task 2
and makes task 2 RUNNABLE. -/
theorem delete_accepts_wrong_identity_tag :
    exNoMbf.id ≠ ID_MESSAGEBUF ∧
    (tn_mbf_send 5 (some exNoMbf) 0x90 TN_POLLING 0 exDelete).map
        (fun r => (r.1, r.2.1.map (fun m => m.id), r.2.2.queues (QueueRef.wait 1)))
      = some (some osError_t.TERR_NOEXS, some 0x1234, [TcbRef.task 2, TcbRef.task 3]) ∧
    (tn_mbf_delete 5 3 (some exNoMbf) exDelete).map
        (fun r => (r.1, r.2.1.map (fun m => m.id), r.2.2.queues (QueueRef.wait 1)))
      = some (osError_t.TERR_NO_ERR, some ID_INVALID, []) ∧
    (tn_mbf_delete 5 3 (some exNoMbf) exDelete).map
        (fun r => (r.2.2.rc_mem 0x30, (r.2.2.tcb (TcbRef.task 2)).state,
          (r.2.2.tcb (TcbRef.task 3)).state))
      = some (osError_t.TERR_DLT, TSK_STATE_RUNNABLE, TSK_STATE_SUSPEND) ∧
    (exDelete.rc_mem 0x30, (exDelete.tcb (TcbRef.task 2)).state)
      = (osError_t.TERR_ILUSE, TSK_STATE_WAIT) := by
  decide

/-! ### Releasing into a full pool -/

/-- C21. Releasing into a full pool does not report Overflow.  For every existing pool with
an empty wait queue and `fblkcnt = num_blocks`, and every non-`NULL` block address,
`fm_put` returns `TERR_OVERFLOW` and leaves the pool alone, but `tn_fmem_release`, which
drops that result, returns `TERR_NO_ERR`; the pool (`fblkcnt`, the free list and its links)
and the kernel state are unchanged. -/
theorem release_into_full_pool_returns_no_err (f : TN_FMP) (p fuel : Nat) (s : KState)
    (hid : f.id_fmp = TN_ID_FSMEMORYPOOL) (hp : p ≠ 0) (hfull : f.fblkcnt = f.num_blocks)
    (hq : isQueueEmpty f.wait_queue s.queues = true) :
    fm_put f p = (osError_t.TERR_OVERFLOW, f) ∧
    tn_fmem_release fuel (some f) p s = some (osError_t.TERR_NO_ERR, some f, s) := by
  have hput : fm_put f p = (osError_t.TERR_OVERFLOW, f) := by
    unfold fm_put
    rw [if_neg (by omega)]
  refine ⟨hput, ?_⟩
  unfold tn_fmem_release
  dsimp only
  rw [if_neg hp, if_neg (not_not.mpr hid), if_neg (not_not.mpr hq), hput]

/-- Witness for C21: the full pool `exFmpFull` in the state `exReady`; the block `0x100` is
released a second time. -/
theorem release_into_full_pool_returns_no_err_witness :
    fm_put exFmpFull 0x100 = (osError_t.TERR_OVERFLOW, exFmpFull) ∧
    tn_fmem_release 5 (some exFmpFull) 0x100 exReady
      = some (osError_t.TERR_NO_ERR, some exFmpFull, exReady) :=
  release_into_full_pool_returns_no_err exFmpFull 0x100 5 exReady rfl (by decide) (by decide)
    (by decide)

/-! ### Leaving a wait for a mutex -/

theorem task_wait_release_state_frame (w : TcbRef) (s : KState) :
    (task_wait_release_state w s).holder = s.holder ∧
    (∀ t, t ≠ w → (task_wait_release_state w s).tcb t = s.tcb t) ∧
    ((task_wait_release_state w s).tcb w).priority = (s.tcb w).priority ∧
    (∀ q, (task_wait_release_state w s).queues (QueueRef.wait q)
      = s.queues (QueueRef.wait q)) := by
  unfold task_wait_release_state
  dsimp only
  split
  · obtain ⟨n, b, he⟩ := TaskToRunnable_eq w
      { s with tcb := Function.update s.tcb w { s.tcb w with pwait_queue := none } }
    rw [he]
    refine ⟨rfl, ?_, ?_, ?_⟩
    · intro t ht
      simp [Function.update_noteq ht]
    · simp
    · intro q
      simp [QueueAddTail]
  · refine ⟨rfl, ?_, ?_, ?_⟩
    · intro t ht
      simp [Function.update_noteq ht]
    · simp
    · intro q
      rfl

theorem le_foldl_min {α : Type} (f : α → Nat) (p : Nat) (l : List α) :
    ∀ ref, p ≤ ref → (∀ t ∈ l, p ≤ f t) → p ≤ l.foldl (fun a t => min a (f t)) ref := by
  induction l with
  | nil => intro ref h _; exact h
  | cons a rest ih =>
    intro ref h hl
    rw [List.foldl_cons]
    exact ih _ (le_min h (hl a (List.mem_cons_self _ _)))
      (fun t ht => hl t (List.mem_cons_of_mem _ ht))

/-- C29. Leaving a wait does not restore the priority of the mutex owner.  A task `w` waits
on the priority-inheritance mutex with wait queue `wait q`, whose holder `o` is boosted to
the priority of `w` (numerically below its base priority) and is at least as urgent as every
waiter.  When `w` leaves the wait by timeout (`task_wait_release_handler`), the handler
returns, `w` is no longer in the wait queue, and the priority of `o` is what it was: the
value that `find_max_blocked_priority` yields is never numerically below the priority of `o`,
so `ThreadSetPriority` returns at its first test.  When `w` was the only waiter, `o` is left
with a priority different from its base priority although the recomputed value is the base
priority. -/
theorem wait_exit_leaves_owner_boosted (fuel : Nat) (s : KState) (w : TcbRef) (q : Nat)
    (hfuel : 0 < fuel)
    (hreason : (s.tcb w).wait_reason = wait_reason_t.WAIT_REASON_MUTEX_I)
    (hque : (s.tcb w).pwait_queue = some (QueueRef.wait q))
    (hnull : s.holder (some (QueueRef.wait q)) ≠ TcbRef.null)
    (hne : s.holder (some (QueueRef.wait q)) ≠ w)
    (hboost : (s.tcb (s.holder (some (QueueRef.wait q)))).priority
      < (s.tcb (s.holder (some (QueueRef.wait q)))).base_priority)
    (heq : (s.tcb (s.holder (some (QueueRef.wait q)))).priority = (s.tcb w).priority)
    (hmax : ∀ t ∈ s.queues (QueueRef.wait q),
      (s.tcb (s.holder (some (QueueRef.wait q)))).priority ≤ (s.tcb t).priority) :
    ∃ s', task_wait_release_handler fuel w s = some s' ∧
      s'.queues (QueueRef.wait q) = (s.queues (QueueRef.wait q)).erase w ∧
      s'.holder = s.holder ∧
      s'.tcb (s.holder (some (QueueRef.wait q))) = s.tcb (s.holder (some (QueueRef.wait q))) ∧
      (s.queues (QueueRef.wait q) = [w] →
        find_max_blocked_priority (some (QueueRef.wait q))
            (s'.tcb (s'.holder (some (QueueRef.wait q)))).base_priority s'
          = (s'.tcb (s'.holder (some (QueueRef.wait q)))).base_priority ∧
        (s'.tcb (s'.holder (some (QueueRef.wait q)))).priority
          ≠ (s'.tcb (s'.holder (some (QueueRef.wait q)))).base_priority) := by
  obtain ⟨fuel, rfl⟩ : ∃ n, fuel = n + 1 := ⟨fuel - 1, by omega⟩
  obtain ⟨hh, hoth, hpw, hqs⟩ := task_wait_release_state_frame w
    { s with queues := QueueRemoveEntry w s.queues }
  have ho := hoth _ hne
  dsimp only at hh ho hpw
  have hq2 := hqs q
  have hq2' : (task_wait_release_state w { s with queues := QueueRemoveEntry w s.queues }).queues
      (QueueRef.wait q) = (s.queues (QueueRef.wait q)).erase w := hq2
  have hprio : ∀ t, ((task_wait_release_state w
      { s with queues := QueueRemoveEntry w s.queues }).tcb t).priority = (s.tcb t).priority := by
    intro t
    by_cases ht : t = w
    · rw [ht]; exact hpw
    · rw [hoth t ht]
  have hfm : (s.tcb (s.holder (some (QueueRef.wait q)))).priority ≤
      find_max_blocked_priority (some (QueueRef.wait q))
        (s.tcb (s.holder (some (QueueRef.wait q)))).base_priority
        (task_wait_release_state w { s with queues := QueueRemoveEntry w s.queues }) := by
    unfold find_max_blocked_priority
    dsimp only
    refine le_foldl_min _ _ _ _ (le_of_lt hboost) ?_
    intro t ht
    rw [hq2'] at ht
    rw [hprio t]
    exact hmax t (List.mem_of_mem_erase ht)
  have hrel : task_wait_release (fuel + 1) w { s with queues := QueueRemoveEntry w s.queues }
      = some (clear_wait_reason w
          (task_wait_release_state w { s with queues := QueueRemoveEntry w s.queues })) := by
    unfold task_wait_release task_wait_release_mutex
    simp only [hreason, hque, true_or, decide_True, if_true, get_mutex_by_wait_queque, hh,
      ne_eq, hnull, not_false_eq_true, ho, hprio, heq, and_true]
    rw [if_pos (by rw [← heq]; exact ne_of_lt hboost)]
    unfold ThreadSetPriority
    rw [if_pos (by rw [ho]; exact hfm)]
    rfl
  refine ⟨write_wait_rc w osError_t.TERR_TIMEOUT (clear_wait_reason w
      (task_wait_release_state w { s with queues := QueueRemoveEntry w s.queues })), ?_, ?_, ?_,
    ?_, ?_⟩
  · unfold task_wait_release_handler
    dsimp only
    rw [hrel]
    rfl
  · unfold write_wait_rc clear_wait_reason
    split <;> exact hq2'
  · unfold write_wait_rc clear_wait_reason
    split <;> exact hh
  · unfold write_wait_rc clear_wait_reason
    split <;> simp [Function.update_noteq hne, ho]
  · intro hsingle
    have hq3 : (write_wait_rc w osError_t.TERR_TIMEOUT (clear_wait_reason w
        (task_wait_release_state w { s with queues := QueueRemoveEntry w s.queues }))).queues
        (QueueRef.wait q) = [] := by
      have : (write_wait_rc w osError_t.TERR_TIMEOUT (clear_wait_reason w
        (task_wait_release_state w { s with queues := QueueRemoveEntry w s.queues }))).queues
        (QueueRef.wait q) = (s.queues (QueueRef.wait q)).erase w := by
        unfold write_wait_rc clear_wait_reason
        split <;> exact hq2'
      rw [this, hsingle]
      simp
    have hh3 : (write_wait_rc w osError_t.TERR_TIMEOUT (clear_wait_reason w
        (task_wait_release_state w { s with queues := QueueRemoveEntry w s.queues }))).holder
        = s.holder := by
      unfold write_wait_rc clear_wait_reason
      split <;> exact hh
    have ht3 : (write_wait_rc w osError_t.TERR_TIMEOUT (clear_wait_reason w
        (task_wait_release_state w { s with queues := QueueRemoveEntry w s.queues }))).tcb
        (s.holder (some (QueueRef.wait q))) = s.tcb (s.holder (some (QueueRef.wait q))) := by
      unfold write_wait_rc clear_wait_reason
      split <;> simp [Function.update_noteq hne, ho]
    rw [hh3, ht3]
    refine ⟨?_, ne_of_lt hboost⟩
    unfold find_max_blocked_priority
    dsimp only
    rw [hq3]
    rfl

/-- Witness for C29: in `exHeld` task 2 (priority 3) is the only waiter of the mutex held by
task 1 (priority 3, base priority 10). -/
theorem wait_exit_leaves_owner_boosted_witness :
    ∃ s', task_wait_release_handler 5 (TcbRef.task 2) exHeld = some s' ∧
      s'.queues (QueueRef.wait 7) = (exHeld.queues (QueueRef.wait 7)).erase (TcbRef.task 2) ∧
      s'.holder = exHeld.holder ∧
      s'.tcb (exHeld.holder (some (QueueRef.wait 7)))
        = exHeld.tcb (exHeld.holder (some (QueueRef.wait 7))) ∧
      (exHeld.queues (QueueRef.wait 7) = [TcbRef.task 2] →
        find_max_blocked_priority (some (QueueRef.wait 7))
            (s'.tcb (s'.holder (some (QueueRef.wait 7)))).base_priority s'
          = (s'.tcb (s'.holder (some (QueueRef.wait 7)))).base_priority ∧
        (s'.tcb (s'.holder (some (QueueRef.wait 7)))).priority
          ≠ (s'.tcb (s'.holder (some (QueueRef.wait 7)))).base_priority) :=
  wait_exit_leaves_owner_boosted 5 exHeld (TcbRef.task 2) 7 (by decide) (by decide) (by decide)
    (by decide) (by decide) (by decide) (by decide) (by decide)

/-! ### The next task after a change of the ready set -/

theorem exPending_facts :
    (exPending.tcb (TcbRef.task 2)).state = TSK_STATE_RUNNABLE ∧
    TcbRef.task 2 = exPending.next ∧
    TcbRef.task 1 ∈ exPending.queues (QueueRef.ready 5) := by
  decide

/-- C24. Yield rotates the running thread to the tail.  Let the ready queue of the running
thread `r` (the queue `ready_list[r.priority - 1]`) hold no thread twice.  `ThreadYield`
returns `osOK`; afterwards that queue is the old one without `r`, in the old order, followed
by `r`; the priority of `r` and the ready bitmap are unchanged.  If the queue held another
thread, its new head `h` is the next thread, `h` is marked Running, `r` is marked Ready and
a context switch is requested; if `r` was alone, the next thread, all thread control blocks
and the switch request are unchanged. -/
theorem yield_rotates_running_thread (k : thread_c.knlInfo_t)
    (hnd : (k.queues (QueueRef.ready (thread_c.ready_index
      (k.thread k.run_curr).priority))).Nodup) :
    (thread_c.ThreadYield k).1 = osOK ∧
    (thread_c.ThreadYield k).2.queues
        (QueueRef.ready (thread_c.ready_index (k.thread k.run_curr).priority))
      = (k.queues (QueueRef.ready (thread_c.ready_index (k.thread k.run_curr).priority))).erase
          k.run_curr ++ [k.run_curr] ∧
    ((thread_c.ThreadYield k).2.thread k.run_curr).priority = (k.thread k.run_curr).priority ∧
    (thread_c.ThreadYield k).2.ready_to_run_bmp = k.ready_to_run_bmp ∧
    (thread_c.ThreadYield k).2.run_curr = k.run_curr ∧
    (∀ h rest,
      (k.queues (QueueRef.ready (thread_c.ready_index (k.thread k.run_curr).priority))).erase
        k.run_curr = h :: rest →
      (thread_c.ThreadYield k).2.run_next = h ∧
      ((thread_c.ThreadYield k).2.thread h).state = thread_c.osThreadState_t.ThreadStateRunning ∧
      ((thread_c.ThreadYield k).2.thread k.run_curr).state
        = thread_c.osThreadState_t.ThreadStateReady ∧
      (thread_c.ThreadYield k).2.switch_req = true) ∧
    ((k.queues (QueueRef.ready (thread_c.ready_index (k.thread k.run_curr).priority))).erase
        k.run_curr = [] →
      (thread_c.ThreadYield k).2.run_next = k.run_next ∧
      (thread_c.ThreadYield k).2.thread = k.thread ∧
      (thread_c.ThreadYield k).2.switch_req = k.switch_req) := by
  unfold thread_c.ThreadYield thread_c.ThreadGetRunning
  dsimp only
  by_cases hemp : isQueueEmpty (QueueRef.ready (thread_c.ready_index
      (k.thread k.run_curr).priority)) (QueueRemoveEntry k.run_curr k.queues) = true
  · have he : (k.queues (QueueRef.ready (thread_c.ready_index
        (k.thread k.run_curr).priority))).erase k.run_curr = [] := by
      simpa [isQueueEmpty, QueueRemoveEntry] using hemp
    rw [if_neg (not_not.mpr hemp)]
    refine ⟨rfl, ?_, rfl, rfl, rfl, ?_, fun _ => ⟨rfl, rfl, rfl⟩⟩
    · simp [QueueAddTail, QueueRemoveEntry]
    · intro h rest hc
      rw [he] at hc
      exact absurd hc (by simp)
  · have he : (k.queues (QueueRef.ready (thread_c.ready_index
        (k.thread k.run_curr).priority))).erase k.run_curr ≠ [] := by
      simpa [isQueueEmpty, QueueRemoveEntry] using hemp
    rw [if_pos hemp]
    refine ⟨rfl, ?_, ?_, rfl, rfl, ?_, fun hc => absurd hc he⟩
    · simp [QueueAddTail, QueueRemoveEntry, thread_c.ThreadSwitch, thread_c.set_state]
    · simp only [thread_c.ThreadSwitch, thread_c.set_state]
      by_cases hh : k.run_curr = get_task_by_tsk_queue (QueueRef.ready (thread_c.ready_index
          (k.thread k.run_curr).priority)) (QueueRemoveEntry k.run_curr k.queues)
      · rw [← hh]
        simp
      · rw [Function.update_noteq hh]
        simp
    · intro h rest hc
      have hget : get_task_by_tsk_queue (QueueRef.ready (thread_c.ready_index
          (k.thread k.run_curr).priority)) (QueueRemoveEntry k.run_curr k.queues) = h := by
        unfold get_task_by_tsk_queue QueueRemoveEntry
        rw [hc]
      have hne : k.run_curr ≠ h := by
        intro hcc
        have hm : h ∈ (k.queues (QueueRef.ready (thread_c.ready_index
            (k.thread k.run_curr).priority))).erase k.run_curr := by
          rw [hc]; exact List.mem_cons_self _ _
        rw [← hcc] at hm
        exact hnd.not_mem_erase hm
      simp only [thread_c.ThreadSwitch, thread_c.set_state]
      rw [hget]
      refine ⟨rfl, by simp, ?_, trivial⟩
      rw [Function.update_noteq hne]
      simp

/-- Witness for C24 on `exYield`: thread 1 runs and thread 2 is ready at the same
priority. -/
theorem yield_rotates_running_thread_witness :
    (thread_c.ThreadYield exYield).1 = osOK ∧
    (thread_c.ThreadYield exYield).2.queues (QueueRef.ready 4)
      = [TcbRef.task 2, TcbRef.task 1] ∧
    (thread_c.ThreadYield exYield).2.run_next = TcbRef.task 2 ∧
    ((thread_c.ThreadYield exYield).2.thread (TcbRef.task 2)).state
      = thread_c.osThreadState_t.ThreadStateRunning ∧
    ((thread_c.ThreadYield exYield).2.thread (TcbRef.task 1)).state
      = thread_c.osThreadState_t.ThreadStateReady ∧
    (thread_c.ThreadYield exYield).2.switch_req = true := by
  have h := yield_rotates_running_thread exYield (by decide)
  have h6 := h.2.2.2.2.2.1 (TcbRef.task 2) [] (by decide)
  exact ⟨h.1, h.2.1, h6.1, h6.2.1, h6.2.2.1, h6.2.2.2⟩

/-! ### The deadline of a wait -/

theorem thread_c_ThreadReadyDel_timer (t : TcbRef) (k : thread_c.knlInfo_t) :
    (thread_c.ThreadReadyDel t k).jiffies = k.jiffies ∧
    (thread_c.ThreadReadyDel t k).timer_queue = k.timer_queue ∧
    (thread_c.ThreadReadyDel t k).tmeb = k.tmeb := by
  unfold thread_c.ThreadReadyDel
  dsimp only
  split <;> exact ⟨rfl, rfl, rfl⟩

/-- C30. Enter-wait deadline.  For every timeout `d` other than the infinite value, after
`ThreadToWaitAction t q reason d` (task interface) and after `_ThreadWaitEnter t q d` (thread
interface) the wait timer of `t` is in the timer queue, and its event record holds the
expiry `(jiffies + d) mod 2^32` with `jiffies` the tick count at the call, the wait-timeout
callback (`task_wait_release_handler`, `ThreadWaitExit_Handler`) and the argument `t`.  With
the infinite timeout value the timer queue and the event records are unchanged, so a wait
timer that was not queued at the call is not queued afterwards. -/
theorem wait_enter_deadline (s : KState) (k : thread_c.knlInfo_t) (t : TcbRef)
    (q : Option QueueRef) (reason : wait_reason_t) (d : Nat) :
    (d ≠ TN_WAIT_INFINITE →
      TmebRef.wait_timer t ∈ (ThreadToWaitAction t q reason d s).timer_queue ∧
      (ThreadToWaitAction t q reason d s).tmeb (TmebRef.wait_timer t)
        = { time := (s.jiffies + d) % 2 ^ 32, callback := CBACK.task_wait_release_handler,
            arg := CbArg.task t }) ∧
    (d ≠ thread_c.osWaitForever →
      TmebRef.wait_timer t ∈ (thread_c._ThreadWaitEnter t q d k).timer_queue ∧
      (thread_c._ThreadWaitEnter t q d k).tmeb (TmebRef.wait_timer t)
        = { time := (k.jiffies + d) % 2 ^ 32, callback := CBACK.ThreadWaitExit_Handler,
            arg := CbArg.task t }) ∧
    ((ThreadToWaitAction t q reason TN_WAIT_INFINITE s).timer_queue = s.timer_queue ∧
      (ThreadToWaitAction t q reason TN_WAIT_INFINITE s).tmeb = s.tmeb ∧
      (TmebRef.wait_timer t ∉ s.timer_queue →
        TmebRef.wait_timer t ∉ (ThreadToWaitAction t q reason TN_WAIT_INFINITE s).timer_queue)) ∧
    ((thread_c._ThreadWaitEnter t q thread_c.osWaitForever k).timer_queue = k.timer_queue ∧
      (thread_c._ThreadWaitEnter t q thread_c.osWaitForever k).tmeb = k.tmeb ∧
      (TmebRef.wait_timer t ∉ k.timer_queue →
        TmebRef.wait_timer t ∉
          (thread_c._ThreadWaitEnter t q thread_c.osWaitForever k).timer_queue)) := by
  obtain ⟨n, b, m, he⟩ := TaskToNonRunnable_eq t s
  obtain ⟨hj, htq, htm⟩ := thread_c_ThreadReadyDel_timer t k
  have hinf : (ThreadToWaitAction t q reason TN_WAIT_INFINITE s).timer_queue = s.timer_queue ∧
      (ThreadToWaitAction t q reason TN_WAIT_INFINITE s).tmeb = s.tmeb := by
    unfold ThreadToWaitAction
    dsimp only
    rw [he, if_neg (not_not.mpr rfl)]
    cases q <;> exact ⟨rfl, rfl⟩
  have hinf' : (thread_c._ThreadWaitEnter t q thread_c.osWaitForever k).timer_queue
        = k.timer_queue ∧
      (thread_c._ThreadWaitEnter t q thread_c.osWaitForever k).tmeb = k.tmeb := by
    unfold thread_c._ThreadWaitEnter
    dsimp only
    rw [if_neg (not_not.mpr rfl)]
    cases q <;> exact ⟨htq, htm⟩
  refine ⟨?_, ?_, ⟨hinf.1, hinf.2, fun h => by rw [hinf.1]; exact h⟩,
    ⟨hinf'.1, hinf'.2, fun h => by rw [hinf'.1]; exact h⟩⟩
  · intro hd
    unfold ThreadToWaitAction
    dsimp only
    rw [he, if_pos hd]
    cases q <;>
      simp [TimerInsert, do_timer_insert, mem_do_timer_insert_walk]
  · intro hd
    unfold thread_c._ThreadWaitEnter
    dsimp only
    rw [if_pos hd]
    cases q <;>
      simp [thread_c.TimerInsert, thread_c.ThreadSwitch, thread_c.set_state,
        mem_do_timer_insert_walk, hj]

/-- Witness for C30: the running task 1 of `exFifo` and the running thread 1 of `exYield`
(tick count 100 in both) enter a wait on the queue `wait 1` with a timeout of 50 ticks. -/
theorem wait_enter_deadline_witness :
    (TmebRef.wait_timer (TcbRef.task 1) ∈ (ThreadToWaitAction (TcbRef.task 1)
        (some (QueueRef.wait 1)) wait_reason_t.WAIT_REASON_SEM 50 exFifo).timer_queue ∧
      (ThreadToWaitAction (TcbRef.task 1) (some (QueueRef.wait 1))
          wait_reason_t.WAIT_REASON_SEM 50 exFifo).tmeb (TmebRef.wait_timer (TcbRef.task 1))
        = { time := (exFifo.jiffies + 50) % 2 ^ 32, callback := CBACK.task_wait_release_handler,
            arg := CbArg.task (TcbRef.task 1) }) ∧
    (TmebRef.wait_timer (TcbRef.task 1) ∈ (thread_c._ThreadWaitEnter (TcbRef.task 1)
        (some (QueueRef.wait 1)) 50 exYield).timer_queue ∧
      (thread_c._ThreadWaitEnter (TcbRef.task 1) (some (QueueRef.wait 1)) 50 exYield).tmeb
          (TmebRef.wait_timer (TcbRef.task 1))
        = { time := (exYield.jiffies + 50) % 2 ^ 32, callback := CBACK.ThreadWaitExit_Handler,
            arg := CbArg.task (TcbRef.task 1) }) :=
  ⟨(wait_enter_deadline exFifo exYield (TcbRef.task 1) (some (QueueRef.wait 1))
      wait_reason_t.WAIT_REASON_SEM 50).1 (by decide),
   (wait_enter_deadline exFifo exYield (TcbRef.task 1) (some (QueueRef.wait 1))
      wait_reason_t.WAIT_REASON_SEM 50).2.1 (by decide)⟩

/-! ### The priority range of user tasks -/

theorem TaskToRunnable_priority (w : TcbRef) (s : KState) :
    ((TaskToRunnable w s).tcb w).priority = (s.tcb w).priority ∧
    ((TaskToRunnable w s).tcb w).base_priority = (s.tcb w).base_priority := by
  obtain ⟨n, b, he⟩ := TaskToRunnable_eq w s
  rw [he]
  simp

theorem TaskCreate_priority (task : TcbRef) (attr : task_create_attr_t) (s : KState) :
    ((TaskCreate task attr s).tcb task).priority = attr.priority ∧
    ((TaskCreate task attr s).tcb task).base_priority = attr.priority := by
  unfold TaskCreate
  dsimp only
  split
  · rw [(TaskToRunnable_priority task _).1, (TaskToRunnable_priority task _).2]
    simp [task_set_dormant_state]
  · simp [task_set_dormant_state]

theorem TaskSetPriority_priority (task : TcbRef) (p : Nat) (s : KState)
    (h : (TaskSetPriority task p s).1 = osError_t.TERR_NO_ERR) :
    ((TaskSetPriority task p s).2.tcb task).priority
      = (if p = 0 then (s.tcb task).base_priority else p) ∧
    ((TaskSetPriority task p s).2.tcb task).base_priority = (s.tcb task).base_priority := by
  unfold TaskSetPriority at h ⊢
  dsimp only at h ⊢
  split_ifs at h ⊢
  all_goals first
    | exact absurd h (by decide)
    | (rw [ThreadChangePriority_tcb, Function.update_same]; exact ⟨rfl, rfl⟩)
    | (simp [set_priority_field])

/-- C22. User tasks only get priorities 1..30.  `osTaskCreate` returns `TERR_WRONG_PARAM`
and leaves the state alone when `priority` is 0 without the option `TN_TASK_TIMER`, 31
without the option `TN_TASK_IDLE`, or outside 0..31.  For an existing task `osTaskSetPriority`
returns `TERR_WRONG_PARAM` and leaves the state alone when `new_priority > 30`; with
`new_priority = 0` a successful call stores the base priority.  A successful `osTaskCreate`
without the two system options leaves the task with `priority = base_priority` in 1..30, and
for a task whose base priority is in 1..30 a successful `osTaskSetPriority` leaves the
priority in 1..30 and the base priority unchanged. -/
theorem user_priorities_in_1_30 (irq : Bool) (task : TcbRef) (func : Nat) (priority : Int)
    (stack_start : Nat) (stack_size : Int) (param option new_priority : Nat) (s : KState) :
    ((priority = 0 ∧ option &&& TN_TASK_TIMER = 0) ∨
        (priority = 31 ∧ option &&& TN_TASK_IDLE = 0) ∨ priority < 0 ∨ priority > 31 →
      osTaskCreate irq task func priority stack_start stack_size param option s
        = (osError_t.TERR_WRONG_PARAM, s)) ∧
    (task ≠ TcbRef.null → (s.tcb task).id = ID_TASK → new_priority > 30 →
      osTaskSetPriority irq task new_priority s = (osError_t.TERR_WRONG_PARAM, s)) ∧
    ((osTaskSetPriority irq task 0 s).1 = osError_t.TERR_NO_ERR →
      ((osTaskSetPriority irq task 0 s).2.tcb task).priority = (s.tcb task).base_priority) ∧
    (option &&& TN_TASK_TIMER = 0 → option &&& TN_TASK_IDLE = 0 →
      (osTaskCreate irq task func priority stack_start stack_size param option s).1
        = osError_t.TERR_NO_ERR →
      1 ≤ ((osTaskCreate irq task func priority stack_start stack_size param option s).2.tcb
        task).priority ∧
      ((osTaskCreate irq task func priority stack_start stack_size param option s).2.tcb
        task).priority ≤ 30 ∧
      ((osTaskCreate irq task func priority stack_start stack_size param option s).2.tcb
        task).base_priority
        = ((osTaskCreate irq task func priority stack_start stack_size param option s).2.tcb
          task).priority) ∧
    (1 ≤ (s.tcb task).base_priority → (s.tcb task).base_priority ≤ 30 →
      (osTaskSetPriority irq task new_priority s).1 = osError_t.TERR_NO_ERR →
      1 ≤ ((osTaskSetPriority irq task new_priority s).2.tcb task).priority ∧
      ((osTaskSetPriority irq task new_priority s).2.tcb task).priority ≤ 30 ∧
      ((osTaskSetPriority irq task new_priority s).2.tcb task).base_priority
        = (s.tcb task).base_priority) := by
  refine ⟨?_, ?_, ?_, ?_, ?_⟩
  · intro h
    unfold osTaskCreate NUM_PRIORITY
    rcases h with h | h | h | h
    · rw [if_pos (Or.inl h)]
    · rw [if_pos (Or.inr ⟨by omega, h.2⟩)]
    · split
      · rfl
      · rw [if_pos (Or.inl (Or.inl h))]
    · split
      · rfl
      · rw [if_pos (Or.inl (Or.inr (by omega)))]
  · intro hn hid hp
    unfold osTaskSetPriority NUM_PRIORITY
    rw [if_neg hn, if_neg (not_not.mpr hid), if_pos (by omega)]
  · intro h
    unfold osTaskSetPriority at h ⊢
    split_ifs at h ⊢
    all_goals first
      | exact absurd h (by decide)
      | exact (TaskSetPriority_priority task 0 s h).1
  · intro hT hI h
    unfold osTaskCreate NUM_PRIORITY at h ⊢
    split_ifs at h ⊢ with h1 h2 h3
    have hc := TaskCreate_priority task { priority := priority.toNat, option := option } s
    dsimp only at hc ⊢
    rw [hc.1, hc.2]
    have h0 : priority ≠ 0 := fun hc0 => h1 (Or.inl ⟨hc0, hT⟩)
    have h31 : priority ≠ 31 := fun hc0 => h1 (Or.inr ⟨by omega, hI⟩)
    have hlo : ¬ priority < 0 := fun hc0 => h2 (Or.inl (Or.inl hc0))
    have hhi : ¬ priority > 31 := fun hc0 => h2 (Or.inl (Or.inr (by omega)))
    refine ⟨by omega, by omega, rfl⟩
  · intro hb1 hb30 h
    unfold osTaskSetPriority NUM_PRIORITY at h ⊢
    split_ifs at h ⊢ with h1 h2 h3 h4
    obtain ⟨hp, hb⟩ := TaskSetPriority_priority task new_priority s h
    rw [hp, hb]
    refine ⟨?_, ?_, rfl⟩
    · split <;> omega
    · split <;> omega

/-- Witness for C22: in `exReady` the unused control block 2 is created with priority 0
(rejected) and with priority 7 (accepted); in `exCreated` the priority of task 2 is set
to 31 (rejected) and to 0 (the base priority 5 is restored). -/
theorem user_priorities_in_1_30_witness :
    osTaskCreate false (TcbRef.task 2) 0x1000 0 0x2000 64 0 TN_TASK_START_ON_CREATION exReady
      = (osError_t.TERR_WRONG_PARAM, exReady) ∧
    (1 ≤ ((osTaskCreate false (TcbRef.task 2) 0x1000 7 0x2000 64 0 TN_TASK_START_ON_CREATION
        exReady).2.tcb (TcbRef.task 2)).priority ∧
      ((osTaskCreate false (TcbRef.task 2) 0x1000 7 0x2000 64 0 TN_TASK_START_ON_CREATION
        exReady).2.tcb (TcbRef.task 2)).priority ≤ 30 ∧
      ((osTaskCreate false (TcbRef.task 2) 0x1000 7 0x2000 64 0 TN_TASK_START_ON_CREATION
        exReady).2.tcb (TcbRef.task 2)).base_priority
      = ((osTaskCreate false (TcbRef.task 2) 0x1000 7 0x2000 64 0 TN_TASK_START_ON_CREATION
        exReady).2.tcb (TcbRef.task 2)).priority) ∧
    osTaskSetPriority false (TcbRef.task 2) 31 exCreated
      = (osError_t.TERR_WRONG_PARAM, exCreated) ∧
    ((osTaskSetPriority false (TcbRef.task 2) 0 exCreated).2.tcb (TcbRef.task 2)).priority
      = (exCreated.tcb (TcbRef.task 2)).base_priority :=
  ⟨(user_priorities_in_1_30 false (TcbRef.task 2) 0x1000 0 0x2000 64 0
      TN_TASK_START_ON_CREATION 31 exReady).1 (Or.inl ⟨rfl, by decide⟩),
   (user_priorities_in_1_30 false (TcbRef.task 2) 0x1000 7 0x2000 64 0
      TN_TASK_START_ON_CREATION 31 exReady).2.2.2.1 (by decide) (by decide) (by decide),
   (user_priorities_in_1_30 false (TcbRef.task 2) 0x1000 7 0x2000 64 0
      TN_TASK_START_ON_CREATION 31 exCreated).2.1 (by decide) (by decide) (by decide),
   (user_priorities_in_1_30 false (TcbRef.task 2) 0x1000 7 0x2000 64 0
      TN_TASK_START_ON_CREATION 31 exCreated).2.2.1 (by decide)⟩

/-! ### Errors of the task life-cycle services -/

theorem KWF_remove_entry (s : KState) (h : KWF s) (w : TcbRef)
    (hw : (s.tcb w).state ≠ TSK_STATE_RUNNABLE) :
    KWF { s with queues := QueueRemoveEntry w s.queues } := by
  obtain ⟨h1, h2, h3, h4⟩ := h
  refine ⟨⟨fun q => (h1.1 q).sublist (List.erase_sublist _ _), ?_⟩, ?_, ?_, h4⟩
  · intro t a b ha hb
    exact h1.2 t a b (List.mem_of_mem_erase ha) (List.mem_of_mem_erase hb)
  · intro t hr
    have hne : t ≠ w := by
      intro hc
      rw [hc] at hr
      exact hw hr
    exact (List.mem_erase_of_ne hne).mpr (h2 t hr)
  · intro q hn
    exact h3 q (List.mem_of_mem_erase hn)

theorem unlock_held_mutexes_terminates (do_unlock_mutex : Nat → KState → KState)
    (task : TcbRef)
    (hunlock : ∀ m x, ((do_unlock_mutex m x).tcb task).mutex_queue = (x.tcb task).mutex_queue) :
    ∀ fuel s, (s.tcb task).mutex_queue.length < fuel →
      ∃ s', unlock_held_mutexes do_unlock_mutex task fuel s = some s' := by
  intro fuel
  induction fuel with
  | zero => intro s h; omega
  | succ fuel ih =>
    intro s h
    unfold unlock_held_mutexes
    cases hq : (s.tcb task).mutex_queue with
    | nil => exact ⟨s, rfl⟩
    | cons m rest =>
      dsimp only
      apply ih
      rw [hunlock]
      rw [hq] at h
      simp only [Function.update_same, List.length_cons] at h ⊢
      omega

theorem TaskTerminate_pre_mutex_queue (task : TcbRef) (s : KState) :
    ((if (s.tcb task).state = TSK_STATE_RUNNABLE then TaskToNonRunnable task s
      else if (s.tcb task).state &&& TSK_STATE_WAIT ≠ 0 then
        TimerDelete (TmebRef.wait_timer task) { s with queues := QueueRemoveEntry task s.queues }
      else s).tcb task).mutex_queue = (s.tcb task).mutex_queue := by
  split_ifs
  · obtain ⟨n, b, m, he⟩ := TaskToNonRunnable_eq task s
    rw [he]
  · rfl
  · rfl

/-- C23. Task life-cycle errors are reported and leave the state alone.  `TaskSuspend` returns
`TERR_OVERFLOW` for a task with the SUSPEND flag and `TERR_WSTATE` for a DORMANT one;
`TaskResume` returns `TERR_WSTATE` for a task without the SUSPEND flag; `TaskActivate` returns
`TERR_OVERFLOW` for a task that is not DORMANT; `TaskTerminate` returns `TERR_WCONTEXT` for a
DORMANT task or the current task; `TaskDelete` returns `TERR_WCONTEXT` for a task that is not
DORMANT; `TaskWakeup` returns `TERR_WSTATE` unless the task waits with reason SLEEP;
`TaskReleaseWait` returns `TERR_WCONTEXT` unless the task waits.  In each of these cases the
state after the call is the state before it.  In every other case the call returns
`TERR_NO_ERR`: for `TaskTerminate` when the unlocking of a mutex leaves the list of mutexes
held by the task alone and `fuel` exceeds the length of that list, for `TaskReleaseWait` in a
well-formed state with finitely many tasks (listed in `L`, `fuel` above their number). -/
theorem task_lifecycle_errors_atomic (do_unlock_mutex : Nat → KState → KState) (fuel : Nat)
    (L : List TcbRef) (s : KState) (task : TcbRef) :
    ((s.tcb task).state &&& TSK_STATE_SUSPEND ≠ 0 →
      TaskSuspend task s = (osError_t.TERR_OVERFLOW, s)) ∧
    ((s.tcb task).state = TSK_STATE_DORMANT →
      TaskSuspend task s = (osError_t.TERR_WSTATE, s)) ∧
    ((s.tcb task).state &&& TSK_STATE_SUSPEND = 0 → (s.tcb task).state ≠ TSK_STATE_DORMANT →
      (TaskSuspend task s).1 = osError_t.TERR_NO_ERR) ∧
    ((s.tcb task).state &&& TSK_STATE_SUSPEND = 0 →
      TaskResume task s = (osError_t.TERR_WSTATE, s)) ∧
    ((s.tcb task).state &&& TSK_STATE_SUSPEND ≠ 0 →
      (TaskResume task s).1 = osError_t.TERR_NO_ERR) ∧
    ((s.tcb task).state ≠ TSK_STATE_DORMANT →
      TaskActivate task s = (osError_t.TERR_OVERFLOW, s)) ∧
    ((s.tcb task).state = TSK_STATE_DORMANT →
      (TaskActivate task s).1 = osError_t.TERR_NO_ERR) ∧
    ((s.tcb task).state = TSK_STATE_DORMANT ∨ task = s.curr →
      TaskTerminate do_unlock_mutex fuel task s = some (osError_t.TERR_WCONTEXT, s)) ∧
    (¬ ((s.tcb task).state = TSK_STATE_DORMANT ∨ task = s.curr) →
      (∀ m x, ((do_unlock_mutex m x).tcb task).mutex_queue = (x.tcb task).mutex_queue) →
      (s.tcb task).mutex_queue.length < fuel →
      ∃ s', TaskTerminate do_unlock_mutex fuel task s = some (osError_t.TERR_NO_ERR, s')) ∧
    ((s.tcb task).state ≠ TSK_STATE_DORMANT →
      TaskDelete task s = (osError_t.TERR_WCONTEXT, s)) ∧
    ((s.tcb task).state = TSK_STATE_DORMANT →
      (TaskDelete task s).1 = osError_t.TERR_NO_ERR) ∧
    (¬ ((s.tcb task).state &&& TSK_STATE_WAIT ≠ 0 ∧
        (s.tcb task).wait_reason = wait_reason_t.WAIT_REASON_SLEEP) →
      TaskWakeup fuel task s = some (osError_t.TERR_WSTATE, s)) ∧
    ((s.tcb task).state &&& TSK_STATE_WAIT ≠ 0 ∧
        (s.tcb task).wait_reason = wait_reason_t.WAIT_REASON_SLEEP →
      ∃ s', TaskWakeup fuel task s = some (osError_t.TERR_NO_ERR, s')) ∧
    ((s.tcb task).state &&& TSK_STATE_WAIT = 0 →
      TaskReleaseWait fuel task s = some (osError_t.TERR_WCONTEXT, s)) ∧
    ((s.tcb task).state &&& TSK_STATE_WAIT ≠ 0 → task ≠ TcbRef.null → KWF s →
      FiniteAbove L s → L.length < fuel →
      ∃ s', TaskReleaseWait fuel task s = some (osError_t.TERR_NO_ERR, s')) := by
  refine ⟨?_, ?_, ?_, ?_, ?_, ?_, ?_, ?_, ?_, ?_, ?_, ?_, ?_, ?_, ?_⟩
  · intro h
    unfold TaskSuspend
    rw [if_pos h]
  · intro h
    unfold TaskSuspend
    rw [if_neg (by rw [h]; decide), if_pos h]
  · intro h1 h2
    unfold TaskSuspend
    rw [if_neg (not_not.mpr h1), if_neg h2]
    split <;> rfl
  · intro h
    unfold TaskResume
    rw [if_pos h]
  · intro h
    unfold TaskResume
    rw [if_neg h]
    split <;> rfl
  · intro h
    unfold TaskActivate
    rw [if_pos h]
  · intro h
    unfold TaskActivate
    rw [if_neg (not_not.mpr h)]
  · intro h
    unfold TaskTerminate TaskGetCurrent
    rw [if_pos h]
  · intro h hunlock hfuel
    unfold TaskTerminate TaskGetCurrent
    rw [if_neg h]
    dsimp only
    obtain ⟨s2, h2⟩ := unlock_held_mutexes_terminates do_unlock_mutex task hunlock fuel _
      (by rw [TaskTerminate_pre_mutex_queue]; exact hfuel)
    rw [h2]
    exact ⟨_, rfl⟩
  · intro h
    unfold TaskDelete
    rw [if_pos h]
  · intro h
    unfold TaskDelete
    rw [if_neg (not_not.mpr h)]
  · intro h
    unfold TaskWakeup
    rw [if_neg h]
  · intro h
    unfold TaskWakeup
    rw [if_pos h]
    unfold ThreadWaitComplete
    split
    · exact ⟨_, rfl⟩
    · unfold task_wait_release task_wait_release_mutex
      simp [TimerDelete, h.2]
  · intro h
    unfold TaskReleaseWait
    rw [if_pos h]
  · intro h hnull hwf hfin hfuel
    unfold TaskReleaseWait
    rw [if_neg h]
    have hk := KWF_remove_entry s hwf task (wait_not_runnable _ h)
    obtain ⟨s', h', _⟩ := ThreadWaitComplete_spec fuel L
      { s with queues := QueueRemoveEntry task s.queues } task hk hfin hfuel
      (fun q => (hwf.1.1 q).not_mem_erase) hnull
    rw [h']
    exact ⟨_, rfl⟩

/-- Witness for C23 on `exDelete`: task 2 waits for a message with a timeout (neither
suspended nor dormant nor sleeping), task 1 is the current task. -/
theorem task_lifecycle_errors_atomic_witness :
    TaskResume (TcbRef.task 2) exDelete = (osError_t.TERR_WSTATE, exDelete) ∧
    TaskActivate (TcbRef.task 2) exDelete = (osError_t.TERR_OVERFLOW, exDelete) ∧
    TaskDelete (TcbRef.task 2) exDelete = (osError_t.TERR_WCONTEXT, exDelete) ∧
    TaskWakeup 5 (TcbRef.task 2) exDelete = some (osError_t.TERR_WSTATE, exDelete) ∧
    (TaskSuspend (TcbRef.task 2) exDelete).1 = osError_t.TERR_NO_ERR ∧
    (∃ s', TaskTerminate (fun _ x => x) 5 (TcbRef.task 2) exDelete
      = some (osError_t.TERR_NO_ERR, s')) ∧
    (∃ s', TaskReleaseWait 5 (TcbRef.task 2) exDelete = some (osError_t.TERR_NO_ERR, s')) := by
  have h := task_lifecycle_errors_atomic (fun _ x => x) 5 exTasks exDelete (TcbRef.task 2)
  exact ⟨h.2.2.2.1 (by decide), h.2.2.2.2.2.1 (by decide),
    h.2.2.2.2.2.2.2.2.2.1 (by decide),
    h.2.2.2.2.2.2.2.2.2.2.2.1 (by decide),
    h.2.2.1 (by decide) (by decide),
    h.2.2.2.2.2.2.2.2.1 (by decide) (fun _ _ => rfl) (by decide),
    h.2.2.2.2.2.2.2.2.2.2.2.2.2.2 (by decide) (by decide) exDelete_wf exDelete_finite
      (by decide)⟩

/-! ### A pass of the timer task -/

theorem timer_task_pass_spec (run_callback : CBACK → CbArg → KState → KState) (cur_time : Nat)
    (hcb : ∀ c a x, (run_callback c a x).timer_queue = x.timer_queue ∧
      (run_callback c a x).tmeb = x.tmeb) :
    ∀ fuel s, s.timer_queue.length < fuel →
      ∃ s', timer_task_pass run_callback cur_time fuel s
          = some (s.timer_queue.takeWhile
              (fun e => !tn_time_after (s.tmeb e).time cur_time), s') ∧
        s'.timer_queue = s.timer_queue.dropWhile
          (fun e => !tn_time_after (s.tmeb e).time cur_time) ∧
        s'.tmeb = s.tmeb := by
  intro fuel
  induction fuel with
  | zero => intro s h; omega
  | succ fuel ih =>
    intro s h
    unfold timer_task_pass timer_task_detach
    cases hq : s.timer_queue with
    | nil => exact ⟨s, rfl, by rw [hq]; rfl, rfl⟩
    | cons tm rest =>
      dsimp only
      by_cases ha : tn_time_after (s.tmeb tm).time cur_time = true
      · rw [if_pos ha]
        refine ⟨s, ?_, ?_, rfl⟩
        · rw [List.takeWhile_cons]
          simp [ha]
        · rw [List.dropWhile_cons]
          simp [ha, hq]
      · rw [if_neg ha]
        dsimp only
        have hdel : (timer_delete tm s).timer_queue = rest := by
          unfold timer_delete
          rw [hq]
          exact List.erase_cons_head tm rest
        have hs2 : ∀ x : KState, x = (if ((timer_delete tm s).tmeb tm).callback ≠ CBACK.null then
              run_callback ((timer_delete tm s).tmeb tm).callback
                ((timer_delete tm s).tmeb tm).arg (timer_delete tm s)
            else timer_delete tm s) → x.timer_queue = rest ∧ x.tmeb = s.tmeb := by
          intro x hx
          rw [hx]
          split
          · rw [(hcb _ _ _).1, (hcb _ _ _).2]
            exact ⟨hdel, rfl⟩
          · exact ⟨hdel, rfl⟩
        obtain ⟨hq2, ht2⟩ := hs2 _ rfl
        rw [hq] at h
        obtain ⟨s', h1, h2, h3⟩ := ih _ (by rw [hq2]; simp at h; omega)
        rw [h1]
        refine ⟨s', ?_, ?_, ?_⟩
        · rw [hq2, ht2, List.takeWhile_cons]
          simp [ha]
        · rw [h2, hq2, ht2, List.dropWhile_cons]
          simp [ha]
        · rw [h3, ht2]

theorem mem_takeWhile_of_sorted {α : Type} (R : α → α → Prop) (p : α → Bool) (e : α)
    (he : p e = true) :
    ∀ l : List α, (∀ a, a ∈ l → R a e → p a = true) → l.Pairwise R → e ∈ l →
      e ∈ l.takeWhile p := by
  intro l
  induction l with
  | nil => intro _ _ h; exact h
  | cons a rest ih =>
    intro hdown hs hmem
    rw [List.pairwise_cons] at hs
    rcases List.mem_cons.mp hmem with h | h
    · rw [← h, List.takeWhile_cons, he]
      exact List.mem_cons_self _ _
    · have hpa : p a = true := hdown a (List.mem_cons_self _ _) (hs.1 e h)
      rw [List.takeWhile_cons, hpa]
      exact List.mem_cons_of_mem _
        (ih (fun x hx => hdown x (List.mem_cons_of_mem _ hx)) hs.2 h)

/-! ### Round-robin -/

theorem KState_ext (a b : KState) (h1 : a.curr = b.curr) (h2 : a.next = b.next)
    (h3 : a.switch_req = b.switch_req) (h4 : a.jiffies = b.jiffies)
    (h5 : a.ready_to_run_bmp = b.ready_to_run_bmp) (h6 : a.queues = b.queues)
    (h7 : a.tcb = b.tcb) (h8 : a.timer_queue = b.timer_queue) (h9 : a.tmeb = b.tmeb)
    (h10 : a.holder = b.holder) (h11 : a.rc_mem = b.rc_mem) (h12 : a.ram = b.ram) : a = b := by
  cases a
  cases b
  simp only at h1 h2 h3 h4 h5 h6 h7 h8 h9 h10 h11 h12
  subst h1 h2 h3 h4 h5 h6 h7 h8 h9 h10 h11 h12
  rfl

theorem exRoundRobin_bmp_set : (0x80000020 ||| 1) % 2 ^ 32 = 0x80000021 := by decide

theorem exRoundRobin_bmp_clear : 0x80000021 &&& not32 (bit32 0) = 0x80000020 := by decide

theorem exRoundRobin_ffs : ffs_priority 0x80000020 = 5 := by decide

theorem tick_round_robin_bmp (tslice_ticks : Nat → Nat) (s : KState) :
    (tick_round_robin tslice_ticks s).ready_to_run_bmp = s.ready_to_run_bmp := by
  unfold tick_round_robin
  dsimp only
  split_ifs <;> rfl

theorem exRoundRobin_tick_in_slice (q : List TcbRef) (hq : q ∈ exRotations) (c : Nat)
    (tm : TcbRef → Nat) (j : Nat) (hc : c < 10) (hj : j + 1 < 2 ^ 32)
    (ht : tm (q.headD TcbRef.null) + 1 < 2 ^ 32) :
    tn_timer (TcbRef.task 9) exSlices 1 true (exRoundRobinAt q c tm j)
      = exRoundRobinTick (q.headD TcbRef.null) q (c + 1)
          (Function.update tm (q.headD TcbRef.null) (tm (q.headD TcbRef.null) + 1)) (j + 1) := by
  have hc' : ¬ 10 < c + 1 := by omega
  have hj' : (j + 1) % 4294967296 = j + 1 := Nat.mod_eq_of_lt hj
  have ht' : (tm (q.headD TcbRef.null) + 1) % 4294967296 = tm (q.headD TcbRef.null) + 1 :=
    Nat.mod_eq_of_lt ht
  simp only [exRotations, List.mem_cons, List.mem_singleton, List.not_mem_nil, or_false] at hq
  rcases hq with rfl | rfl | rfl
  all_goals
    simp only [List.headD_cons] at ht' ⊢
    apply KState_ext
    · simp [tn_timer, tick_int_processing, tick_round_robin, set_time, set_tslice_count,
        exRoundRobinAt, exRoundRobinTick, exSlices, NO_TIME_SLICE, hc', isQueueEmpty]
    · simp [tn_timer, tick_int_processing, tick_round_robin, set_time, set_tslice_count,
        exRoundRobinAt, exRoundRobinTick, exSlices, NO_TIME_SLICE, hc', isQueueEmpty]
    · simp [tn_timer, tick_int_processing, tick_round_robin, set_time, set_tslice_count,
        exRoundRobinAt, exRoundRobinTick, exSlices, NO_TIME_SLICE, hc', isQueueEmpty]
    · simp [tn_timer, tick_int_processing, tick_round_robin, set_time, set_tslice_count,
        exRoundRobinAt, exRoundRobinTick, exSlices, NO_TIME_SLICE, hc', isQueueEmpty, hj']
    · show ((tick_round_robin exSlices _).ready_to_run_bmp ||| 1) % 2 ^ 32 = _
      rw [tick_round_robin_bmp]
      exact exRoundRobin_bmp_set
    · funext x
      by_cases h5 : x = QueueRef.ready 5
      · subst h5
        simp [tn_timer, tick_int_processing, tick_round_robin, set_time, set_tslice_count,
        exRoundRobinAt, exRoundRobinTick, exSlices, NO_TIME_SLICE, hc', isQueueEmpty, QueueAddTail, QueueRemoveEntry, Function.update]
      by_cases h31 : x = QueueRef.ready 31
      · subst h31
        simp [tn_timer, tick_int_processing, tick_round_robin, set_time, set_tslice_count,
        exRoundRobinAt, exRoundRobinTick, exSlices, NO_TIME_SLICE, hc', isQueueEmpty, QueueAddTail, QueueRemoveEntry, Function.update]
      by_cases h0 : x = QueueRef.ready 0
      · subst h0
        simp [tn_timer, tick_int_processing, tick_round_robin, set_time, set_tslice_count,
        exRoundRobinAt, exRoundRobinTick, exSlices, NO_TIME_SLICE, hc', isQueueEmpty, QueueAddTail, QueueRemoveEntry, Function.update]
      simp [tn_timer, tick_int_processing, tick_round_robin, set_time, set_tslice_count,
        exRoundRobinAt, exRoundRobinTick, exSlices, NO_TIME_SLICE, hc', isQueueEmpty, QueueAddTail, QueueRemoveEntry, Function.update, h5, h31, h0]
    · funext t
      by_cases h1 : t = TcbRef.task 1
      · subst h1
        simp [tn_timer, tick_int_processing, tick_round_robin, set_time, set_tslice_count,
        exRoundRobinAt, exRoundRobinTick, exSlices, NO_TIME_SLICE, hc', isQueueEmpty, Function.update, ht']
      by_cases h2 : t = TcbRef.task 2
      · subst h2
        simp [tn_timer, tick_int_processing, tick_round_robin, set_time, set_tslice_count,
        exRoundRobinAt, exRoundRobinTick, exSlices, NO_TIME_SLICE, hc', isQueueEmpty, Function.update, ht']
      by_cases h3 : t = TcbRef.task 3
      · subst h3
        simp [tn_timer, tick_int_processing, tick_round_robin, set_time, set_tslice_count,
        exRoundRobinAt, exRoundRobinTick, exSlices, NO_TIME_SLICE, hc', isQueueEmpty, Function.update, ht']
      by_cases h9 : t = TcbRef.task 9
      · subst h9
        simp [tn_timer, tick_int_processing, tick_round_robin, set_time, set_tslice_count,
        exRoundRobinAt, exRoundRobinTick, exSlices, NO_TIME_SLICE, hc', isQueueEmpty, Function.update, ht']
      simp [tn_timer, tick_int_processing, tick_round_robin, set_time, set_tslice_count,
        exRoundRobinAt, exRoundRobinTick, exSlices, NO_TIME_SLICE, hc', isQueueEmpty, Function.update, ht', h1, h2, h3, h9]
    all_goals simp [tn_timer, tick_int_processing, tick_round_robin, set_time, set_tslice_count,
        exRoundRobinAt, exRoundRobinTick, exSlices, NO_TIME_SLICE, hc', isQueueEmpty]

theorem exRoundRobin_tick_end_of_slice (q : List TcbRef) (hq : q ∈ exRotations) (c : Nat)
    (tm : TcbRef → Nat) (j : Nat) (hc : 10 ≤ c) (hj : j + 1 < 2 ^ 32)
    (ht : tm (q.headD TcbRef.null) + 1 < 2 ^ 32) :
    tn_timer (TcbRef.task 9) exSlices 1 true (exRoundRobinAt q c tm j)
      = exRoundRobinTick (q.headD TcbRef.null) ((q.getLast?.getD TcbRef.null) :: q.dropLast) 0
          (Function.update tm (q.headD TcbRef.null) (tm (q.headD TcbRef.null) + 1)) (j + 1) := by
  have hc' : 10 < c + 1 := by omega
  have hj' : (j + 1) % 4294967296 = j + 1 := Nat.mod_eq_of_lt hj
  have ht' : (tm (q.headD TcbRef.null) + 1) % 4294967296 = tm (q.headD TcbRef.null) + 1 :=
    Nat.mod_eq_of_lt ht
  simp only [exRotations, List.mem_cons, List.mem_singleton, List.not_mem_nil, or_false] at hq
  rcases hq with rfl | rfl | rfl
  all_goals
    simp only [List.headD_cons] at ht' ⊢
    apply KState_ext
    · simp [tn_timer, tick_int_processing, tick_round_robin, set_time, set_tslice_count,
        exRoundRobinAt, exRoundRobinTick, exSlices, NO_TIME_SLICE, hc', isQueueEmpty]
    · simp [tn_timer, tick_int_processing, tick_round_robin, set_time, set_tslice_count,
        exRoundRobinAt, exRoundRobinTick, exSlices, NO_TIME_SLICE, hc', isQueueEmpty]
    · simp [tn_timer, tick_int_processing, tick_round_robin, set_time, set_tslice_count,
        exRoundRobinAt, exRoundRobinTick, exSlices, NO_TIME_SLICE, hc', isQueueEmpty]
    · simp [tn_timer, tick_int_processing, tick_round_robin, set_time, set_tslice_count,
        exRoundRobinAt, exRoundRobinTick, exSlices, NO_TIME_SLICE, hc', isQueueEmpty, hj']
    · show ((tick_round_robin exSlices _).ready_to_run_bmp ||| 1) % 2 ^ 32 = _
      rw [tick_round_robin_bmp]
      exact exRoundRobin_bmp_set
    · funext x
      by_cases h5 : x = QueueRef.ready 5
      · subst h5
        simp [tn_timer, tick_int_processing, tick_round_robin, set_time, set_tslice_count,
        exRoundRobinAt, exRoundRobinTick, exSlices, NO_TIME_SLICE, hc', isQueueEmpty, QueueAddTail, QueueRemoveEntry, Function.update, QueueAddHead, queue_remove_tail]
      by_cases h31 : x = QueueRef.ready 31
      · subst h31
        simp [tn_timer, tick_int_processing, tick_round_robin, set_time, set_tslice_count,
        exRoundRobinAt, exRoundRobinTick, exSlices, NO_TIME_SLICE, hc', isQueueEmpty, QueueAddTail, QueueRemoveEntry, Function.update, QueueAddHead, queue_remove_tail]
      by_cases h0 : x = QueueRef.ready 0
      · subst h0
        simp [tn_timer, tick_int_processing, tick_round_robin, set_time, set_tslice_count,
        exRoundRobinAt, exRoundRobinTick, exSlices, NO_TIME_SLICE, hc', isQueueEmpty, QueueAddTail, QueueRemoveEntry, Function.update, QueueAddHead, queue_remove_tail]
      simp [tn_timer, tick_int_processing, tick_round_robin, set_time, set_tslice_count,
        exRoundRobinAt, exRoundRobinTick, exSlices, NO_TIME_SLICE, hc', isQueueEmpty, QueueAddTail, QueueRemoveEntry, Function.update, h5, h31, h0, QueueAddHead, queue_remove_tail]
    · funext t
      by_cases h1 : t = TcbRef.task 1
      · subst h1
        simp [tn_timer, tick_int_processing, tick_round_robin, set_time, set_tslice_count,
        exRoundRobinAt, exRoundRobinTick, exSlices, NO_TIME_SLICE, hc', isQueueEmpty, Function.update, ht']
      by_cases h2 : t = TcbRef.task 2
      · subst h2
        simp [tn_timer, tick_int_processing, tick_round_robin, set_time, set_tslice_count,
        exRoundRobinAt, exRoundRobinTick, exSlices, NO_TIME_SLICE, hc', isQueueEmpty, Function.update, ht']
      by_cases h3 : t = TcbRef.task 3
      · subst h3
        simp [tn_timer, tick_int_processing, tick_round_robin, set_time, set_tslice_count,
        exRoundRobinAt, exRoundRobinTick, exSlices, NO_TIME_SLICE, hc', isQueueEmpty, Function.update, ht']
      by_cases h9 : t = TcbRef.task 9
      · subst h9
        simp [tn_timer, tick_int_processing, tick_round_robin, set_time, set_tslice_count,
        exRoundRobinAt, exRoundRobinTick, exSlices, NO_TIME_SLICE, hc', isQueueEmpty, Function.update, ht']
      simp [tn_timer, tick_int_processing, tick_round_robin, set_time, set_tslice_count,
        exRoundRobinAt, exRoundRobinTick, exSlices, NO_TIME_SLICE, hc', isQueueEmpty, Function.update, ht', h1, h2, h3, h9]
    all_goals simp [tn_timer, tick_int_processing, tick_round_robin, set_time, set_tslice_count,
        exRoundRobinAt, exRoundRobinTick, exSlices, NO_TIME_SLICE, hc', isQueueEmpty]

theorem timer_task_sleep_fields (s : KState) (tt h : TcbRef) (rest : List TcbRef) (p : Nat)
    (hcurr : s.curr = tt) (hnext : s.next = tt) (hprio : (s.tcb tt).priority = 0)
    (hq0 : s.queues (QueueRef.ready 0) = [tt])
    (hffs : ffs_priority (s.ready_to_run_bmp &&& not32 (bit32 0)) = p)
    (hqp : QueueRemoveEntry tt s.queues (QueueRef.ready p) = h :: rest) (hh : h ≠ tt) :
    (context_switch (timer_task_sleep s)).curr = h ∧
    (context_switch (timer_task_sleep s)).next = h ∧
    (context_switch (timer_task_sleep s)).switch_req = false ∧
    (context_switch (timer_task_sleep s)).jiffies = s.jiffies ∧
    (context_switch (timer_task_sleep s)).ready_to_run_bmp
      = s.ready_to_run_bmp &&& not32 (bit32 0) ∧
    (context_switch (timer_task_sleep s)).queues = QueueRemoveEntry tt s.queues ∧
    (context_switch (timer_task_sleep s)).tcb
      = Function.update s.tcb tt
          { s.tcb tt with state := TSK_STATE_WAIT,
                          wait_reason := wait_reason_t.WAIT_REASON_SLEEP } ∧
    (context_switch (timer_task_sleep s)).timer_queue = s.timer_queue ∧
    (context_switch (timer_task_sleep s)).tmeb = s.tmeb ∧
    (context_switch (timer_task_sleep s)).holder = s.holder ∧
    (context_switch (timer_task_sleep s)).rc_mem = s.rc_mem ∧
    (context_switch (timer_task_sleep s)).ram = s.ram := by
  have hemp : isQueueEmpty (QueueRef.ready 0) (QueueRemoveEntry tt s.queues) = true := by
    unfold isQueueEmpty QueueRemoveEntry
    rw [hq0]
    simp
  have hget : get_task_by_tsk_queue (QueueRef.ready p) (QueueRemoveEntry tt s.queues) = h := by
    unfold get_task_by_tsk_queue
    rw [hqp]
  have hnr : TaskToNonRunnable tt s =
      { s with queues := QueueRemoveEntry tt s.queues
               ready_to_run_bmp := s.ready_to_run_bmp &&& not32 (bit32 0)
               next := h, switch_req := true } := by
    unfold TaskToNonRunnable
    dsimp only
    rw [hprio, if_pos hemp]
    unfold ThreadDispatch
    dsimp only
    rw [hffs, hget]
    unfold TaskSetNext TaskGetNext TaskGetCurrent
    dsimp only
    rw [hnext, hcurr, if_neg (by simp [hh])]
  unfold context_switch timer_task_sleep task_to_wait_action ThreadToWaitAction
  dsimp only
  rw [hcurr, hnr, if_neg (not_not.mpr rfl)]
  exact ⟨rfl, rfl, rfl, rfl, rfl, rfl, rfl, rfl, rfl, rfl, rfl, rfl⟩

theorem exRoundRobin_timer_task_sleeps (cur : TcbRef) (q : List TcbRef)
    (hq : q ∈ exRotations) (c : Nat) (tm : TcbRef → Nat) (j : Nat)
    (hcur : cur = q.headD TcbRef.null ∨ c = 0) :
    context_switch (timer_task_sleep (context_switch (exRoundRobinTick cur q c tm j)))
      = exRoundRobinAt q c tm j := by
  have hffs : ffs_priority ((context_switch (exRoundRobinTick cur q c tm j)).ready_to_run_bmp
      &&& not32 (bit32 0)) = 5 :=
    (congrArg ffs_priority exRoundRobin_bmp_clear).trans exRoundRobin_ffs
  simp only [exRotations, List.mem_cons, List.mem_singleton, List.not_mem_nil, or_false] at hq
  rcases hq with rfl | rfl | rfl
  all_goals
    simp only [List.headD_cons] at hcur
    obtain ⟨f1, f2, f3, f4, f5, f6, f7, f8, f9, f10, f11, f12⟩ :=
      timer_task_sleep_fields _ (TcbRef.task 9) _ _ 5 rfl rfl
        (by simp [context_switch, exRoundRobinAt, exRoundRobinTick, QueueRemoveEntry, Function.update]) (by simp [context_switch, exRoundRobinAt, exRoundRobinTick, QueueRemoveEntry, Function.update]) hffs
        (by simp [context_switch, exRoundRobinAt, exRoundRobinTick, QueueRemoveEntry, Function.update]; exact ⟨rfl, rfl⟩) (by simp)
    apply KState_ext
    · rw [f1]; rfl
    · rw [f2]; rfl
    · rw [f3]; rfl
    · rw [f4]; rfl
    · rw [f5]; exact exRoundRobin_bmp_clear
    · rw [f6]
      funext x
      by_cases h5 : x = QueueRef.ready 5
      · subst h5
        simp [context_switch, exRoundRobinAt, exRoundRobinTick, QueueRemoveEntry, Function.update]
      by_cases h31 : x = QueueRef.ready 31
      · subst h31
        simp [context_switch, exRoundRobinAt, exRoundRobinTick, QueueRemoveEntry, Function.update]
      by_cases h0 : x = QueueRef.ready 0
      · subst h0
        simp [context_switch, exRoundRobinAt, exRoundRobinTick, QueueRemoveEntry, Function.update]
      simp [context_switch, exRoundRobinAt, exRoundRobinTick, QueueRemoveEntry, Function.update, h5, h31, h0]
    · rw [f7]
      funext t
      rcases hcur with rfl | rfl
      all_goals
        by_cases h1 : t = TcbRef.task 1
        · subst h1
          simp [context_switch, exRoundRobinAt, exRoundRobinTick, QueueRemoveEntry, Function.update]
        by_cases h2 : t = TcbRef.task 2
        · subst h2
          simp [context_switch, exRoundRobinAt, exRoundRobinTick, QueueRemoveEntry, Function.update]
        by_cases h3 : t = TcbRef.task 3
        · subst h3
          simp [context_switch, exRoundRobinAt, exRoundRobinTick, QueueRemoveEntry, Function.update]
        by_cases h9 : t = TcbRef.task 9
        · subst h9
          simp [context_switch, exRoundRobinAt, exRoundRobinTick, QueueRemoveEntry, Function.update]
        simp [context_switch, exRoundRobinAt, exRoundRobinTick, QueueRemoveEntry, Function.update, h1, h2, h3, h9]
    · rw [f8]; rfl
    · rw [f9]; rfl
    · rw [f10]; rfl
    · rw [f11]; rfl
    · rw [f12]; rfl

theorem exRotations_rotate (q : List TcbRef) (hq : q ∈ exRotations) :
    (q.getLast?.getD TcbRef.null) :: q.dropLast ∈ exRotations := by
  simp only [exRotations, List.mem_cons, List.mem_singleton, List.not_mem_nil, or_false] at hq
  rcases hq with rfl | rfl | rfl <;> decide

theorem system_tick_in_slice (q : List TcbRef) (hq : q ∈ exRotations) (c : Nat)
    (tm : TcbRef → Nat) (j : Nat) (hc : c < 10) (hj : j + 1 < 2 ^ 32)
    (ht : tm (q.headD TcbRef.null) + 1 < 2 ^ 32) :
    system_tick (TcbRef.task 9) exSlices (exRoundRobinAt q c tm j)
      = exRoundRobinAt q (c + 1)
          (Function.update tm (q.headD TcbRef.null) (tm (q.headD TcbRef.null) + 1)) (j + 1) := by
  unfold system_tick
  rw [exRoundRobin_tick_in_slice q hq c tm j hc hj ht]
  exact exRoundRobin_timer_task_sleeps _ q hq _ _ _ (Or.inl rfl)

theorem system_tick_end_of_slice (q : List TcbRef) (hq : q ∈ exRotations) (c : Nat)
    (tm : TcbRef → Nat) (j : Nat) (hc : 10 ≤ c) (hj : j + 1 < 2 ^ 32)
    (ht : tm (q.headD TcbRef.null) + 1 < 2 ^ 32) :
    system_tick (TcbRef.task 9) exSlices (exRoundRobinAt q c tm j)
      = exRoundRobinAt ((q.getLast?.getD TcbRef.null) :: q.dropLast) 0
          (Function.update tm (q.headD TcbRef.null) (tm (q.headD TcbRef.null) + 1)) (j + 1) := by
  unfold system_tick
  rw [exRoundRobin_tick_end_of_slice q hq c tm j hc hj ht]
  exact exRoundRobin_timer_task_sleeps _ _ (exRotations_rotate q hq) _ _ _ (Or.inr rfl)

theorem system_ticks_in_slice (q : List TcbRef) (hq : q ∈ exRotations) :
    ∀ (k c : Nat) (tm : TcbRef → Nat) (j : Nat), c + k ≤ 10 → j + k < 2 ^ 32 →
      tm (q.headD TcbRef.null) + k < 2 ^ 32 →
      (system_tick (TcbRef.task 9) exSlices)^[k] (exRoundRobinAt q c tm j)
        = exRoundRobinAt q (c + k)
            (Function.update tm (q.headD TcbRef.null) (tm (q.headD TcbRef.null) + k))
            (j + k) := by
  intro k
  induction k with
  | zero =>
    intro c tm j _ _ _
    simp
  | succ k ih =>
    intro c tm j hc hj ht
    rw [Function.iterate_succ_apply, system_tick_in_slice q hq c tm j (by omega) (by omega)
      (by omega)]
    rw [ih (c + 1) _ (j + 1) (by omega) (by omega)
      (by rw [Function.update_same]; omega)]
    rw [Function.update_same, Function.update_idem]
    have e1 : c + 1 + k = c + (k + 1) := by omega
    have e2 : j + 1 + k = j + (k + 1) := by omega
    have e3 : tm (q.headD TcbRef.null) + 1 + k = tm (q.headD TcbRef.null) + (k + 1) := by
      omega
    rw [e1, e2, e3]

theorem system_ticks_slice (q : List TcbRef) (hq : q ∈ exRotations) (tm : TcbRef → Nat)
    (j : Nat) (hj : j + 11 < 2 ^ 32) (ht : tm (q.headD TcbRef.null) + 11 < 2 ^ 32) :
    (system_tick (TcbRef.task 9) exSlices)^[10] (exRoundRobinAt q 0 tm j)
      = exRoundRobinAt q 10
          (Function.update tm (q.headD TcbRef.null) (tm (q.headD TcbRef.null) + 10))
          (j + 10) ∧
    (system_tick (TcbRef.task 9) exSlices)^[11] (exRoundRobinAt q 0 tm j)
      = exRoundRobinAt ((q.getLast?.getD TcbRef.null) :: q.dropLast) 0
          (Function.update tm (q.headD TcbRef.null) (tm (q.headD TcbRef.null) + 11))
          (j + 11) := by
  have h10 := system_ticks_in_slice q hq 10 0 tm j (by omega) (by omega) (by omega)
  rw [Nat.zero_add] at h10
  refine ⟨h10, ?_⟩
  rw [Function.iterate_succ_apply', h10,
    system_tick_end_of_slice q hq 10 _ (j + 10) (le_refl _) (by omega)
      (by rw [Function.update_same]; omega)]
  rw [Function.update_same, Function.update_idem]

theorem exRotations_next :
    (([TcbRef.task 1, TcbRef.task 2, TcbRef.task 3].getLast?.getD TcbRef.null) ::
        [TcbRef.task 1, TcbRef.task 2, TcbRef.task 3].dropLast
      = [TcbRef.task 3, TcbRef.task 1, TcbRef.task 2]) ∧
    (([TcbRef.task 3, TcbRef.task 1, TcbRef.task 2].getLast?.getD TcbRef.null) ::
        [TcbRef.task 3, TcbRef.task 1, TcbRef.task 2].dropLast
      = [TcbRef.task 2, TcbRef.task 3, TcbRef.task 1]) ∧
    (([TcbRef.task 2, TcbRef.task 3, TcbRef.task 1].getLast?.getD TcbRef.null) ::
        [TcbRef.task 2, TcbRef.task 3, TcbRef.task 1].dropLast
      = [TcbRef.task 1, TcbRef.task 2, TcbRef.task 3]) := by
  decide

theorem exRoundRobin_60_ticks :
    (system_tick (TcbRef.task 9) exSlices)^[60] exRoundRobin
      = exRoundRobinAt [TcbRef.task 2, TcbRef.task 3, TcbRef.task 1] 5
          (fun t => if t = TcbRef.task 1 then 22 else if t = TcbRef.task 2 then 16
            else if t = TcbRef.task 3 then 22 else 0) 60 := by
  have hq0 : [TcbRef.task 1, TcbRef.task 2, TcbRef.task 3] ∈ exRotations := by decide
  have hq1 : [TcbRef.task 3, TcbRef.task 1, TcbRef.task 2] ∈ exRotations := by decide
  have hq2 : [TcbRef.task 2, TcbRef.task 3, TcbRef.task 1] ∈ exRotations := by decide
  obtain ⟨r0, r1, r2⟩ := exRotations_next
  have e : (60 : Nat) = 5 + (11 + (11 + (11 + (11 + 11)))) := by norm_num
  rw [e]
  simp only [Function.iterate_add_apply]
  unfold exRoundRobin
  rw [(system_ticks_slice _ hq0 _ _ (by norm_num) (by norm_num)).2, r0]
  rw [(system_ticks_slice _ hq1 _ _ (by norm_num) (by simp [Function.update])).2, r1]
  rw [(system_ticks_slice _ hq2 _ _ (by norm_num) (by simp [Function.update])).2, r2]
  rw [(system_ticks_slice _ hq0 _ _ (by norm_num) (by simp [Function.update])).2, r0]
  rw [(system_ticks_slice _ hq1 _ _ (by norm_num) (by simp [Function.update])).2, r1]
  rw [system_ticks_in_slice _ hq2 5 0 _ _ (by norm_num) (by norm_num)
    (by simp [Function.update])]
  congr 1
  funext t
  by_cases h1 : t = TcbRef.task 1
  · subst h1
    simp [Function.update]
  by_cases h2 : t = TcbRef.task 2
  · subst h2
    simp [Function.update]
  by_cases h3 : t = TcbRef.task 3
  · subst h3
    simp [Function.update]
  simp [Function.update, h1, h2, h3]

/-- C25. The round-robin slice is one tick longer than configured.  In every state, when a
time slice `T` is configured for the priority of the running task and its slice counter is
below `T`, the round-robin part of the tick handler only increments the counter and leaves
every queue alone: the test `tslice_count > tslice_ticks[priority]` after the increment
lets the queue rotate on the tick that finds the counter at `T`, the `(T + 1)`-th of the
slice.  With tasks 1, 2, 3 at priority 5 and `T = 10` (`exRoundRobin`): after 10 ticks task 1
still runs, its counter is 10 and the queue is unchanged; the 11th tick rotates the queue
and task 3 runs; after 60 ticks task 1 has been charged 22 ticks, task 2 16 ticks and
task 3 22 ticks. -/
theorem round_robin_slice_is_one_tick_longer :
    (∀ (tslice_ticks : Nat → Nat) (s : KState),
      tslice_ticks (s.tcb s.curr).priority ≠ NO_TIME_SLICE →
      (s.tcb s.curr).tslice_count < tslice_ticks (s.tcb s.curr).priority →
      (tick_round_robin tslice_ticks s).queues = s.queues ∧
      ((tick_round_robin tslice_ticks s).tcb s.curr).tslice_count
        = (s.tcb s.curr).tslice_count + 1) ∧
    (((system_tick (TcbRef.task 9) exSlices)^[10] exRoundRobin).curr = TcbRef.task 1 ∧
      ((system_tick (TcbRef.task 9) exSlices)^[10] exRoundRobin).queues (QueueRef.ready 5)
        = [TcbRef.task 1, TcbRef.task 2, TcbRef.task 3] ∧
      (((system_tick (TcbRef.task 9) exSlices)^[10] exRoundRobin).tcb
        (TcbRef.task 1)).tslice_count = 10 ∧
      (((system_tick (TcbRef.task 9) exSlices)^[10] exRoundRobin).tcb (TcbRef.task 1)).time
        = 10) ∧
    (((system_tick (TcbRef.task 9) exSlices)^[11] exRoundRobin).curr = TcbRef.task 3 ∧
      ((system_tick (TcbRef.task 9) exSlices)^[11] exRoundRobin).queues (QueueRef.ready 5)
        = [TcbRef.task 3, TcbRef.task 1, TcbRef.task 2] ∧
      (((system_tick (TcbRef.task 9) exSlices)^[11] exRoundRobin).tcb (TcbRef.task 1)).time
        = 11) ∧
    ((((system_tick (TcbRef.task 9) exSlices)^[60] exRoundRobin).tcb (TcbRef.task 1)).time
        = 22 ∧
      (((system_tick (TcbRef.task 9) exSlices)^[60] exRoundRobin).tcb (TcbRef.task 2)).time
        = 16 ∧
      (((system_tick (TcbRef.task 9) exSlices)^[60] exRoundRobin).tcb (TcbRef.task 3)).time
        = 22) := by
  have hq0 : [TcbRef.task 1, TcbRef.task 2, TcbRef.task 3] ∈ exRotations := by decide
  obtain ⟨h10, h11⟩ := system_ticks_slice _ hq0 (fun _ => 0) 0 (by norm_num) (by norm_num)
  rw [exRotations_next.1] at h11
  refine ⟨?_, ?_, ?_, ?_⟩
  · intro tslice_ticks s hT hc
    unfold tick_round_robin
    dsimp only
    rw [if_pos hT]
    have hcnt : ((set_tslice_count s.curr ((s.tcb s.curr).tslice_count + 1) s).tcb
        (set_tslice_count s.curr ((s.tcb s.curr).tslice_count + 1) s).curr).tslice_count
        = (s.tcb s.curr).tslice_count + 1 := by
      simp [set_tslice_count]
    rw [if_neg (by rw [hcnt]; omega)]
    exact ⟨rfl, by simp [set_tslice_count]⟩
  · unfold exRoundRobin
    rw [h10]
    simp [exRoundRobinAt]
  · unfold exRoundRobin
    rw [h11]
    simp [exRoundRobinAt]
  · rw [exRoundRobin_60_ticks]
    simp [exRoundRobinAt]

/-- Witness for C25: in `exRoundRobin` the slice of priority 5 is 10 ticks and the slice
counter of the running task 1 is 0. -/
theorem round_robin_slice_is_one_tick_longer_witness :
    (tick_round_robin exSlices exRoundRobin).queues = exRoundRobin.queues ∧
    ((tick_round_robin exSlices exRoundRobin).tcb exRoundRobin.curr).tslice_count
      = (exRoundRobin.tcb exRoundRobin.curr).tslice_count + 1 :=
  round_robin_slice_is_one_tick_longer.1 exSlices exRoundRobin (by decide) (by decide)

/-! ### The direction of the round-robin rotation -/

/-- C34. The round-robin rotation moves the tail of the ready queue to its head.  Let a time
slice be configured for the priority `p` of the running task and let its slice counter have
reached that slice, so that the incremented counter exceeds it; let the timer task be another
task that is not linked into the ready queue of `p`.  After `tick_int_processing` the slice
counter of the running task is 0.  When the ready queue of `p` holds more than one task, its
last task has been moved to the head and the other tasks follow in their old order, so that
a running task at the head is second afterwards; when the queue holds exactly one task it is
unchanged. -/
theorem round_robin_moves_tail_to_head (timer_task : TcbRef) (tslice_ticks : Nat → Nat)
    (s : KState)
    (hT : tslice_ticks (s.tcb s.curr).priority ≠ NO_TIME_SLICE)
    (hc : tslice_ticks (s.tcb s.curr).priority ≤ (s.tcb s.curr).tslice_count)
    (hcur : s.curr ≠ timer_task)
    (htt : timer_task ∉ s.queues (QueueRef.ready (s.tcb s.curr).priority))
    (hp : (s.tcb s.curr).priority ≠ 0) :
    ((tick_int_processing timer_task tslice_ticks s).tcb s.curr).tslice_count = 0 ∧
    (2 ≤ (s.queues (QueueRef.ready (s.tcb s.curr).priority)).length →
      (tick_int_processing timer_task tslice_ticks s).queues
          (QueueRef.ready (s.tcb s.curr).priority)
        = ((s.queues (QueueRef.ready (s.tcb s.curr).priority)).getLast?.getD TcbRef.null) ::
          (s.queues (QueueRef.ready (s.tcb s.curr).priority)).dropLast) ∧
    ((s.queues (QueueRef.ready (s.tcb s.curr).priority)).length = 1 →
      (tick_int_processing timer_task tslice_ticks s).queues
          (QueueRef.ready (s.tcb s.curr).priority)
        = s.queues (QueueRef.ready (s.tcb s.curr).priority)) := by
  have hne : QueueRef.ready (s.tcb s.curr).priority ≠ QueueRef.ready 0 := by
    intro h
    injection h with h
    exact hp h
  have hcnt : ((set_tslice_count s.curr ((s.tcb s.curr).tslice_count + 1) s).tcb
      (set_tslice_count s.curr ((s.tcb s.curr).tslice_count + 1) s).curr).tslice_count
      = (s.tcb s.curr).tslice_count + 1 := by
    simp [set_tslice_count]
  have hrr : ∀ x : KState, x = tick_round_robin tslice_ticks s →
      (x.tcb s.curr).tslice_count = 0 ∧
      (2 ≤ (s.queues (QueueRef.ready (s.tcb s.curr).priority)).length →
        x.queues (QueueRef.ready (s.tcb s.curr).priority)
          = ((s.queues (QueueRef.ready (s.tcb s.curr).priority)).getLast?.getD TcbRef.null) ::
            (s.queues (QueueRef.ready (s.tcb s.curr).priority)).dropLast) ∧
      ((s.queues (QueueRef.ready (s.tcb s.curr).priority)).length = 1 →
        x.queues (QueueRef.ready (s.tcb s.curr).priority)
          = s.queues (QueueRef.ready (s.tcb s.curr).priority)) := by
    intro x hx
    rw [hx]
    unfold tick_round_robin
    dsimp only
    rw [if_pos hT, if_pos (by rw [hcnt]; omega)]
    cases hq : s.queues (QueueRef.ready (s.tcb s.curr).priority) with
    | nil =>
      have he : (set_tslice_count (set_tslice_count s.curr ((s.tcb s.curr).tslice_count + 1) s).curr 0
          (set_tslice_count s.curr ((s.tcb s.curr).tslice_count + 1) s)).queues
          (QueueRef.ready (s.tcb s.curr).priority) = [] := hq
      rw [if_neg (by simp [isQueueEmpty, he])]
      refine ⟨by simp [set_tslice_count], ?_, ?_⟩
      · intro h; simp at h
      · intro h; simp at h
    | cons a rest =>
      have he : (set_tslice_count (set_tslice_count s.curr ((s.tcb s.curr).tslice_count + 1) s).curr 0
          (set_tslice_count s.curr ((s.tcb s.curr).tslice_count + 1) s)).queues
          (QueueRef.ready (s.tcb s.curr).priority) = a :: rest := hq
      cases rest with
      | nil =>
        rw [if_neg (by simp [isQueueEmpty, he])]
        refine ⟨by simp [set_tslice_count], ?_, ?_⟩
        · intro h; simp at h
        · intro _; exact he
      | cons b rest2 =>
        rw [if_pos (by simp [isQueueEmpty, he])]
        refine ⟨by simp [set_tslice_count], ?_, ?_⟩
        · intro _
          simp only [QueueAddHead, queue_remove_tail, Function.update_same, he]
        · intro h; simp at h
  obtain ⟨h1, h2, h3⟩ := hrr _ rfl
  have hq : (tick_int_processing timer_task tslice_ticks s).queues
      (QueueRef.ready (s.tcb s.curr).priority)
      = (tick_round_robin tslice_ticks s).queues (QueueRef.ready (s.tcb s.curr).priority)
        ∨ timer_task ∈ (tick_round_robin tslice_ticks s).queues
          (QueueRef.ready (s.tcb s.curr).priority) := by
    by_cases hm : timer_task ∈ (tick_round_robin tslice_ticks s).queues
        (QueueRef.ready (s.tcb s.curr).priority)
    · exact Or.inr hm
    · left
      unfold tick_int_processing
      dsimp only
      unfold QueueAddTail QueueRemoveEntry
      rw [Function.update_noteq hne, List.erase_of_not_mem hm]
  have ht : ((tick_int_processing timer_task tslice_ticks s).tcb s.curr).tslice_count
      = ((tick_round_robin tslice_ticks s).tcb s.curr).tslice_count := by
    unfold tick_int_processing
    dsimp only
    rw [Function.update_noteq hcur]
  refine ⟨ht.trans h1, ?_, ?_⟩
  · intro hl
    have hmem : timer_task ∉ (tick_round_robin tslice_ticks s).queues
        (QueueRef.ready (s.tcb s.curr).priority) := by
      rw [h2 hl]
      intro hm
      rcases List.mem_cons.mp hm with h | h
      · have hlast : timer_task ∈ s.queues (QueueRef.ready (s.tcb s.curr).priority) := by
          cases hg : (s.queues (QueueRef.ready (s.tcb s.curr).priority)).getLast? with
          | none =>
            rw [List.getLast?_eq_none_iff] at hg
            rw [hg] at hl
            simp at hl
          | some z =>
            rw [hg] at h
            rw [h]
            exact List.mem_of_getLast?_eq_some hg
        exact htt hlast
      · exact htt ((List.dropLast_sublist _).subset h)
    rcases hq with h | h
    · rw [h]; exact h2 hl
    · exact absurd h hmem
  · intro hl
    have hmem : timer_task ∉ (tick_round_robin tslice_ticks s).queues
        (QueueRef.ready (s.tcb s.curr).priority) := by
      rw [h3 hl]; exact htt
    rcases hq with h | h
    · rw [h]; exact h3 hl
    · exact absurd h hmem

/-- Witness for C34 on `exSliceEnd`: task 1 runs at priority 5 with slice counter 10, the
slice is 10 ticks, and the timer task 9 is asleep. -/
theorem round_robin_moves_tail_to_head_witness :
    ((tick_int_processing (TcbRef.task 9) exSlices exSliceEnd).tcb exSliceEnd.curr).tslice_count
      = 0 ∧
    (tick_int_processing (TcbRef.task 9) exSlices exSliceEnd).queues
        (QueueRef.ready (exSliceEnd.tcb exSliceEnd.curr).priority)
      = ((exSliceEnd.queues (QueueRef.ready
            (exSliceEnd.tcb exSliceEnd.curr).priority)).getLast?.getD TcbRef.null) ::
          (exSliceEnd.queues (QueueRef.ready (exSliceEnd.tcb exSliceEnd.curr).priority)).dropLast := by
  have h := round_robin_moves_tail_to_head (TcbRef.task 9) exSlices exSliceEnd (by decide)
    (by decide) (by decide) (by decide) (by decide)
  exact ⟨h.1, h.2.1 (by decide)⟩

/-- Counterexample to C34 as stated: in `exSliceEnd` the running task 1 is the head of the
ready queue task 1, task 2, task 3 of priority 5 and its slice counter has reached the slice.
After `tick_int_processing` the queue is task 3, task 1, task 2: the running task has not
been moved to the tail. -/
theorem round_robin_does_not_move_head_to_tail :
    exSliceEnd.curr = TcbRef.task 1 ∧
    exSliceEnd.queues (QueueRef.ready 5) = [TcbRef.task 1, TcbRef.task 2, TcbRef.task 3] ∧
    exSlices 5 = 10 ∧ (exSliceEnd.tcb (TcbRef.task 1)).tslice_count = 10 ∧
    (tick_int_processing (TcbRef.task 9) exSlices exSliceEnd).queues (QueueRef.ready 5)
      = [TcbRef.task 3, TcbRef.task 1, TcbRef.task 2] ∧
    (tick_int_processing (TcbRef.task 9) exSlices exSliceEnd).queues (QueueRef.ready 5)
      ≠ [TcbRef.task 2, TcbRef.task 3, TcbRef.task 1] := by
  refine ⟨by decide, by decide, by decide, by decide, by decide, by decide⟩

/-! ### The drain loop of the timer task -/

theorem timer_task_round_frame (run_callback : CBACK → CbArg → KState → KState)
    (hcb : ∀ c a x, (run_callback c a x).timer_queue = x.timer_queue ∧
      (run_callback c a x).tmeb = x.tmeb) (tm : TmebRef) (s : KState) :
    (timer_task_round run_callback tm s).timer_queue = s.timer_queue.erase tm ∧
    (timer_task_round run_callback tm s).tmeb = s.tmeb := by
  unfold timer_task_round
  dsimp only
  split
  · rw [(hcb _ _ _).1, (hcb _ _ _).2]
    exact ⟨rfl, rfl⟩
  · exact ⟨rfl, rfl⟩

theorem timer_task_pass_rounds (run_callback : CBACK → CbArg → KState → KState)
    (cur_time : Nat)
    (hcb : ∀ c a x, (run_callback c a x).timer_queue = x.timer_queue ∧
      (run_callback c a x).tmeb = x.tmeb) :
    ∀ fuel s, s.timer_queue.length < fuel →
      ∃ s', timer_task_pass run_callback cur_time fuel s
          = some (s.timer_queue.takeWhile
              (fun e => !tn_time_after (s.tmeb e).time cur_time), s') ∧
        s'.timer_queue = s.timer_queue.dropWhile
          (fun e => !tn_time_after (s.tmeb e).time cur_time) ∧
        s'.tmeb = s.tmeb ∧
        s' = (s.timer_queue.takeWhile
          (fun e => !tn_time_after (s.tmeb e).time cur_time)).foldl
            (fun x tm => timer_task_round run_callback tm x) s ∧
        ∀ pre tm post, s.timer_queue.takeWhile
            (fun e => !tn_time_after (s.tmeb e).time cur_time) = pre ++ tm :: post →
          (timer_delete tm (pre.foldl (fun x e => timer_task_round run_callback e x)
            s)).timer_queue
            = post ++ s.timer_queue.dropWhile
              (fun e => !tn_time_after (s.tmeb e).time cur_time) := by
  intro fuel
  induction fuel with
  | zero => intro s h; omega
  | succ fuel ih =>
    intro s h
    unfold timer_task_pass timer_task_detach
    cases hq : s.timer_queue with
    | nil =>
      refine ⟨s, rfl, by rw [hq]; rfl, rfl, rfl, ?_⟩
      intro pre tm post hsplit
      simp at hsplit
    | cons tm0 rest =>
      dsimp only
      by_cases ha : tn_time_after (s.tmeb tm0).time cur_time = true
      · rw [if_pos ha]
        have htw : List.takeWhile (fun e => !tn_time_after (s.tmeb e).time cur_time)
            (tm0 :: rest) = [] := by
          rw [List.takeWhile_cons]
          simp [ha]
        rw [htw]
        refine ⟨s, rfl, ?_, rfl, rfl, ?_⟩
        · rw [List.dropWhile_cons]
          simp [ha, hq]
        · intro pre tm post hsplit
          simp at hsplit
      · rw [if_neg ha]
        dsimp only
        obtain ⟨hq2, ht2⟩ := timer_task_round_frame run_callback hcb tm0 s
        rw [hq, List.erase_cons_head] at hq2
        have hround : (if ((timer_delete tm0 s).tmeb tm0).callback ≠ CBACK.null then
              run_callback ((timer_delete tm0 s).tmeb tm0).callback
                ((timer_delete tm0 s).tmeb tm0).arg (timer_delete tm0 s)
            else timer_delete tm0 s) = timer_task_round run_callback tm0 s := rfl
        rw [hround]
        rw [hq] at h
        obtain ⟨s', h1, h2, h3, h4, h5⟩ := ih (timer_task_round run_callback tm0 s)
          (by rw [hq2]; simp at h; omega)
        rw [h1, hq2, ht2]
        have htw : List.takeWhile (fun e => !tn_time_after (s.tmeb e).time cur_time)
            (tm0 :: rest) = tm0 :: List.takeWhile
              (fun e => !tn_time_after (s.tmeb e).time cur_time) rest := by
          rw [List.takeWhile_cons]
          simp [ha]
        have hdw : List.dropWhile (fun e => !tn_time_after (s.tmeb e).time cur_time)
            (tm0 :: rest) = List.dropWhile
              (fun e => !tn_time_after (s.tmeb e).time cur_time) rest := by
          rw [List.dropWhile_cons]
          simp [ha]
        rw [htw, hdw]
        rw [hq2, ht2] at h2 h4 h5
        refine ⟨s', rfl, h2, h3.trans ht2, ?_, ?_⟩
        · rw [List.foldl_cons]
          exact h4
        · intro pre tm post hsplit
          cases pre with
          | nil =>
            simp only [List.nil_append, List.cons.injEq] at hsplit
            obtain ⟨e1, e2⟩ := hsplit
            rw [← e1, ← e2]
            show (s.timer_queue.erase tm0) = _
            rw [hq, List.erase_cons_head, List.takeWhile_append_dropWhile]
          | cons a pre2 =>
            simp only [List.cons_append, List.cons.injEq] at hsplit
            obtain ⟨e1, e2⟩ := hsplit
            rw [← e1, List.foldl_cons]
            exact h5 pre2 tm post e2

theorem takeWhile_eq_filter_of_sorted {α : Type} (R : α → α → Prop) (p : α → Bool) :
    ∀ l : List α, (∀ a b, a ∈ l → b ∈ l → R a b → p b = true → p a = true) → l.Pairwise R →
      l.takeWhile p = l.filter p ∧ l.dropWhile p = l.filter (fun x => !p x) := by
  intro l
  induction l with
  | nil => intro _ _; exact ⟨rfl, rfl⟩
  | cons a rest ih =>
    intro hdown hs
    rw [List.pairwise_cons] at hs
    obtain ⟨i1, i2⟩ := ih (fun x y hx hy => hdown x y (List.mem_cons_of_mem _ hx)
      (List.mem_cons_of_mem _ hy)) hs.2
    by_cases hpa : p a = true
    · rw [List.takeWhile_cons, List.dropWhile_cons, List.filter_cons, List.filter_cons]
      simp only [hpa, if_true, Bool.not_true, Bool.false_eq_true, if_false]
      exact ⟨by rw [i1], i2⟩
    · have hall : ∀ b, b ∈ rest → p b = false := by
        intro b hb
        by_contra hc
        have hpb : p b = true := by simpa using hc
        exact hpa (hdown a b (List.mem_cons_self _ _) (List.mem_cons_of_mem _ hb)
          (hs.1 b hb) hpb)
      have hpa' : p a = false := by simpa using hpa
      rw [List.takeWhile_cons, List.dropWhile_cons, List.filter_cons, List.filter_cons]
      simp only [hpa', Bool.false_eq_true, if_false, Bool.not_false, if_true]
      constructor
      · symm
        rw [List.filter_eq_nil_iff]
        intro b hb
        rw [hall b hb]
        simp
      · congr 1
        symm
        rw [List.filter_eq_self]
        intro b hb
        rw [hall b hb]
        rfl

theorem do_timer_insert_walk_eq (tmeb : TmebRef → TMEB) (event : TmebRef) :
    ∀ l : List TmebRef, do_timer_insert_walk tmeb event l
      = l.takeWhile (fun x => !tn_time_before (tmeb event).time (tmeb x).time) ++
        event :: l.dropWhile (fun x => !tn_time_before (tmeb event).time (tmeb x).time) := by
  intro l
  induction l with
  | nil => rfl
  | cons a rest ih =>
    unfold do_timer_insert_walk
    by_cases h : tn_time_before (tmeb event).time (tmeb a).time = true
    · rw [if_pos h, List.takeWhile_cons, List.dropWhile_cons]
      simp [h]
    · rw [if_neg h, List.takeWhile_cons, List.dropWhile_cons, ih]
      simp [h]

theorem timer_due_downward (tmeb : TmebRef → TMEB) (t0 c : Nat) (l : List TmebRef)
    (hwin : ∀ e, e ∈ l → InWindow t0 (tmeb e).time) (hc : InWindow t0 c) :
    ∀ a b, a ∈ l → b ∈ l → tn_time_before (tmeb b).time (tmeb a).time = false →
      (!tn_time_after (tmeb b).time c) = true → (!tn_time_after (tmeb a).time c) = true := by
  intro a b ha hb hR hpb
  have h1 := (tn_time_before_false_iff t0 _ _ (hwin b hb) (hwin a ha)).mp hR
  have hpb' : tn_time_before c (tmeb b).time = false := by simpa [tn_time_after] using hpb
  have h2 := (tn_time_before_false_iff t0 _ _ hc (hwin b hb)).mp hpb'
  have h3 : tn_time_before c (tmeb a).time = false := by
    rw [tn_time_before_false_iff t0 _ _ hc (hwin a ha)]
    omega
  simp [tn_time_after, h3]

/-- C32. Timer-thread drain.  Let the timer queue be sorted and duplicate-free with all
expiries in one window of `2 ^ 31` ticks that also holds the tick count `cur_time`, and let
the callbacks leave the timer queue and the event records alone.  One pass of the timer task
for `cur_time` ends; the events it detaches are exactly the queued events whose expiry is not
after `cur_time`, in queue order and each once; the final state is obtained by running, for
these events in this order, one round each (`timer_delete`, then the callback unless it is
`NULL`); the callback of an event is called on a state from whose queue the event has been
removed and that still holds the later due events; and the queue left behind holds exactly
the events whose expiry is after `cur_time`, in their original order. -/
theorem timer_drain_pass (run_callback : CBACK → CbArg → KState → KState)
    (t0 cur_time fuel : Nat) (s : KState)
    (hcb : ∀ c a x, (run_callback c a x).timer_queue = x.timer_queue ∧
      (run_callback c a x).tmeb = x.tmeb)
    (hsorted : TimerSorted s.tmeb s.timer_queue) (hnd : s.timer_queue.Nodup)
    (hwin : ∀ e, e ∈ s.timer_queue → InWindow t0 (s.tmeb e).time)
    (hc : InWindow t0 cur_time) (hfuel : s.timer_queue.length < fuel) :
    ∃ s', timer_task_pass run_callback cur_time fuel s
        = some (s.timer_queue.filter (fun e => !tn_time_after (s.tmeb e).time cur_time), s') ∧
      (s.timer_queue.filter (fun e => !tn_time_after (s.tmeb e).time cur_time)).Nodup ∧
      s' = (s.timer_queue.filter (fun e => !tn_time_after (s.tmeb e).time cur_time)).foldl
        (fun x tm => timer_task_round run_callback tm x) s ∧
      (∀ pre tm post,
        s.timer_queue.filter (fun e => !tn_time_after (s.tmeb e).time cur_time)
          = pre ++ tm :: post →
        (timer_delete tm (pre.foldl (fun x e => timer_task_round run_callback e x)
          s)).timer_queue
          = post ++ s.timer_queue.filter (fun e => tn_time_after (s.tmeb e).time cur_time)) ∧
      s'.timer_queue = s.timer_queue.filter (fun e => tn_time_after (s.tmeb e).time cur_time) ∧
      s'.tmeb = s.tmeb := by
  obtain ⟨s', h1, h2, h3, h4, h5⟩ :=
    timer_task_pass_rounds run_callback cur_time hcb fuel s hfuel
  obtain ⟨e1, e2⟩ := takeWhile_eq_filter_of_sorted
    (fun a b => tn_time_before (s.tmeb b).time (s.tmeb a).time = false)
    (fun e => !tn_time_after (s.tmeb e).time cur_time) s.timer_queue
    (timer_due_downward s.tmeb t0 cur_time s.timer_queue hwin hc) hsorted
  have e3 : s.timer_queue.filter (fun x => !(fun e => !tn_time_after (s.tmeb e).time cur_time) x)
      = s.timer_queue.filter (fun e => tn_time_after (s.tmeb e).time cur_time) := by
    congr 1
    funext x
    simp
  rw [e3] at e2
  rw [e1] at h1 h4 h5
  rw [e2] at h2 h5
  exact ⟨s', h1, hnd.filter _, h4, h5, h2, h3⟩

/-- Witness for C32 on `exTimers` (timers due at `0xFFFFFFF8` and, after the wrap, at `0x10`):
the pass for the tick count `0xFFFFFFF9` detaches the first timer and leaves the second. -/
theorem timer_drain_pass_witness :
    ∃ s', timer_task_pass (fun _ _ x => x) 0xFFFFFFF9 3 exTimers
        = some ([TmebRef.wait_timer (TcbRef.task 2)], s') ∧
      s'.timer_queue = [TmebRef.wait_timer (TcbRef.task 3)] := by
  obtain ⟨s', h1, _, _, _, h5, _⟩ := timer_drain_pass (fun _ _ x => x) 0xFFFFFFF0 0xFFFFFFF9 3
    exTimers (fun _ _ _ => ⟨rfl, rfl⟩) exTimers_sorted (by decide) exTimers_window
    (by unfold InWindow tick_offset; decide) (by decide)
  refine ⟨s', ?_, ?_⟩
  · rw [h1]
    have hf : exTimers.timer_queue.filter
        (fun e => !tn_time_after (exTimers.tmeb e).time 0xFFFFFFF9)
        = [TmebRef.wait_timer (TcbRef.task 2)] := by decide
    rw [hf]
  · rw [h5]
    decide

/-- C39. Timer insertion is stable.  Let the timer queue be sorted and duplicate-free with
all expiries, that of the unqueued `event` included, in one window of `2 ^ 31` ticks.
`do_timer_insert` splits the queue in two parts `A` and `B` and links the event between
them, and the queue stays duplicate-free: `A` holds the events that are not after the event,
among them every queued event with the same expiry, and `B` the events that are after it.  When the event is due at
`cur_time`, the next pass of the timer task detaches every queued event of equal expiry
before the event, that is in the order of insertion. -/
theorem timer_insert_is_stable (run_callback : CBACK → CbArg → KState → KState)
    (t0 cur_time fuel : Nat) (s : KState) (event : TmebRef)
    (hcb : ∀ c a x, (run_callback c a x).timer_queue = x.timer_queue ∧
      (run_callback c a x).tmeb = x.tmeb)
    (hsorted : TimerSorted s.tmeb s.timer_queue) (hnd : s.timer_queue.Nodup)
    (hwin : ∀ e, e ∈ s.timer_queue → InWindow t0 (s.tmeb e).time)
    (hev : InWindow t0 (s.tmeb event).time) (hnew : event ∉ s.timer_queue)
    (hc : InWindow t0 cur_time)
    (hdue : tn_time_after (s.tmeb event).time cur_time = false)
    (hfuel : s.timer_queue.length + 1 < fuel) :
    ∃ A B, (do_timer_insert event s).timer_queue = A ++ event :: B ∧
      (do_timer_insert event s).timer_queue.Nodup ∧
      s.timer_queue = A ++ B ∧
      (∀ x, x ∈ A → tn_time_before (s.tmeb event).time (s.tmeb x).time = false) ∧
      (∀ x, x ∈ B → tn_time_before (s.tmeb event).time (s.tmeb x).time = true) ∧
      (∀ x, x ∈ s.timer_queue → (s.tmeb x).time = (s.tmeb event).time → x ∈ A) ∧
      ∃ fired s', timer_task_pass run_callback cur_time fuel (do_timer_insert event s)
          = some (fired, s') ∧
        ∀ x, x ∈ s.timer_queue → (s.tmeb x).time = (s.tmeb event).time →
          ∃ pre mid post, fired = pre ++ x :: mid ++ event :: post := by
  have hdown : ∀ a b, a ∈ s.timer_queue → b ∈ s.timer_queue →
      tn_time_before (s.tmeb b).time (s.tmeb a).time = false →
      (!tn_time_before (s.tmeb event).time (s.tmeb b).time) = true →
      (!tn_time_before (s.tmeb event).time (s.tmeb a).time) = true := by
    intro a b ha hb hR hpb
    have h1 := (tn_time_before_false_iff t0 _ _ (hwin b hb) (hwin a ha)).mp hR
    have hpb' : tn_time_before (s.tmeb event).time (s.tmeb b).time = false := by
      simpa using hpb
    have h2 := (tn_time_before_false_iff t0 _ _ hev (hwin b hb)).mp hpb'
    have h3 : tn_time_before (s.tmeb event).time (s.tmeb a).time = false := by
      rw [tn_time_before_false_iff t0 _ _ hev (hwin a ha)]
      omega
    simp [h3]
  obtain ⟨e1, e2⟩ := takeWhile_eq_filter_of_sorted
    (fun a b => tn_time_before (s.tmeb b).time (s.tmeb a).time = false)
    (fun x => !tn_time_before (s.tmeb event).time (s.tmeb x).time) s.timer_queue hdown hsorted
  have hwalk : (do_timer_insert event s).timer_queue
      = s.timer_queue.takeWhile (fun x => !tn_time_before (s.tmeb event).time (s.tmeb x).time)
        ++ event :: s.timer_queue.dropWhile
          (fun x => !tn_time_before (s.tmeb event).time (s.tmeb x).time) :=
    do_timer_insert_walk_eq s.tmeb event s.timer_queue
  have hA : ∀ x, x ∈ s.timer_queue → (s.tmeb x).time = (s.tmeb event).time →
      x ∈ s.timer_queue.takeWhile
        (fun x => !tn_time_before (s.tmeb event).time (s.tmeb x).time) := by
    intro x hx heq
    rw [e1, List.mem_filter]
    refine ⟨hx, ?_⟩
    have : tn_time_before (s.tmeb event).time (s.tmeb x).time = false := by
      rw [heq, tn_time_before_false_iff t0 _ _ hev hev]
    simp [this]
  -- the queue after the insertion
  have hqmem : ∀ e, e ∈ (do_timer_insert event s).timer_queue ↔
      e = event ∨ e ∈ s.timer_queue := fun e => mem_do_timer_insert_walk _ event e _
  have hwin' : ∀ e, e ∈ (do_timer_insert event s).timer_queue →
      InWindow t0 ((do_timer_insert event s).tmeb e).time := by
    intro e hmem
    rcases (hqmem e).mp hmem with h | h
    · rw [h]; exact hev
    · exact hwin e h
  have hs' : TimerSorted (do_timer_insert event s).tmeb (do_timer_insert event s).timer_queue :=
    sorted_do_timer_insert_walk _ t0 event hev _ hsorted hwin
  have hperm : (do_timer_insert event s).timer_queue.Perm (event :: s.timer_queue) :=
    perm_do_timer_insert_walk _ event _
  obtain ⟨s', h1, _⟩ := timer_task_pass_rounds run_callback cur_time hcb fuel
    (do_timer_insert event s) (by rw [hperm.length_eq]; simpa using hfuel)
  obtain ⟨f1, _⟩ := takeWhile_eq_filter_of_sorted
    (fun a b => tn_time_before ((do_timer_insert event s).tmeb b).time
      ((do_timer_insert event s).tmeb a).time = false)
    (fun e => !tn_time_after ((do_timer_insert event s).tmeb e).time cur_time)
    (do_timer_insert event s).timer_queue
    (timer_due_downward _ t0 cur_time _ hwin' hc) hs'
  rw [f1] at h1
  refine ⟨_, _, hwalk, nodup_do_timer_insert_walk _ event _ hnd hnew,
    (List.takeWhile_append_dropWhile _ _).symm, ?_, ?_, hA, _, s', h1, ?_⟩
  · intro x hx
    have := List.mem_takeWhile_imp hx
    simpa using this
  · intro x hx
    rw [e2, List.mem_filter] at hx
    simpa using hx.2
  · intro x hx heq
    have hxdue : (!tn_time_after (s.tmeb x).time cur_time) = true := by
      rw [heq, hdue]
      rfl
    have hxA : x ∈ (s.timer_queue.takeWhile
        (fun x => !tn_time_before (s.tmeb event).time (s.tmeb x).time)).filter
          (fun e => !tn_time_after (s.tmeb e).time cur_time) :=
      List.mem_filter.mpr ⟨hA x hx heq, hxdue⟩
    obtain ⟨pre, mid, hsplit⟩ := List.append_of_mem hxA
    refine ⟨pre, mid, (s.timer_queue.dropWhile
      (fun x => !tn_time_before (s.tmeb event).time (s.tmeb x).time)).filter
        (fun e => !tn_time_after (s.tmeb e).time cur_time), ?_⟩
    rw [hwalk, List.filter_append, List.filter_cons]
    show List.filter (fun e => !tn_time_after (s.tmeb e).time cur_time) _ ++
      (if (!tn_time_after (s.tmeb event).time cur_time) = true then _ else _) = _
    rw [hdue, hsplit]
    simp
    rfl

/-- Witness for C39 on `exTimersTie`: the wait timer of task 4 is inserted with the expiry
`0xFFFFFFF8` of the queued wait timer of task 2; the pass for the tick count `0xFFFFFFF9`
detaches the timer of task 2 before it. -/
theorem timer_insert_is_stable_witness :
    (do_timer_insert (TmebRef.wait_timer (TcbRef.task 4)) exTimersTie).timer_queue
      = [TmebRef.wait_timer (TcbRef.task 2), TmebRef.wait_timer (TcbRef.task 4),
          TmebRef.wait_timer (TcbRef.task 3)] ∧
    ∃ fired s', timer_task_pass (fun _ _ x => x) 0xFFFFFFF9 5
        (do_timer_insert (TmebRef.wait_timer (TcbRef.task 4)) exTimersTie) = some (fired, s') ∧
      ∃ pre mid post, fired = pre ++ TmebRef.wait_timer (TcbRef.task 2) :: mid ++
        TmebRef.wait_timer (TcbRef.task 4) :: post := by
  obtain ⟨A, B, _, _, _, _, _, _, fired, s', h1, h2⟩ :=
    timer_insert_is_stable (fun _ _ x => x) 0xFFFFFFF0 0xFFFFFFF9 5 exTimersTie
      (TmebRef.wait_timer (TcbRef.task 4)) (fun _ _ _ => ⟨rfl, rfl⟩)
      (TimerSorted_congr exTimers.tmeb _ _ (by decide) exTimers_sorted) (by decide)
      (by
        intro e he
        have h2 : e = TmebRef.wait_timer (TcbRef.task 2) ∨
            e = TmebRef.wait_timer (TcbRef.task 3) := by
          simpa [exTimersTie, exTimers] using he
        unfold InWindow tick_offset
        rcases h2 with h | h
        · subst h; decide
        · subst h; decide)
      (by unfold InWindow tick_offset; decide) (by decide)
      (by unfold InWindow tick_offset; decide) (by decide) (by decide)
  exact ⟨by decide, fired, s', h1, h2 (TmebRef.wait_timer (TcbRef.task 2)) (by decide)
    (by decide)⟩

/-! ### Cyclic handlers -/

theorem cyc_next_time_eq (cyc : TN_CYCLIC) (s : KState) (hP : 0 < cyc.time)
    (hb : tick_offset cyc.tmeb.time s.jiffies + cyc.time < 2 ^ 31) :
    cyc_next_time cyc s
      = (cyc.tmeb.time + (tick_offset cyc.tmeb.time s.jiffies / cyc.time + 1) * cyc.time)
          % 2 ^ 32 := by
  unfold cyc_next_time
  dsimp only
  have hfold : (s.jiffies % 2 ^ 32 + 2 ^ 32 - cyc.tmeb.time % 2 ^ 32) % 2 ^ 32
      = tick_offset cyc.tmeb.time s.jiffies := rfl
  rw [hfold]
  have hdm := Nat.div_add_mod (tick_offset cyc.tmeb.time s.jiffies) cyc.time
  have hlt := Nat.mod_lt (tick_offset cyc.tmeb.time s.jiffies) hP
  by_cases hd : tick_offset cyc.tmeb.time s.jiffies < cyc.time
  · have hcond : tn_time_before_eq ((cyc.tmeb.time + cyc.time) % 2 ^ 32) s.jiffies = false := by
      unfold tn_time_before_eq
      unfold tick_offset at hb hd
      rw [decide_eq_false_iff_not]
      omega
    rw [hcond, Nat.div_eq_of_lt hd]
    simp
  · have hcond : tn_time_before_eq ((cyc.tmeb.time + cyc.time) % 2 ^ 32) s.jiffies = true := by
      unfold tn_time_before_eq
      unfold tick_offset at hb hd
      rw [decide_eq_true_eq]
      omega
    rw [hcond, if_pos rfl]
    have hmul : (tick_offset cyc.tmeb.time s.jiffies / cyc.time + 1) * cyc.time
        = cyc.time * (tick_offset cyc.tmeb.time s.jiffies / cyc.time) + cyc.time := by ring
    have hle : tick_offset cyc.tmeb.time s.jiffies / cyc.time
        ≤ cyc.time * (tick_offset cyc.tmeb.time s.jiffies / cyc.time) :=
      Nat.le_mul_of_pos_left _ hP
    have hn : (tick_offset cyc.tmeb.time s.jiffies / cyc.time + 1) % 2 ^ 32
        = tick_offset cyc.tmeb.time s.jiffies / cyc.time + 1 := by
      apply Nat.mod_eq_of_lt
      omega
    rw [hn, hmul]
    have hsmall : cyc.time * (tick_offset cyc.tmeb.time s.jiffies / cyc.time) + cyc.time
        < 2 ^ 32 := by omega
    rw [Nat.mod_eq_of_lt hsmall]

/-- C33. Cyclic catch-up arithmetic.  Let the period `P` be positive, the last expiry `e` a
32-bit value, and let the distance `d` from `e` to the tick count `j` on the tick circle
satisfy `d + P < 2 ^ 31` (so `e` is not after `j`).  `cyc_next_time` returns
`e + k * P` modulo `2 ^ 32` for `k = d / P + 1`: this `k` is at least 1, the result is
strictly after `j`, no smaller `k` of at least 1 gives a time after `j`, and when `e + P` is
already after `j` the result is `e + P`.  The distance from `e` to the result on the tick
circle is `k * P`, a multiple of the period, and when `e + k * P` does not wrap the result is
congruent to `e` modulo `P`. -/
theorem cyclic_catch_up (cyc : TN_CYCLIC) (s : KState) (hP : 0 < cyc.time)
    (he : cyc.tmeb.time < 2 ^ 32)
    (hb : tick_offset cyc.tmeb.time s.jiffies + cyc.time < 2 ^ 31) :
    ∃ k, 1 ≤ k ∧ k = tick_offset cyc.tmeb.time s.jiffies / cyc.time + 1 ∧
      cyc_next_time cyc s = (cyc.tmeb.time + k * cyc.time) % 2 ^ 32 ∧
      tn_time_after (cyc_next_time cyc s) s.jiffies = true ∧
      (∀ k2, 1 ≤ k2 → k2 < k →
        tn_time_after ((cyc.tmeb.time + k2 * cyc.time) % 2 ^ 32) s.jiffies = false) ∧
      (tn_time_after ((cyc.tmeb.time + cyc.time) % 2 ^ 32) s.jiffies = true →
        cyc_next_time cyc s = (cyc.tmeb.time + cyc.time) % 2 ^ 32) ∧
      tick_offset cyc.tmeb.time (cyc_next_time cyc s) = k * cyc.time ∧
      (cyc.tmeb.time + k * cyc.time < 2 ^ 32 →
        cyc_next_time cyc s % cyc.time = cyc.tmeb.time % cyc.time) := by
  have heq := cyc_next_time_eq cyc s hP hb
  have hdm := Nat.div_add_mod (tick_offset cyc.tmeb.time s.jiffies) cyc.time
  have hlt := Nat.mod_lt (tick_offset cyc.tmeb.time s.jiffies) hP
  have hmul : (tick_offset cyc.tmeb.time s.jiffies / cyc.time + 1) * cyc.time
      = cyc.time * (tick_offset cyc.tmeb.time s.jiffies / cyc.time) + cyc.time := by ring
  refine ⟨tick_offset cyc.tmeb.time s.jiffies / cyc.time + 1, Nat.le_add_left 1 _, rfl, heq,
    ?_, ?_, ?_,
    ?_, ?_⟩
  · rw [heq, hmul]
    unfold tn_time_after tn_time_before
    unfold tick_offset at hb hdm hlt ⊢
    rw [decide_eq_true_eq]
    omega
  · intro k2 h1 h2
    have hk : k2 * cyc.time
        ≤ cyc.time * (tick_offset cyc.tmeb.time s.jiffies / cyc.time) := by
      rw [Nat.mul_comm k2]
      exact Nat.mul_le_mul_left _ (by omega)
    have hk1 : cyc.time ≤ k2 * cyc.time := Nat.le_mul_of_pos_left _ (by omega)
    unfold tn_time_after tn_time_before
    unfold tick_offset at hb hdm hlt hk
    rw [decide_eq_false_iff_not]
    omega
  · intro h
    have hd : tick_offset cyc.tmeb.time s.jiffies < cyc.time := by
      unfold tn_time_after tn_time_before at h
      unfold tick_offset at hb ⊢
      rw [decide_eq_true_eq] at h
      omega
    rw [heq, Nat.div_eq_of_lt hd]
    simp
  · rw [heq, hmul]
    unfold tick_offset at hb hdm hlt ⊢
    omega
  · intro hnw
    rw [heq, Nat.mod_eq_of_lt hnw, Nat.add_mul_mod_self_right]

/-- Witness for C33 on `exCyclic` (period 10, last expiry 100) at tick 137: the next expiry
is 140, the fourth period after 100. -/
theorem cyclic_catch_up_witness :
    cyc_next_time exCyclic { jiffies := 137 } = 140 ∧
    tn_time_after (cyc_next_time exCyclic { jiffies := 137 }) 137 = true := by
  obtain ⟨k, _, hk, h1, h2, _⟩ := cyclic_catch_up exCyclic { jiffies := 137 } (by decide)
    (by decide) (by unfold tick_offset; decide)
  refine ⟨?_, h2⟩
  rw [h1, hk]
  decide

/-- Counterexample for C33 as stated: for the period 3, the last expiry `0xFFFFFFFF` and the
tick count `0xFFFFFFFF` the preconditions hold and `cyc_next_time` returns 2, which is
`e + P` modulo `2 ^ 32` and after the tick count, but 2 is not congruent to `0xFFFFFFFF`
modulo 3. -/
theorem cyclic_next_time_not_congruent_after_wrap :
    0 < exCyclicWrap.time ∧
    tn_time_after exCyclicWrap.tmeb.time 0xFFFFFFFF = false ∧
    tick_offset exCyclicWrap.tmeb.time 0xFFFFFFFF + exCyclicWrap.time < 2 ^ 31 ∧
    cyc_next_time exCyclicWrap { jiffies := 0xFFFFFFFF } = 2 ∧
    cyc_next_time exCyclicWrap { jiffies := 0xFFFFFFFF } % exCyclicWrap.time
      ≠ exCyclicWrap.tmeb.time % exCyclicWrap.time := by
  refine ⟨by decide, by decide, by unfold tick_offset; decide, by decide, by decide⟩

/-! ### The representation invariant of the ring buffer -/

theorem slot_bound (z n q : Int) (hz : 0 < z) (h : z * q < n * z) : z * q + z ≤ n * z := by
  have hq : q < n := by
    by_contra hc
    have h1 : n ≤ q := by omega
    have h2 := mul_le_mul_of_nonneg_left h1 hz.le
    have h3 : z * n = n * z := mul_comm _ _
    omega
  have h1 : q + 1 ≤ n := by omega
  have h2 := mul_le_mul_of_nonneg_left h1 hz.le
  have h3 : z * n = n * z := mul_comm _ _
  have h4 : z * (q + 1) = z * q + z := by ring
  omega

theorem slot_pos (z n : Int) (hz : 0 < z) (hn : 0 < n) : z ≤ n * z := by
  have h2 := mul_le_mul_of_nonneg_right (by omega : (1 : Int) ≤ n) hz.le
  omega

theorem MbfInv_create (m : TN_MBF) (buf : Int → Nat) (bufsz msz : Int) (s : KState)
    (hb : 0 ≤ bufsz) (hm : 0 < msz) (hid : m.id ≠ ID_MESSAGEBUF) :
    ∃ m', tn_mbf_create (some m) buf bufsz msz s
        = (osError_t.TERR_NO_ERR, some m',
            { s with queues := QueueReset m.recv_queue (QueueReset m.send_queue s.queues) }) ∧
      MbfInv m' ∧ m'.cnt = 0 ∧ m'.head = 0 ∧ m'.tail = 0 ∧ m'.msz = msz ∧
      m'.num_entries = bufsz / msz ∧ m'.id = ID_MESSAGEBUF := by
  have hc : ¬ (bufsz < 0 ∨ msz ≤ 0 ∨ m.id = ID_MESSAGEBUF) := by
    rintro (h | h | h)
    · omega
    · omega
    · exact hid h
  have hn : 0 ≤ bufsz / msz := Int.ediv_nonneg hb hm.le
  refine ⟨{ m with buf := buf, msz := msz, num_entries := bufsz / msz, cnt := 0, head := 0,
                   tail := 0, id := ID_MESSAGEBUF },
    by simp only [tn_mbf_create, if_neg hc], ?_, rfl, rfl, rfl, rfl, rfl, rfl⟩
  refine ⟨hm, le_refl _, hn, dvd_zero _, dvd_zero _, ?_, ?_, by simp⟩
  · by_cases h0 : bufsz / msz = 0
    · exact Or.inr ⟨h0, rfl⟩
    · exact Or.inl ⟨le_refl _, Int.mul_pos (by show 0 < bufsz / msz; omega) hm⟩
  · by_cases h0 : bufsz / msz = 0
    · exact Or.inr ⟨h0, rfl⟩
    · exact Or.inl ⟨le_refl _, Int.mul_pos (by show 0 < bufsz / msz; omega) hm⟩

theorem MbfInv_write (m : TN_MBF) (v : List Nat) (first : Bool) (h : MbfInv m) :
    MbfInv (mbf_fifo_write m v first).2 := by
  obtain ⟨hz, hc0, hcn, hdh, hdt, hh, ht, hmod⟩ := h
  unfold mbf_fifo_write
  by_cases hn0 : m.num_entries = 0
  · rw [if_pos hn0]
    exact ⟨hz, hc0, hcn, hdh, hdt, hh, ht, hmod⟩
  rw [if_neg hn0]
  by_cases hfull : m.cnt = m.num_entries
  · rw [if_pos hfull]
    exact ⟨hz, hc0, hcn, hdh, hdt, hh, ht, hmod⟩
  rw [if_neg hfull]
  have hnpos : 0 < m.num_entries := by omega
  have hB : 0 < m.num_entries * m.msz := Int.mul_pos hnpos hz
  have hh' : 0 ≤ m.head ∧ m.head < m.num_entries * m.msz := by
    rcases hh with h | h
    · exact h
    · exact absurd h.1 hn0
  have ht' : 0 ≤ m.tail ∧ m.tail < m.num_entries * m.msz := by
    rcases ht with h | h
    · exact h
    · exact absurd h.1 hn0
  have hme : Int.ModEq (m.num_entries * m.msz) m.head (m.tail + m.cnt * m.msz) := hmod
  cases first with
  | true =>
    simp only [if_true]
    have hstep : Int.ModEq (m.num_entries * m.msz)
        ((if m.tail = 0 then m.num_entries * m.msz - m.msz else m.tail - m.msz) + m.msz)
        m.tail := by
      by_cases h0 : m.tail = 0
      · rw [if_pos h0, h0]
        show (m.num_entries * m.msz - m.msz + m.msz) % _ = 0 % _
        simp
      · rw [if_neg h0]
        show (m.tail - m.msz + m.msz) % _ = m.tail % _
        simp
    refine ⟨hz, by show 0 ≤ m.cnt + 1; omega, by show m.cnt + 1 ≤ m.num_entries; omega, hdh,
      ?_, hh, Or.inl ?_, ?_⟩
    · show m.msz ∣ (if m.tail = 0 then m.num_entries * m.msz - m.msz else m.tail - m.msz)
      split
      · exact dvd_sub (Dvd.intro_left _ rfl) (dvd_refl _)
      · exact dvd_sub hdt (dvd_refl _)
    · show 0 ≤ (if m.tail = 0 then m.num_entries * m.msz - m.msz else m.tail - m.msz) ∧
        (if m.tail = 0 then m.num_entries * m.msz - m.msz else m.tail - m.msz)
          < m.num_entries * m.msz
      have hp := slot_pos m.msz m.num_entries hz hnpos
      by_cases h0 : m.tail = 0
      · rw [if_pos h0]
        omega
      · rw [if_neg h0]
        obtain ⟨q, hq⟩ := hdt
        have hq1 : 1 ≤ q := by
          by_contra hc
          have h1 : q ≤ 0 := by omega
          have h2 := mul_le_mul_of_nonneg_left h1 hz.le
          simp only [mul_zero] at h2
          omega
        have h2 := mul_le_mul_of_nonneg_left hq1 hz.le
        simp only [mul_one] at h2
        omega
    · show Int.ModEq (m.num_entries * m.msz) m.head
        ((if m.tail = 0 then m.num_entries * m.msz - m.msz else m.tail - m.msz)
          + (m.cnt + 1) * m.msz)
      have e : (if m.tail = 0 then m.num_entries * m.msz - m.msz else m.tail - m.msz)
          + (m.cnt + 1) * m.msz
          = ((if m.tail = 0 then m.num_entries * m.msz - m.msz else m.tail - m.msz) + m.msz)
            + m.cnt * m.msz := by ring
      rw [e]
      exact hme.trans (hstep.add_right _).symm
  | false =>
    simp only [Bool.false_eq_true, if_false]
    obtain ⟨q, hq⟩ := hdh
    have hsb := slot_bound m.msz m.num_entries q hz (by rw [← hq]; exact hh'.2)
    rw [← hq] at hsb
    have hstep : Int.ModEq (m.num_entries * m.msz)
        (if m.head + m.msz ≥ m.num_entries * m.msz then 0 else m.head + m.msz)
        (m.head + m.msz) := by
      by_cases h0 : m.head + m.msz ≥ m.num_entries * m.msz
      · rw [if_pos h0]
        have e : m.head + m.msz = m.num_entries * m.msz := by omega
        rw [e]
        show 0 % _ = (m.num_entries * m.msz) % _
        simp
      · rw [if_neg h0]
    refine ⟨hz, by show 0 ≤ m.cnt + 1; omega, by show m.cnt + 1 ≤ m.num_entries; omega, ?_,
      hdt, Or.inl ?_, ht, ?_⟩
    · show m.msz ∣ (if m.head + m.msz ≥ m.num_entries * m.msz then 0 else m.head + m.msz)
      split
      · exact dvd_zero _
      · exact dvd_add ⟨q, hq⟩ (dvd_refl _)
    · show 0 ≤ (if m.head + m.msz ≥ m.num_entries * m.msz then 0 else m.head + m.msz) ∧
        (if m.head + m.msz ≥ m.num_entries * m.msz then 0 else m.head + m.msz)
          < m.num_entries * m.msz
      by_cases h0 : m.head + m.msz ≥ m.num_entries * m.msz
      · rw [if_pos h0]
        exact ⟨le_refl _, hB⟩
      · rw [if_neg h0]
        omega
    · show Int.ModEq (m.num_entries * m.msz)
        (if m.head + m.msz ≥ m.num_entries * m.msz then 0 else m.head + m.msz)
        (m.tail + (m.cnt + 1) * m.msz)
      have e : m.tail + (m.cnt + 1) * m.msz = (m.tail + m.cnt * m.msz) + m.msz := by ring
      rw [e]
      exact hstep.trans (hme.add_right _)

theorem MbfInv_read (m : TN_MBF) (h : MbfInv m) : MbfInv (mbf_fifo_read m).2.1 := by
  obtain ⟨hz, hc0, hcn, hdh, hdt, hh, ht, hmod⟩ := h
  unfold mbf_fifo_read
  by_cases hn0 : m.num_entries = 0
  · rw [if_pos hn0]
    exact ⟨hz, hc0, hcn, hdh, hdt, hh, ht, hmod⟩
  rw [if_neg hn0]
  by_cases hemp : m.cnt = 0
  · rw [if_pos hemp]
    exact ⟨hz, hc0, hcn, hdh, hdt, hh, ht, hmod⟩
  rw [if_neg hemp]
  have hnpos : 0 < m.num_entries := by omega
  have hB : 0 < m.num_entries * m.msz := Int.mul_pos hnpos hz
  have ht' : 0 ≤ m.tail ∧ m.tail < m.num_entries * m.msz := by
    rcases ht with h | h
    · exact h
    · exact absurd h.1 hn0
  have hme : Int.ModEq (m.num_entries * m.msz) m.head (m.tail + m.cnt * m.msz) := hmod
  obtain ⟨q, hq⟩ := hdt
  have hsb := slot_bound m.msz m.num_entries q hz (by rw [← hq]; exact ht'.2)
  rw [← hq] at hsb
  have hstep : Int.ModEq (m.num_entries * m.msz)
      (if m.tail + m.msz ≥ m.num_entries * m.msz then 0 else m.tail + m.msz)
      (m.tail + m.msz) := by
    by_cases h0 : m.tail + m.msz ≥ m.num_entries * m.msz
    · rw [if_pos h0]
      have e : m.tail + m.msz = m.num_entries * m.msz := by omega
      rw [e]
      show 0 % _ = (m.num_entries * m.msz) % _
      simp
    · rw [if_neg h0]
  refine ⟨hz, by show 0 ≤ m.cnt - 1; omega, by show m.cnt - 1 ≤ m.num_entries; omega, hdh,
    ?_, hh, Or.inl ?_, ?_⟩
  · show m.msz ∣ (if m.tail + m.msz ≥ m.num_entries * m.msz then 0 else m.tail + m.msz)
    split
    · exact dvd_zero _
    · exact dvd_add ⟨q, hq⟩ (dvd_refl _)
  · show 0 ≤ (if m.tail + m.msz ≥ m.num_entries * m.msz then 0 else m.tail + m.msz) ∧
      (if m.tail + m.msz ≥ m.num_entries * m.msz then 0 else m.tail + m.msz)
        < m.num_entries * m.msz
    by_cases h0 : m.tail + m.msz ≥ m.num_entries * m.msz
    · rw [if_pos h0]
      exact ⟨le_refl _, hB⟩
    · rw [if_neg h0]
      omega
  · show Int.ModEq (m.num_entries * m.msz) m.head
      ((if m.tail + m.msz ≥ m.num_entries * m.msz then 0 else m.tail + m.msz)
        + (m.cnt - 1) * m.msz)
    have e : m.tail + m.cnt * m.msz = (m.tail + m.msz) + (m.cnt - 1) * m.msz := by ring
    rw [e] at hme
    exact hme.trans (hstep.add_right _).symm

theorem MbfInv_flush (m : TN_MBF) (h : MbfInv m) :
    MbfInv { m with cnt := 0, tail := 0, head := 0 } := by
  obtain ⟨hz, hc0, hcn, _, _, _, _, _⟩ := h
  have hn : 0 ≤ m.num_entries := by omega
  refine ⟨hz, le_refl _, hn, dvd_zero _, dvd_zero _, ?_, ?_, by simp⟩
  · by_cases h0 : m.num_entries = 0
    · exact Or.inr ⟨h0, rfl⟩
    · exact Or.inl ⟨le_refl _, Int.mul_pos (by show 0 < m.num_entries; omega) hz⟩
  · by_cases h0 : m.num_entries = 0
    · exact Or.inr ⟨h0, rfl⟩
    · exact Or.inl ⟨le_refl _, Int.mul_pos (by show 0 < m.num_entries; omega) hz⟩

theorem exMbfFull_inv : MbfInv exMbfFull := by
  unfold MbfInv exMbfFull
  refine ⟨by decide, by decide, by decide, ⟨0, by decide⟩, ⟨0, by decide⟩, Or.inl (by decide),
    Or.inl (by decide), by decide⟩

/-- C36. Ring-buffer representation invariant.  With `B = num_entries * msz`, the invariant
`MbfInv` (positive message size, `0 ≤ cnt ≤ num_entries`, `head` and `tail` multiples of
`msz` inside `0 .. B - 1`, both `0` when there are no entries, and
`head ≡ tail + cnt * msz (mod B)`) holds for the control block that a successful
`tn_mbf_create` leaves (here for every `bufsz ≥ 0`, `msz > 0` and a block that is not yet a
message buffer; the buffer is empty with `bufsz / msz` entries), and for a block `m` that
satisfies it, it holds again after `mbf_fifo_write` in either mode, after `mbf_fifo_read` and
after `tn_mbf_flush`.  A write on a full buffer returns `TERR_OVERFLOW` and a read on an
empty buffer `TERR_UNDERFLOW`, both return `TERR_OUT_OF_MEM` when `num_entries = 0`, and in
these cases the control block, with `cnt`, `head`, `tail` and the stored bytes, is
unchanged. -/
theorem mbf_invariant_preserved (m0 : TN_MBF) (buf : Int → Nat) (bufsz msz : Int) (s : KState)
    (m : TN_MBF) (v : List Nat) (first : Bool)
    (hb : 0 ≤ bufsz) (hm : 0 < msz) (hid : m0.id ≠ ID_MESSAGEBUF) (hinv : MbfInv m) :
    (∃ m', (tn_mbf_create (some m0) buf bufsz msz s).1 = osError_t.TERR_NO_ERR ∧
      (tn_mbf_create (some m0) buf bufsz msz s).2.1 = some m' ∧ MbfInv m' ∧
      m'.cnt = 0 ∧ m'.num_entries = bufsz / msz ∧ m'.msz = msz) ∧
    MbfInv (mbf_fifo_write m v first).2 ∧
    MbfInv (mbf_fifo_read m).2.1 ∧
    (∃ m', (tn_mbf_flush (some m)).2 = some m' ∧ MbfInv m') ∧
    (m.num_entries ≠ 0 → m.cnt = m.num_entries →
      mbf_fifo_write m v first = (osError_t.TERR_OVERFLOW, m)) ∧
    (m.num_entries ≠ 0 → m.cnt = 0 →
      mbf_fifo_read m = (osError_t.TERR_UNDERFLOW, m, none)) ∧
    (m.num_entries = 0 →
      mbf_fifo_write m v first = (osError_t.TERR_OUT_OF_MEM, m) ∧
      mbf_fifo_read m = (osError_t.TERR_OUT_OF_MEM, m, none)) := by
  obtain ⟨m', h1, h2, h3, _, _, h6, h7, _⟩ := MbfInv_create m0 buf bufsz msz s hb hm hid
  refine ⟨⟨m', by rw [h1], by rw [h1], h2, h3, h7, h6⟩, MbfInv_write m v first hinv,
    MbfInv_read m hinv, ?_, ?_, ?_, ?_⟩
  · unfold tn_mbf_flush
    dsimp only
    split
    · exact ⟨m, rfl, hinv⟩
    · exact ⟨_, rfl, MbfInv_flush m hinv⟩
  · intro hn hc
    unfold mbf_fifo_write
    rw [if_neg hn, if_pos hc]
  · intro hn hc
    unfold mbf_fifo_read
    rw [if_neg hn, if_pos hc]
  · intro hn
    unfold mbf_fifo_write mbf_fifo_read
    rw [if_pos hn, if_pos hn]
    exact ⟨rfl, rfl⟩

/-- Witness for C36: a buffer of 7 bytes for messages of 2 bytes is created with 3 entries,
and the full one-slot buffer `exMbfFull` refuses a write with `TERR_OVERFLOW`. -/
theorem mbf_invariant_preserved_witness :
    (∃ m', (tn_mbf_create (some {}) (fun _ => 0) 7 2 exReady).2.1 = some m' ∧ MbfInv m' ∧
      m'.num_entries = 3) ∧
    MbfInv (mbf_fifo_read exMbfFull).2.1 ∧
    mbf_fifo_write exMbfFull [1, 2] false = (osError_t.TERR_OVERFLOW, exMbfFull) := by
  obtain ⟨⟨m', _, h2, h3, _, h5, _⟩, _, h7, _, h9, _⟩ :=
    mbf_invariant_preserved {} (fun _ => 0) 7 2 exReady exMbfFull [1, 2] false (by decide)
      (by decide) (by decide) exMbfFull_inv
  exact ⟨⟨m', h2, h3, by rw [h5]; decide⟩, h7, h9 (by decide) (by decide)⟩

/-! ### Receive with a blocked sender -/

theorem mbf_fifo_read_cases (m : TN_MBF) :
    ((mbf_fifo_read m).1 = osError_t.TERR_NO_ERR ∧ m.num_entries ≠ 0 ∧ m.cnt ≠ 0 ∧
      ∃ bytes, (mbf_fifo_read m).2.2 = some bytes) ∨
    ((mbf_fifo_read m).1 ≠ osError_t.TERR_NO_ERR ∧ (mbf_fifo_read m).2.1 = m ∧
      (m.num_entries = 0 ∨ m.cnt = 0)) := by
  unfold mbf_fifo_read
  by_cases h0 : m.num_entries = 0
  · rw [if_pos h0]
    exact Or.inr ⟨fun h => osError_t.noConfusion h, rfl, Or.inl h0⟩
  · rw [if_neg h0]
    by_cases h1 : m.cnt = 0
    · rw [if_pos h1]
      exact Or.inr ⟨fun h => osError_t.noConfusion h, rfl, Or.inr h1⟩
    · rw [if_neg h1]
      exact Or.inl ⟨rfl, h0, h1, _, rfl⟩

/-- `tn_mbf_receive` while a sender is blocked.  It returns `TERR_NO_ERR` and completes the
wait of the first sender with `TERR_NO_ERR`.  When `mbf_fifo_read` delivers a message, this
message goes to the receiver and the message of the sender is then written into the buffer;
otherwise the message of the sender is copied to the receiver and the buffer is not
touched.  `ram0` is the caller memory after the copy to the receiver. -/
theorem tn_mbf_receive_sender (fuel : Nat) (L : List TcbRef) (s : KState) (m : TN_MBF)
    (msg timeout rc_ptr q : Nat) (w : TcbRef) (rest : List TcbRef)
    (hwf : KWF s) (hfin : FiniteAbove L s) (hfuel : L.length < fuel)
    (hid : m.id = ID_MESSAGEBUF) (hmsg : msg ≠ 0) (hsq : m.send_queue = QueueRef.wait q)
    (hq : s.queues (QueueRef.wait q) = w :: rest) :
    ∃ m' s' ram0, tn_mbf_receive fuel (some m) msg timeout rc_ptr s
        = some (some osError_t.TERR_NO_ERR, some m', s') ∧
      KWF s' ∧ FiniteAbove L s' ∧
      WaitDone w osError_t.TERR_NO_ERR
        { s with queues := (QueueRemoveHead (QueueRef.wait q) s.queues).2, ram := ram0 } s' ∧
      ((mbf_fifo_read m).1 = osError_t.TERR_NO_ERR →
        ∃ bytes, (mbf_fifo_read m).2.2 = some bytes ∧
          ram0 = store s.ram msg bytes m.msz.toNat ∧
          m' = (mbf_fifo_write (mbf_fifo_read m).2.1
            (load ram0 (s.tcb w).smbf_msg m.msz.toNat) (s.tcb w).smbf_send_to_first).2) ∧
      ((mbf_fifo_read m).1 ≠ osError_t.TERR_NO_ERR →
        m' = m ∧ (m.num_entries = 0 ∨ m.cnt = 0) ∧
        ram0 = store s.ram msg (load s.ram (s.tcb w).smbf_msg m.msz.toNat) m.msz.toNat) := by
  obtain ⟨hnull, hhead, hq0, hw0⟩ := remove_head_facts s hwf q w rest hq
  have hwf0 := KWF_remove_head s hwf q
  have hne : isQueueEmpty m.send_queue s.queues = false := by
    simp [isQueueEmpty, hsq, hq]
  rcases mbf_fifo_read_cases m with ⟨hr1, _, _, bytes, hr2⟩ | ⟨hr1, hr2, hr3⟩
  · have hwf1 : KWF { s with queues := (QueueRemoveHead (QueueRef.wait q) s.queues).2
                             ram := store s.ram msg bytes m.msz.toNat } :=
      KWF_of_eq hwf0 rfl (fun t ht => ⟨ht, rfl⟩) rfl
    obtain ⟨s', h1, k1, fin1, hd⟩ :=
      ThreadWaitComplete_spec fuel L _ w hwf1 hfin hfuel hw0 hnull
    refine ⟨_, s', _, ?_, k1, fin1, hd, fun _ => ⟨bytes, hr2, rfl, rfl⟩,
      fun h => absurd hr1 h⟩
    unfold tn_mbf_receive
    simp only [hid, hmsg, ne_eq, not_true_eq_false, if_false, hr1, hr2, if_true, hne,
      Bool.false_eq_true, not_false_eq_true]
    rw [hsq, hhead, h1]
    rfl
  · have hwf1 : KWF { s with queues := (QueueRemoveHead (QueueRef.wait q) s.queues).2
                             ram := store s.ram msg
                               (load s.ram (s.tcb w).smbf_msg m.msz.toNat) m.msz.toNat } :=
      KWF_of_eq hwf0 rfl (fun t ht => ⟨ht, rfl⟩) rfl
    obtain ⟨s', h1, k1, fin1, hd⟩ :=
      ThreadWaitComplete_spec fuel L _ w hwf1 hfin hfuel hw0 hnull
    refine ⟨m, s', _, ?_, k1, fin1, hd, fun h => absurd h hr1, fun _ => ⟨rfl, hr3, rfl⟩⟩
    unfold tn_mbf_receive
    simp only [hid, hmsg, ne_eq, not_true_eq_false, if_false, hr1, hr2, hne,
      Bool.false_eq_true, not_false_eq_true, if_true]
    rw [hsq, hhead, h1]
    rfl

theorem load_store_disj (ram : Nat → Nat) (dst p n : Nat) (bytes : List Nat)
    (hd : dst + n ≤ p ∨ p + n ≤ dst) : load (store ram dst bytes n) p n = load ram p n := by
  unfold load
  apply List.map_congr_left
  intro i hi
  rw [List.mem_range] at hi
  unfold store
  rw [if_neg (by omega)]

theorem exSendBlocked_wf : KWF exSendBlocked := by
  refine KWF_of_eq exDelete_wf rfl ?_ rfl
  intro t ht
  by_cases h2 : t = TcbRef.task 2
  · subst h2
    exact absurd ht (by decide)
  · have e : exSendBlocked.tcb t = exDelete.tcb t := by
      show (if t = TcbRef.task 2 then _ else exDelete.tcb t) = _
      rw [if_neg h2]
    rw [e] at ht ⊢
    exact ⟨ht, rfl⟩

theorem exSendBlocked_finite : FiniteAbove exTasks exSendBlocked := by
  intro t ht
  have h2 : t ≠ TcbRef.task 2 := by
    intro h
    rw [h] at ht
    exact ht (by decide)
  have e : exSendBlocked.tcb t = exDelete.tcb t := by
    show (if t = TcbRef.task 2 then _ else exDelete.tcb t) = _
    rw [if_neg h2]
  rw [e]
  exact exDelete_finite t ht

/-- C37. Receive refills from a blocked sender.  Let the send queue of an existing buffer
hold the task `w` first (in a state with well-formed queues and finitely many tasks).
`tn_mbf_receive` returns `TERR_NO_ERR`; the result cell of `w` holds `TERR_NO_ERR`, `w` has
left the send queue and the timer queue and has no wait reason, and `w` is RUNNABLE and
linked in the ready queue of its priority, or SUSPEND if it was suspended while waiting.
When the buffer is full (`n ≥ 1` slots, `cnt = n`, oldest message in slot `ti`), the receiver
gets the oldest message, and the buffer then holds the other messages and the message of
`w`, at the back, or at the front if `w` was sending with `send_to_first`; it is full again.
The message of `w` is read after the copy to the receiver, so it is what `w` submitted when
the two areas do not overlap.  When the buffer has no entries or is empty, the message of `w`
is copied directly to the receiver and the control block (`cnt` included) is unchanged. -/
theorem receive_refills_from_blocked_sender (fuel : Nat) (L : List TcbRef) (s : KState)
    (m : TN_MBF) (msg timeout rc_ptr q : Nat) (w : TcbRef) (rest : List TcbRef)
    (n z ti : Nat)
    (hwf : KWF s) (hfin : FiniteAbove L s) (hfuel : L.length < fuel)
    (hid : m.id = ID_MESSAGEBUF) (hmsg : msg ≠ 0) (hsq : m.send_queue = QueueRef.wait q)
    (hq : s.queues (QueueRef.wait q) = w :: rest) :
    ∃ m' s', tn_mbf_receive fuel (some m) msg timeout rc_ptr s
        = some (some osError_t.TERR_NO_ERR, some m', s') ∧
      (∀ a, (s.tcb w).wait_rc = some a → s'.rc_mem a = osError_t.TERR_NO_ERR) ∧
      s'.queues (QueueRef.wait q) = rest ∧
      TmebRef.wait_timer w ∉ s'.timer_queue ∧
      (s'.tcb w).wait_reason = wait_reason_t.WAIT_REASON_NO ∧
      (if (s.tcb w).state &&& TSK_STATE_SUSPEND = 0 then
        (s'.tcb w).state = TSK_STATE_RUNNABLE ∧
        w ∈ s'.queues (QueueRef.ready (s'.tcb w).priority)
       else (s'.tcb w).state = TSK_STATE_SUSPEND) ∧
      (MbfRep m n z ti n →
        load s'.ram msg z = mbf_slot m.buf z ti ∧
        (mbf_contents m.buf n z ti n).head? = some (mbf_slot m.buf z ti) ∧
        m'.cnt = m.cnt ∧
        (∃ ti', MbfRep m' n z ti' n ∧
          mbf_contents m'.buf n z ti' n
            = if (s.tcb w).smbf_send_to_first = true then
                load (store s.ram msg (mbf_slot m.buf z ti) z) (s.tcb w).smbf_msg z ::
                  (mbf_contents m.buf n z ti n).tail
              else (mbf_contents m.buf n z ti n).tail ++
                [load (store s.ram msg (mbf_slot m.buf z ti) z) (s.tcb w).smbf_msg z]) ∧
        (msg + z ≤ (s.tcb w).smbf_msg ∨ (s.tcb w).smbf_msg + z ≤ msg →
          load (store s.ram msg (mbf_slot m.buf z ti) z) (s.tcb w).smbf_msg z
            = load s.ram (s.tcb w).smbf_msg z)) ∧
      (m.num_entries = 0 ∨ m.cnt = 0 →
        m' = m ∧
        load s'.ram msg m.msz.toNat = load s.ram (s.tcb w).smbf_msg m.msz.toNat) := by
  obtain ⟨m', s', ram0, h1, k1, _, ⟨⟨pr, _, e1⟩, _, e3, e4, e5, _, _, e8, _, _⟩, hyes, hno⟩ :=
    tn_mbf_receive_sender fuel L s m msg timeout rc_ptr q w rest hwf hfin hfuel hid hmsg hsq hq
  obtain ⟨_, _, r3, _⟩ := remove_head_facts s hwf q w rest hq
  refine ⟨m', s', h1, ?_, ?_, ?_, ?_, ?_, ?_, ?_⟩
  · intro a ha
    rw [e5]
    simp only [ha, Function.update_same]
  · rw [e3 q]
    exact r3
  · rw [e4]
    exact (List.Nodup.not_mem_erase hwf.2.2.2)
  · rw [e1]
  · have hst : (s'.tcb w).state = if (s.tcb w).state &&& TSK_STATE_SUSPEND = 0
        then TSK_STATE_RUNNABLE else TSK_STATE_SUSPEND := by rw [e1]
    split
    · rename_i hs
      rw [if_pos hs] at hst
      exact ⟨hst, k1.2.1 w hst⟩
    · rename_i hs
      rw [if_neg hs] at hst
      exact hst
  · intro hrep
    have hn : 1 ≤ n := by have := hrep.2.1; omega
    obtain ⟨c, rfl⟩ : ∃ c, n = c + 1 := ⟨n - 1, by omega⟩
    obtain ⟨hr1, hr2, hr3, hr4⟩ := mbf_read_rep m (c + 1) z ti c hrep
    obtain ⟨bytes, hb1, hb2, hb3⟩ := hyes hr1
    have hbytes : bytes = mbf_slot m.buf z ti := by
      rw [hr2] at hb1
      exact (Option.some.inj hb1).symm
    have hz : m.msz.toNat = z := by
      rw [hrep.2.2.2.1]
      exact Int.toNat_natCast z
    rw [hz, hbytes] at hb2
    rw [hz, hb2] at hb3
    have hlen : (load (store s.ram msg (mbf_slot m.buf z ti) z) (s.tcb w).smbf_msg z).length
        = z := load_length _ _ _
    have hold := mbf_contents_succ m.buf (c + 1) z ti c hrep.2.1
    refine ⟨?_, ?_, ?_, ?_, ?_⟩
    · show load s'.ram msg z = _
      rw [e8]
      show load ram0 msg z = _
      rw [hb2]
      exact load_store_same _ _ _ _ (memcpy_from_length _ _ _)
    · rw [hold]
      rfl
    · cases hsf : (s.tcb w).smbf_send_to_first with
      | true =>
        rw [hsf] at hb3
        obtain ⟨_, w2, _⟩ := mbf_write_first_rep _ (c + 1) z _ c _ hr3 (by omega) hlen
        rw [hb3, w2.2.2.2.2.2.1, hrep.2.2.2.2.2.1]
      | false =>
        rw [hsf] at hb3
        obtain ⟨_, w2, _⟩ := mbf_write_rep _ (c + 1) z _ c _ hr3 (by omega) hlen
        rw [hb3, w2.2.2.2.2.2.1, hrep.2.2.2.2.2.1]
    · cases hsf : (s.tcb w).smbf_send_to_first with
      | true =>
        rw [hsf] at hb3
        obtain ⟨_, w2, w3⟩ := mbf_write_first_rep _ (c + 1) z _ c _ hr3 (by omega) hlen
        refine ⟨_, by rw [hb3]; exact w2, ?_⟩
        rw [hb3, w3, hr4, hold]
        rfl
      | false =>
        rw [hsf] at hb3
        obtain ⟨_, w2, w3⟩ := mbf_write_rep _ (c + 1) z _ c _ hr3 (by omega) hlen
        refine ⟨_, by rw [hb3]; exact w2, ?_⟩
        rw [hb3, w3, hr4, hold]
        rfl
    · intro hd
      exact load_store_disj _ _ _ _ _ hd
  · intro hemp
    have hr1 : (mbf_fifo_read m).1 ≠ osError_t.TERR_NO_ERR := by
      rcases mbf_fifo_read_cases m with ⟨_, a, b, _⟩ | ⟨a, _⟩
      · rcases hemp with h | h
        · exact absurd h a
        · exact absurd h b
      · exact a
    obtain ⟨hm, _, hram⟩ := hno hr1
    refine ⟨hm, ?_⟩
    rw [e8]
    show load ram0 msg _ = _
    rw [hram]
    exact load_store_same _ _ _ _ (load_length _ _ _)

/-- Witness for C37 on `exSendBlocked` and the full one-slot buffer `exMbfBlocked`: the
receiver gets the stored message `[7, 8]` at `0x50`, the buffer then holds the message
`[1, 2]` of the blocked task 2, and task 2 is released with `TERR_NO_ERR`. -/
theorem receive_refills_from_blocked_sender_witness :
    ∃ m' s', tn_mbf_receive 5 (some exMbfBlocked) 0x50 TN_POLLING 0 exSendBlocked
        = some (some osError_t.TERR_NO_ERR, some m', s') ∧
      s'.rc_mem 0x30 = osError_t.TERR_NO_ERR ∧
      s'.queues (QueueRef.wait 1) = [TcbRef.task 3] ∧
      (s'.tcb (TcbRef.task 2)).state = TSK_STATE_RUNNABLE ∧
      load s'.ram 0x50 2 = [7, 8] ∧ m'.cnt = 1 ∧
      ∃ ti', mbf_contents m'.buf 1 2 ti' 1 = [[1, 2]] := by
  obtain ⟨m', s', h1, h2, h3, _, _, h6, h7, _⟩ :=
    receive_refills_from_blocked_sender 5 exTasks exSendBlocked exMbfBlocked 0x50 TN_POLLING 0 1
      (TcbRef.task 2) [TcbRef.task 3] 1 2 0 exSendBlocked_wf exSendBlocked_finite (by decide)
      rfl (by decide) rfl (by decide)
  rw [if_pos (by decide)] at h6
  obtain ⟨a1, _, a3, ⟨ti', _, a5⟩, _⟩ := h7
    ⟨by decide, by decide, by decide, rfl, rfl, rfl, rfl, rfl⟩
  refine ⟨m', s', h1, h2 0x30 (by decide), h3, h6.1, ?_, ?_, ti', ?_⟩
  · rw [a1]
    decide
  · rw [a3]
    rfl
  · rw [a5]
    decide

/-! ### The end of the wait of a suspended task -/

theorem find_max_blocked_priority_congr (m : Option QueueRef) (r : Nat) (s s' : KState)
    (hq : s'.queues = s.queues) (hp : ∀ t, (s'.tcb t).priority = (s.tcb t).priority) :
    find_max_blocked_priority m r s' = find_max_blocked_priority m r s := by
  unfold find_max_blocked_priority
  cases m with
  | none => rfl
  | some q =>
    dsimp only
    rw [hq]
    congr 1
    funext p t
    rw [hp]

/-- `task_wait_release` for a suspended waiter whose mutex holder, if any, needs no new
priority: only the control block of the waiter changes. -/
theorem task_wait_release_suspended (fuel : Nat) (w : TcbRef) (s : KState) (hfuel : 0 < fuel)
    (hst : (s.tcb w).state = TSK_STATE_WAIT ||| TSK_STATE_SUSPEND)
    (hH : ((s.tcb w).wait_reason = wait_reason_t.WAIT_REASON_MUTEX_I ∨
        (s.tcb w).wait_reason = wait_reason_t.WAIT_REASON_MUTEX_C) →
      s.holder (s.tcb w).pwait_queue ≠ TcbRef.null →
      (s.tcb (s.holder (s.tcb w).pwait_queue)).priority
        ≤ find_max_blocked_priority (s.tcb w).pwait_queue
            (s.tcb (s.holder (s.tcb w).pwait_queue)).base_priority s) :
    task_wait_release fuel w s
      = some { s with
          tcb := Function.update s.tcb w
            { s.tcb w with pwait_queue := none, state := TSK_STATE_SUSPEND,
                           wait_reason := wait_reason_t.WAIT_REASON_NO } } := by
  obtain ⟨fuel, rfl⟩ : ∃ n, fuel = n + 1 := ⟨fuel - 1, by omega⟩
  have hsus : ¬ ((s.tcb w).state &&& TSK_STATE_SUSPEND = 0) := by
    rw [hst]
    decide
  have hs2 : task_wait_release_state w s
      = { s with
          tcb := Function.update s.tcb w
            { s.tcb w with pwait_queue := none, state := TSK_STATE_SUSPEND } } := by
    unfold task_wait_release_state
    simp only [Function.update_same, hsus, if_false, Function.update_idem]
  have hprio : ∀ t, ((task_wait_release_state w s).tcb t).priority = (s.tcb t).priority := by
    intro t
    rw [hs2]
    by_cases ht : t = w
    · subst ht
      simp
    · simp [Function.update_noteq ht]
  have hbase : ∀ t, ((task_wait_release_state w s).tcb t).base_priority
      = (s.tcb t).base_priority := by
    intro t
    rw [hs2]
    by_cases ht : t = w
    · subst ht
      simp
    · simp [Function.update_noteq ht]
  have hhold : (task_wait_release_state w s).holder = s.holder := by rw [hs2]
  have hqs : (task_wait_release_state w s).queues = s.queues := by rw [hs2]
  have hmx : task_wait_release_mutex (fuel + 1) w
      (decide ((s.tcb w).wait_reason = wait_reason_t.WAIT_REASON_MUTEX_I ∨
        (s.tcb w).wait_reason = wait_reason_t.WAIT_REASON_MUTEX_C))
      (if (decide ((s.tcb w).wait_reason = wait_reason_t.WAIT_REASON_MUTEX_I ∨
        (s.tcb w).wait_reason = wait_reason_t.WAIT_REASON_MUTEX_C)) = true
        then (s.tcb w).pwait_queue else none)
      (task_wait_release_state w s) = some (task_wait_release_state w s) := by
    unfold task_wait_release_mutex
    by_cases hfm : (s.tcb w).wait_reason = wait_reason_t.WAIT_REASON_MUTEX_I ∨
        (s.tcb w).wait_reason = wait_reason_t.WAIT_REASON_MUTEX_C
    · simp only [hfm, decide_True, if_true, get_mutex_by_wait_queque, hhold]
      by_cases hn : s.holder (s.tcb w).pwait_queue = TcbRef.null
      · simp only [hn, ne_eq, not_true_eq_false, if_false]
      · simp only [ne_eq, hn, not_false_eq_true, if_true]
        split
        · unfold ThreadSetPriority
          rw [if_pos]
          rw [hprio, hbase, find_max_blocked_priority_congr _ _ s _ hqs hprio]
          exact hH hfm hn
        · rfl
    · simp only [hfm, decide_False, Bool.false_eq_true, if_false]
  unfold task_wait_release
  dsimp only
  rw [hmx, hs2]
  simp only [Option.map_some', clear_wait_reason, Function.update_same, Function.update_idem]

theorem SuspendedExit_intro (w : TcbRef) (rc : osError_t) (s s' : KState)
    (hnr : ∀ p, w ∉ s.queues (QueueRef.ready p))
    (hst : (s'.tcb w).state = TSK_STATE_SUSPEND)
    (hpr : (s'.tcb w).priority = (s.tcb w).priority)
    (hq : ∀ p, s'.queues (QueueRef.ready p) = s.queues (QueueRef.ready p))
    (hb : s'.ready_to_run_bmp = s.ready_to_run_bmp) (hn : s'.next = s.next)
    (hrc : ∀ a, (s.tcb w).wait_rc = some a → s'.rc_mem a = rc) :
    SuspendedExit w rc s s' := by
  have h1 : ¬ ((s'.tcb w).state &&& TSK_STATE_SUSPEND = 0) := by
    rw [hst]
    decide
  have h2 : (s'.tcb w).state &&& TSK_STATE_WAIT = 0 := by
    rw [hst]
    decide
  have hres : TaskResume w s' = (osError_t.TERR_NO_ERR, TaskToRunnable w s') := by
    unfold TaskResume
    rw [if_neg h1, if_pos h2]
  obtain ⟨n, b, he⟩ := TaskToRunnable_eq w s'
  refine ⟨hst, ?_, hq, hb, hn, hrc, by rw [hres], ?_, ?_⟩
  · intro p
    rw [hq p]
    exact hnr p
  · rw [hres, he]
    simp
  · rw [hres, he]
    show QueueAddTail (QueueRef.ready (s'.tcb w).priority) w s'.queues
      (QueueRef.ready (s.tcb w).priority) = _
    rw [hpr]
    unfold QueueAddTail
    rw [Function.update_same, hq]

theorem write_wait_rc_frame (w : TcbRef) (rc : osError_t) (s : KState) :
    (write_wait_rc w rc s).tcb = s.tcb ∧ (write_wait_rc w rc s).queues = s.queues ∧
    (write_wait_rc w rc s).ready_to_run_bmp = s.ready_to_run_bmp ∧
    (write_wait_rc w rc s).next = s.next ∧
    (∀ a, (s.tcb w).wait_rc = some a → (write_wait_rc w rc s).rc_mem a = rc) := by
  unfold write_wait_rc
  cases h : (s.tcb w).wait_rc with
  | none =>
    refine ⟨rfl, rfl, rfl, rfl, ?_⟩
    intro a ha
    cases ha
  | some b =>
    refine ⟨rfl, rfl, rfl, rfl, ?_⟩
    intro a ha
    cases ha
    exact Function.update_same _ _ _

theorem holder_le_find_max (m : Option QueueRef) (p base : Nat) (s s1 : KState) (hb : p ≤ base)
    (hw : ∀ qq, m = some qq → ∀ t ∈ s.queues qq, p ≤ (s.tcb t).priority)
    (hsub : ∀ qq t, t ∈ s1.queues qq → t ∈ s.queues qq)
    (hp : ∀ t, (s1.tcb t).priority = (s.tcb t).priority) :
    p ≤ find_max_blocked_priority m base s1 := by
  unfold find_max_blocked_priority
  cases m with
  | none => exact hb
  | some qq =>
    dsimp only
    refine le_foldl_min _ _ _ _ hb ?_
    intro t ht
    rw [hp t]
    exact hw qq rfl t (hsub qq t ht)

/-- The release of a suspended waiter from a state `s1` that differs from `s` in its queues
only, followed by the store of the result code. -/
theorem suspended_release_exit (fuel : Nat) (w : TcbRef) (rc : osError_t) (s s1 : KState)
    (hfuel : 0 < fuel)
    (hst : (s.tcb w).state = TSK_STATE_WAIT ||| TSK_STATE_SUSPEND)
    (hnr : ∀ p, w ∉ s.queues (QueueRef.ready p))
    (hH : ((s.tcb w).wait_reason = wait_reason_t.WAIT_REASON_MUTEX_I ∨
        (s.tcb w).wait_reason = wait_reason_t.WAIT_REASON_MUTEX_C) →
      s.holder (s.tcb w).pwait_queue ≠ TcbRef.null →
      (s.tcb (s.holder (s.tcb w).pwait_queue)).priority
          ≤ (s.tcb (s.holder (s.tcb w).pwait_queue)).base_priority ∧
        ∀ qq, (s.tcb w).pwait_queue = some qq → ∀ t ∈ s.queues qq,
          (s.tcb (s.holder (s.tcb w).pwait_queue)).priority ≤ (s.tcb t).priority)
    (htcb : s1.tcb = s.tcb) (hhold : s1.holder = s.holder)
    (hsub : ∀ qq t, t ∈ s1.queues qq → t ∈ s.queues qq)
    (hrdy : ∀ p, s1.queues (QueueRef.ready p) = s.queues (QueueRef.ready p))
    (hbmp : s1.ready_to_run_bmp = s.ready_to_run_bmp) (hnext : s1.next = s.next) :
    ∃ s2, task_wait_release fuel w s1 = some s2 ∧
      s2.queues = s1.queues ∧
      (∀ rc0, SuspendedExit w rc s (write_wait_rc w rc (write_wait_rc w rc0 s2))) ∧
      SuspendedExit w rc s (write_wait_rc w rc s2) := by
  have hrel := task_wait_release_suspended fuel w s1 hfuel (by rw [htcb]; exact hst) (by
    rw [htcb, hhold]
    intro hfm hn
    obtain ⟨h1, h2⟩ := hH hfm hn
    exact holder_le_find_max _ _ _ s s1 h1 h2 hsub (fun t => by rw [htcb]))
  refine ⟨_, hrel, rfl, ?_, ?_⟩
  · intro rc0
    obtain ⟨a1, a2, a3, a4, _⟩ := write_wait_rc_frame w rc0
      { s1 with
        tcb := Function.update s1.tcb w
          { s1.tcb w with pwait_queue := none, state := TSK_STATE_SUSPEND,
                          wait_reason := wait_reason_t.WAIT_REASON_NO } }
    obtain ⟨b1, b2, b3, b4, b5⟩ := write_wait_rc_frame w rc (write_wait_rc w rc0
      { s1 with
        tcb := Function.update s1.tcb w
          { s1.tcb w with pwait_queue := none, state := TSK_STATE_SUSPEND,
                          wait_reason := wait_reason_t.WAIT_REASON_NO } })
    refine SuspendedExit_intro w rc s _ hnr ?_ ?_ ?_ ?_ ?_ ?_
    · rw [b1, a1]
      simp
    · rw [b1, a1, htcb]
      simp
    · intro p
      rw [b2, a2]
      exact hrdy p
    · rw [b3, a3]
      exact hbmp
    · rw [b4, a4]
      exact hnext
    · intro a ha
      apply b5
      rw [a1, htcb]
      simpa using ha
  · obtain ⟨b1, b2, b3, b4, b5⟩ := write_wait_rc_frame w rc
      { s1 with
        tcb := Function.update s1.tcb w
          { s1.tcb w with pwait_queue := none, state := TSK_STATE_SUSPEND,
                          wait_reason := wait_reason_t.WAIT_REASON_NO } }
    refine SuspendedExit_intro w rc s _ hnr ?_ ?_ ?_ ?_ ?_ ?_
    · rw [b1]
      simp
    · rw [b1, htcb]
      simp
    · intro p
      rw [b2]
      exact hrdy p
    · rw [b3]
      exact hbmp
    · rw [b4]
      exact hnext
    · intro a ha
      apply b5
      rw [htcb]
      simpa using ha

/-- C31. The end of the wait of a suspended waiter does not make it ready.  Let `w` be in
state WAIT|SUSPEND and in no ready queue, and let the holder of the mutex `w` waits for, if
there is one, be at least as urgent as its base priority and as every task in the wait queue
of that mutex (so that `task_wait_release` finds no new priority for the holder).  Then
`ThreadWaitComplete`, the timeout handler `task_wait_release_handler` and, when `w` is the
only task in the wait queue `wait q`, `ThreadWaitDelete` all return and leave `w` in state
SUSPEND and in no ready queue, with the ready queues, the ready bitmap and the next task
unchanged and the result code (`TERR_NO_ERR`, `TERR_TIMEOUT`, `TERR_DLT`) in the result cell
of `w`; `TaskResume` then returns `TERR_NO_ERR` and makes `w` RUNNABLE at the tail of the
ready queue of its priority. -/
theorem suspended_waiter_exit_stays_suspended (fuel n q : Nat) (s : KState) (w : TcbRef)
    (hfuel : 0 < fuel) (hn : 1 < n) (hnull : w ≠ TcbRef.null)
    (hst : (s.tcb w).state = TSK_STATE_WAIT ||| TSK_STATE_SUSPEND)
    (hnr : ∀ p, w ∉ s.queues (QueueRef.ready p))
    (hH : ((s.tcb w).wait_reason = wait_reason_t.WAIT_REASON_MUTEX_I ∨
        (s.tcb w).wait_reason = wait_reason_t.WAIT_REASON_MUTEX_C) →
      s.holder (s.tcb w).pwait_queue ≠ TcbRef.null →
      (s.tcb (s.holder (s.tcb w).pwait_queue)).priority
          ≤ (s.tcb (s.holder (s.tcb w).pwait_queue)).base_priority ∧
        ∀ qq, (s.tcb w).pwait_queue = some qq → ∀ t ∈ s.queues qq,
          (s.tcb (s.holder (s.tcb w).pwait_queue)).priority ≤ (s.tcb t).priority) :
    (∃ s', ThreadWaitComplete fuel w s = some s' ∧
      SuspendedExit w osError_t.TERR_NO_ERR s s') ∧
    (∃ s', task_wait_release_handler fuel w s = some s' ∧
      SuspendedExit w osError_t.TERR_TIMEOUT s s') ∧
    (s.queues (QueueRef.wait q) = [w] →
      ∃ s', ThreadWaitDelete fuel (QueueRef.wait q) n s = some (1, s') ∧
        SuspendedExit w osError_t.TERR_DLT s s') := by
  refine ⟨?_, ?_, ?_⟩
  · obtain ⟨s2, h1, _, _, h4⟩ := suspended_release_exit fuel w osError_t.TERR_NO_ERR s
      (TimerDelete (TmebRef.wait_timer w) s) hfuel hst hnr hH rfl rfl (fun _ _ h => h)
      (fun _ => rfl) rfl rfl
    refine ⟨write_wait_rc w osError_t.TERR_NO_ERR s2, ?_, h4⟩
    unfold ThreadWaitComplete
    rw [if_neg hnull, h1]
    rfl
  · obtain ⟨s2, h1, _, _, h4⟩ := suspended_release_exit fuel w osError_t.TERR_TIMEOUT s
      { s with queues := QueueRemoveEntry w s.queues } hfuel hst hnr hH rfl rfl
      (fun _ _ h => List.mem_of_mem_erase h)
      (fun p => List.erase_of_not_mem (hnr p)) rfl rfl
    refine ⟨write_wait_rc w osError_t.TERR_TIMEOUT s2, ?_, h4⟩
    unfold task_wait_release_handler
    dsimp only
    rw [h1]
    rfl
  · intro hq
    obtain ⟨k, rfl⟩ : ∃ k, n = k + 2 := ⟨n - 2, by omega⟩
    have hsub : ∀ qq t, t ∈ (QueueRemoveHead (QueueRef.wait q) s.queues).2 qq →
        t ∈ s.queues qq := by
      intro qq t ht
      unfold QueueRemoveHead at ht
      by_cases hqq : qq = QueueRef.wait q
      · subst hqq
        simp [hq] at ht
      · simpa [Function.update_noteq hqq] using ht
    have hrdy : ∀ p, (QueueRemoveHead (QueueRef.wait q) s.queues).2 (QueueRef.ready p)
        = s.queues (QueueRef.ready p) := by
      intro p
      have hne : QueueRef.ready p ≠ QueueRef.wait q := fun h => QueueRef.noConfusion h
      show Function.update s.queues (QueueRef.wait q) (s.queues (QueueRef.wait q)).tail
        (QueueRef.ready p) = _
      exact Function.update_noteq hne _ _
    obtain ⟨s2, h1, h2, h3, _⟩ := suspended_release_exit fuel w osError_t.TERR_DLT s
      { s with queues := (QueueRemoveHead (QueueRef.wait q) s.queues).2
               timer_queue := s.timer_queue.erase (TmebRef.wait_timer w) } hfuel hst hnr hH
      rfl rfl hsub hrdy rfl rfl
    have hcomp : ThreadWaitComplete fuel w
        { s with queues := (QueueRemoveHead (QueueRef.wait q) s.queues).2 }
        = some (write_wait_rc w osError_t.TERR_NO_ERR s2) := by
      unfold ThreadWaitComplete
      rw [if_neg hnull]
      show (task_wait_release fuel w
        { s with queues := (QueueRemoveHead (QueueRef.wait q) s.queues).2
                 timer_queue := s.timer_queue.erase (TmebRef.wait_timer w) }).map _ = _
      rw [h1]
      rfl
    have hne : isQueueEmpty (QueueRef.wait q) s.queues = false := by
      simp [isQueueEmpty, hq]
    have hhead : (QueueRemoveHead (QueueRef.wait q) s.queues).1.getD TcbRef.null = w := by
      simp [QueueRemoveHead, hq]
    have hemp : isQueueEmpty (QueueRef.wait q)
        (write_wait_rc w osError_t.TERR_DLT
          (write_wait_rc w osError_t.TERR_NO_ERR s2)).queues = true := by
      rw [(write_wait_rc_frame w _ _).2.1, (write_wait_rc_frame w _ _).2.1, h2]
      simp [isQueueEmpty, QueueRemoveHead, hq]
    refine ⟨write_wait_rc w osError_t.TERR_DLT (write_wait_rc w osError_t.TERR_NO_ERR s2), ?_,
      h3 osError_t.TERR_NO_ERR⟩
    unfold ThreadWaitDelete
    simp only [hne, Bool.false_eq_true, if_false]
    rw [hhead, hcomp]
    simp only
    unfold ThreadWaitDelete
    rw [if_pos hemp]
    rfl

/-- Witness for C31 on `exDelete`: task 3 was suspended while waiting for a message; its
wait ends by timeout. -/
theorem suspended_waiter_exit_stays_suspended_witness :
    ∃ s', task_wait_release_handler 5 (TcbRef.task 3) exDelete = some s' ∧
      (s'.tcb (TcbRef.task 3)).state = TSK_STATE_SUSPEND ∧
      s'.next = TcbRef.task 1 ∧ s'.ready_to_run_bmp = 2 ^ 4 + 2 ^ 31 ∧
      (TaskResume (TcbRef.task 3) s').2.queues (QueueRef.ready 6) = [TcbRef.task 3] := by
  obtain ⟨_, ⟨s', h1, a1, _, _, a4, a5, _, _, _, a9⟩, _⟩ :=
    suspended_waiter_exit_stays_suspended 5 2 1 exDelete (TcbRef.task 3) (by decide)
      (by decide) (by decide) (by decide)
      (by
        intro p
        simp only [exDelete]
        split_ifs with h1 h2 h3
        · simp
        · simp
        · exact h3.elim
        · simp)
      (fun h => absurd h (by decide))
  exact ⟨s', h1, a1, a5, a4, a9.trans (by decide)⟩

/-- Counterexample for C31 as stated.  In `exSuspWait` task 3 is in state WAIT|SUSPEND and
waits for the mutex that task 1 holds; task 1 runs at priority 10, the priority of task 3,
while its base priority is 5; task 2 is the next task and the ready bitmap has the bits 7, 10
and 31.  When the wait of task 3 ends by timeout, task 3 is SUSPEND and its result cell holds
`TERR_TIMEOUT`, but `task_wait_release` has recomputed the priority of the holder: task 1
moved to the ready queue of priority 5, the bitmap has the bits 5, 7 and 31, and task 1 is
the next task. -/
theorem suspended_waiter_exit_changes_next :
    (exSuspWait.tcb (TcbRef.task 3)).state = TSK_STATE_WAIT ||| TSK_STATE_SUSPEND ∧
    exSuspWait.next = TcbRef.task 2 ∧ exSuspWait.ready_to_run_bmp = 0x80000480 ∧
    (task_wait_release_handler 5 (TcbRef.task 3) exSuspWait).map
        (fun s => ((s.tcb (TcbRef.task 3)).state, s.rc_mem 0x30, s.next, s.ready_to_run_bmp))
      = some (TSK_STATE_SUSPEND, osError_t.TERR_TIMEOUT, TcbRef.task 1, 0x800000A0) ∧
    (task_wait_release_handler 5 (TcbRef.task 3) exSuspWait).map
        (fun s => ((s.tcb (TcbRef.task 1)).priority, s.queues (QueueRef.ready 5),
          s.queues (QueueRef.ready 10)))
      = some (5, [TcbRef.task 1], []) := by
  refine ⟨by decide, by decide, by decide, by decide, by decide⟩

/-! ### The walk of the transitive priority change -/

theorem ThreadSetPriority_trace_snd (p : Nat) :
    ∀ (fuel : Nat) (task : TcbRef) (s : KState),
      (ThreadSetPriority_trace fuel task p s).map Prod.snd = ThreadSetPriority fuel task p s := by
  intro fuel
  induction fuel with
  | zero => intro task s; rfl
  | succ fuel ih =>
    intro task s
    unfold ThreadSetPriority_trace ThreadSetPriority
    split_ifs with h1 h2 h3
    · rfl
    · rfl
    · dsimp only
      rw [← ih, Option.map_map]
      rfl
    · rfl

theorem ThreadSetPriority_only_raises (p : Nat) (fuel : Nat) (task : TcbRef) (s s' : KState)
    (h : ThreadSetPriority fuel task p s = some s') :
    ∀ t, (s'.tcb t).priority ≤ (s.tcb t).priority := by
  refine ThreadSetPriority_induct (fun x => ∀ t, (x.tcb t).priority ≤ (s.tcb t).priority) p
    ?_ ?_ fuel task s s' h (fun _ => le_refl _)
  · intro x t hx hp _ u
    unfold set_priority_field
    by_cases hu : u = t
    · subst hu
      simp only [Function.update_same]
      exact le_trans (le_of_lt hp) (hx u)
    · simp only [Function.update_noteq hu]
      exact hx u
  · intro x t hx hp _ u
    obtain ⟨n, b, m, he⟩ := ThreadChangePriority_eq t p x
    rw [he]
    by_cases hu : u = t
    · subst hu
      simp only [Function.update_same]
      exact le_trans (le_of_lt hp) (hx u)
    · simp only [Function.update_noteq hu]
      exact hx u

/-- The rounds of `ThreadSetPriority` that do not end the loop visit pairwise different
tasks, each with a priority above `p`. -/
theorem ThreadSetPriority_trace_spec (p : Nat) (L : List TcbRef) :
    ∀ (fuel : Nat) (task : TcbRef) (s : KState),
      (∀ t, p < (s.tcb t).priority → t ∈ L) →
      L.countP (fun t => decide (p < (s.tcb t).priority)) < fuel →
      ∃ visits s', ThreadSetPriority_trace fuel task p s = some (visits, s') ∧
        visits.head? = some task ∧ visits.dropLast.Nodup ∧
        ∀ t, t ∈ visits.dropLast → p < (s.tcb t).priority := by
  intro fuel
  induction fuel with
  | zero => intro task s _ h; omega
  | succ fuel ih =>
    intro task s hL hc
    unfold ThreadSetPriority_trace
    split_ifs with h1 h2 h3
    · exact ⟨_, _, rfl, rfl, List.nodup_nil, fun t ht => by cases ht⟩
    · exact ⟨_, _, rfl, rfl, List.nodup_nil, fun t ht => by cases ht⟩
    · have hgt : p < (s.tcb task).priority := Nat.lt_of_not_le h1
      have hlt : L.countP (fun t => decide (p < ((set_priority_field task p s).tcb t).priority))
          < L.countP (fun t => decide (p < (s.tcb t).priority)) := by
        refine countP_lt_of_flip L _ _ task (hL task hgt) ?_ (by simpa using hgt) ?_
        · intro x _ hx
          unfold set_priority_field at hx
          by_cases hxt : x = task
          · subst hxt; simpa using hgt
          · simpa [Function.update_noteq hxt] using hx
        · simp [set_priority_field]
      have hL1 : ∀ t, p < ((set_priority_field task p s).tcb t).priority → t ∈ L := by
        intro t ht
        unfold set_priority_field at ht
        by_cases hxt : t = task
        · subst hxt; exact hL t hgt
        · simp only [Function.update_noteq hxt] at ht
          exact hL t ht
      obtain ⟨visits, s', e1, e2, e3, e4⟩ :=
        ih ((set_priority_field task p s).holder (get_mutex_by_wait_queque
          ((set_priority_field task p s).tcb task).pwait_queue))
          (set_priority_field task p s) hL1 (by omega)
      have hne : visits ≠ [] := by
        intro hv
        rw [hv] at e2
        cases e2
      dsimp only
      rw [e1]
      refine ⟨task :: visits, s', rfl, rfl, ?_, ?_⟩
      · rw [List.dropLast_cons_of_ne_nil hne, List.nodup_cons]
        refine ⟨?_, e3⟩
        intro hmem
        have := e4 task hmem
        simp [set_priority_field] at this
      · intro t ht
        rw [List.dropLast_cons_of_ne_nil hne] at ht
        rcases List.mem_cons.mp ht with h | h
        · rw [h]; exact hgt
        · have h5 := e4 t h
          unfold set_priority_field at h5
          by_cases hxt : t = task
          · rw [hxt]; exact hgt
          · simpa [Function.update_noteq hxt] using h5
    · exact ⟨_, _, rfl, rfl, List.nodup_nil, fun t ht => by cases ht⟩

theorem count_le_two_of_dropLast_nodup {α : Type} [DecidableEq α] (l : List α)
    (h : l.dropLast.Nodup) (t : α) : l.count t ≤ 2 := by
  rcases List.eq_nil_or_concat l with hl | ⟨l2, a, hl⟩
  · rw [hl]
    simp
  · rw [hl, List.concat_eq_append] at h ⊢
    rw [List.dropLast_concat] at h
    rw [List.count_append]
    have h1 := List.nodup_iff_count_le_one.mp h t
    have h2 : List.count t [a] ≤ 1 := by
      rw [List.count_singleton]
      split <;> omega
    omega

/-- C35. The priority-boost walk ends and only raises urgency.  Let only the control blocks
of the list `L` have a priority numerically above `p` (a finite state); the wait-for chain
may be cyclic.  With more rounds of fuel than `L` has entries, `ThreadSetPriority(task, p)`
returns; the walk starts at `task`, its rounds other than the last visit pairwise different
tasks, so every task is visited at most twice; and afterwards the priority of every task is
numerically at most its priority before the call. -/
theorem priority_walk_terminates (p : Nat) (L : List TcbRef) (fuel : Nat) (task : TcbRef)
    (s : KState) (hL : ∀ t, p < (s.tcb t).priority → t ∈ L) (hfuel : L.length < fuel) :
    ∃ visits s', ThreadSetPriority_trace fuel task p s = some (visits, s') ∧
      ThreadSetPriority fuel task p s = some s' ∧
      visits.head? = some task ∧ visits.dropLast.Nodup ∧
      (∀ t, visits.count t ≤ 2) ∧
      (∀ t, (s'.tcb t).priority ≤ (s.tcb t).priority) := by
  obtain ⟨visits, s', h1, h2, h3, _⟩ := ThreadSetPriority_trace_spec p L fuel task s hL
    (lt_of_le_of_lt (List.countP_le_length _) hfuel)
  have h5 : ThreadSetPriority fuel task p s = some s' := by
    rw [← ThreadSetPriority_trace_snd, h1]
    rfl
  exact ⟨visits, s', h1, h5, h2, h3, count_le_two_of_dropLast_nodup visits h3,
    ThreadSetPriority_only_raises p fuel task s s' h5⟩

/-- Witness for C35 on the deadlock `exDeadlock`: `ThreadSetPriority(task 1, 3)` visits task
1, task 2 and task 1 again, and gives both the priority 3. -/
theorem priority_walk_terminates_witness :
    (ThreadSetPriority_trace 5 (TcbRef.task 1) 3 exDeadlock).map
        (fun r => (r.1, (r.2.tcb (TcbRef.task 1)).priority, (r.2.tcb (TcbRef.task 2)).priority))
      = some ([TcbRef.task 1, TcbRef.task 2, TcbRef.task 1], 3, 3) ∧
    ∃ visits s', ThreadSetPriority_trace 5 (TcbRef.task 1) 3 exDeadlock = some (visits, s') ∧
      ThreadSetPriority 5 (TcbRef.task 1) 3 exDeadlock = some s' ∧
      (∀ t, visits.count t ≤ 2) ∧
      (∀ t, (s'.tcb t).priority ≤ (exDeadlock.tcb t).priority) := by
  obtain ⟨visits, s', h1, h2, _, _, h5, h6⟩ :=
    priority_walk_terminates 3 exTasks 5 (TcbRef.task 1) exDeadlock
      (by
        intro t h
        by_contra hn
        simp only [exTasks, List.mem_cons, List.mem_singleton, not_or, List.not_mem_nil,
          not_false_eq_true, and_true] at hn
        simp [exDeadlock, hn.1, hn.2.1, hn.2.2.1] at h)
      (by decide)
  exact ⟨by decide, visits, s', h1, h2, h5, h6⟩

/-! ### thread.c: creation of a thread -/

theorem and_seven (n : Nat) : n &&& 7 = n % 8 := Nat.and_pow_two_sub_one_eq_mod n 3

theorem stack_push_spec (top : Nat) (htop : top ≤ 2 ^ 32) :
    ∀ (vs : List Nat) (j : Nat) (r : Nat → Nat), 4 * (j + vs.length) ≤ top →
      (vs.foldl thread_c.stack_push ((top - 4 * j) % 2 ^ 32, r)).1
        = (top - 4 * (j + vs.length)) % 2 ^ 32 ∧
      (∀ i, i < vs.length →
        (vs.foldl thread_c.stack_push ((top - 4 * j) % 2 ^ 32, r)).2 (top - 4 * (j + i + 1))
          = vs.getD i 0) ∧
      (∀ a, a < top - 4 * (j + vs.length) ∨ top - 4 * j ≤ a →
        (vs.foldl thread_c.stack_push ((top - 4 * j) % 2 ^ 32, r)).2 a = r a) := by
  intro vs
  induction vs with
  | nil =>
    intro j r _
    refine ⟨rfl, ?_, fun _ _ => rfl⟩
    intro i hi
    cases hi
  | cons v rest ih =>
    intro j r hlen
    simp only [List.length_cons] at hlen
    have hsp : ((top - 4 * j) % 2 ^ 32 + 2 ^ 32 - 4) % 2 ^ 32 = (top - 4 * (j + 1)) % 2 ^ 32 := by
      omega
    have hsp2 : (top - 4 * (j + 1)) % 2 ^ 32 = top - 4 * (j + 1) := by omega
    have hstep : thread_c.stack_push ((top - 4 * j) % 2 ^ 32, r) v
        = ((top - 4 * (j + 1)) % 2 ^ 32, Function.update r (top - 4 * (j + 1)) v) := by
      unfold thread_c.stack_push
      dsimp only
      rw [hsp, hsp2]
    rw [List.foldl_cons, hstep]
    obtain ⟨i1, i2, i3⟩ := ih (j + 1) (Function.update r (top - 4 * (j + 1)) v) (by omega)
    refine ⟨?_, ?_, ?_⟩
    · rw [i1, List.length_cons]
      have e : j + 1 + rest.length = j + (rest.length + 1) := by omega
      rw [e]
    · intro i hi
      cases i with
      | zero =>
        rw [i3 _ (Or.inr (by omega))]
        simp
      | succ i =>
        simp only [List.length_cons] at hi
        have := i2 i (by omega)
        have e : top - 4 * (j + (i + 1) + 1) = top - 4 * (j + 1 + i + 1) := by omega
        rw [e, this]
        simp
    · intro a ha
      simp only [List.length_cons] at ha
      rw [i3 a (by omega)]
      exact Function.update_noteq (by omega) _ _

theorem fill_stack_mem (fill sm : Nat) :
    ∀ (n : Nat) (ram : Nat → Nat) (j : Nat), j < n →
      thread_c.fill_stack fill sm n ram ((sm + 4 * j) % 2 ^ 32) = fill := by
  intro n
  induction n with
  | zero => intro ram j hj; omega
  | succ n ih =>
    intro ram j hj
    unfold thread_c.fill_stack
    rw [List.range_succ, List.foldl_append]
    simp only [List.foldl_cons, List.foldl_nil]
    by_cases he : (sm + 4 * j) % 2 ^ 32 = (sm + 4 * n) % 2 ^ 32
    · rw [he, Function.update_same]
    · rw [Function.update_noteq he]
      have hjn : j < n := by
        by_contra hc
        have : j = n := by omega
        exact he (by rw [this])
      exact ih ram j hjn

theorem thread_c_set_state_fields (th : TcbRef) (st : thread_c.osThreadState_t)
    (k : thread_c.knlInfo_t) (x : TcbRef) :
    (∃ st2, (thread_c.set_state th st k).thread x = { k.thread x with state := st2 }) ∧
    (thread_c.set_state th st k).ram = k.ram := by
  unfold thread_c.set_state
  refine ⟨?_, rfl⟩
  by_cases hx : x = th
  · subst hx
    exact ⟨st, by simp only [Function.update_same]⟩
  · exact ⟨(k.thread x).state, by simp only [Function.update_noteq hx]⟩

theorem thread_c_ready_dispatch_fields (th : TcbRef) (k : thread_c.knlInfo_t) (x : TcbRef) :
    (∃ st, (thread_c.ThreadDispatch th (thread_c.ThreadReadyAdd th k)).thread x
      = { k.thread x with state := st }) ∧
    (thread_c.ThreadDispatch th (thread_c.ThreadReadyAdd th k)).ram = k.ram := by
  have hadd : (∃ st, (thread_c.ThreadReadyAdd th k).thread x = { k.thread x with state := st }) ∧
      (thread_c.ThreadReadyAdd th k).ram = k.ram := by
    unfold thread_c.ThreadReadyAdd
    dsimp only
    exact thread_c_set_state_fields th _ _ x
  have hdis : ∀ k0 : thread_c.knlInfo_t,
      (∃ st, (thread_c.ThreadDispatch th k0).thread x = { k0.thread x with state := st }) ∧
      (thread_c.ThreadDispatch th k0).ram = k0.ram := by
    intro k0
    have hsw : ∀ (a b : TcbRef),
        (∃ st, (thread_c.ThreadSwitch a (thread_c.set_state b
          thread_c.osThreadState_t.ThreadStateReady k0)).thread x
            = { k0.thread x with state := st }) ∧
        (thread_c.ThreadSwitch a (thread_c.set_state b
          thread_c.osThreadState_t.ThreadStateReady k0)).ram = k0.ram := by
      intro a b
      obtain ⟨⟨s1, e1⟩, r1⟩ := thread_c_set_state_fields b
        thread_c.osThreadState_t.ThreadStateReady k0 x
      obtain ⟨⟨s2, e2⟩, r2⟩ := thread_c_set_state_fields a
        thread_c.osThreadState_t.ThreadStateRunning
        (thread_c.set_state b thread_c.osThreadState_t.ThreadStateReady k0) x
      refine ⟨⟨s2, ?_⟩, ?_⟩
      · show (thread_c.set_state a thread_c.osThreadState_t.ThreadStateRunning
          (thread_c.set_state b thread_c.osThreadState_t.ThreadStateReady k0)).thread x = _
        rw [e2, e1]
      · show (thread_c.set_state a thread_c.osThreadState_t.ThreadStateRunning
          (thread_c.set_state b thread_c.osThreadState_t.ThreadStateReady k0)).ram = _
        rw [r2, r1]
    unfold thread_c.ThreadDispatch
    dsimp only
    split_ifs
    · exact hsw _ _
    · exact ⟨⟨(k0.thread x).state, rfl⟩, rfl⟩
    · exact hsw _ _
    · exact ⟨⟨(k0.thread x).state, rfl⟩, rfl⟩
  obtain ⟨⟨s1, e1⟩, r1⟩ := hadd
  obtain ⟨⟨s2, e2⟩, r2⟩ := hdis (thread_c.ThreadReadyAdd th k)
  exact ⟨⟨s2, by rw [e2, e1]⟩, by rw [r2, r1]⟩

theorem ThreadStackInit_spec (c : thread_c.ThreadConst) (f arg : Nat) (th : TcbRef)
    (k : thread_c.knlInfo_t)
    (htop : (k.thread th).stk_mem + (k.thread th).stk_size ≤ 2 ^ 32)
    (h64 : 64 ≤ (k.thread th).stk_mem + (k.thread th).stk_size) :
    ((thread_c.ThreadStackInit c f arg th k).thread th).stk
      = (k.thread th).stk_mem + (k.thread th).stk_size - 64 ∧
    ((thread_c.ThreadStackInit c f arg th k).thread th).priority = (k.thread th).priority ∧
    ((thread_c.ThreadStackInit c f arg th k).thread th).base_priority
      = (k.thread th).base_priority ∧
    ((thread_c.ThreadStackInit c f arg th k).thread th).id = (k.thread th).id ∧
    (∀ i, i < 16 →
      (thread_c.ThreadStackInit c f arg th k).ram
          ((k.thread th).stk_mem + (k.thread th).stk_size - 64 + 4 * i)
        = (thread_c.frame_words c f arg).reverse.getD i 0) ∧
    (∀ a, a < (k.thread th).stk_mem + (k.thread th).stk_size - 64 →
      (thread_c.ThreadStackInit c f arg th k).ram a = k.ram a) := by
  obtain ⟨p1, p2, p3⟩ := stack_push_spec _ htop (thread_c.frame_words c f arg) 0 k.ram
    (by simp only [thread_c.frame_words, List.length_cons, List.length_nil]; omega)
  have hlen : (thread_c.frame_words c f arg).length = 16 := rfl
  rw [hlen] at p1 p2 p3
  simp only [Nat.mul_zero, Nat.sub_zero, Nat.zero_add] at p1 p2 p3
  have hmod : ((k.thread th).stk_mem + (k.thread th).stk_size - 4 * 16) % 2 ^ 32
      = (k.thread th).stk_mem + (k.thread th).stk_size - 64 := by omega
  unfold thread_c.ThreadStackInit
  dsimp only
  refine ⟨?_, ?_, ?_, ?_, ?_, ?_⟩
  · rw [Function.update_same]
    show (List.foldl thread_c.stack_push _ _).1 = _
    rw [p1, hmod]
  · rw [Function.update_same]
  · rw [Function.update_same]
  · rw [Function.update_same]
  · intro i hi
    have h := p2 (15 - i) (by omega)
    have e : (k.thread th).stk_mem + (k.thread th).stk_size - 4 * (15 - i + 1)
        = (k.thread th).stk_mem + (k.thread th).stk_size - 64 + 4 * i := by omega
    rw [e] at h
    rw [h]
    unfold thread_c.frame_words
    interval_cases i <;> rfl
  · intro a ha
    exact p3 a (Or.inl (by omega))

theorem ThreadNew_valid (c : thread_c.ThreadConst) (f arg : Nat) (a : thread_c.osThreadAttr_t)
    (k : thread_c.knlInfo_t) (hf : f ≠ 0) (hcb : a.cb_mem ≠ TcbRef.null)
    (hsz : c.sizeof_osThread_t ≤ a.cb_size) (hsm : a.stack_mem ≠ 0)
    (hal : a.stack_mem % 8 = 0) (hss : 64 ≤ a.stack_size) (hsa : a.stack_size % 8 = 0)
    (hp : a.priority = c.osPriorityNone ∨
      (c.osPriorityIdle ≤ a.priority ∧ a.priority ≤ c.osPriorityISR)) :
    thread_c.ThreadNew c f arg (some a) k
      = (a.cb_mem, thread_c.ThreadDispatch a.cb_mem (thread_c.ThreadReadyAdd a.cb_mem
          (thread_c.ThreadStackInit c f arg a.cb_mem
            { k with
              thread := Function.update k.thread a.cb_mem
                { k.thread a.cb_mem with
                  stk_mem := a.stack_mem, stk_size := a.stack_size,
                  base_priority :=
                    (if a.priority = c.osPriorityNone then c.osPriorityNormal
                      else a.priority) % 256,
                  priority :=
                    (if a.priority = c.osPriorityNone then c.osPriorityNormal
                      else a.priority) % 256,
                  name := a.name, id := c.ID_THREAD, tslice_count := 0, mutex_que := [] }
              ram := thread_c.fill_stack c.FILL_STACK_VALUE a.stack_mem (a.stack_size / 4)
                k.ram }))) := by
  have h2 : ¬ (a.cb_mem = TcbRef.null ∨ a.cb_size < c.sizeof_osThread_t) := by
    rintro (h | h)
    · exact hcb h
    · omega
  have h3 : ¬ (a.stack_mem = 0 ∨ a.stack_mem &&& 7 ≠ 0 ∨ a.stack_size < 64 ∨
      a.stack_size &&& 7 ≠ 0) := by
    rw [and_seven, and_seven]
    rintro (h | h | h | h)
    · exact hsm h
    · exact h hal
    · omega
    · exact h hsa
  have h4 : ¬ (a.priority ≠ c.osPriorityNone ∧
      (a.priority < c.osPriorityIdle ∨ a.priority > c.osPriorityISR)) := by
    rintro ⟨h, h5⟩
    rcases hp with hp | hp
    · exact h hp
    · omega
  unfold thread_c.ThreadNew
  simp only [if_neg hf, if_neg h2, if_neg h3, if_neg h4]

/-- C40. `ThreadNew` validates before it writes.  When the function address is 0, `attr` is
`NULL`, `cb_mem` is `NULL`, `cb_size` is below `sizeof(osThread_t)`, `stack_mem` is `NULL`
or not a multiple of 8, `stack_size` is below 64 or not a multiple of 8, or the priority is
neither `osPriorityNone` nor within `osPriorityIdle .. osPriorityISR`, `ThreadNew` returns
`NULL` and the state (control blocks, stack memory, kernel data) is unchanged.  Otherwise,
for priorities that fit the `int8_t` fields and a stack that does not wrap around the
address space, it returns the control block; there `priority` and `base_priority` are the
requested priority (`osPriorityNormal` for `osPriorityNone`), `id` is `ID_THREAD`, the saved
stack pointer is `stack_mem + stack_size - 64` and lies inside the stack, every stack word
below it holds the fill value, and the sixteen words from it upwards hold the initial frame
(R4 to R11, R0 with the argument, R1, R2, R3, R12, R14 with the address of `osThreadExit`,
the entry point and xPSR). -/
theorem thread_new_validates_before_writing (c : thread_c.ThreadConst) (f arg : Nat)
    (attr : Option thread_c.osThreadAttr_t) (k : thread_c.knlInfo_t)
    (hISR : c.osPriorityISR ≤ 127) (hNormal : c.osPriorityNormal ≤ 127) :
    ((f = 0 ∨ attr = none ∨ ∃ a, attr = some a ∧
        (a.cb_mem = TcbRef.null ∨ a.cb_size < c.sizeof_osThread_t ∨ a.stack_mem = 0 ∨
          a.stack_mem % 8 ≠ 0 ∨ a.stack_size < 64 ∨ a.stack_size % 8 ≠ 0 ∨
          (a.priority ≠ c.osPriorityNone ∧
            (a.priority < c.osPriorityIdle ∨ c.osPriorityISR < a.priority)))) →
      thread_c.ThreadNew c f arg attr k = (TcbRef.null, k)) ∧
    (∀ a, attr = some a → f ≠ 0 → a.cb_mem ≠ TcbRef.null →
      c.sizeof_osThread_t ≤ a.cb_size → a.stack_mem ≠ 0 → a.stack_mem % 8 = 0 →
      64 ≤ a.stack_size → a.stack_size % 8 = 0 →
      (a.priority = c.osPriorityNone ∨
        (c.osPriorityIdle ≤ a.priority ∧ a.priority ≤ c.osPriorityISR)) →
      a.stack_mem + a.stack_size ≤ 2 ^ 32 →
      ∃ k', thread_c.ThreadNew c f arg attr k = (a.cb_mem, k') ∧
        (k'.thread a.cb_mem).priority
          = (if a.priority = c.osPriorityNone then c.osPriorityNormal else a.priority) ∧
        (k'.thread a.cb_mem).base_priority
          = (if a.priority = c.osPriorityNone then c.osPriorityNormal else a.priority) ∧
        (k'.thread a.cb_mem).id = c.ID_THREAD ∧
        (k'.thread a.cb_mem).stk = a.stack_mem + a.stack_size - 64 ∧
        a.stack_mem ≤ (k'.thread a.cb_mem).stk ∧
        (k'.thread a.cb_mem).stk < a.stack_mem + a.stack_size ∧
        (∀ j, a.stack_mem + 4 * j < a.stack_mem + a.stack_size - 64 →
          k'.ram (a.stack_mem + 4 * j) = c.FILL_STACK_VALUE) ∧
        (∀ i, i < 16 → k'.ram (a.stack_mem + a.stack_size - 64 + 4 * i)
          = (thread_c.frame_words c f arg).reverse.getD i 0) ∧
        k'.ram (a.stack_mem + a.stack_size - 64 + 32) = arg ∧
        k'.ram (a.stack_mem + a.stack_size - 64 + 52) = c.osThreadExit ∧
        k'.ram (a.stack_mem + a.stack_size - 64 + 56) = f ∧
        k'.ram (a.stack_mem + a.stack_size - 64 + 60) = 0x01000000) := by
  constructor
  · intro h
    unfold thread_c.ThreadNew
    cases attr with
    | none => rfl
    | some a =>
      dsimp only
      by_cases h1 : f = 0
      · rw [if_pos h1]
      rw [if_neg h1]
      by_cases h2 : a.cb_mem = TcbRef.null ∨ a.cb_size < c.sizeof_osThread_t
      · rw [if_pos h2]
      rw [if_neg h2]
      by_cases h3 : a.stack_mem = 0 ∨ a.stack_mem &&& 7 ≠ 0 ∨ a.stack_size < 64 ∨
          a.stack_size &&& 7 ≠ 0
      · rw [if_pos h3]
      rw [if_neg h3]
      by_cases h4 : a.priority ≠ c.osPriorityNone ∧
          (a.priority < c.osPriorityIdle ∨ a.priority > c.osPriorityISR)
      · rw [if_pos h4]
      exfalso
      rw [and_seven, and_seven] at h3
      rcases h with h | h | ⟨b, hb, h⟩
      · exact h1 h
      · cases h
      · cases hb
        rcases h with h | h | h | h | h | h | h
        · exact h2 (Or.inl h)
        · exact h2 (Or.inr h)
        · exact h3 (Or.inl h)
        · exact h3 (Or.inr (Or.inl h))
        · exact h3 (Or.inr (Or.inr (Or.inl h)))
        · exact h3 (Or.inr (Or.inr (Or.inr h)))
        · exact h4 h
  · intro a hattr hf hcb hsz hsm hal hss hsa hp hwrap
    subst hattr
    rw [ThreadNew_valid c f arg a k hf hcb hsz hsm hal hss hsa hp]
    have hpr : (if a.priority = c.osPriorityNone then c.osPriorityNormal else a.priority) % 256
        = (if a.priority = c.osPriorityNone then c.osPriorityNormal else a.priority) := by
      apply Nat.mod_eq_of_lt
      split
      · omega
      · rcases hp with hp | hp
        · rename_i hne
          exact absurd hp hne
        · omega
    obtain ⟨k1, hk1⟩ : ∃ k1 : thread_c.knlInfo_t, k1 =
        { k with
          thread := Function.update k.thread a.cb_mem
            { k.thread a.cb_mem with
              stk_mem := a.stack_mem, stk_size := a.stack_size,
              base_priority :=
                (if a.priority = c.osPriorityNone then c.osPriorityNormal
                  else a.priority) % 256,
              priority :=
                (if a.priority = c.osPriorityNone then c.osPriorityNormal
                  else a.priority) % 256,
              name := a.name, id := c.ID_THREAD, tslice_count := 0, mutex_que := [] }
          ram := thread_c.fill_stack c.FILL_STACK_VALUE a.stack_mem (a.stack_size / 4)
            k.ram } := ⟨_, rfl⟩
    rw [← hk1]
    have g1 : (k1.thread a.cb_mem).stk_mem = a.stack_mem := by
      rw [hk1]; simp only [Function.update_same]
    have g2 : (k1.thread a.cb_mem).stk_size = a.stack_size := by
      rw [hk1]; simp only [Function.update_same]
    have g3 : (k1.thread a.cb_mem).priority
        = (if a.priority = c.osPriorityNone then c.osPriorityNormal else a.priority) := by
      rw [hk1]; simp only [Function.update_same]; exact hpr
    have g4 : (k1.thread a.cb_mem).base_priority
        = (if a.priority = c.osPriorityNone then c.osPriorityNormal else a.priority) := by
      rw [hk1]; simp only [Function.update_same]; exact hpr
    have g5 : (k1.thread a.cb_mem).id = c.ID_THREAD := by
      rw [hk1]; simp only [Function.update_same]
    have g6 : k1.ram = thread_c.fill_stack c.FILL_STACK_VALUE a.stack_mem (a.stack_size / 4)
        k.ram := by rw [hk1]
    obtain ⟨q1, q2, q3, q4, q5, q6⟩ := ThreadStackInit_spec c f arg a.cb_mem k1
      (by rw [g1, g2]; exact hwrap) (by rw [g1, g2]; omega)
    rw [g1, g2] at q1 q5 q6
    rw [g3] at q2
    rw [g4] at q3
    rw [g5] at q4
    obtain ⟨⟨st, e1⟩, e2⟩ := thread_c_ready_dispatch_fields a.cb_mem
      (thread_c.ThreadStackInit c f arg a.cb_mem k1) a.cb_mem
    have hframe : ∀ i, i < 16 →
        (thread_c.ThreadDispatch a.cb_mem (thread_c.ThreadReadyAdd a.cb_mem
          (thread_c.ThreadStackInit c f arg a.cb_mem k1))).ram
            (a.stack_mem + a.stack_size - 64 + 4 * i)
          = (thread_c.frame_words c f arg).reverse.getD i 0 := by
      intro i hi
      rw [e2]
      exact q5 i hi
    refine ⟨_, rfl, ?_, ?_, ?_, ?_, ?_, ?_, ?_, hframe, hframe 8 (by omega),
      hframe 13 (by omega), hframe 14 (by omega), hframe 15 (by omega)⟩
    · rw [e1]; exact q2
    · rw [e1]; exact q3
    · rw [e1]; exact q4
    · rw [e1]; exact q1
    · rw [e1]
      show a.stack_mem ≤ ((thread_c.ThreadStackInit c f arg a.cb_mem k1).thread a.cb_mem).stk
      rw [q1]
      omega
    · rw [e1]
      show ((thread_c.ThreadStackInit c f arg a.cb_mem k1).thread a.cb_mem).stk < _
      rw [q1]
      omega
    · intro j hj
      rw [e2, q6 _ hj, g6]
      have hmod : (a.stack_mem + 4 * j) % 2 ^ 32 = a.stack_mem + 4 * j := by omega
      have h := fill_stack_mem c.FILL_STACK_VALUE a.stack_mem (a.stack_size / 4) k.ram j
        (by omega)
      rw [hmod] at h
      exact h

/-- Witness for C40 with the constants `exThreadConst` in the kernel `exThreads`: a function
address 0 is refused and nothing changes; with the entry point `0x08000201`, the argument 7
and the attributes `exThreadAttr` the thread `task 5` is created with priority 16, the saved
stack pointer `0x20001040`, the fill value at the bottom of the stack and the argument in the
slot of R0. -/
theorem thread_new_validates_before_writing_witness :
    thread_c.ThreadNew exThreadConst 0 7 (some exThreadAttr) exThreads
      = (TcbRef.null, exThreads) ∧
    ∃ k', thread_c.ThreadNew exThreadConst 0x08000201 7 (some exThreadAttr) exThreads
        = (TcbRef.task 5, k') ∧
      (k'.thread (TcbRef.task 5)).priority = 16 ∧
      (k'.thread (TcbRef.task 5)).stk = 0x20001040 ∧
      k'.ram 0x20001000 = 0xFFFFFFFF ∧ k'.ram 0x20001060 = 7 := by
  have h0 := (thread_new_validates_before_writing exThreadConst 0 7 (some exThreadAttr)
    exThreads (by decide) (by decide)).1 (Or.inl rfl)
  obtain ⟨k', h1, h2, _, _, h5, _, _, h8, _, h10, _⟩ :=
    (thread_new_validates_before_writing exThreadConst 0x08000201 7 (some exThreadAttr)
      exThreads (by decide) (by decide)).2 exThreadAttr rfl (by decide) (by decide)
      (by decide) (by decide) (by decide) (by decide) (by decide) (Or.inl rfl) (by decide)
  exact ⟨h0, k', h1, h2.trans (by decide), h5.trans (by decide),
    (h8 0 (by decide)).trans (by decide), h10⟩

/-! ### tn_mem.c: creation of a memory pool -/

theorem and_not32_low (a y : Nat) (ha : a ≤ 32) (hy : y < 2 ^ 32) :
    y &&& not32 (2 ^ a - 1) = (y / 2 ^ a) * 2 ^ a := by
  have hle : 2 ^ a ≤ 2 ^ 32 := Nat.pow_le_pow_right (by decide) ha
  have hpos : 0 < 2 ^ a := Nat.two_pow_pos a
  unfold not32
  rw [Nat.mod_eq_of_lt (by omega)]
  apply Nat.eq_of_testBit_eq
  intro i
  rw [Nat.testBit_and, Nat.testBit_xor, Nat.testBit_two_pow_sub_one,
    Nat.testBit_two_pow_sub_one, ← Nat.shiftRight_eq_div_pow, ← Nat.shiftLeft_eq,
    Nat.testBit_shiftLeft, Nat.testBit_shiftRight]
  by_cases h1 : i < a
  · have h2 : i < 32 := by omega
    simp [h1, h2]
  · by_cases h2 : i < 32
    · have e : a + (i - a) = i := by omega
      simp [h1, h2, e]
      omega
    · have hf : y.testBit i = false := by
        apply Nat.testBit_lt_two_pow
        exact lt_of_lt_of_le hy (Nat.pow_le_pow_right (by decide) (by omega))
      have e : a + (i - a) = i := by omega
      simp [h1, h2, e, hf]

theorem align_up_eq (a x : Nat) (ha : a ≤ 32) (hx : x + (2 ^ a - 1) < 2 ^ 32) :
    align_up (2 ^ a) x = ((x + (2 ^ a - 1)) / 2 ^ a) * 2 ^ a := by
  unfold align_up
  rw [Nat.mod_eq_of_lt hx]
  exact and_not32_low a _ ha hx

theorem round_up_facts (A x : Nat) (hA : 0 < A) :
    A ∣ ((x + (A - 1)) / A) * A ∧ x ≤ ((x + (A - 1)) / A) * A ∧
    ((x + (A - 1)) / A) * A < x + A := by
  have h1 := Nat.div_add_mod (x + (A - 1)) A
  have h2 := Nat.mod_lt (x + (A - 1)) hA
  have h3 : (x + (A - 1)) / A * A = A * ((x + (A - 1)) / A) := Nat.mul_comm _ _
  refine ⟨Dvd.intro_left _ rfl, ?_, ?_⟩
  · omega
  · omega

/-- The size-adjusting loop counts down from `base + (m0 + d) * bs` to the first value that
is not above `i`. -/
theorem fmem_adjust_spec (base bs i : Nat) (off : Int) (m0 : Nat) (hle : base + m0 * bs ≤ i) :
    ∀ (d fuel : Nat), d < fuel →
      (∀ m, m0 < m → m ≤ m0 + d → i < base + m * bs) →
      base + (m0 + d) * bs < 2 ^ 32 →
      fmem_adjust fuel i bs (base + (m0 + d) * bs) (((m0 + d : Nat) : Int) + off)
        = some (base + m0 * bs, (m0 : Int) + off) := by
  intro d
  induction d with
  | zero =>
    intro fuel hf _ _
    obtain ⟨fuel, rfl⟩ : ∃ k, fuel = k + 1 := ⟨fuel - 1, by omega⟩
    unfold fmem_adjust
    rw [Nat.add_zero, if_neg (by omega)]
  | succ d ih =>
    intro fuel hf hgt hov
    obtain ⟨fuel, rfl⟩ : ∃ k, fuel = k + 1 := ⟨fuel - 1, by omega⟩
    have hj := hgt (m0 + (d + 1)) (by omega) (le_refl _)
    have e1 : (m0 + (d + 1)) * bs = (m0 + d) * bs + bs := by ring
    unfold fmem_adjust
    rw [if_pos hj]
    have hbs : bs % 2 ^ 32 = bs := by
      apply Nat.mod_eq_of_lt
      rw [e1] at hov
      omega
    have hstep : (base + (m0 + (d + 1)) * bs + 2 ^ 32 - bs % 2 ^ 32) % 2 ^ 32
        = base + (m0 + d) * bs := by
      rw [hbs, e1]
      rw [e1] at hov
      omega
    have hcast : (((m0 + (d + 1) : Nat) : Int) + off - 1) = ((m0 + d : Nat) : Int) + off := by
      push_cast
      ring
    rw [hstep, hcast]
    refine ih fuel (by omega) ?_ ?_
    · intro m h1 h2
      exact hgt m h1 (by omega)
    · rw [e1] at hov
      omega

theorem fmem_link_fold (start bs : Nat) (cell : Nat → Nat) :
    ∀ count, start + (count + 1) * bs < 2 ^ 32 →
      (List.range count).foldl
        (fun (st : Nat × Nat × (Nat → Nat)) _ =>
          (st.2.1, (st.2.1 + bs) % 2 ^ 32, Function.update st.2.2 st.1 st.2.1))
        (start, (start + bs) % 2 ^ 32, cell)
      = (start + count * bs, start + (count + 1) * bs,
          fun a => if ∃ k, k < count ∧ a = start + k * bs then a + bs else cell a) := by
  intro count
  induction count with
  | zero =>
    intro hov
    have hc : (fun a => if ∃ k, k < 0 ∧ a = start + k * bs then a + bs else cell a) = cell := by
      funext a
      rw [if_neg]
      rintro ⟨k, hk, _⟩
      omega
    rw [hc]
    simp only [List.range_zero, List.foldl_nil, Nat.zero_mul, Nat.add_zero, Nat.zero_add,
      Nat.one_mul]
    rw [Nat.mod_eq_of_lt (by omega)]
  | succ count ih =>
    intro hov
    have e1 : (count + 1 + 1) * bs = (count + 1) * bs + bs := by ring
    have e2 : (count + 1) * bs = count * bs + bs := by ring
    rw [List.range_succ, List.foldl_append, ih (by rw [e1] at hov; omega)]
    simp only [List.foldl_cons, List.foldl_nil]
    have hm : (start + (count + 1) * bs + bs) % 2 ^ 32 = start + (count + 1 + 1) * bs := by
      rw [e1]
      rw [e1] at hov
      omega
    rw [hm]
    congr 2
    funext a
    by_cases ha : a = start + count * bs
    · rw [ha, Function.update_same, if_pos ⟨count, by omega, rfl⟩]
      omega
    · rw [Function.update_noteq ha]
      by_cases hk : ∃ k, k < count ∧ a = start + k * bs
      · obtain ⟨k, hk1, hk2⟩ := hk
        rw [if_pos ⟨k, hk1, hk2⟩, if_pos ⟨k, by omega, hk2⟩]
      · rw [if_neg hk, if_neg]
        rintro ⟨k, hk1, hk2⟩
        by_cases hkc : k = count
        · subst hkc
          exact ha hk2
        · exact hk ⟨k, by omega, hk2⟩

theorem mul_lt_of_lt (k count bs : Nat) (h : k < count) :
    k * bs + bs ≤ count * bs := by
  have h1 : (k + 1) * bs ≤ count * bs := Nat.mul_le_mul_right bs h
  have h2 : (k + 1) * bs = k * bs + bs := by ring
  omega

theorem fmem_link_spec (start bs count : Nat) (cell : Nat → Nat)
    (hov : start + (count + 1) * bs < 2 ^ 32) (hbs : 0 < bs) :
    (∀ k, k < count → fmem_link start bs count cell (start + k * bs) = start + (k + 1) * bs) ∧
    fmem_link start bs count cell (start + count * bs) = 0 := by
  unfold fmem_link
  rw [fmem_link_fold start bs cell count hov]
  constructor
  · intro k hk
    have h1 := mul_lt_of_lt k count bs hk
    rw [Function.update_noteq (by omega)]
    show (if ∃ k2, k2 < count ∧ start + k * bs = start + k2 * bs then start + k * bs + bs
      else cell (start + k * bs)) = _
    rw [if_pos ⟨k, hk, rfl⟩]
    ring
  · rw [Function.update_same]

theorem free_list_walk_spec (cell : Nat → Nat) (start bs nb : Nat) (hs : 0 < start)
    (hlink : ∀ k, k + 1 < nb → cell (start + k * bs) = start + (k + 1) * bs)
    (hlast : ∀ k, k + 1 = nb → cell (start + k * bs) = 0) :
    ∀ m k, k + m + 1 = nb →
      free_list_walk cell (m + 2) (start + k * bs)
        = (List.range (m + 1)).map (fun t => start + (k + t) * bs) := by
  intro m
  induction m with
  | zero =>
    intro k hk
    unfold free_list_walk
    rw [if_neg (by omega), hlast k (by omega)]
    unfold free_list_walk
    simp [List.range_succ]
  | succ m ih =>
    intro k hk
    unfold free_list_walk
    rw [if_neg (by omega), hlink k (by omega), ih (k + 1) (by omega)]
    rw [List.range_succ_eq_map (m + 1), List.map_cons, List.map_map]
    simp only [Nat.add_zero]
    congr 1
    apply List.map_congr_left
    intro t _
    simp only [Function.comp]
    congr 2
    omega

theorem round_up_ge_align (A x : Nat) (hA : 0 < A) (hx : 0 < x) :
    A ≤ ((x + (A - 1)) / A) * A := by
  obtain ⟨h1, h2, _⟩ := round_up_facts A x hA
  exact Nat.le_of_dvd (by omega) h1

theorem round_up_small (A x : Nat) (hx : 0 < x) (hxA : x ≤ A) :
    ((x + (A - 1)) / A) * A = A := by
  have hA : 0 < A := by omega
  have h : (x + (A - 1)) / A = 1 := by
    apply Nat.div_eq_of_lt_le
    · omega
    · omega
  rw [h, Nat.one_mul]

/-- `tn_fmem_create` on valid parameters, with the arithmetic of the addresses evaluated:
what remains is the size-adjusting loop and the test that follows it. -/
theorem tn_fmem_create_eq (a fuel : Nat) (f : TN_FMP) (sa b n : Nat) (s : KState)
    (ha : a < 32) (hs : sa ≠ 0) (hb : 4 ≤ b) (hn : 2 ≤ n)
    (hid : f.id_fmp ≠ TN_ID_FSMEMORYPOOL)
    (hov : (sa + (2 ^ a - 1)) / 2 ^ a * 2 ^ a + n * ((b + (2 ^ a - 1)) / 2 ^ a * 2 ^ a)
      < 2 ^ 32) :
    align_up (2 ^ a) sa = (sa + (2 ^ a - 1)) / 2 ^ a * 2 ^ a ∧
    align_up (2 ^ a) b = (b + (2 ^ a - 1)) / 2 ^ a * 2 ^ a ∧
    tn_fmem_create (2 ^ a) fuel (some f) sa b (n : Int) s
      = match fmem_adjust fuel (sa + n * b) ((b + (2 ^ a - 1)) / 2 ^ a * 2 ^ a)
          ((sa + (2 ^ a - 1)) / 2 ^ a * 2 ^ a + n * ((b + (2 ^ a - 1)) / 2 ^ a * 2 ^ a))
          (n : Int) with
        | none => none
        | some r =>
          if r.2 < 2 then
            some (osError_t.TERR_WRONG_PARAM,
              some { f with start_addr := (sa + (2 ^ a - 1)) / 2 ^ a * 2 ^ a,
                            block_size := (b + (2 ^ a - 1)) / 2 ^ a * 2 ^ a, fblkcnt := 0,
                            num_blocks := 0, free_list := 0 },
              { s with queues := queue_reset f.wait_queue s.queues })
          else
            some (osError_t.TERR_NO_ERR,
              some { f with start_addr := (sa + (2 ^ a - 1)) / 2 ^ a * 2 ^ a,
                            block_size := (b + (2 ^ a - 1)) / 2 ^ a * 2 ^ a,
                            num_blocks := r.2,
                            cell := fmem_link ((sa + (2 ^ a - 1)) / 2 ^ a * 2 ^ a)
                              ((b + (2 ^ a - 1)) / 2 ^ a * 2 ^ a)
                              (Int.toNat ((r.2 - 1) % 2 ^ 32)) f.cell,
                            free_list := (sa + (2 ^ a - 1)) / 2 ^ a * 2 ^ a, fblkcnt := r.2,
                            id_fmp := TN_ID_FSMEMORYPOOL },
              { s with queues := queue_reset f.wait_queue s.queues }) := by
  have hA : 0 < 2 ^ a := Nat.two_pow_pos a
  obtain ⟨_, s2, s3⟩ := round_up_facts (2 ^ a) sa hA
  obtain ⟨_, b2, b3⟩ := round_up_facts (2 ^ a) b hA
  have hBA := round_up_ge_align (2 ^ a) b hA (by omega)
  generalize hS : (sa + (2 ^ a - 1)) / 2 ^ a * 2 ^ a = S at *
  generalize hB : (b + (2 ^ a - 1)) / 2 ^ a * 2 ^ a = B at *
  have hnB : 2 * B ≤ n * B := Nat.mul_le_mul_right B hn
  have hnb : n * b ≤ n * B := Nat.mul_le_mul_left n b2
  have hnn : n ≤ n * B := Nat.le_mul_of_pos_right n (by omega)
  have e1 : align_up (2 ^ a) sa = S := by
    rw [align_up_eq a sa (by omega) (by omega), hS]
  have e2 : align_up (2 ^ a) b = B := by
    rw [align_up_eq a b (by omega) (by omega), hB]
  have e3 : Int.toNat ((n : Int) % 2 ^ 32) = n := by
    rw [Int.emod_eq_of_lt (by omega) (by omega)]
    exact Int.toNat_natCast n
  have c1 : ¬ (sa = 0 ∨ (n : Int) < 2 ∨ b < 4) := by
    rintro (h | h | h)
    · exact hs h
    · omega
    · omega
  refine ⟨e1, e2, ?_⟩
  unfold tn_fmem_create
  simp only [if_neg hid, if_neg c1, e1, e2, e3]
  have e4 : (sa + b * n % 2 ^ 32) % 2 ^ 32 = sa + n * b := by
    rw [Nat.mul_comm b n, Nat.mod_eq_of_lt (by omega), Nat.mod_eq_of_lt (by omega)]
  have e5 : (S + B * n % 2 ^ 32) % 2 ^ 32 = S + n * B := by
    rw [Nat.mul_comm B n, Nat.mod_eq_of_lt (by omega), Nat.mod_eq_of_lt (by omega)]
  rw [e4, e5]

theorem fmem_adjust_result (S B I n fuel : Nat) (hB : 0 < B) (hov : S + n * B < 2 ^ 32)
    (hfuel : n + 1 < fuel) :
    (S ≤ I → fmem_adjust fuel I B (S + n * B) (n : Int)
      = some (S + min n ((I - S) / B) * B, ((min n ((I - S) / B) : Nat) : Int))) ∧
    (I < S → B ≤ S → S - B ≤ I → fmem_adjust fuel I B (S + n * B) (n : Int)
      = some (S - B, -1)) := by
  constructor
  · intro hle
    have hm0 : min n ((I - S) / B) ≤ n := Nat.min_le_left _ _
    have hm1 : min n ((I - S) / B) * B ≤ I - S :=
      le_trans (Nat.mul_le_mul_right B (Nat.min_le_right _ _)) (Nat.div_mul_le_self _ _)
    have hmax : ∀ m, min n ((I - S) / B) < m → m ≤ n → I < S + m * B := by
      intro m h1 h2
      have h3 : (I - S) / B < m := by
        rcases Nat.le_total n ((I - S) / B) with h4 | h4
        · rw [Nat.min_eq_left h4] at h1
          omega
        · rw [Nat.min_eq_right h4] at h1
          exact h1
      have h5 := (Nat.div_lt_iff_lt_mul hB).mp h3
      omega
    generalize min n ((I - S) / B) = m0 at *
    have e : m0 + (n - m0) = n := by omega
    have h := fmem_adjust_spec S B I 0 m0 (by omega) (n - m0) fuel (by omega)
      (fun m h1 h2 => hmax m h1 (by omega)) (by rw [e]; exact hov)
    rw [e] at h
    simpa using h
  · intro hlt hBS hlow
    have e1 : S - B + (0 + (n + 1)) * B = S + n * B := by
      have : (0 + (n + 1)) * B = n * B + B := by ring
      omega
    have h := fmem_adjust_spec (S - B) B I (-1) 0 (by omega) (n + 1) fuel hfuel (by
        intro m h1 h2
        have h3 : B ≤ m * B := Nat.le_mul_of_pos_left B h1
        omega) (by rw [e1]; exact hov)
    rw [e1] at h
    have e2 : (((0 + (n + 1) : Nat) : Int) + -1) = (n : Int) := by
      push_cast
      ring
    rw [e2] at h
    simpa using h

/-- C38. The layout of a pool fits the memory of the caller.  Let the alignment be the power
of two `2 ^ a`, the start address `sa` not `NULL`, the block size `b ≥ sizeof(int)` and
`n ≥ 2` blocks requested, without address overflow (`start' + n * block_size' < 2 ^ 32` for
the rounded values), and let the control block be no pool yet.  The values `start'` and
`block_size'` that `tn_fmem_create` computes are `sa` and `b` rounded up to a multiple of
the alignment.  The size-adjusting loop ends (within `n + 1` rounds) and the call returns.
When some `m` with `2 ≤ m ≤ n` satisfies `start' + m * block_size' ≤ sa + n * b`, the result
is `TERR_NO_ERR`, `num_blocks` is the largest such `m`, `fblkcnt` equals `num_blocks`, and
the free list starts at `start'` and consists of exactly the blocks
`start' + k * block_size'` for `k = 0 .. num_blocks - 1` in ascending order, ending with a
`NULL` link.  Otherwise the result is `TERR_WRONG_PARAM` with `fblkcnt = num_blocks = 0` and
`free_list = NULL`. -/
theorem fmem_create_layout (a fuel : Nat) (f : TN_FMP) (sa b n : Nat) (s : KState)
    (ha : a < 32) (hs : sa ≠ 0) (hb : 4 ≤ b) (hn : 2 ≤ n)
    (hid : f.id_fmp ≠ TN_ID_FSMEMORYPOOL)
    (hov : round_up (2 ^ a) sa + n * round_up (2 ^ a) b < 2 ^ 32) (hfuel : n + 1 < fuel) :
    align_up (2 ^ a) sa = round_up (2 ^ a) sa ∧
    align_up (2 ^ a) b = round_up (2 ^ a) b ∧
    (2 ^ a ∣ round_up (2 ^ a) sa ∧ sa ≤ round_up (2 ^ a) sa ∧
      round_up (2 ^ a) sa < sa + 2 ^ a) ∧
    (2 ^ a ∣ round_up (2 ^ a) b ∧ b ≤ round_up (2 ^ a) b ∧ round_up (2 ^ a) b < b + 2 ^ a) ∧
    ∃ r, tn_fmem_create (2 ^ a) fuel (some f) sa b (n : Int) s = some r ∧
      ((∃ m, 2 ≤ m ∧ m ≤ n ∧ round_up (2 ^ a) sa + m * round_up (2 ^ a) b ≤ sa + n * b) →
        ∃ (f2 : TN_FMP) (nb : Nat), r = (osError_t.TERR_NO_ERR, some f2,
            { s with queues := queue_reset f.wait_queue s.queues }) ∧
          f2.start_addr = round_up (2 ^ a) sa ∧ f2.block_size = round_up (2 ^ a) b ∧
          f2.num_blocks = (nb : Int) ∧ f2.fblkcnt = (nb : Int) ∧
          f2.id_fmp = TN_ID_FSMEMORYPOOL ∧
          2 ≤ nb ∧ nb ≤ n ∧
          round_up (2 ^ a) sa + nb * round_up (2 ^ a) b ≤ sa + n * b ∧
          (∀ m, m ≤ n → round_up (2 ^ a) sa + m * round_up (2 ^ a) b ≤ sa + n * b →
            m ≤ nb) ∧
          f2.free_list = round_up (2 ^ a) sa ∧
          free_list_walk f2.cell (nb + 1) f2.free_list
            = (List.range nb).map
                (fun k => round_up (2 ^ a) sa + k * round_up (2 ^ a) b)) ∧
      ((¬ ∃ m, 2 ≤ m ∧ m ≤ n ∧
          round_up (2 ^ a) sa + m * round_up (2 ^ a) b ≤ sa + n * b) →
        ∃ f2, r = (osError_t.TERR_WRONG_PARAM, some f2,
            { s with queues := queue_reset f.wait_queue s.queues }) ∧
          f2.fblkcnt = 0 ∧ f2.num_blocks = 0 ∧ f2.free_list = 0) := by
  unfold round_up at *
  have hA : 0 < 2 ^ a := Nat.two_pow_pos a
  obtain ⟨e1, e2, heq⟩ := tn_fmem_create_eq a fuel f sa b n s ha hs hb hn hid hov
  have fs := round_up_facts (2 ^ a) sa hA
  have fb := round_up_facts (2 ^ a) b hA
  have hBA := round_up_ge_align (2 ^ a) b hA (by omega)
  have hSA := round_up_ge_align (2 ^ a) sa hA (by omega)
  have hsmall : b ≤ 2 ^ a → (b + (2 ^ a - 1)) / 2 ^ a * 2 ^ a = 2 ^ a :=
    round_up_small (2 ^ a) b (by omega)
  refine ⟨e1, e2, fs, fb, ?_⟩
  rw [heq]
  generalize (sa + (2 ^ a - 1)) / 2 ^ a * 2 ^ a = S at *
  generalize (b + (2 ^ a - 1)) / 2 ^ a * 2 ^ a = B at *
  have hB : 0 < B := by omega
  have hnb2 : 2 * b ≤ n * b := Nat.mul_le_mul_right b hn
  have hnbB : n * b ≤ n * B := Nat.mul_le_mul_left n fb.2.1
  obtain ⟨adjX, adjY⟩ := fmem_adjust_result S B (sa + n * b) n fuel hB hov hfuel
  by_cases hSI : S ≤ sa + n * b
  · rw [adjX hSI]
    have hm0 : min n ((sa + n * b - S) / B) ≤ n := Nat.min_le_left _ _
    have hm1 : min n ((sa + n * b - S) / B) * B ≤ sa + n * b - S :=
      le_trans (Nat.mul_le_mul_right B (Nat.min_le_right _ _)) (Nat.div_mul_le_self _ _)
    have hmax : ∀ m, m ≤ n → S + m * B ≤ sa + n * b → m ≤ min n ((sa + n * b - S) / B) := by
      intro m h1 h2
      exact Nat.le_min.mpr ⟨h1, (Nat.le_div_iff_mul_le hB).mpr (by omega)⟩
    generalize min n ((sa + n * b - S) / B) = m0 at *
    by_cases h2 : 2 ≤ m0
    · have hc : ¬ ((m0 : Int) < 2) := by omega
      have hcount : Int.toNat (((m0 : Int) - 1) % 2 ^ 32) = m0 - 1 := by
        have e : ((m0 : Int) - 1) = ((m0 - 1 : Nat) : Int) := by omega
        have hlt : m0 - 1 < 2 ^ 32 := by
          have : m0 ≤ m0 * B := Nat.le_mul_of_pos_right m0 hB
          omega
        rw [e, Int.emod_eq_of_lt (by omega) (by omega)]
        exact Int.toNat_natCast _
      have hmB : m0 * B ≤ n * B := Nat.mul_le_mul_right B hm0
      have hlinkov : S + (m0 - 1 + 1) * B < 2 ^ 32 := by
        have : m0 - 1 + 1 = m0 := by omega
        rw [this]
        omega
      obtain ⟨l1, l2⟩ := fmem_link_spec S B (m0 - 1) f.cell hlinkov hB
      dsimp only
      rw [if_neg hc]
      refine ⟨_, rfl, ?_, ?_⟩
      · intro _
        refine ⟨_, m0, rfl, rfl, rfl, rfl, rfl, rfl, h2, hm0, by omega, hmax, rfl, ?_⟩
        dsimp only
        rw [hcount]
        have hw := free_list_walk_spec (fmem_link S B (m0 - 1) f.cell) S B m0 (by omega)
          (fun k hk => l1 k (by omega))
          (fun k hk => by
            have : k = m0 - 1 := by omega
            rw [this]
            exact l2)
          (m0 - 1) 0 (by omega)
        have e3 : m0 - 1 + 2 = m0 + 1 := by omega
        have e4 : m0 - 1 + 1 = m0 := by omega
        rw [e3, e4, Nat.zero_mul, Nat.add_zero] at hw
        refine hw.trans ?_
        apply List.map_congr_left
        intro t _
        rw [Nat.zero_add]
      · intro hno
        exact absurd ⟨m0, h2, hm0, by omega⟩ hno
    · have hc : ((m0 : Int) < 2) := by omega
      dsimp only
      rw [if_pos hc]
      refine ⟨_, rfl, ?_, ?_⟩
      · rintro ⟨m, g1, g2, g3⟩
        have := hmax m g2 g3
        omega
      · intro _
        exact ⟨_, rfl, rfl, rfl, rfl⟩
  · have hlt : sa + n * b < S := by omega
    have hbA : b ≤ 2 ^ a := by omega
    have hBeq := hsmall hbA
    rw [adjY hlt (by omega) (by omega)]
    dsimp only
    rw [if_pos (by decide)]
    refine ⟨_, rfl, ?_, ?_⟩
    · rintro ⟨m, _, _, g3⟩
      omega
    · intro _
      exact ⟨_, rfl, rfl, rfl, rfl⟩

/-- Witness for C38 with alignment 4: four blocks of 8 bytes are requested at the unaligned
address `0x102`; the pool starts at `0x104` and holds the three blocks `0x104`, `0x10C` and
`0x114`. -/
theorem fmem_create_layout_witness :
    ∃ f2 s2, tn_fmem_create (2 ^ 2) 6 (some exFmpNew) 0x102 8 4 exReady
        = some (osError_t.TERR_NO_ERR, some f2, s2) ∧
      f2.start_addr = 0x104 ∧ f2.block_size = 8 ∧ f2.num_blocks = 3 ∧ f2.fblkcnt = 3 ∧
      free_list_walk f2.cell 4 f2.free_list = [0x104, 0x10C, 0x114] := by
  obtain ⟨_, _, _, _, r, hr, hyes, _⟩ := fmem_create_layout 2 6 exFmpNew 0x102 8 4 exReady
    (by decide) (by decide) (by decide) (by decide) (by decide) (by decide) (by decide)
  obtain ⟨f2, nb, h1, h2, h3, h4, h5, _, _, _, h9, h10, _, h12⟩ :=
    hyes ⟨3, by decide, by decide, by decide⟩
  have e1 : round_up (2 ^ 2) 0x102 = 0x104 := by decide
  have e2 : round_up (2 ^ 2) 8 = 8 := by decide
  rw [e1, e2] at h9 h10 h12
  have hnb : nb = 3 := by
    have := h10 3 (by decide) (by decide)
    omega
  subst hnb
  rw [h1] at hr
  refine ⟨f2, _, hr, h2.trans e1, h3.trans e2, h4, h5, ?_⟩
  rw [h12]
  decide

/-! ### A timer with delay 0 -/

theorem foldl_timer_task_round_tmeb (run_callback : CBACK → CbArg → KState → KState)
    (hcb : ∀ c a x, (run_callback c a x).timer_queue = x.timer_queue ∧
      (run_callback c a x).tmeb = x.tmeb) :
    ∀ (l : List TmebRef) (s : KState),
      (l.foldl (fun x tm => timer_task_round run_callback tm x) s).tmeb = s.tmeb := by
  intro l
  induction l with
  | nil => intro s; rfl
  | cons a rest ih =>
    intro s
    rw [List.foldl_cons, ih, (timer_task_round_frame run_callback hcb a s).2]

/-- C26. A timer scheduled for now + 0 does not fire synchronously.  Let the timer queue be
sorted and duplicate-free with all expiries in one window of `2 ^ 31` ticks that also holds
the tick count `jiffies`, and let `event` be not queued.  `timer_insert event 0 callback arg`
stores the callback, the argument and the expiry `jiffies` in the event record and links the
event into the timer queue; nothing else of the state changes, so the callback did not run.
Let a later pass of the timer task read the tick count `cur_time`, not before `jiffies` in
the window, with callbacks that leave the timer queue and the event records alone.  The
expiry of the event is not after `cur_time`, the pass ends, the event is among the events it
detaches and whose callbacks it calls, and the event is no longer queued afterwards.  The
detached events are pairwise different, and with `pre` the events detached before the event
and `post` those after it, the final state is the result of the rounds for `pre`, then the
round for the event, then the rounds for `post`; the round for the event works on a state
from whose queue the event has been removed, and unless the callback is `NULL` it is the
call of `callback` with `arg` on that state. -/
theorem zero_delay_timer_fires_on_next_pass
    (run_callback : CBACK → CbArg → KState → KState) (t0 cur_time fuel : Nat) (s : KState)
    (event : TmebRef) (callback : CBACK) (arg : CbArg)
    (hcb : ∀ c a x, (run_callback c a x).timer_queue = x.timer_queue ∧
      (run_callback c a x).tmeb = x.tmeb)
    (hsorted : TimerSorted s.tmeb s.timer_queue) (hnd : s.timer_queue.Nodup)
    (hwin : ∀ e, e ∈ s.timer_queue → InWindow t0 (s.tmeb e).time)
    (hnew : event ∉ s.timer_queue) (hj : InWindow t0 s.jiffies) (hc : InWindow t0 cur_time)
    (hle : tick_offset t0 s.jiffies ≤ tick_offset t0 cur_time)
    (hfuel : s.timer_queue.length + 1 < fuel) :
    (timer_insert event 0 callback arg s).tmeb event
      = { time := s.jiffies % 2 ^ 32, callback := callback, arg := arg } ∧
    (∀ e, e ≠ event → (timer_insert event 0 callback arg s).tmeb e = s.tmeb e) ∧
    (timer_insert event 0 callback arg s).timer_queue.Perm (event :: s.timer_queue) ∧
    { timer_insert event 0 callback arg s with tmeb := s.tmeb, timer_queue := s.timer_queue }
      = s ∧
    tn_time_after ((timer_insert event 0 callback arg s).tmeb event).time cur_time = false ∧
    ∃ fired s', timer_task_pass run_callback cur_time fuel (timer_insert event 0 callback arg s)
        = some (fired, s') ∧
      event ∈ fired ∧ event ∉ s'.timer_queue ∧
      (∀ e, e ∈ s'.timer_queue → e ∈ s.timer_queue) ∧
      fired.Nodup ∧
      ∃ pre post, fired = pre ++ event :: post ∧
        s' = post.foldl (fun x tm => timer_task_round run_callback tm x)
          (timer_task_round run_callback event
            (pre.foldl (fun x tm => timer_task_round run_callback tm x)
              (timer_insert event 0 callback arg s))) ∧
        event ∉ (timer_delete event
          (pre.foldl (fun x tm => timer_task_round run_callback tm x)
            (timer_insert event 0 callback arg s))).timer_queue ∧
        (callback ≠ CBACK.null →
          timer_task_round run_callback event
              (pre.foldl (fun x tm => timer_task_round run_callback tm x)
                (timer_insert event 0 callback arg s))
            = run_callback callback arg
                (timer_delete event
                  (pre.foldl (fun x tm => timer_task_round run_callback tm x)
                    (timer_insert event 0 callback arg s)))) := by
  have hother : ∀ e, e ∈ s.timer_queue →
      (timer_insert event 0 callback arg s).tmeb e = s.tmeb e := by
    intro e hmem
    have hne : e ≠ event := by
      intro hc0
      rw [hc0] at hmem
      exact hnew hmem
    exact Function.update_noteq hne _ _
  have hev : (timer_insert event 0 callback arg s).tmeb event
      = { time := s.jiffies % 2 ^ 32, callback := callback, arg := arg } := by
    show Function.update s.tmeb event _ event = _
    rw [Function.update_same, Nat.add_zero]
  have he' : InWindow t0 ((timer_insert event 0 callback arg s).tmeb event).time := by
    rw [hev]
    unfold InWindow tick_offset at hj ⊢
    simpa using hj
  have hqmem : ∀ e, e ∈ (timer_insert event 0 callback arg s).timer_queue ↔
      e = event ∨ e ∈ s.timer_queue := fun e => mem_do_timer_insert_walk _ event e _
  have hwin' : ∀ e, e ∈ (timer_insert event 0 callback arg s).timer_queue →
      InWindow t0 ((timer_insert event 0 callback arg s).tmeb e).time := by
    intro e hmem
    rcases (hqmem e).mp hmem with h | h
    · rw [h]; exact he'
    · rw [hother e h]; exact hwin e h
  have hs' : TimerSorted (timer_insert event 0 callback arg s).tmeb
      (timer_insert event 0 callback arg s).timer_queue := by
    refine sorted_do_timer_insert_walk _ t0 event he' _
      (TimerSorted_congr s.tmeb _ _ hother hsorted) ?_
    intro e hmem
    rw [hother e hmem]
    exact hwin e hmem
  have hperm : (timer_insert event 0 callback arg s).timer_queue.Perm (event :: s.timer_queue) :=
    perm_do_timer_insert_walk _ event _
  have hnd' : (timer_insert event 0 callback arg s).timer_queue.Nodup :=
    hperm.nodup_iff.mpr (List.nodup_cons.mpr ⟨hnew, hnd⟩)
  have hoff : tick_offset t0 ((timer_insert event 0 callback arg s).tmeb event).time
      = tick_offset t0 s.jiffies := by
    rw [hev]
    unfold tick_offset
    simp
  have hdue : tn_time_after ((timer_insert event 0 callback arg s).tmeb event).time cur_time
      = false := by
    unfold tn_time_after
    rw [tn_time_before_false_iff t0 _ _ hc he', hoff]
    exact hle
  obtain ⟨s', h1, h2, _, h4, h5⟩ := timer_task_pass_rounds run_callback cur_time hcb fuel
    (timer_insert event 0 callback arg s) (by rw [hperm.length_eq]; simpa using hfuel)
  have hin : event ∈ (timer_insert event 0 callback arg s).timer_queue.takeWhile
      (fun e => !tn_time_after ((timer_insert event 0 callback arg s).tmeb e).time cur_time) := by
    refine mem_takeWhile_of_sorted _ _ event (by simp [hdue]) _ ?_ hs' ((hqmem event).mpr (Or.inl rfl))
    intro a ha hR
    have h3 := (tn_time_before_false_iff t0 _ _ he' (hwin' a ha)).mp hR
    have h4 : tn_time_before cur_time ((timer_insert event 0 callback arg s).tmeb a).time
        = false := by
      rw [tn_time_before_false_iff t0 _ _ hc (hwin' a ha)]
      rw [hoff] at h3
      omega
    simp [tn_time_after, h4]
  have hsplit0 := List.takeWhile_append_dropWhile
    (fun e => !tn_time_after ((timer_insert event 0 callback arg s).tmeb e).time cur_time)
    (timer_insert event 0 callback arg s).timer_queue
  have hndsplit := hnd'
  rw [← hsplit0] at hndsplit
  have hfnd := (List.nodup_append.mp hndsplit).1
  obtain ⟨pre, post, hpp⟩ := List.append_of_mem hin
  refine ⟨hev, fun e hne => Function.update_noteq hne _ _, hperm, rfl, hdue, _, s', h1, hin,
    ?_, ?_, hfnd, pre, post, hpp, ?_, ?_, ?_⟩
  · intro hmem
    rw [h2] at hmem
    have hsplit := List.takeWhile_append_dropWhile
      (fun e => !tn_time_after ((timer_insert event 0 callback arg s).tmeb e).time cur_time)
      (timer_insert event 0 callback arg s).timer_queue
    rw [← hsplit] at hnd'
    exact (List.nodup_append.mp hnd').2.2 hin hmem
  · intro e hmem
    rw [h2] at hmem
    have hq := (List.dropWhile_sublist _).subset hmem
    rcases (hqmem e).mp hq with h | h
    · exfalso
      rw [h] at hmem
      have hsplit := List.takeWhile_append_dropWhile
        (fun e => !tn_time_after ((timer_insert event 0 callback arg s).tmeb e).time cur_time)
        (timer_insert event 0 callback arg s).timer_queue
      rw [← hsplit] at hnd'
      exact (List.nodup_append.mp hnd').2.2 hin hmem
    · exact h
  · rw [h4, hpp, List.foldl_append, List.foldl_cons]
  · rw [h5 pre event post hpp]
    intro hmem
    rcases List.mem_append.mp hmem with h | h
    · rw [hpp] at hfnd
      have h6 := (List.nodup_append.mp hfnd).2.1
      exact (List.nodup_cons.mp h6).1 h
    · exact (List.nodup_append.mp hndsplit).2.2 hin h
  · intro hcbn
    have htm : (pre.foldl (fun x tm => timer_task_round run_callback tm x)
        (timer_insert event 0 callback arg s)).tmeb
        = (timer_insert event 0 callback arg s).tmeb :=
      foldl_timer_task_round_tmeb run_callback hcb pre _
    have hrec : ((timer_delete event (pre.foldl (fun x tm => timer_task_round run_callback tm x)
        (timer_insert event 0 callback arg s))).tmeb event)
        = { time := s.jiffies % 2 ^ 32, callback := callback, arg := arg } := by
      show (pre.foldl (fun x tm => timer_task_round run_callback tm x)
        (timer_insert event 0 callback arg s)).tmeb event = _
      rw [htm, hev]
    generalize pre.foldl (fun x tm => timer_task_round run_callback tm x)
      (timer_insert event 0 callback arg s) = X at hrec ⊢
    unfold timer_task_round
    simp only [hrec, ne_eq, hcbn, not_false_eq_true, if_true]

/-- Witness for C26 on `exTimers` (tick count `0xFFFFFFF0`): the unqueued wait timer of task 4
is inserted with delay 0; the next pass reads the tick count `0xFFFFFFF1`.  The callbacks
count their calls in the memory cell 0: the insertion leaves the count at 0 and the pass
raises it to 1. -/
theorem zero_delay_timer_fires_on_next_pass_witness :
    (timer_insert (TmebRef.wait_timer (TcbRef.task 4)) 0 (CBACK.user 1)
        (CbArg.object 9) exTimers).tmeb (TmebRef.wait_timer (TcbRef.task 4))
      = { time := exTimers.jiffies % 2 ^ 32, callback := CBACK.user 1, arg := CbArg.object 9 } ∧
    (timer_insert (TmebRef.wait_timer (TcbRef.task 4)) 0 (CBACK.user 1)
        (CbArg.object 9) exTimers).ram 0 = 0 ∧
    (timer_task_pass (fun _ _ x => { x with ram := Function.update x.ram 0 (x.ram 0 + 1) })
        0xFFFFFFF1 5
        (timer_insert (TmebRef.wait_timer (TcbRef.task 4)) 0 (CBACK.user 1)
          (CbArg.object 9) exTimers)).map (fun r => (r.1, r.2.ram 0))
      = some ([TmebRef.wait_timer (TcbRef.task 4)], 1) ∧
    ∃ fired s',
      timer_task_pass (fun _ _ x => { x with ram := Function.update x.ram 0 (x.ram 0 + 1) })
        0xFFFFFFF1 5
        (timer_insert (TmebRef.wait_timer (TcbRef.task 4)) 0 (CBACK.user 1)
          (CbArg.object 9) exTimers) = some (fired, s') ∧
      TmebRef.wait_timer (TcbRef.task 4) ∈ fired ∧
      TmebRef.wait_timer (TcbRef.task 4) ∉ s'.timer_queue ∧
      (∀ e, e ∈ s'.timer_queue → e ∈ exTimers.timer_queue) ∧ fired.Nodup := by
  have h := zero_delay_timer_fires_on_next_pass
    (fun _ _ x => { x with ram := Function.update x.ram 0 (x.ram 0 + 1) })
    0xFFFFFFF0 0xFFFFFFF1 5
    exTimers (TmebRef.wait_timer (TcbRef.task 4)) (CBACK.user 1) (CbArg.object 9)
    (fun _ _ _ => ⟨rfl, rfl⟩) exTimers_sorted (by decide) exTimers_window (by decide)
    (by unfold InWindow tick_offset; decide) (by unfold InWindow tick_offset; decide)
    (by unfold tick_offset; decide) (by decide)
  obtain ⟨fired, s', a1, a2, a3, a4, a5, _⟩ := h.2.2.2.2.2
  exact ⟨h.1, by decide, by decide, fired, s', a1, a2, a3, a4, a5⟩

end UKernel
